import Mathlib

/-!
# goExpertOtel: CEP validation, temperature conversion and the temperature handler

A shallow embedding of the Go sources of `lcidral/goExpertOtel` and the
properties of its specification.

Go strings are modelled as Lean `String`s (sequences of Unicode code points).
The Go functions used here (`regexp`, `strings.TrimSpace`) decode their input
rune by rune; a byte that is not valid UTF-8 is seen by them as U+FFFD, which is
neither an ASCII digit nor white space, so such a byte behaves like the
character U+FFFD of the model.
-/

set_option autoImplicit false

/-! ## Go runtime: error values -/

/-- The Go `error` values built by the sources: `fmt.Errorf` results (a message),
`*client.CEPNotFoundError` and `*client.LocationNotFoundError`. -/
inductive GoError where
  | errorf (msg : String)
  | cepNotFound (cep : String)
  | locationNotFound (location : String) (message : String)
deriving DecidableEq, Repr

/-- The method `Error()` of a Go error: the message of a `fmt.Errorf` result, and
the `Error` methods of `CEPNotFoundError` and `LocationNotFoundError`
(`opencep_client.go`, `weather_client.go`). -/
def GoError.Error : GoError → String
  | .errorf msg => msg
  | .cepNotFound cep => "CEP " ++ cep ++ " não encontrado"
  | .locationNotFound location message =>
    if message ≠ "" then
      "localização \'" ++ location ++ "\' não encontrada: " ++ message
    else
      "localização \'" ++ location ++ "\' não encontrada"

/-! ## Go runtime: `float64`

IEEE 754 binary64 with the default rounding (to nearest, ties to even), computed
exactly on integers. Every arithmetic result is the correctly rounded value of the
exact result. -/

/-- A `float64` value: NaN, an infinity, or the finite value `(-1)^neg * m * 2^e`
(zero is `m = 0` and keeps its sign). The operations return finite values in
canonical form: `m < 2^53`, `-1074 ≤ e ≤ 971`, and `2^52 ≤ m` unless `e = -1074`. -/
inductive Float64 where
  | nan
  | inf (neg : Bool)
  | fin (neg : Bool) (m : Nat) (e : Int)
deriving DecidableEq, Repr

namespace Float64

/-- The number of binary digits of `n`, by halving at most `fuel` times. -/
def bitLengthFuel : Nat → Nat → Nat
  | 0, _ => 0
  | fuel + 1, n => if n = 0 then 0 else bitLengthFuel fuel (n / 2) + 1

/-- The number of binary digits of `n` (`0` for `0`): `n` halvings are enough. -/
def bitLength (n : Nat) : Nat := bitLengthFuel n n

/-- The fraction `(n / d) / 2^e` as a pair numerator, denominator. -/
def scaled (n d : Nat) (e : Int) : Nat × Nat :=
  match e with
  | Int.ofNat k => (n, d * 2 ^ k)
  | Int.negSucc k => (n * 2 ^ (k + 1), d)

/-- The exponent of the `float64` nearest to the positive rational `n / d`, before
rounding: the `e` for which the mantissa `⌊(n/d) / 2^e⌋` has exactly 53 bits, or
`-1074` (subnormal) when that exponent would be smaller. From the bit lengths,
`(n/d) / 2^e0` lies between `2^51` and `2^53`, so `e0` or `e0 - 1` is the one. -/
def exponentOf (n d : Nat) : Int :=
  let e0 : Int := (bitLength n : Int) - (bitLength d : Int) - 52
  let s0 := scaled n d e0
  let e1 : Int := if s0.1 / s0.2 < 2 ^ 52 then e0 - 1 else e0
  max e1 (-1074)

/-- The rational `(-1)^neg * n / d` rounded to a multiple of `2^e`, ties to the even
mantissa; a mantissa that reaches `2^53` moves to the next exponent, and a value
beyond the largest finite `float64` becomes an infinity. -/
def roundAt (neg : Bool) (n d : Nat) (e : Int) : Float64 :=
  let s := scaled n d e
  let q := s.1 / s.2
  let r := s.1 % s.2
  let q' := if 2 * r > s.2 ∨ (2 * r = s.2 ∧ q % 2 = 1) then q + 1 else q
  if q' = 2 ^ 53 then
    (if e + 1 > 971 then .inf neg else .fin neg (2 ^ 52) (e + 1))
  else if e > 971 then .inf neg
  else .fin neg q' e

/-- The `float64` nearest to the rational `(-1)^neg * n / d` (`d > 0`), ties to the
even mantissa; overflow gives an infinity, underflow a subnormal or a zero. -/
def round (neg : Bool) (n d : Nat) : Float64 :=
  if n = 0 then .fin neg 0 (-1074)
  else roundAt neg n d (exponentOf n d)

/-- The `float64` nearest to `(-1)^neg * (n / d) * 2^e`. -/
def roundScaled (neg : Bool) (n d : Nat) (e : Int) : Float64 :=
  match e with
  | Int.ofNat k => round neg (n * 2 ^ k) d
  | Int.negSucc k => round neg n (d * 2 ^ (k + 1))

/-- The integer `(-1)^neg * m * 2^(e - g)`, for an exponent `g ≤ e`. -/
def signedAt (neg : Bool) (m : Nat) (e g : Int) : Int :=
  (if neg then -1 else 1) * ((m * 2 ^ (e - g).toNat : Nat) : Int)

/-- Go `x * y` on `float64`. -/
def mul : Float64 → Float64 → Float64
  | .nan, _ => .nan
  | _, .nan => .nan
  | .inf s, .inf t => .inf (xor s t)
  | .inf s, .fin t m _ => if m = 0 then .nan else .inf (xor s t)
  | .fin s m _, .inf t => if m = 0 then .nan else .inf (xor s t)
  | .fin s m e, .fin t k f => roundScaled (xor s t) (m * k) 1 (e + f)

/-- Go `x + y` on `float64`. An exact zero sum is `-0` only when both operands are
negative (both are then `-0`), otherwise `+0`. -/
def add : Float64 → Float64 → Float64
  | .nan, _ => .nan
  | _, .nan => .nan
  | .inf s, .inf t => if s = t then .inf s else .nan
  | .inf s, .fin _ _ _ => .inf s
  | .fin _ _ _, .inf t => .inf t
  | .fin s m e, .fin t k f =>
    let g := min e f
    let c := signedAt s m e g + signedAt t k f g
    if c = 0 then .fin (s && t) 0 (-1074)
    else roundScaled (decide (c < 0)) c.natAbs 1 g

/-- Go `x / y` on `float64`. -/
def div : Float64 → Float64 → Float64
  | .nan, _ => .nan
  | _, .nan => .nan
  | .inf _, .inf _ => .nan
  | .inf s, .fin t _ _ => .inf (xor s t)
  | .fin s _ _, .inf t => .fin (xor s t) 0 (-1074)
  | .fin s m e, .fin t k f =>
    if k = 0 then (if m = 0 then .nan else .inf (xor s t))
    else roundScaled (xor s t) m k (e - f)

/-- The fused multiply-add `x * y + z` with a single rounding. -/
def fma : Float64 → Float64 → Float64 → Float64
  | .fin s m e, .fin t k f, .fin u j g =>
    let h := min (e + f) g
    let c := signedAt (xor s t) (m * k) (e + f) h + signedAt u j g h
    if c = 0 then .fin (xor s t && u) 0 (-1074)
    else roundScaled (decide (c < 0)) c.natAbs 1 h
  | .fin _ _ _, .fin _ _ _, .inf u => .inf u
  | x, y, z => add (mul x y) z

/-- Go evaluates `x*y + z` either with two roundings or, on the platforms where the
compiler fuses the two operations (the language specification allows it), with one.
`fused` tells which. -/
def mulAdd (fused : Bool) (x y z : Float64) : Float64 :=
  if fused then fma x y z else add (mul x y) z

/-- The Go constant `n` converted to `float64`. -/
def ofNat (n : Nat) : Float64 := round false n 1

/-- The Go decimal constant `n / d` converted to `float64` (`lit 18 10` is `1.8`). -/
def lit (n d : Nat) : Float64 := round false n d

/-- Go unary minus. -/
def neg : Float64 → Float64
  | .nan => .nan
  | .inf s => .inf (!s)
  | .fin s m e => .fin (!s) m e

/-- Go `x == y` on `float64`: NaN equals nothing, `+0 == -0`. -/
def eq : Float64 → Float64 → Bool
  | .inf s, .inf t => s == t
  | .fin s m e, .fin t k f =>
    let g := min e f
    signedAt s m e g == signedAt t k f g
  | _, _ => false

/-- Go `x <= y` on `float64`: false when an operand is NaN. -/
def le : Float64 → Float64 → Bool
  | .nan, _ => false
  | _, .nan => false
  | .inf s, .inf t => s || !t
  | .inf s, .fin _ _ _ => s
  | .fin _ _ _, .inf t => !t
  | .fin s m e, .fin t k f =>
    let g := min e f
    decide (signedAt s m e g ≤ signedAt t k f g)

/-- Go `x < y` on `float64`: false when an operand is NaN. -/
def lt : Float64 → Float64 → Bool
  | .nan, _ => false
  | _, .nan => false
  | .inf s, .inf t => s && !t
  | .inf s, .fin _ _ _ => s
  | .fin _ _ _, .inf t => !t
  | .fin s m e, .fin t k f =>
    let g := min e f
    decide (signedAt s m e g < signedAt t k f g)

/-- Go `x - y` on `float64`: the sum of `x` and `-y`, also for the zeros. -/
def sub (x y : Float64) : Float64 := add x (neg y)

/-- Go `x >= y` on `float64`: false when an operand is NaN. -/
def ge (x y : Float64) : Bool := le y x

/-- The rational value of a finite `float64` (`0` for NaN and the infinities). -/
def toRat : Float64 → ℚ
  | .fin s m e => (if s then -1 else 1) * (m : ℚ) * (2 : ℚ) ^ e
  | _ => 0

/-- Finite values. -/
def isFinite : Float64 → Bool
  | .fin _ _ _ => true
  | _ => false

end Float64

namespace math

/-- Go `math.Round`: the nearest integer, halves rounded away from zero; NaN, the
infinities and the zeros (with their sign) are returned unchanged. A finite value
with a non-negative exponent is an integer already; otherwise the value is
`m / 2^(j+1)` and the result is `⌊m / 2^(j+1) + 1/2⌋` with the sign of the input. -/
def Round : Float64 → Float64
  | .nan => .nan
  | .inf s => .inf s
  | .fin s m e =>
    match e with
    | Int.ofNat _ => .fin s m e
    | Int.negSucc j => Float64.round s ((2 * m + 2 ^ (j + 1)) / (2 * 2 ^ (j + 1))) 1

end math

/-! ## Go standard library: `unicode.IsSpace`, `strings.TrimSpace` -/

namespace unicode

/-- Go `unicode.IsSpace`: in Latin-1 the characters `\t \n \v \f \r`, space,
U+0085 and U+00A0; above Latin-1 the code points of the `White_Space` table. -/
def IsSpace (r : Char) : Bool :=
  let n := r.toNat
  if n ≤ 0xFF then
    n == 0x09 || n == 0x0A || n == 0x0B || n == 0x0C || n == 0x0D || n == 0x20
      || n == 0x85 || n == 0xA0
  else
    n == 0x1680 || (0x2000 ≤ n && n ≤ 0x200A) || n == 0x2028 || n == 0x2029
      || n == 0x202F || n == 0x205F || n == 0x3000

end unicode

namespace strings

/-- Go `strings.TrimSpace` on the runes of a string: all leading and all trailing
white space (as `unicode.IsSpace`) removed. -/
def TrimSpaceRunes (s : List Char) : List Char :=
  ((s.dropWhile unicode.IsSpace).reverse.dropWhile unicode.IsSpace).reverse

/-- Go `strings.TrimSpace`. -/
def TrimSpace (s : String) : String :=
  String.mk (TrimSpaceRunes s.data)

end strings

/-! ## `pkg/models/cep.go` -/

namespace models

/-- The structure `CEPRequest`. -/
structure CEPRequest where
  CEP : String
deriving DecidableEq, Repr

/-- The structure `TemperatureResponse`. -/
structure TemperatureResponse where
  City : String
  TempC : Float64
  TempF : Float64
  TempK : Float64
deriving DecidableEq, Repr

/-- The structure `ErrorResponse`. -/
structure ErrorResponse where
  Message : String
deriving DecidableEq, Repr

/-- The constant `ErrInvalidZipcode`. -/
def ErrInvalidZipcode : String := "invalid zipcode"

/-- The constant `ErrZipcodeNotFound`. -/
def ErrZipcodeNotFound : String := "can not find zipcode"

end models

/-! ## `pkg/utils/cep_validator.go` -/

namespace utils

/-- The character class `[0-9]`, the code points U+0030 to U+0039 (the Go regexp
`\d` is the same ASCII class). -/
def isDigit09 (c : Char) : Bool :=
  0x30 ≤ c.toNat && c.toNat ≤ 0x39

/-- Matching `\d{n}$` at the start of the remaining input: `n` characters of the
class `\d`, then the end of the text. -/
def matchDigitsThenEnd : Nat → List Char → Bool
  | 0, [] => true
  | 0, _ :: _ => false
  | _ + 1, [] => false
  | n + 1, c :: cs => isDigit09 c && matchDigitsThenEnd n cs

/-- The regexp of `NewCEPValidator`, `^\d{8}$`, as used by `MatchString`: the
pattern is anchored at both ends, so the whole text is eight digits. -/
def cepRegexMatchString (s : String) : Bool :=
  matchDigitsThenEnd 8 s.data

/-- The call `regexp.MustCompile("[^0-9]").ReplaceAllString(cep, "")` on the
runes of the string: every character matching `[^0-9]` is replaced by the empty
string, every other character is copied. -/
def replaceAllNonDigits : List Char → List Char
  | [] => []
  | c :: cs => if !isDigit09 c then replaceAllNonDigits cs else c :: replaceAllNonDigits cs

/-- `CEPValidator.ValidateCEP`: `none` is the Go `nil` error. -/
def ValidateCEP (cep : String) : Option GoError :=
  if cep = "" then
    some (GoError.errorf models.ErrInvalidZipcode)
  else
    let cep := strings.TrimSpace cep
    if !cepRegexMatchString cep then
      some (GoError.errorf models.ErrInvalidZipcode)
    else
      none

/-- `CEPValidator.NormalizeCEP`. -/
def NormalizeCEP (cep : String) : String :=
  String.mk (replaceAllNonDigits cep.data)

/-- `CEPValidator.ValidateAndNormalize`: the pair `(code, err)` of the Go function. -/
def ValidateAndNormalize (cep : String) : String × Option GoError :=
  let normalized := NormalizeCEP cep
  match ValidateCEP normalized with
  | some err => ("", some err)
  | none => (normalized, none)

end utils

/-! ## `services/service-b/internal/service/temperature_converter.go` -/

namespace service

/-- `TemperatureConverter.CelsiusToFahrenheit`: `celsius*1.8 + 32`. -/
def CelsiusToFahrenheit (fused : Bool) (celsius : Float64) : Float64 :=
  Float64.mulAdd fused celsius (Float64.lit 18 10) (Float64.ofNat 32)

/-- `TemperatureConverter.CelsiusToKelvin`: `celsius + 273`. -/
def CelsiusToKelvin (celsius : Float64) : Float64 :=
  Float64.add celsius (Float64.ofNat 273)

/-- `TemperatureConverter.FahrenheitToCelsius`: `(fahrenheit - 32) / 1.8`. -/
def FahrenheitToCelsius (fahrenheit : Float64) : Float64 :=
  Float64.div (Float64.sub fahrenheit (Float64.ofNat 32)) (Float64.lit 18 10)

/-- `TemperatureConverter.KelvinToCelsius`: `kelvin - 273`. -/
def KelvinToCelsius (kelvin : Float64) : Float64 :=
  Float64.sub kelvin (Float64.ofNat 273)

/-- `TemperatureConverter.ValidateTemperature`: `celsius >= -100 && celsius <= 60`. -/
def ValidateTemperature (celsius : Float64) : Bool :=
  Float64.ge celsius (Float64.neg (Float64.ofNat 100)) &&
    Float64.le celsius (Float64.ofNat 60)

/-- `TemperatureConverter.roundToOneDecimal`: `math.Round(value*10) / 10`. -/
def roundToOneDecimal (value : Float64) : Float64 :=
  Float64.div (math.Round (Float64.mul value (Float64.ofNat 10))) (Float64.ofNat 10)

/-- `TemperatureConverter.ConvertToAllUnits`. -/
def ConvertToAllUnits (fused : Bool) (celsius : Float64) (city : String) :
    models.TemperatureResponse :=
  { City := city
    TempC := roundToOneDecimal celsius
    TempF := roundToOneDecimal (CelsiusToFahrenheit fused celsius)
    TempK := roundToOneDecimal (CelsiusToKelvin celsius) }

end service

/-! ## `services/service-b/internal/model` -/

namespace model

/-- The structure `ViaCEPResponse` (`location.go`). -/
structure ViaCEPResponse where
  CEP : String
  Logradouro : String
  Complemento : String
  Unidade : String
  Bairro : String
  Localidade : String
  UF : String
  Estado : String
  Regiao : String
  IBGE : String
  GIA : String
  DDD : String
  SIAFI : String
  Erro : Bool
deriving DecidableEq, Repr

/-- `ViaCEPResponse.IsValid`. -/
def ViaCEPResponse.IsValid (v : ViaCEPResponse) : Bool :=
  !v.Erro && v.Localidade != "" && v.UF != ""

/-- `ViaCEPResponse.GetFullLocation`. -/
def ViaCEPResponse.GetFullLocation (v : ViaCEPResponse) : String :=
  if v.UF != "" then v.Localidade ++ ", " ++ v.UF else v.Localidade

/-- `ViaCEPResponse.GetCityName`. -/
def ViaCEPResponse.GetCityName (v : ViaCEPResponse) : String :=
  v.Localidade

/-- The field `Location` of `WeatherAPIResponse` (`weather.go`). -/
structure WeatherLocation where
  Name : String
  Region : String
  Country : String
  Lat : Float64
  Lon : Float64
  TzID : String
  LocaltimeEpoch : Int
  Localtime : String
deriving DecidableEq, Repr

/-- The field `Current.Condition` of `WeatherAPIResponse`. -/
structure WeatherCondition where
  Text : String
  Icon : String
  Code : Int
deriving DecidableEq, Repr

/-- The field `Current` of `WeatherAPIResponse`. -/
structure WeatherCurrent where
  LastUpdatedEpoch : Int
  LastUpdated : String
  TempC : Float64
  TempF : Float64
  IsDay : Int
  Condition : WeatherCondition
  WindMph : Float64
  WindKph : Float64
  WindDegree : Int
  WindDir : String
  PressureMb : Float64
  PressureIn : Float64
  PrecipMm : Float64
  PrecipIn : Float64
  Humidity : Int
  Cloud : Int
  FeelslikeC : Float64
  FeelslikeF : Float64
  VisKm : Float64
  VisMiles : Float64
  UV : Float64
  GustMph : Float64
  GustKph : Float64
deriving DecidableEq, Repr

/-- The structure `WeatherAPIResponse`. -/
structure WeatherAPIResponse where
  Location : WeatherLocation
  Current : WeatherCurrent
deriving DecidableEq, Repr

/-- `WeatherAPIResponse.GetTemperatureCelsius`. -/
def WeatherAPIResponse.GetTemperatureCelsius (w : WeatherAPIResponse) : Float64 :=
  w.Current.TempC

/-- `WeatherAPIResponse.GetLocationName`. -/
def WeatherAPIResponse.GetLocationName (w : WeatherAPIResponse) : String :=
  w.Location.Name

/-- `WeatherAPIResponse.IsValid`: `Location.Name != "" && Current.TempC != 0`. -/
def WeatherAPIResponse.IsValid (w : WeatherAPIResponse) : Bool :=
  w.Location.Name != "" && !(Float64.eq w.Current.TempC (Float64.ofNat 0))

/-- The structure `WeatherAPIError`, its field `Error` flattened. -/
structure WeatherAPIError where
  Code : Int
  Message : String
deriving DecidableEq, Repr

/-- `WeatherAPIError.GetMessage`. -/
def WeatherAPIError.GetMessage (e : WeatherAPIError) : String :=
  e.Message

/-- `WeatherAPIError.GetCode`. -/
def WeatherAPIError.GetCode (e : WeatherAPIError) : Int :=
  e.Code

end model

/-! ## `services/service-b/internal/cache/memory_cache.go`

The store is `github.com/patrickmn/go-cache`: a map from keys to items, an item
being an object and an expiration time (`0` for none). Times are `UnixNano`
readings and durations are nanoseconds. The periodic cleanup of go-cache only
deletes items that `Get` already treats as absent; it is not modelled. -/

namespace cache

/-- What the handler stores: the three pointer types asserted by the typed getters. -/
inductive Object where
  | location (v : model.ViaCEPResponse)
  | weather (w : model.WeatherAPIResponse)
  | temperature (t : models.TemperatureResponse)
deriving DecidableEq, Repr

/-- The go-cache `Item`. -/
structure Item where
  Object : Object
  Expiration : Int
deriving DecidableEq, Repr

/-- The go-cache `Cache`: its default expiration and its items, one per key. -/
structure Cache where
  defaultExpiration : Int
  items : List (String × Item)
deriving DecidableEq, Repr

/-- The map read `c.items[k]`. -/
def Cache.lookup (c : Cache) (k : String) : Option Item :=
  (c.items.find? (fun kv => kv.1 == k)).map (fun kv => kv.2)

/-- The go-cache `Get` at clock reading `now`: the object of the item under `k`,
unless the item has an expiration time that `now` is past. -/
def Cache.Get (c : Cache) (now : Int) (k : String) : Option Object :=
  match c.lookup k with
  | none => none
  | some item =>
    if item.Expiration > 0 ∧ now > item.Expiration then none else some item.Object

/-- The go-cache `Set` at clock reading `now`: duration `0` (`DefaultExpiration`)
stands for the default expiration of the cache; a positive duration gives the
expiration time `now + d`, any other none. The item replaces the one under `k`. -/
def Cache.Set (c : Cache) (now : Int) (k : String) (x : Object) (d : Int) : Cache :=
  let d := if d = 0 then c.defaultExpiration else d
  let e : Int := if d > 0 then now + d else 0
  { c with items := (k, { Object := x, Expiration := e }) ::
      c.items.filter (fun kv => !(kv.1 == k)) }

/-- The go-cache `Delete`. -/
def Cache.Delete (c : Cache) (k : String) : Cache :=
  { c with items := c.items.filter (fun kv => !(kv.1 == k)) }

/-- The go-cache `Flush`. -/
def Cache.Flush (c : Cache) : Cache :=
  { c with items := [] }

/-- The structure `MemoryCache`. -/
structure MemoryCache where
  cache : Cache
deriving DecidableEq, Repr

/-- The key pattern `locationCacheKey`, `"location:%s"`, applied with `fmt.Sprintf`. -/
def locationCacheKey (cep : String) : String := "location:" ++ cep

/-- The key pattern `weatherCacheKey`, `"weather:%s"`. -/
def weatherCacheKey (location : String) : String := "weather:" ++ location

/-- The key pattern `tempCacheKey`, `"temp:%s"`. -/
def tempCacheKey (cep : String) : String := "temp:" ++ cep

/-- `MemoryCache.GetLocation`: `none` is the Go result `(nil, false)`. -/
def MemoryCache.GetLocation (mc : MemoryCache) (now : Int) (cep : String) :
    Option model.ViaCEPResponse :=
  match mc.cache.Get now (locationCacheKey cep) with
  | some (.location v) => some v
  | _ => none

/-- `MemoryCache.SetLocation`. -/
def MemoryCache.SetLocation (mc : MemoryCache) (now : Int) (cep : String)
    (location : model.ViaCEPResponse) (duration : Int) : MemoryCache :=
  { cache := mc.cache.Set now (locationCacheKey cep) (.location location) duration }

/-- `MemoryCache.GetWeather`. -/
def MemoryCache.GetWeather (mc : MemoryCache) (now : Int) (location : String) :
    Option model.WeatherAPIResponse :=
  match mc.cache.Get now (weatherCacheKey location) with
  | some (.weather w) => some w
  | _ => none

/-- `MemoryCache.SetWeather`. -/
def MemoryCache.SetWeather (mc : MemoryCache) (now : Int) (location : String)
    (weather : model.WeatherAPIResponse) (duration : Int) : MemoryCache :=
  { cache := mc.cache.Set now (weatherCacheKey location) (.weather weather) duration }

/-- `MemoryCache.GetTemperature`. -/
def MemoryCache.GetTemperature (mc : MemoryCache) (now : Int) (cep : String) :
    Option models.TemperatureResponse :=
  match mc.cache.Get now (tempCacheKey cep) with
  | some (.temperature t) => some t
  | _ => none

/-- `MemoryCache.SetTemperature`. -/
def MemoryCache.SetTemperature (mc : MemoryCache) (now : Int) (cep : String)
    (temp : models.TemperatureResponse) (duration : Int) : MemoryCache :=
  { cache := mc.cache.Set now (tempCacheKey cep) (.temperature temp) duration }

/-- `MemoryCache.InvalidateLocation`. -/
def MemoryCache.InvalidateLocation (mc : MemoryCache) (cep : String) : MemoryCache :=
  { cache := mc.cache.Delete (locationCacheKey cep) }

/-- `MemoryCache.InvalidateWeather`. -/
def MemoryCache.InvalidateWeather (mc : MemoryCache) (location : String) : MemoryCache :=
  { cache := mc.cache.Delete (weatherCacheKey location) }

/-- `MemoryCache.InvalidateTemperature`. -/
def MemoryCache.InvalidateTemperature (mc : MemoryCache) (cep : String) : MemoryCache :=
  { cache := mc.cache.Delete (tempCacheKey cep) }

/-- `MemoryCache.Clear`. -/
def MemoryCache.Clear (mc : MemoryCache) : MemoryCache :=
  { cache := mc.cache.Flush }

/-- Go `utf8.EncodeRune`: the bytes of the UTF-8 encoding of a character. -/
def utf8EncodeRune (r : Char) : List Nat :=
  let n := r.toNat
  if n < 0x80 then [n]
  else if n < 0x800 then [0xC0 + n / 0x40, 0x80 + n % 0x40]
  else if n < 0x10000 then [0xE0 + n / 0x1000, 0x80 + n / 0x40 % 0x40, 0x80 + n % 0x40]
  else [0xF0 + n / 0x40000, 0x80 + n / 0x1000 % 0x40, 0x80 + n / 0x40 % 0x40,
    0x80 + n % 0x40]

/-- The bytes of a Go string: `len(s)` is their number and `s[:n]` the first `n` of
them. -/
def bytesOf (s : String) : List Nat :=
  s.data.flatMap utf8EncodeRune

/-- The test `len(key) > n && key[:n] == p` of `Stats`. -/
def keyHasPrefix (key : String) (n : Nat) (p : String) : Bool :=
  decide ((bytesOf key).length > n) && ((bytesOf key).take n == bytesOf p)

/-- The go-cache `Items` at clock reading `now`: the items that have not expired. -/
def Cache.Items (c : Cache) (now : Int) : List (String × Item) :=
  c.items.filter (fun kv => !decide (kv.2.Expiration > 0 ∧ now > kv.2.Expiration))

/-- The map returned by `Stats`, one field per key. -/
structure StatsMap where
  total_items : Nat
  location_items : Nat
  weather_items : Nat
  temp_items : Nat
deriving DecidableEq, Repr

/-- One turn of the loop of `Stats`: the `switch` on the key, on the counters
`(locationCount, weatherCount, tempCount)`. -/
def statsStep (counts : Nat × Nat × Nat) (key : String) : Nat × Nat × Nat :=
  if keyHasPrefix key 9 "location:" then (counts.1 + 1, counts.2.1, counts.2.2)
  else if keyHasPrefix key 8 "weather:" then (counts.1, counts.2.1 + 1, counts.2.2)
  else if keyHasPrefix key 5 "temp:" then (counts.1, counts.2.1, counts.2.2 + 1)
  else counts

/-- `MemoryCache.Stats` at clock reading `now`. -/
def MemoryCache.Stats (mc : MemoryCache) (now : Int) : StatsMap :=
  let items := mc.cache.Items now
  let counts := items.foldl (fun counts kv => statsStep counts kv.1) (0, 0, 0)
  { total_items := items.length
    location_items := counts.1
    weather_items := counts.2.1
    temp_items := counts.2.2 }

/-- `NewMemoryCache`: an empty store with the given default expiration (the cleanup
interval only drives the periodic cleanup). -/
def NewMemoryCache (defaultExpiration _cleanupInterval : Int) : MemoryCache :=
  { cache := { defaultExpiration := defaultExpiration, items := [] } }

/-- The three typed namespaces of `MemoryCache`. -/
inductive Namespace where
  | location
  | weather
  | temp
deriving DecidableEq, Repr

/-- The store key of a key of a namespace. -/
def Namespace.key : Namespace → String → String
  | .location, k => locationCacheKey k
  | .weather, k => weatherCacheKey k
  | .temp, k => tempCacheKey k

/-- The typed getter of a namespace (`GetLocation`, `GetWeather`, `GetTemperature`),
its result as a cache object. -/
def MemoryCache.GetIn (mc : MemoryCache) (ns : Namespace) (now : Int) (k : String) :
    Option Object :=
  match ns with
  | .location => (mc.GetLocation now k).map Object.location
  | .weather => (mc.GetWeather now k).map Object.weather
  | .temp => (mc.GetTemperature now k).map Object.temperature

/-- A call of one of the writing methods of `MemoryCache`, the typed setters with
the clock reading at which they run. -/
inductive Write where
  | setLocation (now : Int) (cep : String) (location : model.ViaCEPResponse) (duration : Int)
  | setWeather (now : Int) (location : String) (weather : model.WeatherAPIResponse)
      (duration : Int)
  | setTemperature (now : Int) (cep : String) (temp : models.TemperatureResponse)
      (duration : Int)
  | invalidateLocation (cep : String)
  | invalidateWeather (location : String)
  | invalidateTemperature (cep : String)
  | clear

/-- The effect of a write. -/
def Write.apply : Write → MemoryCache → MemoryCache
  | .setLocation now cep location duration, mc => mc.SetLocation now cep location duration
  | .setWeather now location weather duration, mc => mc.SetWeather now location weather duration
  | .setTemperature now cep temp duration, mc => mc.SetTemperature now cep temp duration
  | .invalidateLocation cep, mc => mc.InvalidateLocation cep
  | .invalidateWeather location, mc => mc.InvalidateWeather location
  | .invalidateTemperature cep, mc => mc.InvalidateTemperature cep
  | .clear, mc => mc.Clear

/-- The namespace and key a write is about; `none` for `Clear`, which is about all. -/
def Write.target : Write → Option (Namespace × String)
  | .setLocation _ cep _ _ => some (.location, cep)
  | .setWeather _ location _ _ => some (.weather, location)
  | .setTemperature _ cep _ _ => some (.temp, cep)
  | .invalidateLocation cep => some (.location, cep)
  | .invalidateWeather location => some (.weather, location)
  | .invalidateTemperature cep => some (.temp, cep)
  | .clear => none

/-- What a typed setter stores: namespace, key, object, clock reading and duration;
`none` for the other writes. -/
def Write.stores : Write → Option (Namespace × String × Object × Int × Int)
  | .setLocation now cep location duration =>
    some (.location, cep, .location location, now, duration)
  | .setWeather now location weather duration =>
    some (.weather, location, .weather weather, now, duration)
  | .setTemperature now cep temp duration =>
    some (.temp, cep, .temperature temp, now, duration)
  | _ => none

/-- A write leaves the key `k` of the namespace `ns` alone: it is about another key
or another namespace (`Clear` leaves no key alone). -/
def Write.avoids (w : Write) (ns : Namespace) (k : String) : Prop :=
  ∃ t, w.target = some t ∧ t ≠ (ns, k)

/-- A key of the namespace: the text of the namespace and the colon, followed by an
argument. -/
def Namespace.owns (ns : Namespace) (key : String) : Bool :=
  (ns.key "").data.isPrefixOf key.data

/-- The number of stored items of a namespace at clock reading `now`: the items
that have not expired and whose key is a key of the namespace. -/
def MemoryCache.storedIn (mc : MemoryCache) (ns : Namespace) (now : Int) : Nat :=
  ((mc.cache.Items now).filter (fun kv => ns.owns kv.1)).length

/-- A sequence of writes, applied in order. -/
def applyAll (ws : List Write) (mc : MemoryCache) : MemoryCache :=
  ws.foldl (fun mc w => w.apply mc) mc

end cache

/-- Go `time.Minute`, in nanoseconds. -/
def time.Minute : Int := 60 * 1000000000

/-- Go `time.Hour`, in nanoseconds. -/
def time.Hour : Int := 60 * time.Minute

/-! ## `services/service-b/internal/client`

The HTTP exchange with an upstream service is an input of the model: building the
request fails, or sending it fails (transport error, timeout), or a response with
a status code and a body arrives. Decoding a body with `encoding/json` is an input
as well: a function from bodies to a decoded value or an error message. -/

namespace client

/-- The outcome of `http.NewRequestWithContext` followed by `httpClient.Do`. -/
inductive Exchange where
  | requestError (err : String)
  | doError (err : String)
  | response (StatusCode : Int) (Body : String)
deriving DecidableEq, Repr

/-- `OpenCEPClient.GetLocationByCEP`, given the exchange for the URL of `cep` and
the JSON decoder of `ViaCEPResponse`. -/
def GetLocationByCEP (exchange : Exchange)
    (decode : String → Except String model.ViaCEPResponse) (cep : String) :
    Except GoError model.ViaCEPResponse :=
  match exchange with
  | .requestError err => .error (.errorf ("erro ao criar requisição: " ++ err))
  | .doError err => .error (.errorf ("erro ao executar requisição: " ++ err))
  | .response StatusCode Body =>
    if StatusCode ≠ 200 then
      if StatusCode = 404 then .error (.cepNotFound cep)
      else .error (.errorf ("erro na API OpenCEP: status " ++ toString StatusCode))
    else
      match decode Body with
      | .error err => .error (.errorf ("erro ao decodificar resposta: " ++ err))
      | .ok openCepResp =>
        if openCepResp.Localidade = "" ∨ openCepResp.UF = "" then
          .error (.cepNotFound cep)
        else if !openCepResp.IsValid then
          .error (.errorf ("resposta inválida da API OpenCEP para CEP " ++ cep))
        else
          .ok openCepResp

/-- `WeatherClient.GetCurrentWeather`, given the exchange for the query of
`location` and the JSON decoders of `WeatherAPIResponse` and `WeatherAPIError`. -/
def GetCurrentWeather (exchange : Exchange)
    (decode : String → Except String model.WeatherAPIResponse)
    (decodeError : String → Except String model.WeatherAPIError) (location : String) :
    Except GoError model.WeatherAPIResponse :=
  match exchange with
  | .requestError err => .error (.errorf ("erro ao criar requisição: " ++ err))
  | .doError err => .error (.errorf ("erro ao executar requisição: " ++ err))
  | .response StatusCode Body =>
    if StatusCode = 200 then
      match decode Body with
      | .error err => .error (.errorf ("erro ao decodificar resposta: " ++ err))
      | .ok weatherResp =>
        if !weatherResp.IsValid then
          .error (.errorf ("resposta inválida da WeatherAPI para localização " ++ location))
        else
          .ok weatherResp
    else if StatusCode = 400 then
      match decodeError Body with
      | .error _ => .error (.locationNotFound location "")
      | .ok errorResp => .error (.locationNotFound location errorResp.GetMessage)
    else if StatusCode = 401 then
      .error (.errorf "API key inválida para WeatherAPI")
    else if StatusCode = 403 then
      .error (.errorf "quota excedida ou acesso negado na WeatherAPI")
    else
      .error (.errorf ("erro na WeatherAPI: status " ++ toString StatusCode))

end client

/-! ## `services/service-b/internal/handler/temperature_handler.go`

Telemetry spans and log lines do not influence the response or the cache and are
left out. A run of the handler returns the response written, the cache after the
run and the list of the cache operations and upstream calls made, in order.
`HandleTemperature` is the handler run from its first to its last statement with no
other request in between; `step` and `runSchedule` give the same code one cache
operation or upstream call at a time, for requests that run side by side on the
shared cache, each in a goroutine of its own. -/

namespace handler

/-- What a request meets outside the handler: the multiply-add mode of the platform,
the clock reading used by the cache operations of the request, the exchanges with
the two upstream services and the JSON decoders of their bodies. -/
structure Env where
  fused : Bool
  now : Int
  openCEP : String → client.Exchange
  weather : String → client.Exchange
  decodeLocation : String → Except String model.ViaCEPResponse
  decodeWeather : String → Except String model.WeatherAPIResponse
  decodeWeatherError : String → Except String model.WeatherAPIError

/-- An observable step of the handler. -/
inductive Event where
  | cacheGet (key : String)
  | cacheSet (key : String) (duration : Int)
  | openCEPCall (cep : String)
  | weatherCall (location : String)
deriving DecidableEq, Repr

/-- The body of a response: the JSON document of the value that
`json.NewEncoder(w).Encode` wrote, or nothing when `Encode` failed. A document is
given by the value it encodes. -/
inductive Body where
  | temperature (data : models.TemperatureResponse)
  | error (errorResp : models.ErrorResponse)
  | empty
deriving DecidableEq, Repr

/-- Whether `encoding/json` encodes a `TemperatureResponse`: a `float64` field that
is NaN or an infinity makes `Encode` fail with an `UnsupportedValueError` before
anything is written; strings always encode. -/
def jsonEncodable (data : models.TemperatureResponse) : Bool :=
  data.TempC.isFinite && data.TempF.isFinite && data.TempK.isFinite

/-- The response written: the status code of `WriteHeader` and the body. -/
structure Response where
  statusCode : Nat
  body : Body
deriving DecidableEq, Repr

/-- The state threaded through a run: the cache and the events so far. -/
structure State where
  cache : cache.MemoryCache
  events : List Event
deriving DecidableEq, Repr

/-- The result of a run. -/
structure Outcome where
  response : Response
  state : State
deriving DecidableEq, Repr

/-- `TemperatureHandler.respondWithSuccess`: `WriteHeader(200)`, then `Encode`,
whose error is only logged. -/
def respondWithSuccess (data : models.TemperatureResponse) : Response :=
  { statusCode := 200, body := if jsonEncodable data then .temperature data else .empty }

/-- `TemperatureHandler.respondWithError`. -/
def respondWithError (statusCode : Nat) (message : String) : Response :=
  { statusCode := statusCode, body := .error { Message := message } }

/-- `TemperatureHandler.getLocationWithCache`. -/
def getLocationWithCache (env : Env) (st : State) (cep : String) :
    Except GoError model.ViaCEPResponse × State :=
  let st := { st with events := st.events ++ [Event.cacheGet (cache.locationCacheKey cep)] }
  match st.cache.GetLocation env.now cep with
  | some cachedLocation => (.ok cachedLocation, st)
  | none =>
    let st := { st with events := st.events ++ [Event.openCEPCall cep] }
    match client.GetLocationByCEP (env.openCEP cep) env.decodeLocation cep with
    | .error err => (.error err, st)
    | .ok location =>
      let st : State :=
        { cache := st.cache.SetLocation env.now cep location (24 * time.Hour)
          events := st.events ++ [Event.cacheSet (cache.locationCacheKey cep) (24 * time.Hour)] }
      (.ok location, st)

/-- `TemperatureHandler.getWeatherWithCache`. -/
def getWeatherWithCache (env : Env) (st : State) (location : String) :
    Except GoError model.WeatherAPIResponse × State :=
  let st := { st with events := st.events ++ [Event.cacheGet (cache.weatherCacheKey location)] }
  match st.cache.GetWeather env.now location with
  | some cachedWeather => (.ok cachedWeather, st)
  | none =>
    let st := { st with events := st.events ++ [Event.weatherCall location] }
    match client.GetCurrentWeather (env.weather location) env.decodeWeather
        env.decodeWeatherError location with
    | .error err => (.error err, st)
    | .ok weather =>
      let st : State :=
        { cache := st.cache.SetWeather env.now location weather (10 * time.Minute)
          events := st.events ++ [Event.cacheSet (cache.weatherCacheKey location) (10 * time.Minute)] }
      (.ok weather, st)

/-- `TemperatureHandler.HandleTemperature` on the result of decoding the request
body into a `CEPRequest` (`.error` when the body is not decodable), starting with
the cache `mc`. -/
def HandleTemperature (env : Env) (mc : cache.MemoryCache)
    (decoded : Except String models.CEPRequest) : Outcome :=
  let st : State := { cache := mc, events := [] }
  match decoded with
  | .error _ => { response := respondWithError 400 models.ErrInvalidZipcode, state := st }
  | .ok req =>
    match utils.ValidateAndNormalize req.CEP with
    | (_, some _) =>
      { response := respondWithError 422 models.ErrInvalidZipcode, state := st }
    | (normalizedCEP, none) =>
      let st := { st with events := st.events ++ [Event.cacheGet (cache.tempCacheKey normalizedCEP)] }
      match st.cache.GetTemperature env.now normalizedCEP with
      | some cachedTemp => { response := respondWithSuccess cachedTemp, state := st }
      | none =>
        match getLocationWithCache env st normalizedCEP with
        | (.error err, st) =>
          match err with
          | .cepNotFound _ =>
            { response := respondWithError 404 models.ErrZipcodeNotFound, state := st }
          | _ => { response := respondWithError 500 "Erro interno do servidor", state := st }
        | (.ok location, st) =>
          match getWeatherWithCache env st location.GetFullLocation with
          | (.error err, st) =>
            match err with
            | .locationNotFound _ _ =>
              { response := respondWithError 404 models.ErrZipcodeNotFound, state := st }
            | _ => { response := respondWithError 500 "Erro interno do servidor", state := st }
          | (.ok weather, st) =>
            let tempResponse := service.ConvertToAllUnits env.fused
              weather.GetTemperatureCelsius location.GetCityName
            let st : State :=
              { cache := st.cache.SetTemperature env.now normalizedCEP tempResponse
                  (10 * time.Minute)
                events := st.events ++
                  [Event.cacheSet (cache.tempCacheKey normalizedCEP) (10 * time.Minute)] }
            { response := respondWithSuccess tempResponse, state := st }

/-- An upstream world in which both services answer 404 with an empty body. -/
def envNotFound : Env :=
  { fused := false
    now := 0
    openCEP := fun _ => .response 404 ""
    weather := fun _ => .response 404 ""
    decodeLocation := fun _ => .error "EOF"
    decodeWeather := fun _ => .error "EOF"
    decodeWeatherError := fun _ => .error "EOF" }

/-- Where a request stands between two of its cache operations and upstream calls.
The handler holds no lock from one of them to the next (go-cache locks each `Get` and
each `Set` on its own), so other requests may run between any two of them. -/
inductive Position where
  | start (decoded : Except String models.CEPRequest)
  | temperatureMissed (cep : String)
  | locationMissed (cep : String)
  | locationFetched (cep : String) (location : model.ViaCEPResponse)
  | located (cep : String) (location : model.ViaCEPResponse)
  | weatherMissed (cep : String) (location : model.ViaCEPResponse)
  | weatherFetched (cep : String) (location : model.ViaCEPResponse)
      (weather : model.WeatherAPIResponse)
  | weatherKnown (cep : String) (location : model.ViaCEPResponse)
      (weather : model.WeatherAPIResponse)
  | done (response : Response)

/-- The normalized code of a request that missed the temperature namespace and has
not answered yet. -/
def Position.code : Position → Option String
  | .start _ => none
  | .temperatureMissed cep => some cep
  | .locationMissed cep => some cep
  | .locationFetched cep _ => some cep
  | .located cep _ => some cep
  | .weatherMissed cep _ => some cep
  | .weatherFetched cep _ _ => some cep
  | .weatherKnown cep _ _ => some cep
  | .done _ => none

/-- What the code before a position has established: a request past its miss of the
temperature namespace carries a non-empty code, and the location it holds has a
place name and a region. -/
def Position.wellFormed : Position → Prop
  | .start _ => True
  | .temperatureMissed cep => cep ≠ ""
  | .locationMissed cep => cep ≠ ""
  | .locationFetched cep location =>
    cep ≠ "" ∧ location.Localidade ≠ "" ∧ location.UF ≠ ""
  | .located cep location => cep ≠ "" ∧ location.Localidade ≠ "" ∧ location.UF ≠ ""
  | .weatherMissed cep location => cep ≠ "" ∧ location.Localidade ≠ "" ∧ location.UF ≠ ""
  | .weatherFetched cep location _ =>
    cep ≠ "" ∧ location.Localidade ≠ "" ∧ location.UF ≠ ""
  | .weatherKnown cep location _ => cep ≠ "" ∧ location.Localidade ≠ "" ∧ location.UF ≠ ""
  | .done _ => True

/-- The response of a request that has answered. -/
def Position.response : Position → Option Response
  | .done response => some response
  | _ => none

/-- A request being handled by a goroutine of its own: its surroundings, where it
stands and its events so far. -/
structure Run where
  env : Env
  position : Position
  events : List Event

/-- A request that has not begun. -/
def Run.new (env : Env) (decoded : Except String models.CEPRequest) : Run :=
  { env := env, position := .start decoded, events := [] }

/-- The response for an error of the location stage of `HandleTemperature`. -/
def locationFailure : GoError → Response
  | .cepNotFound _ => respondWithError 404 models.ErrZipcodeNotFound
  | _ => respondWithError 500 "Erro interno do servidor"

/-- The response for an error of the weather stage of `HandleTemperature`. -/
def weatherFailure : GoError → Response
  | .locationNotFound _ _ => respondWithError 404 models.ErrZipcodeNotFound
  | _ => respondWithError 500 "Erro interno do servidor"

/-- One step of a request on the shared cache: the code of `HandleTemperature`,
`getLocationWithCache` and `getWeatherWithCache` from where the request stands up to
and including its next cache operation or upstream call, together with the code that
follows it up to the next one. A request that has answered stays as it is. -/
def step (r : Run) (mc : cache.MemoryCache) : Run × cache.MemoryCache :=
  match r.position with
  | .start (.error _) =>
    ({ r with position := .done (respondWithError 400 models.ErrInvalidZipcode) }, mc)
  | .start (.ok req) =>
    match utils.ValidateAndNormalize req.CEP with
    | (_, some _) =>
      ({ r with position := .done (respondWithError 422 models.ErrInvalidZipcode) }, mc)
    | (normalizedCEP, none) =>
      let events := r.events ++ [Event.cacheGet (cache.tempCacheKey normalizedCEP)]
      match mc.GetTemperature r.env.now normalizedCEP with
      | some cachedTemp =>
        ({ r with position := .done (respondWithSuccess cachedTemp), events := events }, mc)
      | none => ({ r with position := .temperatureMissed normalizedCEP, events := events }, mc)
  | .temperatureMissed cep =>
    let events := r.events ++ [Event.cacheGet (cache.locationCacheKey cep)]
    match mc.GetLocation r.env.now cep with
    | some cachedLocation =>
      ({ r with position := .located cep cachedLocation, events := events }, mc)
    | none => ({ r with position := .locationMissed cep, events := events }, mc)
  | .locationMissed cep =>
    let events := r.events ++ [Event.openCEPCall cep]
    match client.GetLocationByCEP (r.env.openCEP cep) r.env.decodeLocation cep with
    | .error err => ({ r with position := .done (locationFailure err), events := events }, mc)
    | .ok location => ({ r with position := .locationFetched cep location, events := events }, mc)
  | .locationFetched cep location =>
    ({ r with
        position := .located cep location
        events := r.events ++
          [Event.cacheSet (cache.locationCacheKey cep) (24 * time.Hour)] },
      mc.SetLocation r.env.now cep location (24 * time.Hour))
  | .located cep location =>
    let events := r.events ++ [Event.cacheGet (cache.weatherCacheKey location.GetFullLocation)]
    match mc.GetWeather r.env.now location.GetFullLocation with
    | some cachedWeather =>
      ({ r with position := .weatherKnown cep location cachedWeather, events := events }, mc)
    | none => ({ r with position := .weatherMissed cep location, events := events }, mc)
  | .weatherMissed cep location =>
    let events := r.events ++ [Event.weatherCall location.GetFullLocation]
    match client.GetCurrentWeather (r.env.weather location.GetFullLocation) r.env.decodeWeather
        r.env.decodeWeatherError location.GetFullLocation with
    | .error err => ({ r with position := .done (weatherFailure err), events := events }, mc)
    | .ok weather =>
      ({ r with position := .weatherFetched cep location weather, events := events }, mc)
  | .weatherFetched cep location weather =>
    ({ r with
        position := .weatherKnown cep location weather
        events := r.events ++
          [Event.cacheSet (cache.weatherCacheKey location.GetFullLocation) (10 * time.Minute)] },
      mc.SetWeather r.env.now location.GetFullLocation weather (10 * time.Minute))
  | .weatherKnown cep location weather =>
    let tempResponse := service.ConvertToAllUnits r.env.fused
      weather.GetTemperatureCelsius location.GetCityName
    ({ r with
        position := .done (respondWithSuccess tempResponse)
        events := r.events ++ [Event.cacheSet (cache.tempCacheKey cep) (10 * time.Minute)] },
      mc.SetTemperature r.env.now cep tempResponse (10 * time.Minute))
  | .done _ => (r, mc)

/-- A number of steps of one request while no other request runs. -/
def steps : Nat → Run × cache.MemoryCache → Run × cache.MemoryCache
  | 0, s => s
  | k + 1, s => steps k (step s.1 s.2)

/-- The requests in flight and the cache after a schedule: each entry of the schedule
names the request that takes the next step. -/
def runSchedule : List Nat → List Run → cache.MemoryCache → List Run × cache.MemoryCache
  | [], rs, mc => (rs, mc)
  | i :: schedule, rs, mc =>
    match rs[i]? with
    | none => runSchedule schedule rs mc
    | some r => runSchedule schedule (rs.set i (step r mc).1) (step r mc).2

/-- The caches the service can hold: the empty cache of `NewMemoryCache` at startup
(`main.go`), the cache after a request, and the cache after `Clear` (shutdown). No
other code writes to the cache. -/
inductive Reachable : cache.MemoryCache → Prop where
  | init (defaultExpiration cleanupInterval : Int) :
    Reachable (cache.NewMemoryCache defaultExpiration cleanupInterval)
  | handle (env : Env) (mc : cache.MemoryCache) (decoded : Except String models.CEPRequest) :
    Reachable mc → Reachable (HandleTemperature env mc decoded).state.cache
  | clear (mc : cache.MemoryCache) : Reachable mc → Reachable mc.Clear

/-- Every location stored in the cache has a place name and a region. -/
def LocationsComplete (mc : cache.MemoryCache) : Prop :=
  ∀ (k : String) (item : cache.Item) (v : model.ViaCEPResponse),
    (k, item) ∈ mc.cache.items → item.Object = cache.Object.location v →
      v.Localidade ≠ "" ∧ v.UF ≠ ""

/-- Every weather reading stored in the cache is valid. -/
def WeathersValid (mc : cache.MemoryCache) : Prop :=
  ∀ (k : String) (item : cache.Item) (w : model.WeatherAPIResponse),
    (k, item) ∈ mc.cache.items → item.Object = cache.Object.weather w → w.IsValid = true

/-- Two exchanges that differ at most in error text: the text of a transport-level
error, or the body of a response with a status other than 200. -/
def sameButErrorText : client.Exchange → client.Exchange → Prop
  | .requestError _, .requestError _ => True
  | .doError _, .doError _ => True
  | .response s b, .response s' b' => s = s' ∧ (s = 200 → b = b')
  | _, _ => False

/-- Two decoder results that differ at most in the text of a decoding error. -/
def sameButDecodeError {α : Type} : Except String α → Except String α → Prop
  | .ok v, .ok w => v = w
  | .error _, .error _ => True
  | _, _ => False

/-- Two surroundings that differ at most in upstream error text: the text of
transport errors, the bodies of responses with a status other than 200, the text of
JSON decoding errors, and the decoded error body of the weather service. -/
def Env.sameButErrorText (e1 e2 : Env) : Prop :=
  e1.fused = e2.fused ∧ e1.now = e2.now ∧
  (∀ cep, handler.sameButErrorText (e1.openCEP cep) (e2.openCEP cep)) ∧
  (∀ location, handler.sameButErrorText (e1.weather location) (e2.weather location)) ∧
  (∀ body, sameButDecodeError (e1.decodeLocation body) (e2.decodeLocation body)) ∧
  (∀ body, sameButDecodeError (e1.decodeWeather body) (e2.decodeWeather body))

/-- The location of the postal code `01310-100`, as the location service gives it. -/
def locationSaoPaulo : model.ViaCEPResponse :=
  { CEP := "01310-100", Logradouro := "Avenida Paulista", Complemento := "", Unidade := "",
    Bairro := "Bela Vista", Localidade := "São Paulo", UF := "SP", Estado := "São Paulo",
    Regiao := "Sudeste", IBGE := "3550308", GIA := "1004", DDD := "11", SIAFI := "7107",
    Erro := false }

/-- A reading of 28.5 °C for São Paulo, as the weather service gives it. -/
def weatherSaoPaulo : model.WeatherAPIResponse :=
  { Location :=
      { Name := "Sao Paulo", Region := "Sao Paulo", Country := "Brazil",
        Lat := Float64.ofNat 0, Lon := Float64.ofNat 0, TzID := "America/Sao_Paulo",
        LocaltimeEpoch := 0, Localtime := "" }
    Current :=
      { LastUpdatedEpoch := 0, LastUpdated := "", TempC := Float64.lit 285 10,
        TempF := Float64.lit 833 10, IsDay := 1,
        Condition := { Text := "Sunny", Icon := "", Code := 1000 },
        WindMph := Float64.ofNat 0, WindKph := Float64.ofNat 0, WindDegree := 0,
        WindDir := "", PressureMb := Float64.ofNat 0, PressureIn := Float64.ofNat 0,
        PrecipMm := Float64.ofNat 0, PrecipIn := Float64.ofNat 0, Humidity := 0, Cloud := 0,
        FeelslikeC := Float64.ofNat 0, FeelslikeF := Float64.ofNat 0,
        VisKm := Float64.ofNat 0, VisMiles := Float64.ofNat 0, UV := Float64.ofNat 0,
        GustMph := Float64.ofNat 0, GustKph := Float64.ofNat 0 } }

/-- An upstream world at clock reading `now` in which the location service knows the
code `01310100` only and the weather service knows the place `São Paulo, SP` only;
for every other code and place they answer 404 and 400. -/
def envSaoPaulo (now : Int) : Env :=
  { fused := false
    now := now
    openCEP := fun cep => if cep = "01310100" then .response 200 "L" else .response 404 ""
    weather := fun location =>
      if location = "São Paulo, SP" then .response 200 "W" else .response 400 "E"
    decodeLocation := fun body => if body = "L" then .ok locationSaoPaulo else .error "EOF"
    decodeWeather := fun body => if body = "W" then .ok weatherSaoPaulo else .error "EOF"
    decodeWeatherError := fun body =>
      if body = "E" then .ok { Code := 1006, Message := "No matching location found." }
      else .error "EOF" }

/-- The upstream world `envSaoPaulo now` with the reading `tempC` as the `temp_c` of
the payload of the weather service. -/
def envReading (now : Int) (tempC : Float64) : Env :=
  { envSaoPaulo now with
    decodeWeather := fun body =>
      if body = "W" then
        .ok { weatherSaoPaulo with
          Current := { weatherSaoPaulo.Current with TempC := tempC } }
      else .error "EOF" }

/-- An upstream world in which no service can be reached. -/
def envUnreachable (now : Int) : Env :=
  { fused := false
    now := now
    openCEP := fun _ => .doError "context deadline exceeded"
    weather := fun _ => .doError "context deadline exceeded"
    decodeLocation := fun _ => .error "EOF"
    decodeWeather := fun _ => .error "EOF"
    decodeWeatherError := fun _ => .error "EOF" }

end handler

/-! ## `services/service-a`: `internal/client/service_b_client.go` and
`internal/handler/cep_handler.go`

The exchange with Service B and the JSON decoders are inputs, as for the clients of
Service B. `json.Marshal` of a `CEPRequest` does not fail. -/

namespace serviceA

/-- The structure `ServiceBError`. -/
structure ServiceBError where
  StatusCode : Int
  Message : String
deriving DecidableEq, Repr

/-- `ServiceBError.GetStatusCode`. -/
def ServiceBError.GetStatusCode (e : ServiceBError) : Int :=
  e.StatusCode

/-- The errors `ServiceBClient.GetTemperature` returns: a `fmt.Errorf` error or a
`*ServiceBError`. -/
inductive ClientError where
  | errorf (msg : String)
  | serviceB (e : ServiceBError)
deriving DecidableEq, Repr

/-- `ServiceBClient.GetTemperature`, given the exchange for the request with the
code `cep` and the JSON decoders of `TemperatureResponse` and `ErrorResponse`. -/
def GetTemperature (exchange : client.Exchange)
    (decode : String → Except String models.TemperatureResponse)
    (decodeError : String → Except String models.ErrorResponse) :
    Except ClientError models.TemperatureResponse :=
  match exchange with
  | .requestError err => .error (.errorf ("erro ao criar requisição: " ++ err))
  | .doError err => .error (.errorf ("erro ao executar requisição: " ++ err))
  | .response StatusCode Body =>
    if StatusCode = 200 then
      match decode Body with
      | .error err => .error (.errorf ("erro ao decodificar resposta: " ++ err))
      | .ok tempResponse => .ok tempResponse
    else if StatusCode = 404 then
      .error (.serviceB { StatusCode := StatusCode, Message := models.ErrZipcodeNotFound })
    else if StatusCode = 422 then
      .error (.serviceB { StatusCode := StatusCode, Message := models.ErrInvalidZipcode })
    else
      match decodeError Body with
      | .error _ =>
        .error (.serviceB
          { StatusCode := StatusCode
            Message := "erro inesperado do serviço B: " ++ toString StatusCode })
      | .ok errorResp =>
        .error (.serviceB { StatusCode := StatusCode, Message := errorResp.Message })

/-- What a request to Service A meets outside the handler: the exchange with
Service B for a code, and the JSON decoders of its bodies. -/
structure Env where
  serviceB : String → client.Exchange
  decodeTemperature : String → Except String models.TemperatureResponse
  decodeError : String → Except String models.ErrorResponse

/-- The response written by Service A: the status code of `WriteHeader` and the
body. -/
structure Response where
  statusCode : Int
  body : handler.Body
deriving DecidableEq, Repr

/-- The result of a run of `HandleCEP`: the response and the codes Service B was
called with, in order. -/
structure Outcome where
  response : Response
  calls : List String
deriving DecidableEq, Repr

/-- `CEPHandler.respondWithError`. -/
def respondWithError (statusCode : Int) (message : String) : Response :=
  { statusCode := statusCode, body := .error { Message := message } }

/-- `CEPHandler.HandleCEP` on the result of decoding the request body into a
`CEPRequest` (`.error` when the body is not decodable). -/
def HandleCEP (env : Env) (decoded : Except String models.CEPRequest) : Outcome :=
  match decoded with
  | .error _ => { response := respondWithError 400 models.ErrInvalidZipcode, calls := [] }
  | .ok req =>
    match utils.ValidateAndNormalize req.CEP with
    | (_, some _) =>
      { response := respondWithError 422 models.ErrInvalidZipcode, calls := [] }
    | (normalizedCEP, none) =>
      match GetTemperature (env.serviceB normalizedCEP) env.decodeTemperature
          env.decodeError with
      | .error (.serviceB serviceBErr) =>
        { response := respondWithError serviceBErr.GetStatusCode serviceBErr.Message
          calls := [normalizedCEP] }
      | .error (.errorf _) =>
        { response := respondWithError 500 "Erro interno do servidor"
          calls := [normalizedCEP] }
      | .ok tempResponse =>
        { response :=
            { statusCode := 200
              body := if handler.jsonEncodable tempResponse then .temperature tempResponse
                else .empty }
          calls := [normalizedCEP] }

/-- A Service B that cannot be reached. -/
def envDown : Env :=
  { serviceB := fun _ => .doError "connection refused"
    decodeTemperature := fun _ => .error "EOF"
    decodeError := fun _ => .error "EOF" }

end serviceA

/-! ## `test/e2e/system_test.go`

The checks that `testValidCEP` makes on the payload of a 200 response. The test
computes in `float64`; `fused` tells whether the platform fuses `x*y + z`. -/

namespace e2e

/-- `abs`. -/
def abs (x : Float64) : Float64 :=
  if Float64.lt x (Float64.ofNat 0) then Float64.neg x else x

/-- The errors that `testValidCEP` reports for the payload of a 200 response, in the
order of its checks. -/
def testValidCEP (fused : Bool) (response : models.TemperatureResponse) : List String :=
  let expectedF := Float64.mulAdd fused response.TempC (Float64.lit 18 10) (Float64.ofNat 32)
  let expectedK := Float64.add response.TempC (Float64.ofNat 273)
  (if response.City = "" then ["City should not be empty"] else []) ++
  (if Float64.lt response.TempC (Float64.neg (Float64.ofNat 100)) ||
      Float64.lt (Float64.ofNat 100) response.TempC then
    ["Temperature C seems invalid"] else []) ++
  (if Float64.lt (Float64.lit 1 10) (abs (Float64.sub response.TempF expectedF)) then
    ["Fahrenheit conversion incorrect"] else []) ++
  (if Float64.lt (Float64.lit 1 10) (abs (Float64.sub response.TempK expectedK)) then
    ["Kelvin conversion incorrect"] else [])

end e2e

/-! ## Lemmas on the validator -/

namespace utils

theorem replaceAllNonDigits_eq_filter (l : List Char) :
    replaceAllNonDigits l = l.filter isDigit09 := by
  induction l with
  | nil => rfl
  | cons c cs ih =>
    cases h : isDigit09 c <;> simp [replaceAllNonDigits, List.filter, h, ih]

theorem matchDigitsThenEnd_iff (n : Nat) (l : List Char) :
    matchDigitsThenEnd n l = true ↔ l.length = n ∧ ∀ c ∈ l, isDigit09 c = true := by
  induction n generalizing l with
  | zero =>
    cases l with
    | nil => simp [matchDigitsThenEnd]
    | cons c cs => simp [matchDigitsThenEnd]
  | succ n ih =>
    cases l with
    | nil => simp [matchDigitsThenEnd]
    | cons c cs =>
      simp only [matchDigitsThenEnd, Bool.and_eq_true, ih, List.length_cons, List.mem_cons,
        forall_eq_or_imp, Nat.add_right_cancel_iff]
      tauto

theorem isDigit09_not_isSpace (c : Char) (h : isDigit09 c = true) :
    unicode.IsSpace c = false := by
  simp only [isDigit09, Bool.and_eq_true, decide_eq_true_eq] at h
  obtain ⟨h1, h2⟩ := h
  have h3 : c.toNat ≤ 0xFF := by omega
  simp only [unicode.IsSpace, h3, decide_True, if_true]
  simp only [Bool.or_eq_false_iff, beq_eq_false_iff_ne, ne_eq]
  omega

theorem dropWhile_eq_self_of_head {α : Type} (p : α → Bool) (l : List α)
    (h : ∀ a, l.head? = some a → p a = false) : l.dropWhile p = l := by
  cases l with
  | nil => rfl
  | cons a as => simp [List.dropWhile, h a rfl]

end utils

namespace strings

/-- Trimming leaves a text alone when neither its first nor its last character is
white space. -/
theorem TrimSpaceRunes_eq_self (l : List Char)
    (hh : ∀ a, l.head? = some a → unicode.IsSpace a = false)
    (hl : ∀ a, l.getLast? = some a → unicode.IsSpace a = false) :
    TrimSpaceRunes l = l := by
  unfold TrimSpaceRunes
  rw [utils.dropWhile_eq_self_of_head _ l hh]
  rw [utils.dropWhile_eq_self_of_head _ l.reverse (by simpa using hl)]
  simp

theorem dropWhile_append_of_all {α : Type} (p : α → Bool) (pre l : List α)
    (h : ∀ a ∈ pre, p a = true) : (pre ++ l).dropWhile p = l.dropWhile p := by
  induction pre with
  | nil => rfl
  | cons a as ih =>
    have ha : p a = true := h a (by simp)
    simp only [List.cons_append, List.dropWhile_cons, ha, if_true]
    exact ih (fun b hb => h b (by simp [hb]))

/-- Trimming a text that is white space, then a core that neither starts nor ends
with white space, then white space, gives the core. -/
theorem TrimSpaceRunes_sandwich (pre mid post : List Char)
    (hpre : ∀ c ∈ pre, unicode.IsSpace c = true)
    (hpost : ∀ c ∈ post, unicode.IsSpace c = true)
    (hh : ∀ a, mid.head? = some a → unicode.IsSpace a = false)
    (hl : ∀ a, mid.getLast? = some a → unicode.IsSpace a = false) :
    TrimSpaceRunes (pre ++ mid ++ post) = mid := by
  have h0 := TrimSpaceRunes_eq_self mid hh hl
  unfold TrimSpaceRunes at h0 ⊢
  cases mid with
  | nil =>
    have : (pre ++ [] ++ post).dropWhile unicode.IsSpace = [] := by
      rw [List.dropWhile_eq_nil_iff]
      intro c hc
      simp only [List.append_nil, List.mem_append] at hc
      rcases hc with hc | hc
      · exact hpre c hc
      · exact hpost c hc
    rw [this]
    rfl
  | cons m ms =>
    have hm : unicode.IsSpace m = false := hh m rfl
    rw [List.append_assoc, dropWhile_append_of_all _ pre _ hpre]
    have h1 : ((m :: ms) ++ post).dropWhile unicode.IsSpace = (m :: ms) ++ post := by
      simp [List.dropWhile, hm]
    rw [h1, List.reverse_append,
      dropWhile_append_of_all _ post.reverse _ (by simpa using hpost)]
    have h2 : (m :: ms).dropWhile unicode.IsSpace = m :: ms := by
      simp [List.dropWhile, hm]
    rw [h2] at h0
    exact h0

/-- A text splits into its leading white space, its trimmed core and its trailing
white space. -/
theorem TrimSpaceRunes_decompose (l : List Char) :
    ∃ pre post, l = pre ++ TrimSpaceRunes l ++ post ∧
      (∀ c ∈ pre, unicode.IsSpace c = true) ∧ (∀ c ∈ post, unicode.IsSpace c = true) := by
  refine ⟨l.takeWhile unicode.IsSpace,
    ((l.dropWhile unicode.IsSpace).reverse.takeWhile unicode.IsSpace).reverse, ?_, ?_, ?_⟩
  · unfold TrimSpaceRunes
    rw [List.append_assoc, ← List.reverse_append, List.takeWhile_append_dropWhile,
      List.reverse_reverse, List.takeWhile_append_dropWhile]
  · intro c hc
    exact List.mem_takeWhile_imp hc
  · intro c hc
    rw [List.mem_reverse] at hc
    exact List.mem_takeWhile_imp hc

end strings

namespace utils

theorem isDigit09_eq_isDigit (c : Char) : isDigit09 c = c.isDigit := by
  unfold isDigit09 Char.isDigit Char.toNat
  have h1 : (c.val ≥ 48) ↔ 48 ≤ c.val.toNat := by
    rw [ge_iff_le, UInt32.le_def]; rfl
  have h2 : (c.val ≤ 57) ↔ c.val.toNat ≤ 57 := by
    rw [UInt32.le_def]; rfl
  simp only [h1, h2]

theorem isDigit09_eq : isDigit09 = Char.isDigit := funext isDigit09_eq_isDigit

theorem NormalizeCEP_data (s : String) :
    (NormalizeCEP s).data = s.data.filter Char.isDigit := by
  simp [NormalizeCEP, replaceAllNonDigits_eq_filter, isDigit09_eq]

theorem string_eq_empty_iff (s : String) : s = "" ↔ s.data = [] := by
  constructor
  · intro h; rw [h]
  · intro h; exact String.ext h

/-- `ValidateCEP` accepts exactly the texts whose trimmed form is eight digits. -/
theorem ValidateCEP_eq_none_iff (s : String) :
    ValidateCEP s = none ↔
      (strings.TrimSpaceRunes s.data).length = 8 ∧
        ∀ c ∈ strings.TrimSpaceRunes s.data, c.isDigit = true := by
  unfold ValidateCEP
  by_cases hs : s = ""
  · subst hs
    simp [strings.TrimSpaceRunes]
  · simp only [hs, if_false, cepRegexMatchString, strings.TrimSpace]
    have hiff := matchDigitsThenEnd_iff 8 (strings.TrimSpaceRunes s.data)
    simp only [isDigit09_eq] at hiff
    rw [← hiff]
    by_cases hm : matchDigitsThenEnd 8 (strings.TrimSpaceRunes s.data) = true
    · simp [hm]
    · simp [hm]

/-- Every error of `ValidateCEP` is the `fmt.Errorf` of the invalid-zipcode message. -/
theorem ValidateCEP_error (s : String) (e : GoError) (h : ValidateCEP s = some e) :
    e = GoError.errorf models.ErrInvalidZipcode := by
  unfold ValidateCEP at h
  by_cases hs : s = ""
  · rw [if_pos hs] at h
    exact (Option.some.inj h).symm
  · rw [if_neg hs] at h
    by_cases hm : (!cepRegexMatchString (strings.TrimSpace s)) = true
    · simp only [hm, if_true] at h
      exact (Option.some.inj h).symm
    · simp only [hm] at h
      exact absurd h (by simp)

/-- A text of digits only is not changed by trimming. -/
theorem TrimSpaceRunes_digits (l : List Char) (h : ∀ c ∈ l, c.isDigit = true) :
    strings.TrimSpaceRunes l = l := by
  apply strings.TrimSpaceRunes_eq_self
  · intro a ha
    exact isDigit09_not_isSpace a (by
      rw [isDigit09_eq_isDigit]; exact h a (List.mem_of_mem_head? ha))
  · intro a ha
    exact isDigit09_not_isSpace a (by
      rw [isDigit09_eq_isDigit]; exact h a (List.mem_of_mem_getLast? ha))

/-- On a text of digits only, `ValidateCEP` accepts exactly length eight. -/
theorem ValidateCEP_digits (s : String) (h : ∀ c ∈ s.data, c.isDigit = true) :
    ValidateCEP s = none ↔ s.data.length = 8 := by
  rw [ValidateCEP_eq_none_iff, TrimSpaceRunes_digits s.data h]
  exact ⟨fun h8 => h8.1, fun h8 => ⟨h8, h⟩⟩

theorem ValidateCEP_NormalizeCEP (s : String) :
    ValidateCEP (NormalizeCEP s) = none ↔ s.data.countP Char.isDigit = 8 := by
  rw [ValidateCEP_digits _ (by
    intro c hc
    rw [NormalizeCEP_data] at hc
    simpa using (List.mem_filter.mp hc).2)]
  rw [NormalizeCEP_data, List.countP_eq_length_filter]

/-- The result of `ValidateAndNormalize` in closed form. -/
theorem ValidateAndNormalize_eq (s : String) :
    ValidateAndNormalize s =
      if s.data.countP Char.isDigit = 8 then (NormalizeCEP s, none)
      else ("", some (GoError.errorf models.ErrInvalidZipcode)) := by
  unfold ValidateAndNormalize
  by_cases h8 : s.data.countP Char.isDigit = 8
  · have := (ValidateCEP_NormalizeCEP s).mpr h8
    simp [this, h8]
  · have hne : ValidateCEP (NormalizeCEP s) ≠ none := fun hc =>
      h8 ((ValidateCEP_NormalizeCEP s).mp hc)
    cases hv : ValidateCEP (NormalizeCEP s) with
    | none => exact absurd hv hne
    | some e =>
      have := ValidateCEP_error _ e hv
      simp [this, h8, hv]

/-- `ValidateAndNormalize` returns no error exactly on eight ASCII digits. -/
theorem ValidateAndNormalize_none_iff (s : String) :
    (ValidateAndNormalize s).2 = none ↔ s.data.countP Char.isDigit = 8 := by
  rw [ValidateAndNormalize_eq]
  by_cases h8 : s.data.countP Char.isDigit = 8 <;> simp [h8]

end utils

/-! ## The claims on the validator -/

/-- C1: for every input `s`, `ValidateAndNormalize s` succeeds exactly when `s`
contains exactly 8 ASCII digits; on success the returned code is `NormalizeCEP s`
and is made of exactly 8 ASCII digits. `"01310-100"` gives `"01310100"`,
`" 123 456 78 "` gives `"12345678"`, and `"123a5-678"` and `"123-45"` fail. -/
theorem C1_validateAndNormalize_iff_eight_digits :
    (∀ s : String,
      ((utils.ValidateAndNormalize s).2 = none ↔ s.data.countP Char.isDigit = 8) ∧
      ((utils.ValidateAndNormalize s).2 = none →
        (utils.ValidateAndNormalize s).1 = utils.NormalizeCEP s ∧
        (utils.ValidateAndNormalize s).1.data.length = 8 ∧
        ∀ c ∈ (utils.ValidateAndNormalize s).1.data, c.isDigit = true)) ∧
    utils.ValidateAndNormalize "01310-100" = ("01310100", none) ∧
    utils.ValidateAndNormalize " 123 456 78 " = ("12345678", none) ∧
    (utils.ValidateAndNormalize "123a5-678").2 ≠ none ∧
    (utils.ValidateAndNormalize "123-45").2 ≠ none := by
  refine ⟨fun s => ?_, by decide, by decide, by decide, by decide⟩
  rw [utils.ValidateAndNormalize_eq]
  by_cases h8 : s.data.countP Char.isDigit = 8
  · simp only [h8, if_true, true_iff, forall_const, true_and]
    refine ⟨?_, ?_⟩
    · rw [utils.NormalizeCEP_data, ← List.countP_eq_length_filter]
      exact h8
    · intro c hc
      rw [utils.NormalizeCEP_data] at hc
      simpa using (List.mem_filter.mp hc).2
  · simp [h8]

/-- C2: for every input `s`, `NormalizeCEP s` is the subsequence of the ASCII
digits of `s` in their original order: every other character is removed, no digit
is dropped or reordered. The five formatted spellings of `12345678` all give
`"12345678"`. -/
theorem C2_normalizeCEP_is_digit_subsequence :
    (∀ s : String, (utils.NormalizeCEP s).data = s.data.filter Char.isDigit) ∧
    utils.NormalizeCEP "12345-678" = "12345678" ∧
    utils.NormalizeCEP "123 456 78" = "12345678" ∧
    utils.NormalizeCEP "123.456.78" = "12345678" ∧
    utils.NormalizeCEP "123-45.6 78" = "12345678" ∧
    utils.NormalizeCEP "  12345678  " = "12345678" :=
  ⟨utils.NormalizeCEP_data, by decide, by decide, by decide, by decide, by decide⟩

/-- C3: `NormalizeCEP` is idempotent. -/
theorem C3_normalizeCEP_idempotent (x : String) :
    utils.NormalizeCEP (utils.NormalizeCEP x) = utils.NormalizeCEP x := by
  apply String.ext
  rw [utils.NormalizeCEP_data, utils.NormalizeCEP_data, List.filter_filter]
  simp

namespace utils

/-- A character of the text that is not white space survives trimming. -/
theorem mem_TrimSpaceRunes_of_not_isSpace (l : List Char) (c : Char) (hc : c ∈ l)
    (hsp : unicode.IsSpace c = false) : c ∈ strings.TrimSpaceRunes l := by
  obtain ⟨pre, post, hl, hpre, hpost⟩ := strings.TrimSpaceRunes_decompose l
  rw [hl] at hc
  simp only [List.mem_append] at hc
  rcases hc with (hc | hc) | hc
  · have := hpre c hc
    rw [hsp] at this
    exact absurd this (by simp)
  · exact hc
  · have := hpost c hc
    rw [hsp] at this
    exact absurd this (by simp)

/-- `ValidateCEP` rejects a text holding a character that is neither an ASCII digit
nor white space. -/
theorem ValidateCEP_rejects_foreign (s : String) (c : Char) (hc : c ∈ s.data)
    (hd : c.isDigit = false) (hsp : unicode.IsSpace c = false) :
    ValidateCEP s ≠ none := by
  intro h
  have h2 := ((ValidateCEP_eq_none_iff s).mp h).2 c
    (mem_TrimSpaceRunes_of_not_isSpace s.data c hc hsp)
  rw [hd] at h2
  exact absurd h2 (by simp)

theorem isAlpha_toNat (c : Char) (h : c.isAlpha = true) :
    (65 ≤ c.toNat ∧ c.toNat ≤ 90) ∨ (97 ≤ c.toNat ∧ c.toNat ≤ 122) := by
  unfold Char.isAlpha Char.isUpper Char.isLower at h
  unfold Char.toNat
  have h1 : (c.val ≥ 65) ↔ 65 ≤ c.val.toNat := by
    rw [ge_iff_le, UInt32.le_def]; rfl
  have h2 : (c.val ≤ 90) ↔ c.val.toNat ≤ 90 := by
    rw [UInt32.le_def]; rfl
  have h3 : (c.val ≥ 97) ↔ 97 ≤ c.val.toNat := by
    rw [ge_iff_le, UInt32.le_def]; rfl
  have h4 : (c.val ≤ 122) ↔ c.val.toNat ≤ 122 := by
    rw [UInt32.le_def]; rfl
  simp only [h1, h2, h3, h4, Bool.or_eq_true, Bool.and_eq_true, decide_eq_true_eq] at h
  exact h

/-- An ASCII letter or a hyphen is neither an ASCII digit nor white space. -/
theorem letter_or_hyphen_foreign (c : Char) (h : c.isAlpha = true ∨ c = '-') :
    c.isDigit = false ∧ unicode.IsSpace c = false := by
  have hn : (65 ≤ c.toNat ∧ c.toNat ≤ 90) ∨ (97 ≤ c.toNat ∧ c.toNat ≤ 122) ∨ c.toNat = 45 := by
    rcases h with h | h
    · rcases isAlpha_toNat c h with h | h
      · exact Or.inl h
      · exact Or.inr (Or.inl h)
    · subst h
      exact Or.inr (Or.inr (by decide))
  have h3 : c.toNat ≤ 0xFF := by omega
  constructor
  · rw [← isDigit09_eq_isDigit]
    simp only [isDigit09, Bool.and_eq_false_iff, decide_eq_false_iff_not]
    omega
  · simp only [unicode.IsSpace, h3, decide_True, if_true]
    simp only [Bool.or_eq_false_iff, beq_eq_false_iff_ne, ne_eq]
    omega

end utils

/-- C4: `ValidateCEP s` returns no error exactly when `s` is non-empty and `s`
without its leading and trailing white space is exactly 8 ASCII digits, that is,
when `s` is white space, 8 digits, white space. Every text of exactly 8 digits
passes, every digit-only text of another length (the empty text included) fails,
a text containing a letter or a hyphen fails, a white-space-only text fails, and
`"  12345678  "` passes. -/
theorem C4_validateCEP_iff_trimmed_eight_digits :
    (∀ s : String, utils.ValidateCEP s = none ↔
      s ≠ "" ∧ (strings.TrimSpace s).data.length = 8 ∧
        ∀ c ∈ (strings.TrimSpace s).data, c.isDigit = true) ∧
    (∀ s : String, utils.ValidateCEP s = none ↔
      ∃ pre mid post : List Char, s.data = pre ++ mid ++ post ∧
        (∀ c ∈ pre, unicode.IsSpace c = true) ∧ (∀ c ∈ post, unicode.IsSpace c = true) ∧
        mid.length = 8 ∧ ∀ c ∈ mid, c.isDigit = true) ∧
    (∀ s : String, (∀ c ∈ s.data, c.isDigit = true) →
      (utils.ValidateCEP s = none ↔ s.data.length = 8)) ∧
    (∀ (s : String) (c : Char), c ∈ s.data → (c.isAlpha = true ∨ c = '-') →
      utils.ValidateCEP s ≠ none) ∧
    (∀ s : String, (∀ c ∈ s.data, unicode.IsSpace c = true) → utils.ValidateCEP s ≠ none) ∧
    utils.ValidateCEP "  12345678  " = none ∧
    utils.ValidateCEP "" ≠ none ∧
    utils.ValidateCEP "        " ≠ none ∧
    utils.ValidateCEP "1234567" ≠ none ∧
    utils.ValidateCEP "123456789" ≠ none ∧
    utils.ValidateCEP "1234567a" ≠ none ∧
    utils.ValidateCEP "12345-67" ≠ none := by
  refine ⟨?_, ?_, ?_, ?_, ?_, by decide, by decide, by decide, by decide, by decide,
    by decide, by decide⟩
  · intro s
    rw [utils.ValidateCEP_eq_none_iff]
    constructor
    · intro h
      refine ⟨?_, h⟩
      intro hs
      subst hs
      exact absurd h.1 (by decide)
    · intro h
      exact h.2
  · intro s
    rw [utils.ValidateCEP_eq_none_iff]
    constructor
    · intro h
      obtain ⟨pre, post, hl, hpre, hpost⟩ := strings.TrimSpaceRunes_decompose s.data
      exact ⟨pre, _, post, hl, hpre, hpost, h.1, h.2⟩
    · rintro ⟨pre, mid, post, hs, hpre, hpost, hlen, hdig⟩
      have ht : strings.TrimSpaceRunes s.data = mid := by
        rw [hs]
        apply strings.TrimSpaceRunes_sandwich _ _ _ hpre hpost
        · intro a ha
          exact utils.isDigit09_not_isSpace a (by
            rw [utils.isDigit09_eq_isDigit]; exact hdig a (List.mem_of_mem_head? ha))
        · intro a ha
          exact utils.isDigit09_not_isSpace a (by
            rw [utils.isDigit09_eq_isDigit]; exact hdig a (List.mem_of_mem_getLast? ha))
      rw [ht]
      exact ⟨hlen, hdig⟩
  · intro s h
    exact utils.ValidateCEP_digits s h
  · intro s c hc hcl
    obtain ⟨hd, hsp⟩ := utils.letter_or_hyphen_foreign c hcl
    exact utils.ValidateCEP_rejects_foreign s c hc hd hsp
  · intro s hs h
    rw [utils.ValidateCEP_eq_none_iff] at h
    have hnil : strings.TrimSpaceRunes s.data = [] := by
      unfold strings.TrimSpaceRunes
      rw [List.dropWhile_eq_nil_iff.mpr hs]
      rfl
    rw [hnil] at h
    exact absurd h.1 (by decide)

/-- C5: whenever `ValidateCEP` or `ValidateAndNormalize` rejects an input, the
error is the `fmt.Errorf` of the message `"invalid zipcode"`
(`models.ErrInvalidZipcode`), and `ValidateAndNormalize` returns the empty string
as the code together with that error: it never returns a non-empty code alongside
an error. -/
theorem C5_rejection_message_and_empty_code :
    (∀ (s : String) (e : GoError), utils.ValidateCEP s = some e →
      e = GoError.errorf "invalid zipcode" ∧ e.Error = "invalid zipcode") ∧
    (∀ (s : String) (e : GoError), (utils.ValidateAndNormalize s).2 = some e →
      e = GoError.errorf "invalid zipcode" ∧ e.Error = "invalid zipcode" ∧
        (utils.ValidateAndNormalize s).1 = "") ∧
    models.ErrInvalidZipcode = "invalid zipcode" ∧
    utils.ValidateCEP "1234567" = some (GoError.errorf "invalid zipcode") ∧
    utils.ValidateAndNormalize "123-45" = ("", some (GoError.errorf "invalid zipcode")) := by
  refine ⟨?_, ?_, rfl, by decide, by decide⟩
  · intro s e h
    have he := utils.ValidateCEP_error s e h
    subst he
    exact ⟨rfl, rfl⟩
  · intro s e h
    rw [utils.ValidateAndNormalize_eq] at h ⊢
    by_cases h8 : s.data.countP Char.isDigit = 8
    · simp [h8] at h
    · rw [if_neg h8] at h ⊢
      have he : e = GoError.errorf models.ErrInvalidZipcode := (Option.some.inj h).symm
      subst he
      exact ⟨rfl, rfl, rfl⟩

/-! ## Lemmas on `float64` rounding -/

namespace Float64

theorem bitLengthFuel_spec (fuel : Nat) : ∀ n : Nat, n ≤ fuel → 0 < n →
    2 ^ (bitLengthFuel fuel n - 1) ≤ n ∧ n < 2 ^ (bitLengthFuel fuel n) ∧
      0 < bitLengthFuel fuel n := by
  induction fuel with
  | zero => intro n h hn; omega
  | succ fuel ih =>
    intro n h hn
    have hn0 : n ≠ 0 := by omega
    simp only [bitLengthFuel, hn0, if_false, Nat.add_sub_cancel]
    by_cases h2 : n / 2 = 0
    · have h1 : n = 1 := by omega
      subst h1
      cases fuel <;> simp [bitLengthFuel]
    · have hle : n / 2 ≤ fuel := by omega
      obtain ⟨ih1, ih2, ih3⟩ := ih (n / 2) hle (by omega)
      obtain ⟨b, hb⟩ : ∃ b, bitLengthFuel fuel (n / 2) = b + 1 := ⟨_, (Nat.succ_pred_eq_of_pos ih3).symm⟩
      rw [hb] at ih1 ih2 ⊢
      simp only [Nat.add_sub_cancel] at ih1
      refine ⟨?_, ?_, by omega⟩
      · rw [pow_succ]; omega
      · rw [pow_succ] at ih2 ⊢; rw [pow_succ]; omega

theorem bitLength_spec (n : Nat) (hn : 0 < n) :
    2 ^ (bitLength n - 1) ≤ n ∧ n < 2 ^ (bitLength n) ∧ 0 < bitLength n :=
  bitLengthFuel_spec n n (Nat.le_refl n) hn

theorem bitLength_one : bitLength 1 = 1 := by decide

theorem scaled_of_nonpos (n d : Nat) (e : Int) (he : e ≤ 0) :
    scaled n d e = (n * 2 ^ e.natAbs, d) := by
  cases e with
  | ofNat k =>
    have hk : k = 0 := by
      have : (k : Int) ≤ 0 := he
      omega
    subst hk
    simp [scaled]
  | negSucc k => simp [scaled, Int.natAbs]

theorem scaled_of_nonneg (n d : Nat) (e : Int) (he : 0 ≤ e) :
    scaled n d e = (n, d * 2 ^ e.toNat) := by
  cases e with
  | ofNat k => simp [scaled]
  | negSucc k => exact absurd he (by simp [Int.negSucc_lt_zero])

theorem exponentOf_nat (k : Nat) (hk : 0 < k) (hk53 : k < 2 ^ 53) :
    exponentOf k 1 = (bitLength k : Int) - 53 ∧
      scaled k 1 ((bitLength k : Int) - 53) = (k * 2 ^ (53 - bitLength k), 1) ∧
      2 ^ 52 ≤ k * 2 ^ (53 - bitLength k) ∧ k * 2 ^ (53 - bitLength k) < 2 ^ 53 ∧
      bitLength k ≤ 53 := by
  obtain ⟨h1, h2, h3⟩ := bitLength_spec k hk
  have hb : bitLength k ≤ 53 := by
    have := (Nat.pow_lt_pow_iff_right (by norm_num : 1 < 2)).mp (lt_of_le_of_lt h1 hk53)
    omega
  have he0 : ((bitLength k : Int) - ((bitLength 1 : Nat) : Int) - 52) = (bitLength k : Int) - 53 := by
    rw [bitLength_one]; push_cast; ring
  have hsc : scaled k 1 ((bitLength k : Int) - 53) = (k * 2 ^ (53 - bitLength k), 1) := by
    rw [scaled_of_nonpos k 1 _ (by omega)]
    have : ((bitLength k : Int) - 53).natAbs = 53 - bitLength k := by omega
    rw [this]
  have hq1 : 2 ^ 52 ≤ k * 2 ^ (53 - bitLength k) := by
    calc 2 ^ 52 = 2 ^ (bitLength k - 1) * 2 ^ (53 - bitLength k) := by
          rw [← pow_add]; congr 1; omega
      _ ≤ k * 2 ^ (53 - bitLength k) := Nat.mul_le_mul_right _ h1
  have hq2 : k * 2 ^ (53 - bitLength k) < 2 ^ 53 := by
    calc k * 2 ^ (53 - bitLength k) < 2 ^ bitLength k * 2 ^ (53 - bitLength k) :=
          Nat.mul_lt_mul_of_pos_right h2 (by positivity)
      _ = 2 ^ 53 := by rw [← pow_add]; congr 1; omega
  have hmax : max ((bitLength k : Int) - 53) (-1074) = (bitLength k : Int) - 53 := by
    apply max_eq_left; omega
  refine ⟨?_, hsc, hq1, hq2, hb⟩
  unfold exponentOf
  simp only [he0, hsc, Nat.div_one]
  rw [if_neg (by omega : ¬ k * 2 ^ (53 - bitLength k) < 2 ^ 52)]
  exact hmax

/-- An integer below `2^53` is a `float64`: rounding it changes nothing. -/
theorem round_nat_exact (s : Bool) (k : Nat) (hk : 0 < k) (hk53 : k < 2 ^ 53) :
    round s k 1 = .fin s (k * 2 ^ (53 - bitLength k)) ((bitLength k : Int) - 53) := by
  obtain ⟨he, hsc, hq1, hq2, hb⟩ := exponentOf_nat k hk hk53
  have hk0 : k ≠ 0 := by omega
  unfold round
  rw [if_neg hk0, he]
  unfold roundAt
  simp only [hsc, Nat.div_one, Nat.mod_one]
  have hc : ¬ (2 * 0 > 1 ∨ 2 * 0 = 1 ∧ k * 2 ^ (53 - bitLength k) % 2 = 1) := by omega
  simp only [if_neg hc]
  rw [if_neg (by omega), if_neg (by omega)]

/-- The value of a rounded integer below `2^53` is that integer. -/
theorem toRat_round_nat (s : Bool) (k : Nat) (hk53 : k < 2 ^ 53) :
    (round s k 1).isFinite = true ∧
      toRat (round s k 1) = (if s then -1 else 1) * (k : ℚ) := by
  by_cases hk : k = 0
  · subst hk
    simp [round, toRat, isFinite]
  · have hk' : 0 < k := Nat.pos_of_ne_zero hk
    obtain ⟨_, _, _, _, hb⟩ := exponentOf_nat k hk' hk53
    rw [round_nat_exact s k hk' hk53]
    refine ⟨rfl, ?_⟩
    simp only [toRat]
    have h2 : ((2 : ℚ) ^ (53 - bitLength k)) * (2 : ℚ) ^ ((bitLength k : Int) - 53) = 1 := by
      rw [← zpow_natCast, ← zpow_add₀ (by norm_num : (2 : ℚ) ≠ 0)]
      have : (((53 - bitLength k : Nat) : Int) + ((bitLength k : Int) - 53)) = 0 := by omega
      rw [this, zpow_zero]
    push_cast
    rw [mul_assoc, mul_assoc, h2, mul_one]

/-- The comparison of the scaled quotient with a bound, on rationals. -/
theorem scaled_div_lt_iff (n d : Nat) (e : Int) (C : Nat) (hd : 0 < d) :
    (scaled n d e).1 / (scaled n d e).2 < C ↔ (n : ℚ) < C * d * (2 : ℚ) ^ e := by
  cases e with
  | ofNat k =>
    simp only [scaled, Int.ofNat_eq_coe, zpow_natCast]
    rw [Nat.div_lt_iff_lt_mul (by positivity)]
    rw [← Nat.cast_lt (α := ℚ)]
    push_cast
    rw [mul_assoc]
  | negSucc k =>
    simp only [scaled]
    rw [Nat.div_lt_iff_lt_mul hd]
    rw [← Nat.cast_lt (α := ℚ)]
    push_cast
    have hp : (0 : ℚ) < 2 ^ (k + 1) := by positivity
    have hz : (2 : ℚ) ^ (Int.negSucc k) = ((2 : ℚ) ^ (k + 1))⁻¹ := by
      rw [zpow_negSucc]
    rw [hz, ← div_eq_mul_inv, lt_div_iff₀ hp]

/-- At the exponent chosen by `exponentOf` the mantissa is below `2^53`. -/
theorem exponentOf_quot_lt (n d : Nat) (hn : 0 < n) (hd : 0 < d) :
    (scaled n d (exponentOf n d)).1 / (scaled n d (exponentOf n d)).2 < 2 ^ 53 := by
  obtain ⟨_, hn2, _⟩ := bitLength_spec n hn
  obtain ⟨hd1, _, hd3⟩ := bitLength_spec d hd
  have hnq : (n : ℚ) < (2 : ℚ) ^ (bitLength n : Int) := by
    rw [zpow_natCast]; exact_mod_cast hn2
  have hdq : (2 : ℚ) ^ ((bitLength d : Int) - 1) ≤ (d : ℚ) := by
    have : ((bitLength d : Int) - 1) = ((bitLength d - 1 : Nat) : Int) := by omega
    rw [this, zpow_natCast]; exact_mod_cast hd1
  have h2 : (0 : ℚ) < 2 := by norm_num
  have h2' : (2 : ℚ) ≠ 0 := by norm_num
  have hdpos : (0 : ℚ) < d := by exact_mod_cast hd
  -- the bound at `e0`
  have ha : (n : ℚ) < ((2 ^ 53 : Nat) : ℚ) * d *
      (2 : ℚ) ^ ((bitLength n : Int) - (bitLength d : Int) - 52) := by
    have h53 : ((2 ^ 53 : Nat) : ℚ) = (2 : ℚ) ^ (53 : Int) := by norm_num
    calc (n : ℚ) < (2 : ℚ) ^ (bitLength n : Int) := hnq
      _ = (2 : ℚ) ^ (53 : Int) * (2 : ℚ) ^ ((bitLength d : Int) - 1) *
            (2 : ℚ) ^ ((bitLength n : Int) - (bitLength d : Int) - 52) := by
          rw [← zpow_add₀ h2', ← zpow_add₀ h2']; congr 1; ring
      _ ≤ ((2 ^ 53 : Nat) : ℚ) * d *
            (2 : ℚ) ^ ((bitLength n : Int) - (bitLength d : Int) - 52) := by
          rw [h53]
          apply mul_le_mul_of_nonneg_right _ (le_of_lt (zpow_pos h2 _))
          exact mul_le_mul_of_nonneg_left hdq (le_of_lt (zpow_pos h2 _))
  -- the bound at `e1`
  have hb : ∀ e1 : Int,
      e1 = (if (scaled n d ((bitLength n : Int) - (bitLength d : Int) - 52)).1 /
              (scaled n d ((bitLength n : Int) - (bitLength d : Int) - 52)).2 < 2 ^ 52
            then (bitLength n : Int) - (bitLength d : Int) - 52 - 1
            else (bitLength n : Int) - (bitLength d : Int) - 52) →
      (n : ℚ) < ((2 ^ 53 : Nat) : ℚ) * d * (2 : ℚ) ^ e1 := by
    intro e1 he1
    split_ifs at he1 with hlt
    · have := (scaled_div_lt_iff n d _ (2 ^ 52) hd).mp hlt
      rw [he1]
      calc (n : ℚ) < ((2 ^ 52 : Nat) : ℚ) * d *
            (2 : ℚ) ^ ((bitLength n : Int) - (bitLength d : Int) - 52) := this
        _ = ((2 ^ 53 : Nat) : ℚ) * d *
            (2 : ℚ) ^ ((bitLength n : Int) - (bitLength d : Int) - 52 - 1) := by
          rw [zpow_sub_one₀ h2']
          push_cast
          ring
    · rw [he1]; exact ha
  rw [scaled_div_lt_iff n d _ (2 ^ 53) hd]
  unfold exponentOf
  simp only
  have hb' := hb _ rfl
  refine lt_of_lt_of_le hb' ?_
  apply mul_le_mul_of_nonneg_left _ (by positivity)
  exact zpow_le_zpow_right₀ (by norm_num) (le_max_left _ _)

/-- A finite result of `roundAt` has a mantissa below `2^53` when the truncated
mantissa is. -/
theorem roundAt_lt (neg : Bool) (n d : Nat) (e : Int)
    (hq : (scaled n d e).1 / (scaled n d e).2 < 2 ^ 53)
    (t : Bool) (m : Nat) (e' : Int) (h : roundAt neg n d e = .fin t m e') :
    m < 2 ^ 53 := by
  unfold roundAt at h
  simp only at h
  split_ifs at h with h1 h2 h3 h4 h5 h6
  all_goals cases h
  all_goals omega

/-- A finite result of `round` has a mantissa below `2^53`. -/
theorem round_lt (neg : Bool) (n d : Nat) (hd : 0 < d)
    (t : Bool) (m : Nat) (e' : Int) (h : round neg n d = .fin t m e') :
    m < 2 ^ 53 := by
  unfold round at h
  by_cases hn : n = 0
  · rw [if_pos hn] at h
    injection h with _ hm _
    rw [← hm]; norm_num
  · rw [if_neg hn] at h
    exact roundAt_lt neg n d _ (exponentOf_quot_lt n d (Nat.pos_of_ne_zero hn) hd) t m e' h

theorem roundScaled_lt (neg : Bool) (n d : Nat) (e : Int) (hd : 0 < d)
    (t : Bool) (m : Nat) (e' : Int) (h : roundScaled neg n d e = .fin t m e') :
    m < 2 ^ 53 := by
  cases e with
  | ofNat k => exact round_lt neg _ d hd t m e' h
  | negSucc k => exact round_lt neg n _ (by positivity) t m e' h

/-- A finite product has a mantissa below `2^53`. -/
theorem mul_lt (x y : Float64) (t : Bool) (m : Nat) (e' : Int)
    (h : mul x y = .fin t m e') : m < 2 ^ 53 := by
  cases x with
  | nan => simp [mul] at h
  | inf s =>
    cases y with
    | nan => simp [mul] at h
    | inf s' => simp [mul] at h
    | fin s' k f =>
      simp only [mul] at h
      split_ifs at h
  | fin s k f =>
    cases y with
    | nan => simp [mul] at h
    | inf s' =>
      simp only [mul] at h
      split_ifs at h
    | fin s' k' f' =>
      simp only [mul] at h
      exact roundScaled_lt _ _ 1 _ (by norm_num) t m e' h

/-- The sign factor of a `float64`. -/
theorem sg_mul (s t : Bool) :
    (if s then (-1 : ℚ) else 1) * (if t then (-1 : ℚ) else 1) =
      (if xor s t then (-1 : ℚ) else 1) := by
  cases s <;> cases t <;> simp

/-- The scaled fraction has the value `(n / d) * 2^(-e)`. -/
theorem scaled_val (n d : Nat) (e : Int) (hd : 0 < d) :
    0 < (scaled n d e).2 ∧
      ((scaled n d e).1 : ℚ) / ((scaled n d e).2 : ℚ) * (2 : ℚ) ^ e = (n : ℚ) / d := by
  have hdq : (d : ℚ) ≠ 0 := by exact_mod_cast (Nat.pos_iff_ne_zero.mp hd)
  cases e with
  | ofNat k =>
    simp only [scaled, Int.ofNat_eq_coe, zpow_natCast]
    refine ⟨by positivity, ?_⟩
    push_cast
    field_simp
    ring
  | negSucc k =>
    simp only [scaled, zpow_negSucc]
    refine ⟨hd, ?_⟩
    push_cast
    field_simp
    ring

/-- The value of a finite result of `roundAt` is within half a unit of `2^e` of the
rational rounded. -/
theorem roundAt_error (neg : Bool) (n d : Nat) (e : Int) (hd : 0 < d)
    (t : Bool) (m : Nat) (e' : Int) (h : roundAt neg n d e = .fin t m e') :
    |toRat (.fin t m e') - (if neg then -1 else 1) * ((n : ℚ) / d)| ≤ (2 : ℚ) ^ e / 2 := by
  obtain ⟨hDpos, hval⟩ := scaled_val n d e hd
  have hdm := Nat.div_add_mod (scaled n d e).1 (scaled n d e).2
  have hmod := Nat.mod_lt (scaled n d e).1 hDpos
  generalize hN : (scaled n d e).1 = N at *
  generalize hD : (scaled n d e).2 = D at *
  generalize hq : N / D = q at *
  generalize hr : N % D = r at *
  have hDq : (0 : ℚ) < (D : ℚ) := by exact_mod_cast hDpos
  have hNq : (N : ℚ) = D * q + r := by exact_mod_cast hdm.symm
  have hrq : (r : ℚ) < D := by exact_mod_cast hmod
  have h2e : (0 : ℚ) < (2 : ℚ) ^ e := zpow_pos (by norm_num) e
  have hw : (N : ℚ) / D = q + r / D := by
    rw [hNq]; field_simp; ring
  -- the rounded mantissa `Q` and its distance to the exact quotient
  have key : ∀ (Q : ℚ) (m0 : Nat) (e0 : Int), |Q - (q + r / D)| ≤ 1 / 2 →
      toRat (.fin neg m0 e0) = (if neg then -1 else 1) * (Q * (2 : ℚ) ^ e) →
      Float64.fin neg m0 e0 = .fin t m e' →
      |toRat (.fin t m e') - (if neg then -1 else 1) * ((n : ℚ) / d)| ≤ (2 : ℚ) ^ e / 2 := by
    intro Q m0 e0 hQ hto heq
    rw [← heq, hto, ← hval, hw]
    have : (if neg then (-1 : ℚ) else 1) * (Q * (2 : ℚ) ^ e) -
        (if neg then (-1 : ℚ) else 1) * ((q + r / D) * (2 : ℚ) ^ e) =
        (if neg then (-1 : ℚ) else 1) * ((Q - (q + r / D)) * (2 : ℚ) ^ e) := by ring
    rw [this]
    have hs : ∀ a : ℚ, |(if neg then (-1 : ℚ) else 1) * a| = |a| := by
      intro a; cases neg <;> simp
    rw [hs, abs_mul, abs_of_pos h2e]
    calc |Q - (q + r / D)| * (2 : ℚ) ^ e ≤ 1 / 2 * (2 : ℚ) ^ e :=
          mul_le_mul_of_nonneg_right hQ (le_of_lt h2e)
      _ = (2 : ℚ) ^ e / 2 := by ring
  have hup : (2 * r > D ∨ 2 * r = D ∧ q % 2 = 1) → |((q : ℚ) + 1) - (q + r / D)| ≤ 1 / 2 := by
    intro hc
    have h2r : (D : ℚ) ≤ 2 * r := by
      rcases hc with hc | hc
      · exact_mod_cast le_of_lt hc
      · exact_mod_cast le_of_eq hc.1.symm
    have h1 : (1 / 2 : ℚ) ≤ r / D := by
      rw [le_div_iff₀ hDq]; linarith
    have h2 : (r : ℚ) / D < 1 := by
      rw [div_lt_one hDq]; exact hrq
    rw [abs_le]; constructor <;> linarith
  have hdown : ¬ (2 * r > D ∨ 2 * r = D ∧ q % 2 = 1) → |(q : ℚ) - (q + r / D)| ≤ 1 / 2 := by
    intro hc
    have h2r : (2 * r : ℚ) ≤ D := by
      have : 2 * r ≤ D := by
        by_contra hlt
        exact hc (Or.inl (by omega))
      exact_mod_cast this
    have h1 : (r : ℚ) / D ≤ 1 / 2 := by
      rw [div_le_iff₀ hDq]; linarith
    have h2 : (0 : ℚ) ≤ r / D := by positivity
    rw [abs_le]; constructor <;> linarith
  unfold roundAt at h
  simp only [hN, hD, hq, hr] at h
  split_ifs at h with h1 h2 h3 h4 h5 h6
  · -- rounded up to `2^53`
    refine key ((q : ℚ) + 1) _ _ (hup h1) ?_ h
    simp only [toRat]
    have : ((q : ℚ) + 1) = 2 ^ 53 := by exact_mod_cast h2
    rw [this, zpow_add_one₀ (by norm_num : (2 : ℚ) ≠ 0)]
    push_cast
    ring
  · refine key ((q : ℚ) + 1) _ _ (hup h1) ?_ h
    simp only [toRat]
    push_cast
    ring
  · -- the truncated mantissa is `2^53`
    refine key (q : ℚ) _ _ (hdown h1) ?_ h
    simp only [toRat]
    have : (q : ℚ) = 2 ^ 53 := by exact_mod_cast h5
    rw [this, zpow_add_one₀ (by norm_num : (2 : ℚ) ≠ 0)]
    push_cast
    ring
  · refine key (q : ℚ) _ _ (hdown h1) ?_ h
    simp only [toRat]
    ring

/-- The exponent chosen by `exponentOf` is `-1074`, or the mantissa has 53 bits:
`2^52 * 2^e ≤ n / d`. -/
theorem exponentOf_ge (n d : Nat) (hn : 0 < n) (hd : 0 < d) :
    exponentOf n d = -1074 ∨
      ((2 ^ 52 : Nat) : ℚ) * d * (2 : ℚ) ^ (exponentOf n d) ≤ (n : ℚ) := by
  obtain ⟨hn1, _, hn3⟩ := bitLength_spec n hn
  obtain ⟨_, hd2, _⟩ := bitLength_spec d hd
  have hnq : (2 : ℚ) ^ ((bitLength n : Int) - 1) ≤ (n : ℚ) := by
    have : ((bitLength n : Int) - 1) = ((bitLength n - 1 : Nat) : Int) := by omega
    rw [this, zpow_natCast]; exact_mod_cast hn1
  have hdq : (d : ℚ) ≤ (2 : ℚ) ^ (bitLength d : Int) := by
    rw [zpow_natCast]; exact_mod_cast le_of_lt hd2
  have h2 : (0 : ℚ) < 2 := by norm_num
  have h2' : (2 : ℚ) ≠ 0 := by norm_num
  have h52 : ((2 ^ 52 : Nat) : ℚ) = (2 : ℚ) ^ (52 : Int) := by norm_num
  have hb : ∀ e1 : Int,
      e1 = (if (scaled n d ((bitLength n : Int) - (bitLength d : Int) - 52)).1 /
              (scaled n d ((bitLength n : Int) - (bitLength d : Int) - 52)).2 < 2 ^ 52
            then (bitLength n : Int) - (bitLength d : Int) - 52 - 1
            else (bitLength n : Int) - (bitLength d : Int) - 52) →
      ((2 ^ 52 : Nat) : ℚ) * d * (2 : ℚ) ^ e1 ≤ (n : ℚ) := by
    intro e1 he1
    split_ifs at he1 with hlt
    · rw [he1, h52]
      calc (2 : ℚ) ^ (52 : Int) * d *
              (2 : ℚ) ^ ((bitLength n : Int) - (bitLength d : Int) - 52 - 1)
          ≤ (2 : ℚ) ^ (52 : Int) * (2 : ℚ) ^ (bitLength d : Int) *
              (2 : ℚ) ^ ((bitLength n : Int) - (bitLength d : Int) - 52 - 1) := by
            apply mul_le_mul_of_nonneg_right _ (le_of_lt (zpow_pos h2 _))
            exact mul_le_mul_of_nonneg_left hdq (le_of_lt (zpow_pos h2 _))
        _ = (2 : ℚ) ^ ((bitLength n : Int) - 1) := by
            rw [← zpow_add₀ h2', ← zpow_add₀ h2']; congr 1; ring
        _ ≤ (n : ℚ) := hnq
    · rw [he1]
      have := (scaled_div_lt_iff n d _ (2 ^ 52) hd).not.mp hlt
      exact not_lt.mp this
  unfold exponentOf
  simp only
  have hb' := hb _ rfl
  rcases le_total (-1074 : Int)
    (if (scaled n d ((bitLength n : Int) - (bitLength d : Int) - 52)).1 /
          (scaled n d ((bitLength n : Int) - (bitLength d : Int) - 52)).2 < 2 ^ 52
        then (bitLength n : Int) - (bitLength d : Int) - 52 - 1
        else (bitLength n : Int) - (bitLength d : Int) - 52) with hle | hle
  · right
    rw [max_eq_left hle]
    exact hb'
  · left
    exact max_eq_right hle

/-- The rounding error of `round`: a finite result is within `2^-53` of the value,
relatively, or within `2^-1075` (subnormal results). -/
theorem round_error (neg : Bool) (n d : Nat) (hd : 0 < d)
    (t : Bool) (m : Nat) (e' : Int) (h : round neg n d = .fin t m e') :
    |toRat (.fin t m e') - (if neg then -1 else 1) * ((n : ℚ) / d)| ≤
      (n : ℚ) / d * (2 : ℚ) ^ (-53 : Int) + (2 : ℚ) ^ (-1075 : Int) := by
  have hdq : (0 : ℚ) < (d : ℚ) := by exact_mod_cast hd
  have h2' : (2 : ℚ) ≠ 0 := by norm_num
  unfold round at h
  by_cases hn : n = 0
  · rw [if_pos hn] at h
    cases h
    subst hn
    simp only [toRat]
    norm_num
  · rw [if_neg hn] at h
    have herr := roundAt_error neg n d _ hd t m e' h
    refine le_trans herr ?_
    have hv : (0 : ℚ) ≤ (n : ℚ) / d := by positivity
    rcases exponentOf_ge n d (Nat.pos_of_ne_zero hn) hd with he | he
    · rw [he]
      have : (2 : ℚ) ^ (-1074 : Int) / 2 = (2 : ℚ) ^ (-1075 : Int) := by
        rw [show (-1075 : Int) = -1074 - 1 by norm_num, zpow_sub_one₀ h2']
        ring
      rw [this]
      have : (0 : ℚ) ≤ (n : ℚ) / d * (2 : ℚ) ^ (-53 : Int) := by positivity
      linarith
    · have h1 : (2 : ℚ) ^ (exponentOf n d) ≤ (n : ℚ) / d * (2 : ℚ) ^ (-52 : Int) := by
        have h52 : ((2 ^ 52 : Nat) : ℚ) = (2 : ℚ) ^ (52 : Int) := by norm_num
        rw [h52] at he
        have h3 : (2 : ℚ) ^ (52 : Int) * (2 : ℚ) ^ (exponentOf n d) ≤ (n : ℚ) / d := by
          rw [le_div_iff₀ hdq]
          calc (2 : ℚ) ^ (52 : Int) * (2 : ℚ) ^ (exponentOf n d) * d
              = (2 : ℚ) ^ (52 : Int) * d * (2 : ℚ) ^ (exponentOf n d) := by ring
            _ ≤ n := he
        have h4 : (2 : ℚ) ^ (-52 : Int) * ((2 : ℚ) ^ (52 : Int) * (2 : ℚ) ^ (exponentOf n d)) =
            (2 : ℚ) ^ (exponentOf n d) := by
          rw [← mul_assoc, ← zpow_add₀ h2']
          norm_num
        calc (2 : ℚ) ^ (exponentOf n d)
            = (2 : ℚ) ^ (-52 : Int) * ((2 : ℚ) ^ (52 : Int) * (2 : ℚ) ^ (exponentOf n d)) :=
              h4.symm
          _ ≤ (2 : ℚ) ^ (-52 : Int) * ((n : ℚ) / d) :=
              mul_le_mul_of_nonneg_left h3 (by positivity)
          _ = (n : ℚ) / d * (2 : ℚ) ^ (-52 : Int) := by ring
      have h5 : (n : ℚ) / d * (2 : ℚ) ^ (-52 : Int) / 2 = (n : ℚ) / d * (2 : ℚ) ^ (-53 : Int) := by
        rw [show (-53 : Int) = -52 - 1 by norm_num, zpow_sub_one₀ h2']
        ring
      have h6 : (0 : ℚ) < (2 : ℚ) ^ (-1075 : Int) := by positivity
      linarith

/-- The rounding error of `roundScaled`. -/
theorem roundScaled_error (neg : Bool) (n d : Nat) (e : Int) (hd : 0 < d)
    (t : Bool) (m : Nat) (e' : Int) (h : roundScaled neg n d e = .fin t m e') :
    |toRat (.fin t m e') - (if neg then -1 else 1) * ((n : ℚ) / d * (2 : ℚ) ^ e)| ≤
      (n : ℚ) / d * (2 : ℚ) ^ e * (2 : ℚ) ^ (-53 : Int) + (2 : ℚ) ^ (-1075 : Int) := by
  have hdq : (d : ℚ) ≠ 0 := by exact_mod_cast (Nat.pos_iff_ne_zero.mp hd)
  cases e with
  | ofNat k =>
    have := round_error neg (n * 2 ^ k) d hd t m e' h
    have hv : ((n * 2 ^ k : Nat) : ℚ) / d = (n : ℚ) / d * (2 : ℚ) ^ (Int.ofNat k) := by
      simp only [Int.ofNat_eq_coe, zpow_natCast]
      push_cast
      ring
    rw [hv] at this
    exact this
  | negSucc k =>
    have := round_error neg n (d * 2 ^ (k + 1)) (by positivity) t m e' h
    have hv : (n : ℚ) / ((d * 2 ^ (k + 1) : Nat) : ℚ) =
        (n : ℚ) / d * (2 : ℚ) ^ (Int.negSucc k) := by
      simp only [zpow_negSucc]
      push_cast
      field_simp
    rw [hv] at this
    exact this

/-- The absolute value of a finite `float64`. -/
theorem abs_toRat (s : Bool) (m : Nat) (e : Int) :
    |toRat (.fin s m e)| = (m : ℚ) * (2 : ℚ) ^ e := by
  simp only [toRat]
  rw [mul_assoc]
  have hs : ∀ a : ℚ, |(if s then (-1 : ℚ) else 1) * a| = |a| := by
    intro a; cases s <;> simp
  rw [hs, abs_of_nonneg (by positivity)]

/-- The rounding error of a finite product. -/
theorem mul_error (s t : Bool) (m k : Nat) (e f : Int) (u : Bool) (m' : Nat) (e' : Int)
    (h : mul (.fin s m e) (.fin t k f) = .fin u m' e') :
    |toRat (.fin u m' e') - toRat (.fin s m e) * toRat (.fin t k f)| ≤
      |toRat (.fin s m e) * toRat (.fin t k f)| * (2 : ℚ) ^ (-53 : Int) +
        (2 : ℚ) ^ (-1075 : Int) := by
  simp only [mul] at h
  have herr := roundScaled_error (xor s t) (m * k) 1 (e + f) (by norm_num) u m' e' h
  have h2' : (2 : ℚ) ≠ 0 := by norm_num
  have hprod : toRat (.fin s m e) * toRat (.fin t k f) =
      (if xor s t then (-1 : ℚ) else 1) * (((m * k : Nat) : ℚ) / (1 : Nat) * (2 : ℚ) ^ (e + f)) := by
    simp only [toRat]
    rw [← sg_mul, zpow_add₀ h2']
    push_cast
    ring
  have habs : |toRat (.fin s m e) * toRat (.fin t k f)| =
      ((m * k : Nat) : ℚ) / (1 : Nat) * (2 : ℚ) ^ (e + f) := by
    rw [abs_mul, abs_toRat, abs_toRat, zpow_add₀ h2']
    push_cast
    ring
  rw [habs, hprod]
  exact herr

/-- The rounding error of a finite quotient. -/
theorem div_error (s t : Bool) (m k : Nat) (e f : Int) (hk : k ≠ 0)
    (u : Bool) (m' : Nat) (e' : Int)
    (h : div (.fin s m e) (.fin t k f) = .fin u m' e') :
    |toRat (.fin u m' e') - toRat (.fin s m e) / toRat (.fin t k f)| ≤
      |toRat (.fin s m e) / toRat (.fin t k f)| * (2 : ℚ) ^ (-53 : Int) +
        (2 : ℚ) ^ (-1075 : Int) := by
  simp only [div, if_neg hk] at h
  have herr := roundScaled_error (xor s t) m k (e - f) (Nat.pos_of_ne_zero hk) u m' e' h
  have h2' : (2 : ℚ) ≠ 0 := by norm_num
  have hkq : (k : ℚ) ≠ 0 := by exact_mod_cast hk
  have h2f : (2 : ℚ) ^ f ≠ 0 := zpow_ne_zero f h2'
  have hquot : toRat (.fin s m e) / toRat (.fin t k f) =
      (if xor s t then (-1 : ℚ) else 1) * ((m : ℚ) / k * (2 : ℚ) ^ (e - f)) := by
    simp only [toRat]
    rw [← sg_mul, zpow_sub₀ h2']
    cases s <;> cases t <;> field_simp
  have habs : |toRat (.fin s m e) / toRat (.fin t k f)| = (m : ℚ) / k * (2 : ℚ) ^ (e - f) := by
    rw [abs_div, abs_toRat, abs_toRat, zpow_sub₀ h2']
    field_simp
  rw [habs, hquot]
  exact herr

/-- The integer `signedAt s m e g` scaled by `2^g` is the value of `fin s m e`. -/
theorem signedAt_val (s : Bool) (m : Nat) (e g : Int) (hg : g ≤ e) :
    ((signedAt s m e g : Int) : ℚ) * (2 : ℚ) ^ g = toRat (.fin s m e) := by
  have h2' : (2 : ℚ) ≠ 0 := by norm_num
  have hpow : ((2 : ℚ) ^ (e - g).toNat) * (2 : ℚ) ^ g = (2 : ℚ) ^ e := by
    rw [← zpow_natCast, ← zpow_add₀ h2']
    congr 1
    omega
  simp only [signedAt, toRat]
  cases s
  · simp only [Bool.false_eq_true, if_false]
    push_cast
    rw [one_mul, one_mul, mul_assoc, hpow]
  · simp only [if_true]
    push_cast
    rw [mul_assoc, mul_assoc, hpow]
    ring

/-- The value of the rounded integer `c * 2^g`, with its error. -/
theorem roundScaled_int_error (c : Int) (g : Int)
    (t : Bool) (m : Nat) (e' : Int)
    (h : roundScaled (decide (c < 0)) c.natAbs 1 g = .fin t m e') :
    |toRat (.fin t m e') - (c : ℚ) * (2 : ℚ) ^ g| ≤
      |(c : ℚ) * (2 : ℚ) ^ g| * (2 : ℚ) ^ (-53 : Int) + (2 : ℚ) ^ (-1075 : Int) := by
  have herr := roundScaled_error (decide (c < 0)) c.natAbs 1 g (by norm_num) t m e' h
  have h2g : (0 : ℚ) < (2 : ℚ) ^ g := zpow_pos (by norm_num) g
  have habs : ((c.natAbs : Nat) : ℚ) = |(c : ℚ)| := by
    rw [Nat.cast_natAbs, Int.cast_abs]
  have hsg : (if decide (c < 0) = true then (-1 : ℚ) else 1) * |(c : ℚ)| = (c : ℚ) := by
    by_cases hneg : c < 0
    · have : (c : ℚ) < 0 := by exact_mod_cast hneg
      simp only [hneg, decide_True, if_true]
      rw [abs_of_neg this]; ring
    · have : (0 : ℚ) ≤ (c : ℚ) := by exact_mod_cast (not_lt.mp hneg)
      simp only [hneg, decide_False, Bool.false_eq_true, if_false]
      rw [abs_of_nonneg this]; ring
  have e1 : (if decide (c < 0) = true then (-1 : ℚ) else 1) *
      (((c.natAbs : Nat) : ℚ) / ((1 : Nat) : ℚ) * (2 : ℚ) ^ g) = (c : ℚ) * (2 : ℚ) ^ g := by
    rw [habs, Nat.cast_one, div_one, ← mul_assoc, hsg]
  have e2 : ((c.natAbs : Nat) : ℚ) / ((1 : Nat) : ℚ) * (2 : ℚ) ^ g = |(c : ℚ) * (2 : ℚ) ^ g| := by
    rw [habs, Nat.cast_one, div_one, abs_mul, abs_of_pos h2g]
  rw [e1, e2] at herr
  exact herr

/-- The rounding error of a finite sum. -/
theorem add_error (s t : Bool) (m k : Nat) (e f : Int) (u : Bool) (m' : Nat) (e' : Int)
    (h : add (.fin s m e) (.fin t k f) = .fin u m' e') :
    |toRat (.fin u m' e') - (toRat (.fin s m e) + toRat (.fin t k f))| ≤
      |toRat (.fin s m e) + toRat (.fin t k f)| * (2 : ℚ) ^ (-53 : Int) +
        (2 : ℚ) ^ (-1075 : Int) := by
  have hsum : ((signedAt s m e (min e f) + signedAt t k f (min e f) : Int) : ℚ) *
      (2 : ℚ) ^ (min e f) = toRat (.fin s m e) + toRat (.fin t k f) := by
    rw [Int.cast_add, add_mul, signedAt_val s m e _ (min_le_left e f),
      signedAt_val t k f _ (min_le_right e f)]
  simp only [add] at h
  by_cases hc : signedAt s m e (min e f) + signedAt t k f (min e f) = 0
  · rw [if_pos hc] at h
    cases h
    rw [hc] at hsum
    rw [← hsum]
    simp only [toRat]
    norm_num
  · rw [if_neg hc] at h
    rw [← hsum]
    exact roundScaled_int_error _ _ u m' e' h

/-- The rounding error of a finite fused multiply-add. -/
theorem fma_error (s t v : Bool) (m k j : Nat) (e f g : Int) (u : Bool) (m' : Nat) (e' : Int)
    (h : fma (.fin s m e) (.fin t k f) (.fin v j g) = .fin u m' e') :
    |toRat (.fin u m' e') -
        (toRat (.fin s m e) * toRat (.fin t k f) + toRat (.fin v j g))| ≤
      |toRat (.fin s m e) * toRat (.fin t k f) + toRat (.fin v j g)| * (2 : ℚ) ^ (-53 : Int) +
        (2 : ℚ) ^ (-1075 : Int) := by
  have h2' : (2 : ℚ) ≠ 0 := by norm_num
  have hprod : toRat (.fin (xor s t) (m * k) (e + f)) =
      toRat (.fin s m e) * toRat (.fin t k f) := by
    simp only [toRat]
    rw [← sg_mul, zpow_add₀ h2']
    push_cast
    ring
  have hsum : ((signedAt (xor s t) (m * k) (e + f) (min (e + f) g) +
      signedAt v j g (min (e + f) g) : Int) : ℚ) * (2 : ℚ) ^ (min (e + f) g) =
      toRat (.fin s m e) * toRat (.fin t k f) + toRat (.fin v j g) := by
    rw [Int.cast_add, add_mul, signedAt_val _ _ _ _ (min_le_left _ _),
      signedAt_val _ _ _ _ (min_le_right _ _), hprod]
  simp only [fma] at h
  by_cases hc : signedAt (xor s t) (m * k) (e + f) (min (e + f) g) +
      signedAt v j g (min (e + f) g) = 0
  · rw [if_pos hc] at h
    cases h
    rw [hc] at hsum
    rw [← hsum]
    simp only [toRat]
    norm_num
  · rw [if_neg hc] at h
    rw [← hsum]
    exact roundScaled_int_error _ _ u m' e' h

end Float64

/-! ## Lemmas on `math.Round` and the converter -/

namespace math

theorem sign_abs (s : Bool) (a : ℚ) : |(if s then (-1 : ℚ) else 1) * a| = |a| := by
  cases s <;> simp

/-- `math.Round` of a finite `float64` with a mantissa below `2^53` is a finite
`float64` whose value is an integer within `1/2` of the argument, the one farther
from zero when the argument is exactly halfway between two integers. -/
theorem Round_spec (s : Bool) (m : Nat) (e : Int) (hm : m < 2 ^ 53) :
    ∃ k : ℤ, (Round (.fin s m e)).isFinite = true ∧
      Float64.toRat (Round (.fin s m e)) = (k : ℚ) ∧
      |(k : ℚ) - Float64.toRat (.fin s m e)| ≤ 1 / 2 ∧
      (∀ n : ℤ, |Float64.toRat (.fin s m e)| = (n : ℚ) + 1 / 2 →
        |(k : ℚ)| = |Float64.toRat (.fin s m e)| + 1 / 2) := by
  cases e with
  | ofNat j =>
    refine ⟨(if s then -1 else 1) * ((m * 2 ^ j : Nat) : ℤ), rfl, ?_, ?_, ?_⟩
    · simp only [Round, Float64.toRat, Int.ofNat_eq_coe, zpow_natCast]
      cases s <;> push_cast <;> ring
    · simp only [Float64.toRat, Int.ofNat_eq_coe, zpow_natCast]
      have : (((if s then -1 else 1) * ((m * 2 ^ j : Nat) : ℤ) : ℤ) : ℚ) =
          (if s then -1 else 1) * (m : ℚ) * 2 ^ j := by
        cases s <;> push_cast <;> ring
      rw [this, sub_self, abs_zero]
      norm_num
    · intro n hn
      exfalso
      simp only [Float64.toRat, Int.ofNat_eq_coe, zpow_natCast] at hn
      rw [mul_assoc, sign_abs] at hn
      have h0 : (0 : ℚ) ≤ (m : ℚ) * 2 ^ j := by positivity
      rw [abs_of_nonneg h0] at hn
      have h2 : ((2 * (m * 2 ^ j : Nat) : ℤ) : ℚ) = ((2 * n + 1 : ℤ) : ℚ) := by
        push_cast
        linarith
      have h3 : (2 * (m * 2 ^ j : Nat) : ℤ) = 2 * n + 1 := by exact_mod_cast h2
      omega
  | negSucc j =>
    have hP : 0 < 2 ^ (j + 1) := by positivity
    have hP2 : 2 ≤ 2 ^ (j + 1) := by
      calc 2 = 2 ^ 1 := by norm_num
        _ ≤ 2 ^ (j + 1) := Nat.pow_le_pow_right (by norm_num) (by omega)
    generalize hPdef : 2 ^ (j + 1) = P at hP hP2
    have hkk1 : (2 * m + P) / (2 * P) * (2 * P) ≤ 2 * m + P := Nat.div_mul_le_self _ _
    have hkk2 : 2 * m + P < (2 * P) * ((2 * m + P) / (2 * P) + 1) :=
      Nat.lt_mul_div_succ _ (by omega)
    generalize hkkdef : (2 * m + P) / (2 * P) = kk at hkk1 hkk2
    have hkk53 : kk < 2 ^ 53 := by
      by_contra hc
      have hc' : 2 ^ 53 ≤ kk := Nat.le_of_not_lt hc
      have h1 : 2 ^ 53 * (2 * P) ≤ kk * (2 * P) := Nat.mul_le_mul_right _ hc'
      have h2 : 2 ^ 53 * (2 * P) = 2 ^ 54 * P := by ring
      have h3 : 2 ^ 54 * 2 ≤ 2 ^ 54 * P := Nat.mul_le_mul_left _ hP2
      have h4 : 2 ^ 54 * P = 2 ^ 54 * (P - 1) + 2 ^ 54 := by
        have : P = (P - 1) + 1 := by omega
        conv_lhs => rw [this]
        ring
      have h5 : P - 1 + 1 ≤ 2 ^ 54 * (P - 1) + 1 := by
        have : 1 * (P - 1) ≤ 2 ^ 54 * (P - 1) := Nat.mul_le_mul_right _ (by norm_num)
        omega
      omega
    obtain ⟨hfin, hval⟩ := Float64.toRat_round_nat s kk hkk53
    have hR : Round (.fin s m (Int.negSucc j)) = Float64.round s kk 1 := by
      simp only [Round, hPdef, hkkdef]
    have hPq : (0 : ℚ) < (P : ℚ) := by exact_mod_cast hP
    have hy : Float64.toRat (.fin s m (Int.negSucc j)) =
        (if s then -1 else 1) * ((m : ℚ) / P) := by
      simp only [Float64.toRat, zpow_negSucc]
      rw [← hPdef]
      push_cast
      rw [mul_assoc, div_eq_mul_inv]
    have hkq1 : (kk : ℚ) * (2 * P) ≤ 2 * m + P := by exact_mod_cast hkk1
    have hkq2 : (2 * m + P : ℚ) < (2 * P) * (kk + 1) := by exact_mod_cast hkk2
    have hm_eq : (m : ℚ) = (m : ℚ) / P * P := by field_simp
    have hle : (kk : ℚ) - (m : ℚ) / P ≤ 1 / 2 := by
      by_contra hc
      push_neg at hc
      have : (1 / 2 : ℚ) * (2 * P) < ((kk : ℚ) - (m : ℚ) / P) * (2 * P) :=
        mul_lt_mul_of_pos_right hc (by linarith)
      nlinarith
    have hge : -(1 / 2 : ℚ) < (kk : ℚ) - (m : ℚ) / P := by
      by_contra hc
      push_neg at hc
      have : ((kk : ℚ) - (m : ℚ) / P) * (2 * P) ≤ -(1 / 2 : ℚ) * (2 * P) :=
        mul_le_mul_of_nonneg_right hc (by linarith)
      nlinarith
    refine ⟨(if s then -1 else 1) * (kk : ℤ), by rw [hR]; exact hfin, ?_, ?_, ?_⟩
    · rw [hR, hval]
      cases s <;> push_cast <;> ring
    · rw [hy]
      have : (((if s then -1 else 1) * (kk : ℤ) : ℤ) : ℚ) -
          (if s then -1 else 1) * ((m : ℚ) / P) =
          (if s then -1 else 1) * ((kk : ℚ) - (m : ℚ) / P) := by
        cases s <;> push_cast <;> ring
      rw [this, sign_abs, abs_le]
      exact ⟨le_of_lt hge, hle⟩
    · intro n hn
      have hmP0 : (0 : ℚ) ≤ (m : ℚ) / P := by positivity
      have hkk0 : (0 : ℚ) ≤ (kk : ℚ) := by positivity
      rw [hy, sign_abs, abs_of_nonneg hmP0] at hn
      have : (((if s then -1 else 1) * (kk : ℤ) : ℤ) : ℚ) =
          (if s then -1 else 1) * (kk : ℚ) := by
        cases s <;> push_cast <;> ring
      rw [hy, this, sign_abs, sign_abs, abs_of_nonneg hmP0, abs_of_nonneg hkk0, hn]
      -- `m / P = n + 1/2`, so `kk` is `n + 1`
      have hmP : (2 * m + P : ℚ) = (2 * n + 2) * P := by
        have : (m : ℚ) = (n + 1 / 2) * P := by rw [← hn]; exact hm_eq
        rw [this]; ring
      have h1 : (kk : ℚ) * (2 * P) ≤ (2 * n + 2) * P := by rw [← hmP]; exact hkq1
      have h2 : ((2 * n + 2) * P : ℚ) < (2 * P) * (kk + 1) := by rw [← hmP]; exact hkq2
      have h3 : (kk : ℚ) ≤ n + 1 := by
        by_contra hc
        push_neg at hc
        nlinarith
      have h4 : (n : ℚ) < kk := by
        by_contra hc
        push_neg at hc
        nlinarith
      have h5 : (n : ℤ) < (kk : ℤ) := by exact_mod_cast h4
      have h6 : (kk : ℤ) ≤ n + 1 := by exact_mod_cast h3
      have h7 : (kk : ℤ) = n + 1 := by omega
      have h8 : (kk : ℚ) = n + 1 := by exact_mod_cast h7
      rw [h8]; ring

end math

namespace service

/-- What a finite result of `roundToOneDecimal` is: the product `x*10` is finite,
`math.Round` of it is an integer `k` within `1/2` of the product (the integer
farther from zero on an exact half), the result is `k/10` up to one `float64`
rounding, and it is within `0.05` of `x` up to the rounding of the three `float64`
operations. -/
theorem roundToOneDecimal_spec (x : Float64) (t : Bool) (m : Nat) (e : Int)
    (h : roundToOneDecimal x = .fin t m e) :
    ∃ k : ℤ,
      (Float64.mul x (Float64.ofNat 10)).isFinite = true ∧
      Float64.toRat (math.Round (Float64.mul x (Float64.ofNat 10))) = (k : ℚ) ∧
      |(k : ℚ) - Float64.toRat (Float64.mul x (Float64.ofNat 10))| ≤ 1 / 2 ∧
      (∀ n : ℤ, |Float64.toRat (Float64.mul x (Float64.ofNat 10))| = (n : ℚ) + 1 / 2 →
        |(k : ℚ)| = |Float64.toRat (Float64.mul x (Float64.ofNat 10))| + 1 / 2) ∧
      |Float64.toRat (.fin t m e) - (k : ℚ) / 10| ≤
        |(k : ℚ) / 10| * (2 : ℚ) ^ (-53 : Int) + (2 : ℚ) ^ (-1075 : Int) ∧
      |Float64.toRat (.fin t m e) - Float64.toRat x| ≤
        1 / 20 + (|Float64.toRat x| + 1) * (2 : ℚ) ^ (-51 : Int) := by
  have hten : Float64.ofNat 10 = .fin false 5629499534213120 (-49) := by decide
  have htenv : Float64.toRat (.fin false 5629499534213120 (-49)) = 10 := by
    simp only [Float64.toRat]
    norm_num
  unfold roundToOneDecimal at h
  rw [hten] at h ⊢
  cases x with
  | nan => simp [Float64.mul, math.Round, Float64.div] at h
  | inf s => simp [Float64.mul, math.Round, Float64.div] at h
  | fin s0 m0 e0 =>
    cases hy : Float64.mul (.fin s0 m0 e0) (.fin false 5629499534213120 (-49)) with
    | nan => rw [hy] at h; simp [math.Round, Float64.div] at h
    | inf s => rw [hy] at h; simp [math.Round, Float64.div] at h
    | fin sy my ey =>
      rw [hy] at h
      have hmy := Float64.mul_lt _ _ sy my ey hy
      obtain ⟨k, hKfin, hKval, hKerr, hKtie⟩ := math.Round_spec sy my ey hmy
      have hyerr := Float64.mul_error s0 false m0 5629499534213120 e0 (-49) sy my ey hy
      rw [htenv] at hyerr
      cases hK : math.Round (.fin sy my ey) with
      | nan => rw [hK] at hKfin; simp [Float64.isFinite] at hKfin
      | inf s => rw [hK] at hKfin; simp [Float64.isFinite] at hKfin
      | fin sk mk ek =>
        rw [hK] at h
        have hrerr := Float64.div_error sk false mk 5629499534213120 ek (-49) (by norm_num)
          t m e h
        rw [htenv, ← hK, hKval] at hrerr
        refine ⟨k, rfl, by rw [← hK]; exact hKval, hKerr, hKtie, hrerr, ?_⟩
        generalize Float64.toRat (.fin t m e) = R at *
        generalize Float64.toRat (.fin s0 m0 e0) = a at *
        generalize Float64.toRat (.fin sy my ey) = Y at *
        have hw : (2 : ℚ) ^ (-1075 : Int) ≤ (2 : ℚ) ^ (-53 : Int) :=
          zpow_le_zpow_right₀ (by norm_num) (by norm_num)
        have hu : (2 : ℚ) ^ (-53 : Int) = 1 / 9007199254740992 := by norm_num
        have hu51 : (2 : ℚ) ^ (-51 : Int) = 1 / 2251799813685248 := by norm_num
        rw [hu] at hyerr hrerr hw
        rw [hu51]
        generalize (2 : ℚ) ^ (-1075 : Int) = w at *
        rw [abs_mul, abs_of_pos (by norm_num : (0 : ℚ) < 10)] at hyerr
        rw [abs_div, abs_of_pos (by norm_num : (0 : ℚ) < 10)] at hrerr
        have hA : (0 : ℚ) ≤ |a| := abs_nonneg a
        have hY : |Y| ≤ |Y - a * 10| + |a| * 10 := by
          have := abs_add (Y - a * 10) (a * 10)
          rw [sub_add_cancel, abs_mul, abs_of_pos (by norm_num : (0 : ℚ) < 10)] at this
          exact this
        have hKabs : |(k : ℚ)| ≤ |(k : ℚ) - Y| + |Y| := by
          have := abs_add ((k : ℚ) - Y) Y
          rw [sub_add_cancel] at this
          exact this
        have h1 : |R - a| ≤ |R - (k : ℚ) / 10| + |(k : ℚ) - Y| / 10 + |Y - a * 10| / 10 := by
          have e1 : R - a = (R - (k : ℚ) / 10) + (((k : ℚ) - Y) / 10 + (Y - a * 10) / 10) := by
            ring
          rw [e1]
          refine le_trans (abs_add _ _) ?_
          have := abs_add (((k : ℚ) - Y) / 10) ((Y - a * 10) / 10)
          rw [abs_div, abs_div, abs_of_pos (by norm_num : (0 : ℚ) < 10)] at this
          linarith
        linarith

/-- The accuracy of `CelsiusToKelvin`: a finite result is the sum `c + 273` up to one
`float64` rounding. -/
theorem CelsiusToKelvin_error (c : Float64) (t : Bool) (m : Nat) (e : Int)
    (h : CelsiusToKelvin c = .fin t m e) :
    |Float64.toRat (.fin t m e) - (Float64.toRat c + 273)| ≤
      |Float64.toRat c + 273| * (2 : ℚ) ^ (-53 : Int) + (2 : ℚ) ^ (-1075 : Int) := by
  have h273 : Float64.ofNat 273 = .fin false 4802666790125568 (-44) := by decide
  have hv : Float64.toRat (.fin false 4802666790125568 (-44)) = 273 := by
    simp only [Float64.toRat]
    norm_num
  unfold CelsiusToKelvin at h
  rw [h273] at h
  cases c with
  | nan => simp [Float64.add] at h
  | inf s => simp [Float64.add] at h
  | fin s0 m0 e0 =>
    have := Float64.add_error s0 false m0 4802666790125568 e0 (-44) t m e h
    rw [hv] at this
    exact this

/-- The accuracy of `CelsiusToFahrenheit`: a finite result is `c * 9/5 + 32` up to the
rounding of the constant `1.8` and of the `float64` operations, fused or not. -/
theorem CelsiusToFahrenheit_error (fused : Bool) (c : Float64) (t : Bool) (m : Nat) (e : Int)
    (h : CelsiusToFahrenheit fused c = .fin t m e) :
    |Float64.toRat (.fin t m e) - (Float64.toRat c * (9 / 5) + 32)| ≤
      (|Float64.toRat c| + 8) * (2 : ℚ) ^ (-50 : Int) := by
  have h18 : Float64.lit 18 10 = .fin false 8106479329266893 (-52) := by decide
  have h32 : Float64.ofNat 32 = .fin false 4503599627370496 (-47) := by decide
  have hv18 : Float64.toRat (.fin false 8106479329266893 (-52)) =
      8106479329266893 / 4503599627370496 := by
    simp only [Float64.toRat]
    norm_num
  have hv32 : Float64.toRat (.fin false 4503599627370496 (-47)) = 32 := by
    simp only [Float64.toRat]
    norm_num
  have hw : (2 : ℚ) ^ (-1075 : Int) ≤ (2 : ℚ) ^ (-53 : Int) :=
    zpow_le_zpow_right₀ (by norm_num) (by norm_num)
  have hu : (2 : ℚ) ^ (-53 : Int) = 1 / 9007199254740992 := by norm_num
  have hu50 : (2 : ℚ) ^ (-50 : Int) = 1 / 1125899906842624 := by norm_num
  unfold CelsiusToFahrenheit Float64.mulAdd at h
  rw [h18, h32] at h
  cases c with
  | nan => cases fused <;> simp [Float64.fma, Float64.add, Float64.mul] at h
  | inf s => cases fused <;> simp [Float64.fma, Float64.add, Float64.mul] at h
  | fin s0 m0 e0 =>
    generalize ha : Float64.toRat (.fin s0 m0 e0) = a
    have hA : (0 : ℚ) ≤ |a| := abs_nonneg a
    have haT : |a * (8106479329266893 / 4503599627370496)| =
        |a| * (8106479329266893 / 4503599627370496) := by
      rw [abs_mul, abs_of_pos (by norm_num : (0 : ℚ) < 8106479329266893 / 4503599627370496)]
    have hconst : |a * (8106479329266893 / 4503599627370496) - a * (9 / 5)| =
        |a| * (1 / 22517998136852480) := by
      have : a * (8106479329266893 / 4503599627370496) - a * (9 / 5) =
          a * (1 / 22517998136852480) := by ring
      rw [this, abs_mul, abs_of_pos (by norm_num : (0 : ℚ) < 1 / 22517998136852480)]
    cases fused with
    | true =>
      simp only [if_true] at h
      have herr := Float64.fma_error s0 false false m0 8106479329266893 4503599627370496
        e0 (-52) (-47) t m e h
      rw [hv18, hv32, ha] at herr
      generalize Float64.toRat (.fin t m e) = R at *
      rw [hu] at herr hw
      rw [hu50]
      generalize (2 : ℚ) ^ (-1075 : Int) = w at *
      have h1 : |a * (8106479329266893 / 4503599627370496) + 32| ≤
          |a| * (8106479329266893 / 4503599627370496) + 32 := by
        refine le_trans (abs_add _ _) ?_
        rw [haT, abs_of_pos (by norm_num : (0 : ℚ) < 32)]
      have h2 : |R - (a * (9 / 5) + 32)| ≤
          |R - (a * (8106479329266893 / 4503599627370496) + 32)| +
            |a * (8106479329266893 / 4503599627370496) - a * (9 / 5)| := by
        have e1 : R - (a * (9 / 5) + 32) =
            (R - (a * (8106479329266893 / 4503599627370496) + 32)) +
              (a * (8106479329266893 / 4503599627370496) - a * (9 / 5)) := by ring
        rw [e1]
        exact abs_add _ _
      rw [hconst] at h2
      linarith
    | false =>
      simp only [Bool.false_eq_true, if_false] at h
      cases hp : Float64.mul (.fin s0 m0 e0) (.fin false 8106479329266893 (-52)) with
      | nan => rw [hp] at h; simp [Float64.add] at h
      | inf s => rw [hp] at h; simp [Float64.add] at h
      | fin sp mp ep =>
        rw [hp] at h
        have hperr := Float64.mul_error s0 false m0 8106479329266893 e0 (-52) sp mp ep hp
        have herr := Float64.add_error sp false mp 4503599627370496 ep (-47) t m e h
        rw [hv18, ha] at hperr
        rw [hv32] at herr
        generalize Float64.toRat (.fin t m e) = R at *
        generalize Float64.toRat (.fin sp mp ep) = p at *
        rw [hu] at herr hperr hw
        rw [hu50]
        generalize (2 : ℚ) ^ (-1075 : Int) = w at *
        rw [haT] at hperr
        have hP : |p| ≤ |p - a * (8106479329266893 / 4503599627370496)| +
            |a| * (8106479329266893 / 4503599627370496) := by
          have := abs_add (p - a * (8106479329266893 / 4503599627370496))
            (a * (8106479329266893 / 4503599627370496))
          rw [sub_add_cancel, haT] at this
          exact this
        have h1 : |p + 32| ≤ |p| + 32 := by
          refine le_trans (abs_add _ _) ?_
          rw [abs_of_pos (by norm_num : (0 : ℚ) < 32)]
        have h2 : |R - (a * (9 / 5) + 32)| ≤
            |R - (p + 32)| + |p - a * (8106479329266893 / 4503599627370496)| +
              |a * (8106479329266893 / 4503599627370496) - a * (9 / 5)| := by
          have e1 : R - (a * (9 / 5) + 32) =
              (R - (p + 32)) + ((p - a * (8106479329266893 / 4503599627370496)) +
                (a * (8106479329266893 / 4503599627370496) - a * (9 / 5))) := by ring
          rw [e1]
          refine le_trans (abs_add _ _) ?_
          have := abs_add (p - a * (8106479329266893 / 4503599627370496))
            (a * (8106479329266893 / 4503599627370496) - a * (9 / 5))
          linarith
        rw [hconst] at h2
        linarith

end service

/-! ## The claims on the temperature converter -/

set_option maxRecDepth 100000 in
set_option exponentiation.threshold 4000 in
/-- C6: for every Celsius value `c` and every city, `ConvertToAllUnits(c, city)` has
the city unchanged, `TempC = roundToOneDecimal(c)`,
`TempF = roundToOneDecimal(c*1.8 + 32)` and `TempK = roundToOneDecimal(c + 273)`,
each scale rounded on its own from the unrounded `c`;
`ConvertToAllUnits(25.0, "X")` is `{X, 25.0, 77.0, 298.0}` and
`ConvertToAllUnits(10.5, _)` has `TempF = 50.9` and `TempK = 283.5`, whether or not
the platform fuses the multiplication and the addition. -/
theorem C6_convertToAllUnits_rounds_each_scale :
    (∀ (fused : Bool) (c : Float64) (city : String),
      (service.ConvertToAllUnits fused c city).City = city ∧
      (service.ConvertToAllUnits fused c city).TempC = service.roundToOneDecimal c ∧
      (service.ConvertToAllUnits fused c city).TempF =
        service.roundToOneDecimal
          (Float64.mulAdd fused c (Float64.lit 18 10) (Float64.ofNat 32)) ∧
      (service.ConvertToAllUnits fused c city).TempK =
        service.roundToOneDecimal (Float64.add c (Float64.ofNat 273))) ∧
    (∀ fused : Bool, service.ConvertToAllUnits fused (Float64.ofNat 25) "X" =
      { City := "X", TempC := Float64.ofNat 25, TempF := Float64.ofNat 77,
        TempK := Float64.ofNat 298 }) ∧
    (∀ (fused : Bool) (city : String),
      (service.ConvertToAllUnits fused (Float64.lit 105 10) city).TempC = Float64.lit 105 10 ∧
      (service.ConvertToAllUnits fused (Float64.lit 105 10) city).TempF = Float64.lit 509 10 ∧
      (service.ConvertToAllUnits fused (Float64.lit 105 10) city).TempK =
        Float64.lit 2835 10) := by
  refine ⟨fun fused c city => ⟨rfl, rfl, rfl, rfl⟩, by decide, ?_⟩
  intro fused city
  have h : ∀ fused : Bool,
      service.roundToOneDecimal (Float64.lit 105 10) = Float64.lit 105 10 ∧
      service.roundToOneDecimal (service.CelsiusToFahrenheit fused (Float64.lit 105 10)) =
        Float64.lit 509 10 ∧
      service.roundToOneDecimal (service.CelsiusToKelvin (Float64.lit 105 10)) =
        Float64.lit 2835 10 := by decide
  exact h fused

set_option maxRecDepth 100000 in
set_option exponentiation.threshold 4000 in
/-- C7: for every Celsius value `c`, `CelsiusToFahrenheit(c)` is the `float64`
value of `c*1.8 + 32` (two correctly rounded operations, or one where the platform
fuses them; `1.8` is the `float64` nearest to `18/10`), and a finite result differs
from the real number `c * 9/5 + 32` by at most `2^-50 * (|c| + 8)`; in both modes
`CelsiusToFahrenheit` maps `0` to `32`, `100` to `212`, `25` to `77`, `-10` to `14`
and `36.5` to `97.7`. -/
theorem C7_celsiusToFahrenheit_formula :
    (∀ c : Float64, service.CelsiusToFahrenheit false c =
      Float64.add (Float64.mul c (Float64.lit 18 10)) (Float64.ofNat 32)) ∧
    (∀ c : Float64, service.CelsiusToFahrenheit true c =
      Float64.fma c (Float64.lit 18 10) (Float64.ofNat 32)) ∧
    (∀ (fused : Bool) (c : Float64) (t : Bool) (m : Nat) (e : Int),
      service.CelsiusToFahrenheit fused c = Float64.fin t m e →
      |Float64.toRat (Float64.fin t m e) - (Float64.toRat c * (9 / 5) + 32)| ≤
        (|Float64.toRat c| + 8) * (2 : ℚ) ^ (-50 : Int)) ∧
    (∀ fused : Bool,
      service.CelsiusToFahrenheit fused (Float64.ofNat 0) = Float64.ofNat 32 ∧
      service.CelsiusToFahrenheit fused (Float64.ofNat 100) = Float64.ofNat 212 ∧
      service.CelsiusToFahrenheit fused (Float64.ofNat 25) = Float64.ofNat 77 ∧
      service.CelsiusToFahrenheit fused (Float64.neg (Float64.ofNat 10)) = Float64.ofNat 14 ∧
      service.CelsiusToFahrenheit fused (Float64.lit 365 10) = Float64.lit 977 10) :=
  ⟨fun _ => rfl, fun _ => rfl, service.CelsiusToFahrenheit_error, by decide⟩

set_option maxRecDepth 100000 in
set_option exponentiation.threshold 4000 in
/-- C8: for every Celsius value `c`, `CelsiusToKelvin(c)` is the `float64` value of
`c + 273` (the offset is `273`, not `273.15`): a finite result is the real number
`c + 273` up to one `float64` rounding; `CelsiusToKelvin` maps `0` to `273`, `-273`
to `0`, `100` to `373` and `25` to `298`. -/
theorem C8_celsiusToKelvin_formula :
    (∀ c : Float64, service.CelsiusToKelvin c = Float64.add c (Float64.ofNat 273)) ∧
    (∀ (c : Float64) (t : Bool) (m : Nat) (e : Int),
      service.CelsiusToKelvin c = Float64.fin t m e →
      |Float64.toRat (Float64.fin t m e) - (Float64.toRat c + 273)| ≤
        |Float64.toRat c + 273| * (2 : ℚ) ^ (-53 : Int) + (2 : ℚ) ^ (-1075 : Int)) ∧
    service.CelsiusToKelvin (Float64.ofNat 0) = Float64.ofNat 273 ∧
    service.CelsiusToKelvin (Float64.neg (Float64.ofNat 273)) = Float64.ofNat 0 ∧
    service.CelsiusToKelvin (Float64.ofNat 100) = Float64.ofNat 373 ∧
    service.CelsiusToKelvin (Float64.ofNat 25) = Float64.ofNat 298 ∧
    service.CelsiusToKelvin (Float64.ofNat 0) ≠ Float64.lit 27315 100 :=
  ⟨fun _ => rfl, service.CelsiusToKelvin_error, by decide, by decide, by decide, by decide,
    by decide⟩

set_option maxRecDepth 100000 in
set_option exponentiation.threshold 4000 in
/-- C9, as stated, fails in `float64`: `roundToOneDecimal(1e308)` is `+Inf`, because
the product `x*10` overflows, so the result is no multiple of `0.1` near `x`; and
`roundToOneDecimal(0.15)` is `0.2`, whose `float64` value lies more than `0.05`
(as a real number, and as the `float64` constant `0.05`) above the `float64` value
of `0.15`. -/
theorem C9_counterexample_overflow_and_inexact :
    (Float64.lit (10 ^ 308) 1).isFinite = true ∧
    service.roundToOneDecimal (Float64.lit (10 ^ 308) 1) = Float64.inf false ∧
    service.roundToOneDecimal (Float64.lit 15 100) = Float64.lit 2 10 ∧
    Float64.toRat (service.roundToOneDecimal (Float64.lit 15 100)) -
      Float64.toRat (Float64.lit 15 100) > 1 / 20 ∧
    Float64.toRat (service.roundToOneDecimal (Float64.lit 15 100)) -
      Float64.toRat (Float64.lit 15 100) > Float64.toRat (Float64.lit 5 100) := by
  have h1 : (Float64.lit (10 ^ 308) 1).isFinite = true := by decide
  have h2 : service.roundToOneDecimal (Float64.lit (10 ^ 308) 1) = Float64.inf false := by
    decide
  have h3 : service.roundToOneDecimal (Float64.lit 15 100) =
      Float64.fin false 7205759403792794 (-55) := by decide
  have h4 : Float64.lit 2 10 = Float64.fin false 7205759403792794 (-55) := by decide
  have h5 : Float64.lit 15 100 = Float64.fin false 5404319552844595 (-55) := by decide
  have h6 : Float64.lit 5 100 = Float64.fin false 7205759403792794 (-57) := by decide
  refine ⟨h1, h2, h3.trans h4.symm, ?_, ?_⟩
  · rw [h3, h5]
    simp only [Float64.toRat]
    norm_num
  · rw [h3, h5, h6]
    simp only [Float64.toRat]
    norm_num

set_option maxRecDepth 100000 in
set_option exponentiation.threshold 4000 in
/-- C9, amended: for every `x`, `roundToOneDecimal(x)` is `math.Round(x*10) / 10`
evaluated in `float64`. Whenever the result is finite, the `float64` product `x*10`
is finite, `math.Round` of it is an integer `k` with `|k - x*10| ≤ 1/2`, the integer
farther from zero when the product is exactly halfway between two integers, the
result is `k/10` up to one `float64` rounding (relative error `2^-53`), and it
differs from `x` by at most `0.05 + 2^-51 * (|x| + 1)`. When the product `x*10` is
not finite, neither is the result. `25.5` gives `25.5`, `25.56` gives `25.6`,
`25.54` gives `25.5`, `25` gives `25.0`, `25.123456` gives `25.1`, and the halves
`0.25` and `-0.25` give `0.3` and `-0.3`. -/
theorem C9_roundToOneDecimal_rounds_half_away :
    (∀ x : Float64, service.roundToOneDecimal x =
      Float64.div (math.Round (Float64.mul x (Float64.ofNat 10))) (Float64.ofNat 10)) ∧
    (∀ (x : Float64) (t : Bool) (m : Nat) (e : Int),
      service.roundToOneDecimal x = Float64.fin t m e →
      ∃ k : ℤ,
        (Float64.mul x (Float64.ofNat 10)).isFinite = true ∧
        Float64.toRat (math.Round (Float64.mul x (Float64.ofNat 10))) = (k : ℚ) ∧
        |(k : ℚ) - Float64.toRat (Float64.mul x (Float64.ofNat 10))| ≤ 1 / 2 ∧
        (∀ n : ℤ, |Float64.toRat (Float64.mul x (Float64.ofNat 10))| = (n : ℚ) + 1 / 2 →
          |(k : ℚ)| = |Float64.toRat (Float64.mul x (Float64.ofNat 10))| + 1 / 2) ∧
        |Float64.toRat (Float64.fin t m e) - (k : ℚ) / 10| ≤
          |(k : ℚ) / 10| * (2 : ℚ) ^ (-53 : Int) + (2 : ℚ) ^ (-1075 : Int) ∧
        |Float64.toRat (Float64.fin t m e) - Float64.toRat x| ≤
          1 / 20 + (|Float64.toRat x| + 1) * (2 : ℚ) ^ (-51 : Int)) ∧
    (∀ x : Float64, (Float64.mul x (Float64.ofNat 10)).isFinite = false →
      (service.roundToOneDecimal x).isFinite = false) ∧
    service.roundToOneDecimal (Float64.lit 255 10) = Float64.lit 255 10 ∧
    service.roundToOneDecimal (Float64.lit 2556 100) = Float64.lit 256 10 ∧
    service.roundToOneDecimal (Float64.lit 2554 100) = Float64.lit 255 10 ∧
    service.roundToOneDecimal (Float64.ofNat 25) = Float64.ofNat 25 ∧
    service.roundToOneDecimal (Float64.lit 25123456 1000000) = Float64.lit 251 10 ∧
    service.roundToOneDecimal (Float64.lit 25 100) = Float64.lit 3 10 ∧
    service.roundToOneDecimal (Float64.neg (Float64.lit 25 100)) =
      Float64.neg (Float64.lit 3 10) := by
  refine ⟨fun _ => rfl, ?_, ?_, by decide, by decide, by decide, by decide, by decide,
    by decide, by decide⟩
  · intro x t m e h
    exact service.roundToOneDecimal_spec x t m e h
  · intro x h
    unfold service.roundToOneDecimal
    cases hx : Float64.mul x (Float64.ofNat 10) with
    | nan => rfl
    | inf t => rfl
    | fin t m e => rw [hx] at h; exact absurd h (by simp [Float64.isFinite])

set_option maxRecDepth 100000 in
set_option exponentiation.threshold 4000 in
/-- C9 at `x = 25.56`: the result `25.6` is finite, so `math.Round(x*10)` is an
integer and the result is within `0.05 + 2^-51 * (|x| + 1)` of `x`. -/
theorem C9_roundToOneDecimal_witness :
    service.roundToOneDecimal (Float64.lit 2556 100) =
      Float64.fin false 7205759403792794 (-48) ∧
    ∃ k : ℤ,
      Float64.toRat (math.Round (Float64.mul (Float64.lit 2556 100) (Float64.ofNat 10))) =
        (k : ℚ) ∧
      |Float64.toRat (Float64.fin false 7205759403792794 (-48)) -
          Float64.toRat (Float64.lit 2556 100)| ≤
        1 / 20 + (|Float64.toRat (Float64.lit 2556 100)| + 1) * (2 : ℚ) ^ (-51 : Int) := by
  have h : service.roundToOneDecimal (Float64.lit 2556 100) =
      Float64.fin false 7205759403792794 (-48) := by decide
  obtain ⟨k, _, hk2, _, _, _, hk6⟩ :=
    C9_roundToOneDecimal_rounds_half_away.2.1 (Float64.lit 2556 100) false _ _ h
  exact ⟨h, k, hk2, hk6⟩

/-! ## The claims on the temperature handler -/

/-- C10: for every request whose decoded CEP fails `ValidateAndNormalize` (its
count of ASCII digits is not 8), `HandleTemperature` responds with status 422 and
the message `"invalid zipcode"`, leaves the cache as it was, and makes no cache
read, no cache write and no call to the location or weather service. -/
theorem C10_invalid_code_gives_422_without_effects (env : handler.Env)
    (mc : cache.MemoryCache) (req : models.CEPRequest)
    (h : (utils.ValidateAndNormalize req.CEP).2 ≠ none) :
    req.CEP.data.countP Char.isDigit ≠ 8 ∧
    handler.HandleTemperature env mc (.ok req) =
      { response := { statusCode := 422, body := .error { Message := "invalid zipcode" } }
        state := { cache := mc, events := [] } } := by
  have h8 : req.CEP.data.countP Char.isDigit ≠ 8 := fun h8 =>
    h ((utils.ValidateAndNormalize_none_iff req.CEP).mpr h8)
  refine ⟨h8, ?_⟩
  unfold handler.HandleTemperature
  simp only [utils.ValidateAndNormalize_eq, h8, if_false]
  rfl

/-- C10 at the request `{"cep": "1234567"}` and an empty cache. -/
theorem C10_invalid_code_witness :
    (utils.ValidateAndNormalize "1234567").2 ≠ none ∧
    handler.HandleTemperature handler.envNotFound { cache := { defaultExpiration := 0, items := [] } }
        (.ok { CEP := "1234567" }) =
      { response := { statusCode := 422, body := .error { Message := "invalid zipcode" } }
        state := { cache := { cache := { defaultExpiration := 0, items := [] } }, events := [] } } :=
  ⟨by decide,
    (C10_invalid_code_gives_422_without_effects handler.envNotFound
      { cache := { defaultExpiration := 0, items := [] } } { CEP := "1234567" } (by decide)).2⟩
/-! ## Lemmas on the cache -/

namespace cache

theorem find?_cons_eq {α : Type} (p : α → Bool) (a : α) (l : List α) :
    (a :: l).find? p = if p a = true then some a else l.find? p := by
  cases h : p a <;> simp [List.find?, h]

theorem find?_filter_ne (l : List (String × Item)) (k k' : String) (h : k' ≠ k) :
    (l.filter (fun kv => !(kv.1 == k'))).find? (fun kv => kv.1 == k) =
      l.find? (fun kv => kv.1 == k) := by
  induction l with
  | nil => rfl
  | cons a as ih =>
    rw [List.filter_cons]
    by_cases h1 : a.1 = k'
    · have h2 : a.1 ≠ k := fun hc => h (h1.symm.trans hc)
      rw [find?_cons_eq]
      simp only [h1, beq_self_eq_true, Bool.not_true, Bool.false_eq_true, if_false]
      rw [ih, if_neg]
      simpa using h
    · rw [if_pos (by simpa using h1), find?_cons_eq, find?_cons_eq, ih]

theorem find?_filter_same (l : List (String × Item)) (k : String) :
    (l.filter (fun kv => !(kv.1 == k))).find? (fun kv => kv.1 == k) = none := by
  induction l with
  | nil => rfl
  | cons a as ih =>
    rw [List.filter_cons]
    by_cases h1 : a.1 = k
    · rw [if_neg (by simp [h1]), ih]
    · rw [if_pos (by simpa using h1), find?_cons_eq, ih, if_neg (by simpa using h1)]

theorem lookup_Set_same (c : Cache) (now : Int) (k : String) (x : Object) (d : Int) :
    (c.Set now k x d).lookup k =
      some { Object := x
             Expiration :=
               if (if d = 0 then c.defaultExpiration else d) > 0 then
                 now + (if d = 0 then c.defaultExpiration else d)
               else 0 } := by
  simp [Cache.Set, Cache.lookup, List.find?]

theorem lookup_Set_ne (c : Cache) (now : Int) (k k' : String) (x : Object) (d : Int)
    (h : k' ≠ k) : (c.Set now k' x d).lookup k = c.lookup k := by
  simp only [Cache.Set, Cache.lookup, List.find?]
  have : (k' == k) = false := by simpa using h
  simp only [this]
  rw [find?_filter_ne _ _ _ h]

theorem lookup_Delete_same (c : Cache) (k : String) : (c.Delete k).lookup k = none := by
  simp [Cache.Delete, Cache.lookup, find?_filter_same]

theorem lookup_Delete_ne (c : Cache) (k k' : String) (h : k' ≠ k) :
    (c.Delete k').lookup k = c.lookup k := by
  simp only [Cache.Delete, Cache.lookup]
  rw [find?_filter_ne _ _ _ h]

theorem lookup_Flush (c : Cache) (k : String) : c.Flush.lookup k = none := by
  simp [Cache.Flush, Cache.lookup]

/-- `Get` depends on the store only through the item under the key. -/
theorem Get_congr (c c' : Cache) (now : Int) (k : String) (h : c'.lookup k = c.lookup k) :
    c'.Get now k = c.Get now k := by
  simp only [Cache.Get, h]

/-- The keys of two namespaces differ, and the keys of one namespace are as
different as the keys they are built from. -/
theorem key_injective (ns ns' : Namespace) (k k' : String)
    (h : ns.key k = ns'.key k') : ns = ns' ∧ k = k' := by
  have hcancel : ∀ p a b : String, p ++ a = p ++ b → a = b := by
    intro p a b h
    have := congrArg String.data h
    rw [String.data_append, String.data_append] at this
    exact String.ext (List.append_cancel_left this)
  have hhead : ∀ (p q a b : String) (c d : Char) (cs ds : List Char),
      p.data = c :: cs → q.data = d :: ds → c ≠ d → p ++ a ≠ q ++ b := by
    intro p q a b c d cs ds hp hq hcd h
    have := congrArg String.data h
    rw [String.data_append, String.data_append, hp, hq] at this
    simp only [List.cons_append] at this
    injection this with h1 _
    exact hcd h1
  cases ns <;> cases ns' <;>
    simp only [Namespace.key, locationCacheKey, weatherCacheKey, tempCacheKey] at h
  · exact ⟨rfl, hcancel _ _ _ h⟩
  · exact absurd h (hhead _ _ _ _ 'l' 'w' _ _ rfl rfl (by decide))
  · exact absurd h (hhead _ _ _ _ 'l' 't' _ _ rfl rfl (by decide))
  · exact absurd h (hhead _ _ _ _ 'w' 'l' _ _ rfl rfl (by decide))
  · exact ⟨rfl, hcancel _ _ _ h⟩
  · exact absurd h (hhead _ _ _ _ 'w' 't' _ _ rfl rfl (by decide))
  · exact absurd h (hhead _ _ _ _ 't' 'l' _ _ rfl rfl (by decide))
  · exact absurd h (hhead _ _ _ _ 't' 'w' _ _ rfl rfl (by decide))
  · exact ⟨rfl, hcancel _ _ _ h⟩

theorem key_ne (ns ns' : Namespace) (k k' : String) (h : (ns', k') ≠ (ns, k)) :
    ns'.key k' ≠ ns.key k := by
  intro hc
  obtain ⟨h1, h2⟩ := key_injective ns' ns k' k hc
  exact h (by rw [h1, h2])

/-- The typed getter of a namespace reads the store under the key of the namespace
and keeps an object of the type of the namespace. -/
theorem GetIn_eq (mc : MemoryCache) (ns : Namespace) (now : Int) (k : String) :
    mc.GetIn ns now k =
      match mc.cache.Get now (ns.key k), ns with
      | some (.location v), .location => some (.location v)
      | some (.weather w), .weather => some (.weather w)
      | some (.temperature t), .temp => some (.temperature t)
      | _, _ => none := by
  cases ns <;> simp only [MemoryCache.GetIn, MemoryCache.GetLocation, MemoryCache.GetWeather,
    MemoryCache.GetTemperature, Namespace.key] <;>
    (rcases mc.cache.Get now _ with _ | (_ | _ | _)) <;> rfl

/-- The typed getters depend on the store only through the item under the key. -/
theorem GetIn_congr (mc mc' : MemoryCache) (ns : Namespace) (now : Int) (k : String)
    (h : mc'.cache.lookup (ns.key k) = mc.cache.lookup (ns.key k)) :
    mc'.GetIn ns now k = mc.GetIn ns now k := by
  rw [GetIn_eq, GetIn_eq, Get_congr _ _ _ _ h]

/-- The store key a write changes. -/
theorem Write.lookup_apply_of_avoids (w : Write) (mc : MemoryCache) (ns : Namespace)
    (k : String) (h : w.avoids ns k) :
    (w.apply mc).cache.lookup (ns.key k) = mc.cache.lookup (ns.key k) := by
  obtain ⟨t, ht, hne⟩ := h
  cases w <;> cases ht
  · exact lookup_Set_ne _ _ _ _ _ _ (key_ne ns .location k _ hne)
  · exact lookup_Set_ne _ _ _ _ _ _ (key_ne ns .weather k _ hne)
  · exact lookup_Set_ne _ _ _ _ _ _ (key_ne ns .temp k _ hne)
  · exact lookup_Delete_ne _ _ _ (key_ne ns .location k _ hne)
  · exact lookup_Delete_ne _ _ _ (key_ne ns .weather k _ hne)
  · exact lookup_Delete_ne _ _ _ (key_ne ns .temp k _ hne)

theorem lookup_applyAll_of_avoids (ws : List Write) (mc : MemoryCache) (ns : Namespace)
    (k : String) (h : ∀ w ∈ ws, w.avoids ns k) :
    (applyAll ws mc).cache.lookup (ns.key k) = mc.cache.lookup (ns.key k) := by
  induction ws generalizing mc with
  | nil => rfl
  | cons w ws ih =>
    simp only [applyAll, List.foldl_cons]
    have := ih (w.apply mc) (fun w' hw' => h w' (List.mem_cons_of_mem _ hw'))
    simp only [applyAll] at this
    rw [this]
    exact Write.lookup_apply_of_avoids w mc ns k (h w (List.mem_cons_self _ _))

end cache
namespace cache

/-- The store after a typed setter with a positive duration, under its key. -/
theorem Write.lookup_apply_of_stores (w : Write) (mc : MemoryCache) (ns : Namespace)
    (k : String) (x : Object) (now d : Int)
    (h : w.stores = some (ns, k, x, now, d)) (hd : d > 0) :
    (w.apply mc).cache.lookup (ns.key k) = some { Object := x, Expiration := now + d } := by
  have hd0 : d ≠ 0 := by omega
  cases w <;> cases h <;>
    simp only [Write.apply, MemoryCache.SetLocation, MemoryCache.SetWeather,
      MemoryCache.SetTemperature, Namespace.key, lookup_Set_same, if_neg hd0, if_pos hd]

/-- The typed getter on a store holding, under the key, the object `x` stored by a
typed setter of the same namespace. -/
theorem GetIn_of_lookup (w : Write) (mc : MemoryCache) (ns : Namespace)
    (k : String) (x : Object) (now0 d : Int) (e now : Int)
    (h : w.stores = some (ns, k, x, now0, d))
    (hl : mc.cache.lookup (ns.key k) = some { Object := x, Expiration := e }) :
    mc.GetIn ns now k = if e > 0 ∧ now > e then none else some x := by
  rw [GetIn_eq]
  simp only [Cache.Get, hl]
  by_cases hc : e > 0 ∧ now > e
  · simp only [if_pos hc]
  · simp only [if_neg hc]
    cases w <;> cases h <;> rfl

theorem GetIn_of_lookup_none (mc : MemoryCache) (ns : Namespace) (k : String) (now : Int)
    (hl : mc.cache.lookup (ns.key k) = none) : mc.GetIn ns now k = none := by
  rw [GetIn_eq]
  simp only [Cache.Get, hl]

end cache

/-! ## The claims on the cache -/

set_option maxRecDepth 100000 in
/-- C19: for each typed namespace of `MemoryCache` and every key `k`: after a typed
`Set` of `k` with a positive duration at clock reading `now0`, and any later writes
that are about other keys or other namespaces, the typed `Get` of `k` returns the
stored value as long as no more than the duration has elapsed, whatever the default
expiration of the store and whatever was stored under `k` before (so a later `Set`
replaces value and TTL); once more than the duration has elapsed (clock readings
being non-negative), and after `Invalidate` of `k` or `Clear`, it returns nothing.
At the clock reading of the `Set` plus the duration exactly, the value is still
returned. -/
theorem C19_cache_get_after_set_invalidate_clear :
    (∀ (w : cache.Write) (ns : cache.Namespace) (k : String) (x : cache.Object)
        (now0 d : Int) (mc : cache.MemoryCache) (ws : List cache.Write) (now1 : Int),
      w.stores = some (ns, k, x, now0, d) → d > 0 → (∀ w' ∈ ws, w'.avoids ns k) →
      (now1 ≤ now0 + d → (cache.applyAll ws (w.apply mc)).GetIn ns now1 k = some x) ∧
      (0 ≤ now0 → now0 + d < now1 →
        (cache.applyAll ws (w.apply mc)).GetIn ns now1 k = none)) ∧
    (∀ (w : cache.Write) (ns : cache.Namespace) (k : String) (mc : cache.MemoryCache)
        (ws : List cache.Write) (now : Int),
      (w = .clear ∨ (w.stores = none ∧ w.target = some (ns, k))) →
      (∀ w' ∈ ws, w'.avoids ns k) →
      (cache.applyAll ws (w.apply mc)).GetIn ns now k = none) ∧
    (∀ (mc : cache.MemoryCache) (cep : String) (t1 t2 : models.TemperatureResponse)
        (now0 d1 now1 d2 now2 : Int), d2 > 0 →
      (now2 ≤ now1 + d2 →
        ((mc.SetTemperature now0 cep t1 d1).SetTemperature now1 cep t2 d2).GetTemperature
          now2 cep = some t2) ∧
      (0 ≤ now1 → now1 + d2 < now2 →
        ((mc.SetTemperature now0 cep t1 d1).SetTemperature now1 cep t2 d2).GetTemperature
          now2 cep = none)) ∧
    (∀ (mc : cache.MemoryCache) (cep : String) (v : model.ViaCEPResponse)
        (now0 d now1 : Int), d > 0 →
      (now1 ≤ now0 + d → (mc.SetLocation now0 cep v d).GetLocation now1 cep = some v) ∧
      ((mc.SetLocation now0 cep v d).InvalidateLocation cep).GetLocation now1 cep = none ∧
      (mc.SetLocation now0 cep v d).Clear.GetLocation now1 cep = none) ∧
    (∀ (mc : cache.MemoryCache) (location : String) (v : model.WeatherAPIResponse)
        (now0 d now1 : Int), d > 0 →
      (now1 ≤ now0 + d → (mc.SetWeather now0 location v d).GetWeather now1 location = some v) ∧
      ((mc.SetWeather now0 location v d).InvalidateWeather location).GetWeather now1
        location = none ∧
      (mc.SetWeather now0 location v d).Clear.GetWeather now1 location = none) ∧
    ((cache.NewMemoryCache 300000000000 600000000000).SetLocation 1000 "01310100"
        handler.locationSaoPaulo 86400000000000).GetLocation 86400000001000 "01310100" =
      some handler.locationSaoPaulo ∧
    ((cache.NewMemoryCache 300000000000 600000000000).SetLocation 1000 "01310100"
        handler.locationSaoPaulo 86400000000000).GetLocation 86400000001001 "01310100" =
      none ∧
    (((cache.NewMemoryCache 300000000000 600000000000).SetLocation 1000 "01310100"
        handler.locationSaoPaulo 86400000000000).SetLocation 2000 "01310100"
        { handler.locationSaoPaulo with Bairro := "Cerqueira César" } 5).GetLocation 2005
        "01310100" =
      some { handler.locationSaoPaulo with Bairro := "Cerqueira César" } ∧
    (((cache.NewMemoryCache 300000000000 600000000000).SetLocation 1000 "01310100"
        handler.locationSaoPaulo 86400000000000).SetLocation 2000 "01310100"
        { handler.locationSaoPaulo with Bairro := "Cerqueira César" } 5).GetLocation 2006
        "01310100" =
      none := by
  refine ⟨?_, ?_, ?_, ?_, ?_, by decide, by decide, by decide, by decide⟩
  · intro w ns k x now0 d mc ws now1 hs hd hav
    have hl : (cache.applyAll ws (w.apply mc)).cache.lookup (ns.key k) =
        some { Object := x, Expiration := now0 + d } := by
      rw [cache.lookup_applyAll_of_avoids ws _ ns k hav]
      exact cache.Write.lookup_apply_of_stores w mc ns k x now0 d hs hd
    rw [cache.GetIn_of_lookup w _ ns k x now0 d _ now1 hs hl]
    constructor
    · intro h1
      rw [if_neg (by omega)]
    · intro h0 h1
      rw [if_pos (by omega)]
  · intro w ns k mc ws now hw hav
    apply cache.GetIn_of_lookup_none
    rw [cache.lookup_applyAll_of_avoids ws _ ns k hav]
    rcases hw with hw | ⟨hs, ht⟩
    · subst hw
      exact cache.lookup_Flush _ _
    · cases w <;> cases hs <;> cases ht <;> exact cache.lookup_Delete_same _ _
  · intro mc cep t1 t2 now0 d1 now1 d2 now2 hd
    have hd0 : d2 ≠ 0 := by omega
    simp only [cache.MemoryCache.GetTemperature, cache.MemoryCache.SetTemperature,
      cache.Cache.Get, cache.lookup_Set_same, if_neg hd0, if_pos hd]
    constructor
    · intro h1
      rw [if_neg (by omega)]
    · intro h0 h1
      rw [if_pos (by omega)]
  · intro mc cep v now0 d now1 hd
    have hd0 : d ≠ 0 := by omega
    simp only [cache.MemoryCache.GetLocation, cache.MemoryCache.SetLocation,
      cache.MemoryCache.InvalidateLocation, cache.MemoryCache.Clear,
      cache.Cache.Get, cache.lookup_Set_same, cache.lookup_Delete_same, cache.lookup_Flush,
      if_neg hd0, if_pos hd]
    refine ⟨?_, trivial, trivial⟩
    intro h1
    rw [if_neg (by omega)]
  · intro mc location v now0 d now1 hd
    have hd0 : d ≠ 0 := by omega
    simp only [cache.MemoryCache.GetWeather, cache.MemoryCache.SetWeather,
      cache.MemoryCache.InvalidateWeather, cache.MemoryCache.Clear,
      cache.Cache.Get, cache.lookup_Set_same, cache.lookup_Delete_same, cache.lookup_Flush,
      if_neg hd0, if_pos hd]
    refine ⟨?_, trivial, trivial⟩
    intro h1
    rw [if_neg (by omega)]

/-- C20: the store keys of two different namespaces are never equal, and within one
namespace the key construction is injective; hence a `Set` or an `Invalidate` in
another namespace, or on another key of the same namespace, never changes what a
typed `Get` returns: `SetLocation("01310100", ..)` leaves
`GetTemperature("01310100")` unchanged. -/
theorem C20_cache_namespaces_never_collide :
    (∀ a b : String, cache.locationCacheKey a ≠ cache.weatherCacheKey b ∧
      cache.locationCacheKey a ≠ cache.tempCacheKey b ∧
      cache.weatherCacheKey a ≠ cache.tempCacheKey b) ∧
    (∀ a b : String, (cache.locationCacheKey a = cache.locationCacheKey b → a = b) ∧
      (cache.weatherCacheKey a = cache.weatherCacheKey b → a = b) ∧
      (cache.tempCacheKey a = cache.tempCacheKey b → a = b)) ∧
    (∀ (w : cache.Write) (mc : cache.MemoryCache) (ns : cache.Namespace) (k : String)
        (now : Int), w.avoids ns k → (w.apply mc).GetIn ns now k = mc.GetIn ns now k) ∧
    (∀ (mc : cache.MemoryCache) (now : Int) (a b : String) (v : model.ViaCEPResponse)
        (d now' : Int),
      (mc.SetLocation now a v d).GetTemperature now' b = mc.GetTemperature now' b ∧
      (mc.SetLocation now a v d).GetWeather now' b = mc.GetWeather now' b ∧
      (mc.InvalidateLocation a).GetTemperature now' b = mc.GetTemperature now' b ∧
      (mc.InvalidateLocation a).GetWeather now' b = mc.GetWeather now' b ∧
      (a ≠ b → (mc.SetLocation now a v d).GetLocation now' b = mc.GetLocation now' b) ∧
      (a ≠ b → (mc.InvalidateLocation a).GetLocation now' b = mc.GetLocation now' b)) ∧
    (∀ (mc : cache.MemoryCache) (now : Int) (a b : String) (v : model.WeatherAPIResponse)
        (d now' : Int),
      (mc.SetWeather now a v d).GetTemperature now' b = mc.GetTemperature now' b ∧
      (mc.SetWeather now a v d).GetLocation now' b = mc.GetLocation now' b ∧
      (mc.InvalidateWeather a).GetTemperature now' b = mc.GetTemperature now' b ∧
      (mc.InvalidateWeather a).GetLocation now' b = mc.GetLocation now' b ∧
      (a ≠ b → (mc.SetWeather now a v d).GetWeather now' b = mc.GetWeather now' b) ∧
      (a ≠ b → (mc.InvalidateWeather a).GetWeather now' b = mc.GetWeather now' b)) ∧
    (∀ (mc : cache.MemoryCache) (now : Int) (a b : String) (v : models.TemperatureResponse)
        (d now' : Int),
      (mc.SetTemperature now a v d).GetLocation now' b = mc.GetLocation now' b ∧
      (mc.SetTemperature now a v d).GetWeather now' b = mc.GetWeather now' b ∧
      (mc.InvalidateTemperature a).GetLocation now' b = mc.GetLocation now' b ∧
      (mc.InvalidateTemperature a).GetWeather now' b = mc.GetWeather now' b ∧
      (a ≠ b → (mc.SetTemperature now a v d).GetTemperature now' b =
        mc.GetTemperature now' b) ∧
      (a ≠ b → (mc.InvalidateTemperature a).GetTemperature now' b =
        mc.GetTemperature now' b)) ∧
    (∀ (mc : cache.MemoryCache) (now : Int) (v : model.ViaCEPResponse) (d now' : Int),
      (mc.SetLocation now "01310100" v d).GetTemperature now' "01310100" =
        mc.GetTemperature now' "01310100") := by
  have hne : ∀ (ns ns' : cache.Namespace) (a b : String), ns ≠ ns' → ns.key a ≠ ns'.key b :=
    fun ns ns' a b h hc => h (cache.key_injective ns ns' a b hc).1
  have hinj : ∀ (ns : cache.Namespace) (a b : String), a ≠ b → ns.key a ≠ ns.key b :=
    fun ns a b h hc => h (cache.key_injective ns ns a b hc).2
  have hS : ∀ (mc : cache.MemoryCache) (now : Int) (k k' : String) (x : cache.Object)
      (d now' : Int), k' ≠ k → (mc.cache.Set now k' x d).Get now' k = mc.cache.Get now' k :=
    fun mc now k k' x d now' h => cache.Get_congr _ _ _ _ (cache.lookup_Set_ne _ _ _ _ _ _ h)
  have hD : ∀ (mc : cache.MemoryCache) (k k' : String) (now' : Int), k' ≠ k →
      (mc.cache.Delete k').Get now' k = mc.cache.Get now' k :=
    fun mc k k' now' h => cache.Get_congr _ _ _ _ (cache.lookup_Delete_ne _ _ _ h)
  have hLW := fun a b => hne .location .weather a b (by decide)
  have hLT := fun a b => hne .location .temp a b (by decide)
  have hWL := fun a b => hne .weather .location a b (by decide)
  have hWT := fun a b => hne .weather .temp a b (by decide)
  have hTL := fun a b => hne .temp .location a b (by decide)
  have hTW := fun a b => hne .temp .weather a b (by decide)
  simp only [cache.Namespace.key] at hLW hLT hWL hWT hTL hTW
  have hLL := fun a b h => hinj .location a b h
  have hWW := fun a b h => hinj .weather a b h
  have hTT := fun a b h => hinj .temp a b h
  simp only [cache.Namespace.key] at hLL hWW hTT
  refine ⟨fun a b => ⟨hLW a b, hLT a b, hWT a b⟩, ?_, ?_, ?_, ?_, ?_, ?_⟩
  · intro a b
    exact ⟨fun h => (cache.key_injective .location .location a b h).2,
      fun h => (cache.key_injective .weather .weather a b h).2,
      fun h => (cache.key_injective .temp .temp a b h).2⟩
  · intro w mc ns k now h
    exact cache.GetIn_congr _ _ ns now k (cache.Write.lookup_apply_of_avoids w mc ns k h)
  · intro mc now a b v d now'
    simp only [cache.MemoryCache.GetTemperature, cache.MemoryCache.GetWeather,
      cache.MemoryCache.GetLocation, cache.MemoryCache.SetLocation,
      cache.MemoryCache.InvalidateLocation]
    refine ⟨?_, ?_, ?_, ?_, ?_, ?_⟩
    · rw [hS _ _ _ _ _ _ _ (hLT a b)]
    · rw [hS _ _ _ _ _ _ _ (hLW a b)]
    · rw [hD _ _ _ _ (hLT a b)]
    · rw [hD _ _ _ _ (hLW a b)]
    · intro h; rw [hS _ _ _ _ _ _ _ (hLL a b h)]
    · intro h; rw [hD _ _ _ _ (hLL a b h)]
  · intro mc now a b v d now'
    simp only [cache.MemoryCache.GetTemperature, cache.MemoryCache.GetWeather,
      cache.MemoryCache.GetLocation, cache.MemoryCache.SetWeather,
      cache.MemoryCache.InvalidateWeather]
    refine ⟨?_, ?_, ?_, ?_, ?_, ?_⟩
    · rw [hS _ _ _ _ _ _ _ (hWT a b)]
    · rw [hS _ _ _ _ _ _ _ (hWL a b)]
    · rw [hD _ _ _ _ (hWT a b)]
    · rw [hD _ _ _ _ (hWL a b)]
    · intro h; rw [hS _ _ _ _ _ _ _ (hWW a b h)]
    · intro h; rw [hD _ _ _ _ (hWW a b h)]
  · intro mc now a b v d now'
    simp only [cache.MemoryCache.GetTemperature, cache.MemoryCache.GetWeather,
      cache.MemoryCache.GetLocation, cache.MemoryCache.SetTemperature,
      cache.MemoryCache.InvalidateTemperature]
    refine ⟨?_, ?_, ?_, ?_, ?_, ?_⟩
    · rw [hS _ _ _ _ _ _ _ (hTL a b)]
    · rw [hS _ _ _ _ _ _ _ (hTW a b)]
    · rw [hD _ _ _ _ (hTL a b)]
    · rw [hD _ _ _ _ (hTW a b)]
    · intro h; rw [hS _ _ _ _ _ _ _ (hTT a b h)]
    · intro h; rw [hD _ _ _ _ (hTT a b h)]
  · intro mc now v d now'
    simp only [cache.MemoryCache.GetTemperature, cache.MemoryCache.SetLocation]
    rw [hS _ _ _ _ _ _ _ (hLT _ _)]

/-! ## The claims on the upstream clients -/

/-- C16: `GetLocationByCEP` answers both upstream not-found signals alike: it returns
`CEPNotFoundError{CEP: code}` when the upstream status is 404, and when the status
is 200 and the decoded payload has an empty `localidade` or an empty `uf`. Any other
status than 200, and a 200 body that does not decode, yield a `fmt.Errorf` error,
which is no `CEPNotFoundError`; a location is returned only from a decoded 200 body
whose `Localidade` and `UF` are both non-empty. -/
theorem C16_getLocationByCEP_not_found_signals :
    (∀ (decode : String → Except String model.ViaCEPResponse) (cep body : String),
      client.GetLocationByCEP (.response 404 body) decode cep =
        .error (GoError.cepNotFound cep)) ∧
    (∀ (decode : String → Except String model.ViaCEPResponse) (cep body : String)
        (v : model.ViaCEPResponse),
      decode body = .ok v → (v.Localidade = "" ∨ v.UF = "") →
      client.GetLocationByCEP (.response 200 body) decode cep =
        .error (GoError.cepNotFound cep)) ∧
    (∀ (decode : String → Except String model.ViaCEPResponse) (cep body : String)
        (status : Int), status ≠ 200 → status ≠ 404 →
      client.GetLocationByCEP (.response status body) decode cep =
        .error (GoError.errorf ("erro na API OpenCEP: status " ++ toString status))) ∧
    (∀ (decode : String → Except String model.ViaCEPResponse) (cep body err : String),
      decode body = .error err →
      client.GetLocationByCEP (.response 200 body) decode cep =
        .error (GoError.errorf ("erro ao decodificar resposta: " ++ err))) ∧
    (∀ (exchange : client.Exchange) (decode : String → Except String model.ViaCEPResponse)
        (cep : String) (v : model.ViaCEPResponse),
      client.GetLocationByCEP exchange decode cep = .ok v →
      v.Localidade ≠ "" ∧ v.UF ≠ "" ∧
        ∃ body, exchange = .response 200 body ∧ decode body = .ok v) ∧
    (∀ (exchange : client.Exchange) (decode : String → Except String model.ViaCEPResponse)
        (cep c : String),
      client.GetLocationByCEP exchange decode cep = .error (GoError.cepNotFound c) →
      c = cep ∧ ∃ body, exchange = .response 404 body ∨
        (exchange = .response 200 body ∧
          ∃ v, decode body = .ok v ∧ (v.Localidade = "" ∨ v.UF = ""))) := by
  refine ⟨?_, ?_, ?_, ?_, ?_, ?_⟩
  · intro decode cep body
    simp [client.GetLocationByCEP]
  · intro decode cep body v hd hv
    simp [client.GetLocationByCEP, hd, hv]
  · intro decode cep body status h200 h404
    simp [client.GetLocationByCEP, h200, h404]
  · intro decode cep body err hd
    simp [client.GetLocationByCEP, hd]
  · intro exchange decode cep v h
    cases exchange with
    | requestError err => simp [client.GetLocationByCEP] at h
    | doError err => simp [client.GetLocationByCEP] at h
    | response status body =>
      simp only [client.GetLocationByCEP] at h
      by_cases h200 : status = 200
      · subst h200
        simp only [ne_eq, not_true_eq_false, if_false] at h
        cases hd : decode body with
        | error err => rw [hd] at h; simp at h
        | ok w =>
          rw [hd] at h
          simp only at h
          by_cases hw : w.Localidade = "" ∨ w.UF = ""
          · rw [if_pos hw] at h; simp at h
          · rw [if_neg hw] at h
            by_cases hv : (!w.IsValid) = true
            · rw [if_pos hv] at h; simp at h
            · rw [if_neg hv] at h
              injection h with h
              subst h
              push_neg at hw
              exact ⟨hw.1, hw.2, body, rfl, hd⟩
      · rw [if_pos h200] at h
        by_cases h404 : status = 404
        · rw [if_pos h404] at h; simp at h
        · rw [if_neg h404] at h; simp at h
  · intro exchange decode cep c h
    cases exchange with
    | requestError err => simp [client.GetLocationByCEP] at h
    | doError err => simp [client.GetLocationByCEP] at h
    | response status body =>
      simp only [client.GetLocationByCEP] at h
      by_cases h200 : status = 200
      · subst h200
        simp only [ne_eq, not_true_eq_false, if_false] at h
        cases hd : decode body with
        | error err => rw [hd] at h; simp at h
        | ok w =>
          rw [hd] at h
          simp only at h
          by_cases hw : w.Localidade = "" ∨ w.UF = ""
          · rw [if_pos hw] at h
            injection h with h
            injection h with h
            exact ⟨h.symm, body, Or.inr ⟨rfl, w, hd, hw⟩⟩
          · rw [if_neg hw] at h
            by_cases hv : (!w.IsValid) = true
            · rw [if_pos hv] at h; simp at h
            · rw [if_neg hv] at h; simp at h
      · rw [if_pos h200] at h
        by_cases h404 : status = 404
        · rw [if_pos h404] at h
          injection h with h
          injection h with h
          subst h404
          exact ⟨h.symm, body, Or.inl rfl⟩
        · rw [if_neg h404] at h; simp at h

namespace client

/-- Two texts that start with different characters are different. -/
theorem ne_of_head_ne (s t : String) (c d : Char) (cs ds : List Char)
    (hs : s.data = c :: cs) (ht : t.data = d :: ds) (hcd : c ≠ d) : s ≠ t := by
  intro h
  rw [h, ht] at hs
  injection hs with h1 _
  exact hcd h1.symm

theorem data_append_literal (p x : String) (c : Char) (cs : List Char)
    (hp : p.data = c :: cs) : (p ++ x).data = c :: (cs ++ x.data) := by
  rw [String.data_append, hp]
  rfl

end client

/-- C17: `GetCurrentWeather` tells four failure classes apart by the upstream
status: 400 gives a `LocationNotFoundError` for the queried location, whether or not
the error body decodes; 401 gives the API-key error, 403 the quota error, and every
other status than 200 the status error. The errors of the four classes are pairwise
different for the caller, by type or by message, and only status 400 gives a
`LocationNotFoundError`. -/
theorem C17_getCurrentWeather_failure_classes :
    (∀ (decode : String → Except String model.WeatherAPIResponse)
        (decodeError : String → Except String model.WeatherAPIError) (location body : String),
      (∃ message, client.GetCurrentWeather (.response 400 body) decode decodeError location =
        .error (GoError.locationNotFound location message)) ∧
      (∀ err, decodeError body = .error err →
        client.GetCurrentWeather (.response 400 body) decode decodeError location =
          .error (GoError.locationNotFound location "")) ∧
      (∀ errorResp, decodeError body = .ok errorResp →
        client.GetCurrentWeather (.response 400 body) decode decodeError location =
          .error (GoError.locationNotFound location errorResp.Message)) ∧
      client.GetCurrentWeather (.response 401 body) decode decodeError location =
        .error (GoError.errorf "API key inválida para WeatherAPI") ∧
      client.GetCurrentWeather (.response 403 body) decode decodeError location =
        .error (GoError.errorf "quota excedida ou acesso negado na WeatherAPI") ∧
      (∀ status : Int, status ≠ 200 → status ≠ 400 → status ≠ 401 → status ≠ 403 →
        client.GetCurrentWeather (.response status body) decode decodeError location =
          .error (GoError.errorf ("erro na WeatherAPI: status " ++ toString status)))) ∧
    (∀ (location message : String) (status : Int),
      GoError.errorf "API key inválida para WeatherAPI" ≠
        GoError.errorf "quota excedida ou acesso negado na WeatherAPI" ∧
      GoError.errorf "API key inválida para WeatherAPI" ≠
        GoError.errorf ("erro na WeatherAPI: status " ++ toString status) ∧
      GoError.errorf "quota excedida ou acesso negado na WeatherAPI" ≠
        GoError.errorf ("erro na WeatherAPI: status " ++ toString status) ∧
      GoError.locationNotFound location message ≠
        GoError.errorf "API key inválida para WeatherAPI" ∧
      GoError.locationNotFound location message ≠
        GoError.errorf "quota excedida ou acesso negado na WeatherAPI" ∧
      GoError.locationNotFound location message ≠
        GoError.errorf ("erro na WeatherAPI: status " ++ toString status) ∧
      (GoError.errorf "API key inválida para WeatherAPI").Error ≠
        (GoError.errorf "quota excedida ou acesso negado na WeatherAPI").Error ∧
      (GoError.errorf "API key inválida para WeatherAPI").Error ≠
        (GoError.errorf ("erro na WeatherAPI: status " ++ toString status)).Error ∧
      (GoError.errorf "quota excedida ou acesso negado na WeatherAPI").Error ≠
        (GoError.errorf ("erro na WeatherAPI: status " ++ toString status)).Error) ∧
    (∀ (exchange : client.Exchange)
        (decode : String → Except String model.WeatherAPIResponse)
        (decodeError : String → Except String model.WeatherAPIError)
        (location l message : String),
      client.GetCurrentWeather exchange decode decodeError location =
        .error (GoError.locationNotFound l message) →
      l = location ∧ ∃ body, exchange = .response 400 body) := by
  have hAq : ("API key inválida para WeatherAPI" : String) ≠
      "quota excedida ou acesso negado na WeatherAPI" := by decide
  have hAe : ∀ status : Int, ("API key inválida para WeatherAPI" : String) ≠
      "erro na WeatherAPI: status " ++ toString status := fun status =>
    client.ne_of_head_ne _ _ 'A' 'e' _ _ rfl
      (client.data_append_literal _ _ 'e' _ rfl) (by decide)
  have hqe : ∀ status : Int, ("quota excedida ou acesso negado na WeatherAPI" : String) ≠
      "erro na WeatherAPI: status " ++ toString status := fun status =>
    client.ne_of_head_ne _ _ 'q' 'e' _ _ rfl
      (client.data_append_literal _ _ 'e' _ rfl) (by decide)
  refine ⟨?_, ?_, ?_⟩
  · intro decode decodeError location body
    refine ⟨?_, ?_, ?_, ?_, ?_, ?_⟩
    · cases hd : decodeError body with
      | error err => exact ⟨"", by simp [client.GetCurrentWeather, hd]⟩
      | ok errorResp =>
        exact ⟨errorResp.Message, by
          simp [client.GetCurrentWeather, hd, model.WeatherAPIError.GetMessage]⟩
    · intro err hd
      simp [client.GetCurrentWeather, hd]
    · intro errorResp hd
      simp [client.GetCurrentWeather, hd, model.WeatherAPIError.GetMessage]
    · simp [client.GetCurrentWeather]
    · simp [client.GetCurrentWeather]
    · intro status h200 h400 h401 h403
      simp [client.GetCurrentWeather, h200, h400, h401, h403]
  · intro location message status
    refine ⟨?_, ?_, ?_, ?_, ?_, ?_, hAq, hAe status, hqe status⟩
    · intro h; injection h with h; exact hAq h
    · intro h; injection h with h; exact hAe status h
    · intro h; injection h with h; exact hqe status h
    · intro h; cases h
    · intro h; cases h
    · intro h; cases h
  · intro exchange decode decodeError location l message h
    cases exchange with
    | requestError err => simp [client.GetCurrentWeather] at h
    | doError err => simp [client.GetCurrentWeather] at h
    | response status body =>
      simp only [client.GetCurrentWeather] at h
      by_cases h200 : status = 200
      · rw [if_pos h200] at h
        cases hd : decode body with
        | error err => rw [hd] at h; simp at h
        | ok w =>
          rw [hd] at h
          simp only at h
          by_cases hv : (!w.IsValid) = true
          · rw [if_pos hv] at h; simp at h
          · rw [if_neg hv] at h; simp at h
      · rw [if_neg h200] at h
        by_cases h400 : status = 400
        · subst h400
          rw [if_pos rfl] at h
          cases hd : decodeError body with
          | error err =>
            rw [hd] at h
            injection h with h
            injection h with h1 h2
            exact ⟨h1.symm, body, rfl⟩
          | ok errorResp =>
            rw [hd] at h
            injection h with h
            injection h with h1 h2
            exact ⟨h1.symm, body, rfl⟩
        · rw [if_neg h400] at h
          by_cases h401 : status = 401
          · rw [if_pos h401] at h; simp at h
          · rw [if_neg h401] at h
            by_cases h403 : status = 403
            · rw [if_pos h403] at h; simp at h
            · rw [if_neg h403] at h; simp at h

/-! ## Lemmas on the temperature handler -/

namespace handler

theorem getLocationWithCache_hit (env : Env) (st : State) (cep : String)
    (L : model.ViaCEPResponse) (h : st.cache.GetLocation env.now cep = some L) :
    getLocationWithCache env st cep =
      (.ok L, { cache := st.cache
                events := st.events ++ [Event.cacheGet (cache.locationCacheKey cep)] }) := by
  simp only [getLocationWithCache, h]

theorem getLocationWithCache_miss_error (env : Env) (st : State) (cep : String)
    (err : GoError) (h : st.cache.GetLocation env.now cep = none)
    (hc : client.GetLocationByCEP (env.openCEP cep) env.decodeLocation cep = .error err) :
    getLocationWithCache env st cep =
      (.error err,
        { cache := st.cache
          events := st.events ++ [Event.cacheGet (cache.locationCacheKey cep),
            Event.openCEPCall cep] }) := by
  simp [getLocationWithCache, h, hc]

theorem getLocationWithCache_miss_ok (env : Env) (st : State) (cep : String)
    (L : model.ViaCEPResponse) (h : st.cache.GetLocation env.now cep = none)
    (hc : client.GetLocationByCEP (env.openCEP cep) env.decodeLocation cep = .ok L) :
    getLocationWithCache env st cep =
      (.ok L,
        { cache := st.cache.SetLocation env.now cep L (24 * time.Hour)
          events := st.events ++ [Event.cacheGet (cache.locationCacheKey cep),
            Event.openCEPCall cep,
            Event.cacheSet (cache.locationCacheKey cep) (24 * time.Hour)] }) := by
  simp [getLocationWithCache, h, hc]

theorem getWeatherWithCache_hit (env : Env) (st : State) (location : String)
    (W : model.WeatherAPIResponse) (h : st.cache.GetWeather env.now location = some W) :
    getWeatherWithCache env st location =
      (.ok W, { cache := st.cache
                events := st.events ++ [Event.cacheGet (cache.weatherCacheKey location)] }) := by
  simp only [getWeatherWithCache, h]

theorem getWeatherWithCache_miss_error (env : Env) (st : State) (location : String)
    (err : GoError) (h : st.cache.GetWeather env.now location = none)
    (hc : client.GetCurrentWeather (env.weather location) env.decodeWeather
      env.decodeWeatherError location = .error err) :
    getWeatherWithCache env st location =
      (.error err,
        { cache := st.cache
          events := st.events ++ [Event.cacheGet (cache.weatherCacheKey location),
            Event.weatherCall location] }) := by
  simp [getWeatherWithCache, h, hc]

theorem getWeatherWithCache_miss_ok (env : Env) (st : State) (location : String)
    (W : model.WeatherAPIResponse) (h : st.cache.GetWeather env.now location = none)
    (hc : client.GetCurrentWeather (env.weather location) env.decodeWeather
      env.decodeWeatherError location = .ok W) :
    getWeatherWithCache env st location =
      (.ok W,
        { cache := st.cache.SetWeather env.now location W (10 * time.Minute)
          events := st.events ++ [Event.cacheGet (cache.weatherCacheKey location),
            Event.weatherCall location,
            Event.cacheSet (cache.weatherCacheKey location) (10 * time.Minute)] }) := by
  simp [getWeatherWithCache, h, hc]

theorem ten_minutes : 10 * time.Minute = 600000000000 := by decide

theorem one_day : 24 * time.Hour = 86400000000000 := by decide

/-- A typed getter right after the typed setter of the same key, within the
duration. -/
theorem GetLocation_SetLocation (mc : cache.MemoryCache) (now now' d : Int) (cep : String)
    (L : model.ViaCEPResponse) (hd : d > 0) (h : now' ≤ now + d) :
    (mc.SetLocation now cep L d).GetLocation now' cep = some L := by
  have hd0 : d ≠ 0 := by omega
  simp only [cache.MemoryCache.GetLocation, cache.MemoryCache.SetLocation, cache.Cache.Get,
    cache.lookup_Set_same, if_neg hd0, if_pos hd]
  rw [if_neg (by omega)]

theorem GetWeather_SetWeather (mc : cache.MemoryCache) (now now' d : Int) (location : String)
    (W : model.WeatherAPIResponse) (hd : d > 0) (h : now' ≤ now + d) :
    (mc.SetWeather now location W d).GetWeather now' location = some W := by
  have hd0 : d ≠ 0 := by omega
  simp only [cache.MemoryCache.GetWeather, cache.MemoryCache.SetWeather, cache.Cache.Get,
    cache.lookup_Set_same, if_neg hd0, if_pos hd]
  rw [if_neg (by omega)]

theorem GetTemperature_SetTemperature (mc : cache.MemoryCache) (now now' d : Int)
    (cep : String) (t : models.TemperatureResponse) (hd : d > 0) (h : now' ≤ now + d) :
    (mc.SetTemperature now cep t d).GetTemperature now' cep = some t := by
  have hd0 : d ≠ 0 := by omega
  simp only [cache.MemoryCache.GetTemperature, cache.MemoryCache.SetTemperature,
    cache.Cache.Get, cache.lookup_Set_same, if_neg hd0, if_pos hd]
  rw [if_neg (by omega)]

end handler

/-! ## The claims on the two cached stages -/

set_option maxRecDepth 100000 in
/-- C14: `getLocationWithCache(code)` is cache-aside over the location namespace.
When `GetLocation` finds an unexpired entry for the code, that entry is returned,
the cache is unchanged and the location service is not called. On a miss the
service is called once: its error is returned unchanged with the cache unchanged; its
location is stored under the code with a duration of 24 hours and returned, so that
`GetLocation` of the code finds it for the next 24 hours. -/
theorem C14_getLocationWithCache_cache_aside :
    (∀ (env : handler.Env) (st : handler.State) (cep : String) (L : model.ViaCEPResponse),
      st.cache.GetLocation env.now cep = some L →
      handler.getLocationWithCache env st cep =
        (.ok L, { cache := st.cache
                  events := st.events ++
                    [handler.Event.cacheGet (cache.locationCacheKey cep)] })) ∧
    (∀ (env : handler.Env) (st : handler.State) (cep : String) (err : GoError),
      st.cache.GetLocation env.now cep = none →
      client.GetLocationByCEP (env.openCEP cep) env.decodeLocation cep = .error err →
      handler.getLocationWithCache env st cep =
        (.error err,
          { cache := st.cache
            events := st.events ++ [handler.Event.cacheGet (cache.locationCacheKey cep),
              handler.Event.openCEPCall cep] })) ∧
    (∀ (env : handler.Env) (st : handler.State) (cep : String) (L : model.ViaCEPResponse),
      st.cache.GetLocation env.now cep = none →
      client.GetLocationByCEP (env.openCEP cep) env.decodeLocation cep = .ok L →
      handler.getLocationWithCache env st cep =
        (.ok L,
          { cache := st.cache.SetLocation env.now cep L 86400000000000
            events := st.events ++ [handler.Event.cacheGet (cache.locationCacheKey cep),
              handler.Event.openCEPCall cep,
              handler.Event.cacheSet (cache.locationCacheKey cep) 86400000000000] }) ∧
      (st.cache.SetLocation env.now cep L 86400000000000).cache.lookup
          (cache.locationCacheKey cep) =
        some { Object := .location L, Expiration := env.now + 86400000000000 } ∧
      ∀ now' : Int, now' ≤ env.now + 86400000000000 →
        (st.cache.SetLocation env.now cep L 86400000000000).GetLocation now' cep = some L) ∧
    24 * time.Hour = 86400000000000 ∧
    (24 * 60 * 60 * 1000000000 : Int) = 86400000000000 ∧
    handler.getLocationWithCache (handler.envSaoPaulo 1000)
        { cache := cache.NewMemoryCache 300000000000 600000000000, events := [] } "01310100" =
      (.ok handler.locationSaoPaulo,
        { cache := (cache.NewMemoryCache 300000000000 600000000000).SetLocation 1000
            "01310100" handler.locationSaoPaulo 86400000000000
          events := [.cacheGet "location:01310100", .openCEPCall "01310100",
            .cacheSet "location:01310100" 86400000000000] }) ∧
    handler.getLocationWithCache (handler.envUnreachable 86400000001000)
        { cache := (cache.NewMemoryCache 300000000000 600000000000).SetLocation 1000
            "01310100" handler.locationSaoPaulo 86400000000000
          events := [] } "01310100" =
      (.ok handler.locationSaoPaulo,
        { cache := (cache.NewMemoryCache 300000000000 600000000000).SetLocation 1000
            "01310100" handler.locationSaoPaulo 86400000000000
          events := [.cacheGet "location:01310100"] }) ∧
    handler.getLocationWithCache (handler.envUnreachable 86400000001001)
        { cache := (cache.NewMemoryCache 300000000000 600000000000).SetLocation 1000
            "01310100" handler.locationSaoPaulo 86400000000000
          events := [] } "01310100" =
      (.error (GoError.errorf "erro ao executar requisição: context deadline exceeded"),
        { cache := (cache.NewMemoryCache 300000000000 600000000000).SetLocation 1000
            "01310100" handler.locationSaoPaulo 86400000000000
          events := [.cacheGet "location:01310100", .openCEPCall "01310100"] }) := by
  refine ⟨handler.getLocationWithCache_hit, handler.getLocationWithCache_miss_error, ?_,
    handler.one_day, by norm_num, by rfl, by rfl, by rfl⟩
  intro env st cep L h hc
  refine ⟨?_, ?_, ?_⟩
  · rw [handler.getLocationWithCache_miss_ok env st cep L h hc, handler.one_day]
  · simp [cache.MemoryCache.SetLocation, cache.lookup_Set_same]
  · intro now' h'
    exact handler.GetLocation_SetLocation _ _ _ _ _ _ (by norm_num) h'

namespace handler

theorem HandleTemperature_error (env : Env) (mc : cache.MemoryCache) (e : String) :
    HandleTemperature env mc (.error e) =
      { response := respondWithError 400 models.ErrInvalidZipcode
        state := { cache := mc, events := [] } } := rfl

theorem HandleTemperature_invalid (env : Env) (mc : cache.MemoryCache)
    (req : models.CEPRequest) (n : String) (m : GoError)
    (hv : utils.ValidateAndNormalize req.CEP = (n, some m)) :
    HandleTemperature env mc (.ok req) =
      { response := respondWithError 422 models.ErrInvalidZipcode
        state := { cache := mc, events := [] } } := by
  simp only [HandleTemperature, hv]

theorem HandleTemperature_hit (env : Env) (mc : cache.MemoryCache)
    (req : models.CEPRequest) (n : String) (t : models.TemperatureResponse)
    (hv : utils.ValidateAndNormalize req.CEP = (n, none))
    (ht : mc.GetTemperature env.now n = some t) :
    HandleTemperature env mc (.ok req) =
      { response := respondWithSuccess t
        state := { cache := mc, events := [Event.cacheGet (cache.tempCacheKey n)] } } := by
  simp [HandleTemperature, hv, ht]

theorem HandleTemperature_location_error (env : Env) (mc : cache.MemoryCache)
    (req : models.CEPRequest) (n : String) (err : GoError) (st1 : State) :
    utils.ValidateAndNormalize req.CEP = (n, none) →
    mc.GetTemperature env.now n = none →
    getLocationWithCache env
      { cache := mc, events := [Event.cacheGet (cache.tempCacheKey n)] } n = (.error err, st1) →
    HandleTemperature env mc (.ok req) =
      { response :=
          match err with
          | .cepNotFound _ => respondWithError 404 models.ErrZipcodeNotFound
          | _ => respondWithError 500 "Erro interno do servidor"
        state := st1 } := by
  intro hv ht hl
  simp only [HandleTemperature, hv, ht, List.nil_append, hl]
  cases err <;> rfl

theorem HandleTemperature_weather_error (env : Env) (mc : cache.MemoryCache)
    (req : models.CEPRequest) (n : String) (L : model.ViaCEPResponse) (err : GoError)
    (st1 st2 : State) :
    utils.ValidateAndNormalize req.CEP = (n, none) →
    mc.GetTemperature env.now n = none →
    getLocationWithCache env
      { cache := mc, events := [Event.cacheGet (cache.tempCacheKey n)] } n = (.ok L, st1) →
    getWeatherWithCache env st1 L.GetFullLocation = (.error err, st2) →
    HandleTemperature env mc (.ok req) =
      { response :=
          match err with
          | .locationNotFound _ _ => respondWithError 404 models.ErrZipcodeNotFound
          | _ => respondWithError 500 "Erro interno do servidor"
        state := st2 } := by
  intro hv ht hl hw
  simp only [HandleTemperature, hv, ht, List.nil_append, hl, hw]
  cases err <;> rfl

theorem HandleTemperature_fresh (env : Env) (mc : cache.MemoryCache)
    (req : models.CEPRequest) (n : String) (L : model.ViaCEPResponse)
    (W : model.WeatherAPIResponse) (st1 st2 : State)
    (hv : utils.ValidateAndNormalize req.CEP = (n, none))
    (ht : mc.GetTemperature env.now n = none)
    (hl : getLocationWithCache env
      { cache := mc, events := [Event.cacheGet (cache.tempCacheKey n)] } n = (.ok L, st1))
    (hw : getWeatherWithCache env st1 L.GetFullLocation = (.ok W, st2)) :
    HandleTemperature env mc (.ok req) =
      { response := respondWithSuccess
          (service.ConvertToAllUnits env.fused W.GetTemperatureCelsius L.GetCityName)
        state :=
          { cache := st2.cache.SetTemperature env.now n
              (service.ConvertToAllUnits env.fused W.GetTemperatureCelsius L.GetCityName)
              (10 * time.Minute)
            events := st2.events ++
              [Event.cacheSet (cache.tempCacheKey n) (10 * time.Minute)] } } := by
  simp only [HandleTemperature, hv, ht, List.nil_append, hl, hw]

end handler

namespace client

/-- A location returned by `GetLocationByCEP` has a place name and a region. -/
theorem GetLocationByCEP_ok (exchange : Exchange)
    (decode : String → Except String model.ViaCEPResponse) (cep : String)
    (L : model.ViaCEPResponse) (h : GetLocationByCEP exchange decode cep = .ok L) :
    L.Localidade ≠ "" ∧ L.UF ≠ "" := by
  cases exchange with
  | requestError e => cases h
  | doError e => cases h
  | response status body =>
    simp only [GetLocationByCEP] at h
    split_ifs at h with h1 h2
    cases hd : decode body with
    | error e => rw [hd] at h; cases h
    | ok v =>
      rw [hd] at h
      simp only at h
      split_ifs at h with h3 h4
      cases h
      exact ⟨fun hc => h3 (Or.inl hc), fun hc => h3 (Or.inr hc)⟩

end client

namespace cache

theorem mem_of_lookup (c : Cache) (k : String) (item : Item) (h : c.lookup k = some item) :
    (k, item) ∈ c.items := by
  simp only [Cache.lookup] at h
  cases hf : c.items.find? (fun kv => kv.1 == k) with
  | none => rw [hf] at h; cases h
  | some kv =>
    rw [hf] at h
    have h1 := List.find?_some hf
    have h2 := List.mem_of_find?_eq_some hf
    have h3 : kv.1 = k := by simpa using h1
    have h4 : kv.2 = item := by simpa using h
    rw [← h3, ← h4]
    exact h2

theorem mem_Set (c : Cache) (now : Int) (k k' : String) (x : Object) (d : Int) (item : Item)
    (h : (k', item) ∈ (c.Set now k x d).items) : item.Object = x ∨ (k', item) ∈ c.items := by
  simp only [Cache.Set, List.mem_cons, List.mem_filter] at h
  rcases h with h | h
  · left
    rw [(Prod.mk.inj h).2]
  · exact Or.inr h.1

theorem mem_Delete (c : Cache) (k k' : String) (item : Item)
    (h : (k', item) ∈ (c.Delete k).items) : (k', item) ∈ c.items := by
  simp only [Cache.Delete, List.mem_filter] at h
  exact h.1

theorem GetLocation_mem (mc : MemoryCache) (now : Int) (cep : String)
    (L : model.ViaCEPResponse) (h : mc.GetLocation now cep = some L) :
    ∃ item, (locationCacheKey cep, item) ∈ mc.cache.items ∧ item.Object = .location L := by
  simp only [MemoryCache.GetLocation, Cache.Get] at h
  cases hl : mc.cache.lookup (locationCacheKey cep) with
  | none => rw [hl] at h; cases h
  | some item =>
    rw [hl] at h
    simp only at h
    refine ⟨item, mem_of_lookup _ _ _ hl, ?_⟩
    split_ifs at h
    cases ho : item.Object with
    | location v => rw [ho] at h; simp only [Option.some.injEq] at h; rw [h]
    | weather w => rw [ho] at h; cases h
    | temperature t => rw [ho] at h; cases h

theorem applyAll_append (ws ws' : List Write) (mc : MemoryCache) :
    applyAll (ws ++ ws') mc = applyAll ws' (applyAll ws mc) := by
  simp only [applyAll, List.foldl_append]

end cache

namespace handler

theorem getLocationWithCache_error_inv (env : Env) (st st1 : State) (cep : String)
    (err : GoError) (h : getLocationWithCache env st cep = (.error err, st1)) :
    st.cache.GetLocation env.now cep = none ∧
    client.GetLocationByCEP (env.openCEP cep) env.decodeLocation cep = .error err ∧
    st1 = { cache := st.cache
            events := st.events ++ [Event.cacheGet (cache.locationCacheKey cep),
              Event.openCEPCall cep] } := by
  cases hg : st.cache.GetLocation env.now cep with
  | some L => rw [getLocationWithCache_hit env st cep L hg] at h; cases h
  | none =>
    cases hc : client.GetLocationByCEP (env.openCEP cep) env.decodeLocation cep with
    | error e =>
      rw [getLocationWithCache_miss_error env st cep e hg hc] at h
      cases h
      exact ⟨rfl, rfl, rfl⟩
    | ok L => rw [getLocationWithCache_miss_ok env st cep L hg hc] at h; cases h

theorem getLocationWithCache_ok_inv (env : Env) (st st1 : State) (cep : String)
    (L : model.ViaCEPResponse) (h : getLocationWithCache env st cep = (.ok L, st1)) :
    (st.cache.GetLocation env.now cep = some L ∧
      st1 = { cache := st.cache
              events := st.events ++ [Event.cacheGet (cache.locationCacheKey cep)] }) ∨
    (st.cache.GetLocation env.now cep = none ∧
      client.GetLocationByCEP (env.openCEP cep) env.decodeLocation cep = .ok L ∧
      st1 = { cache := st.cache.SetLocation env.now cep L (24 * time.Hour)
              events := st.events ++ [Event.cacheGet (cache.locationCacheKey cep),
                Event.openCEPCall cep,
                Event.cacheSet (cache.locationCacheKey cep) (24 * time.Hour)] }) := by
  cases hg : st.cache.GetLocation env.now cep with
  | some L' =>
    rw [getLocationWithCache_hit env st cep L' hg] at h
    cases h
    exact Or.inl ⟨rfl, rfl⟩
  | none =>
    cases hc : client.GetLocationByCEP (env.openCEP cep) env.decodeLocation cep with
    | error e => rw [getLocationWithCache_miss_error env st cep e hg hc] at h; cases h
    | ok L' =>
      rw [getLocationWithCache_miss_ok env st cep L' hg hc] at h
      cases h
      exact Or.inr ⟨rfl, rfl, rfl⟩

theorem getWeatherWithCache_error_inv (env : Env) (st st2 : State) (location : String)
    (err : GoError) (h : getWeatherWithCache env st location = (.error err, st2)) :
    st.cache.GetWeather env.now location = none ∧
    client.GetCurrentWeather (env.weather location) env.decodeWeather
      env.decodeWeatherError location = .error err ∧
    st2 = { cache := st.cache
            events := st.events ++ [Event.cacheGet (cache.weatherCacheKey location),
              Event.weatherCall location] } := by
  cases hg : st.cache.GetWeather env.now location with
  | some W => rw [getWeatherWithCache_hit env st location W hg] at h; cases h
  | none =>
    cases hc : client.GetCurrentWeather (env.weather location) env.decodeWeather
        env.decodeWeatherError location with
    | error e =>
      rw [getWeatherWithCache_miss_error env st location e hg hc] at h
      cases h
      exact ⟨rfl, rfl, rfl⟩
    | ok W => rw [getWeatherWithCache_miss_ok env st location W hg hc] at h; cases h

theorem getWeatherWithCache_ok_inv (env : Env) (st st2 : State) (location : String)
    (W : model.WeatherAPIResponse) (h : getWeatherWithCache env st location = (.ok W, st2)) :
    (st.cache.GetWeather env.now location = some W ∧
      st2 = { cache := st.cache
              events := st.events ++ [Event.cacheGet (cache.weatherCacheKey location)] }) ∨
    (st.cache.GetWeather env.now location = none ∧
      client.GetCurrentWeather (env.weather location) env.decodeWeather
        env.decodeWeatherError location = .ok W ∧
      st2 = { cache := st.cache.SetWeather env.now location W (10 * time.Minute)
              events := st.events ++ [Event.cacheGet (cache.weatherCacheKey location),
                Event.weatherCall location,
                Event.cacheSet (cache.weatherCacheKey location) (10 * time.Minute)] }) := by
  cases hg : st.cache.GetWeather env.now location with
  | some W' =>
    rw [getWeatherWithCache_hit env st location W' hg] at h
    cases h
    exact Or.inl ⟨rfl, rfl⟩
  | none =>
    cases hc : client.GetCurrentWeather (env.weather location) env.decodeWeather
        env.decodeWeatherError location with
    | error e => rw [getWeatherWithCache_miss_error env st location e hg hc] at h; cases h
    | ok W' =>
      rw [getWeatherWithCache_miss_ok env st location W' hg hc] at h
      cases h
      exact Or.inr ⟨rfl, rfl, rfl⟩

end handler

namespace handler

/-- The cache writes of the location stage: at most one `SetLocation`, of a location
with a place name and a region, under the code, for 24 hours. -/
theorem getLocationWithCache_writes (env : Env) (st : State) (cep : String) :
    ∃ ws : List cache.Write,
      (getLocationWithCache env st cep).2.cache = cache.applyAll ws st.cache ∧
      ∀ w ∈ ws, ∃ L : model.ViaCEPResponse,
        w = cache.Write.setLocation env.now cep L (24 * time.Hour) ∧
        L.Localidade ≠ "" ∧ L.UF ≠ "" := by
  cases hg : st.cache.GetLocation env.now cep with
  | some L =>
    rw [getLocationWithCache_hit env st cep L hg]
    exact ⟨[], rfl, fun w hw => absurd hw (List.not_mem_nil w)⟩
  | none =>
    cases hc : client.GetLocationByCEP (env.openCEP cep) env.decodeLocation cep with
    | error e =>
      rw [getLocationWithCache_miss_error env st cep e hg hc]
      exact ⟨[], rfl, fun w hw => absurd hw (List.not_mem_nil w)⟩
    | ok L =>
      rw [getLocationWithCache_miss_ok env st cep L hg hc]
      refine ⟨[cache.Write.setLocation env.now cep L (24 * time.Hour)], rfl, ?_⟩
      intro w hw
      rw [List.mem_singleton] at hw
      exact ⟨L, hw, client.GetLocationByCEP_ok _ _ _ _ hc⟩

/-- The cache writes of the weather stage: at most one `SetWeather` under the place,
for 10 minutes. -/
theorem getWeatherWithCache_writes (env : Env) (st : State) (location : String) :
    ∃ ws : List cache.Write,
      (getWeatherWithCache env st location).2.cache = cache.applyAll ws st.cache ∧
      ∀ w ∈ ws, ∃ W : model.WeatherAPIResponse,
        w = cache.Write.setWeather env.now location W (10 * time.Minute) := by
  cases hg : st.cache.GetWeather env.now location with
  | some W =>
    rw [getWeatherWithCache_hit env st location W hg]
    exact ⟨[], rfl, fun w hw => absurd hw (List.not_mem_nil w)⟩
  | none =>
    cases hc : client.GetCurrentWeather (env.weather location) env.decodeWeather
        env.decodeWeatherError location with
    | error e =>
      rw [getWeatherWithCache_miss_error env st location e hg hc]
      exact ⟨[], rfl, fun w hw => absurd hw (List.not_mem_nil w)⟩
    | ok W =>
      rw [getWeatherWithCache_miss_ok env st location W hg hc]
      refine ⟨[cache.Write.setWeather env.now location W (10 * time.Minute)], rfl, ?_⟩
      intro w hw
      rw [List.mem_singleton] at hw
      exact ⟨W, hw⟩

/-- The cache writes of a request: none unless the request is valid and misses the
temperature namespace; then typed setters only, at the clock reading of the request,
the location and the temperature under the normalized code. -/
theorem HandleTemperature_writes (env : Env) (mc : cache.MemoryCache)
    (decoded : Except String models.CEPRequest) :
    ∃ ws : List cache.Write,
      (HandleTemperature env mc decoded).state.cache = cache.applyAll ws mc ∧
      (ws = [] ∨ ∃ (req : models.CEPRequest) (n : String),
        decoded = .ok req ∧ utils.ValidateAndNormalize req.CEP = (n, none) ∧
        mc.GetTemperature env.now n = none ∧
        ∀ w ∈ ws,
          (∃ L : model.ViaCEPResponse,
            w = cache.Write.setLocation env.now n L (24 * time.Hour) ∧
            L.Localidade ≠ "" ∧ L.UF ≠ "") ∨
          (∃ (location : String) (W : model.WeatherAPIResponse),
            w = cache.Write.setWeather env.now location W (10 * time.Minute)) ∨
          (∃ v : models.TemperatureResponse,
            w = cache.Write.setTemperature env.now n v (10 * time.Minute))) := by
  cases decoded with
  | error e => exact ⟨[], rfl, Or.inl rfl⟩
  | ok req =>
    rcases hv : utils.ValidateAndNormalize req.CEP with ⟨n, o⟩
    cases o with
    | some m =>
      rw [HandleTemperature_invalid env mc req n m hv]
      exact ⟨[], rfl, Or.inl rfl⟩
    | none =>
      cases ht : mc.GetTemperature env.now n with
      | some t =>
        rw [HandleTemperature_hit env mc req n t hv ht]
        exact ⟨[], rfl, Or.inl rfl⟩
      | none =>
        rcases hl : getLocationWithCache env
          { cache := mc, events := [Event.cacheGet (cache.tempCacheKey n)] } n with ⟨r1, st1⟩
        obtain ⟨ws1, hws1, hall1⟩ := getLocationWithCache_writes env
          { cache := mc, events := [Event.cacheGet (cache.tempCacheKey n)] } n
        rw [hl] at hws1
        simp only at hws1
        cases r1 with
        | error err =>
          rw [HandleTemperature_location_error env mc req n err st1 hv ht hl]
          exact ⟨ws1, hws1, Or.inr ⟨req, n, rfl, hv, ht, fun w hw => Or.inl (hall1 w hw)⟩⟩
        | ok L =>
          rcases hw : getWeatherWithCache env st1 L.GetFullLocation with ⟨r2, st2⟩
          obtain ⟨ws2, hws2, hall2⟩ := getWeatherWithCache_writes env st1 L.GetFullLocation
          rw [hw] at hws2
          simp only at hws2
          have hall12 : ∀ w ∈ ws1 ++ ws2,
              (∃ L : model.ViaCEPResponse,
                w = cache.Write.setLocation env.now n L (24 * time.Hour) ∧
                L.Localidade ≠ "" ∧ L.UF ≠ "") ∨
              (∃ (location : String) (W : model.WeatherAPIResponse),
                w = cache.Write.setWeather env.now location W (10 * time.Minute)) ∨
              (∃ v : models.TemperatureResponse,
                w = cache.Write.setTemperature env.now n v (10 * time.Minute)) := by
            intro w hmem
            rcases List.mem_append.mp hmem with h | h
            · exact Or.inl (hall1 w h)
            · obtain ⟨W, hW⟩ := hall2 w h
              exact Or.inr (Or.inl ⟨_, W, hW⟩)
          have hc12 : st2.cache = cache.applyAll (ws1 ++ ws2) mc := by
            rw [cache.applyAll_append, ← hws1, hws2]
          cases r2 with
          | error err =>
            rw [HandleTemperature_weather_error env mc req n L err st1 st2 hv ht hl hw]
            exact ⟨ws1 ++ ws2, hc12, Or.inr ⟨req, n, rfl, hv, ht, hall12⟩⟩
          | ok W =>
            rw [HandleTemperature_fresh env mc req n L W st1 st2 hv ht hl hw]
            refine ⟨(ws1 ++ ws2) ++ [cache.Write.setTemperature env.now n
              (service.ConvertToAllUnits env.fused W.GetTemperatureCelsius L.GetCityName)
              (10 * time.Minute)], ?_, Or.inr ⟨req, n, rfl, hv, ht, ?_⟩⟩
            · rw [cache.applyAll_append, ← hc12]
              rfl
            · intro w hmem
              rcases List.mem_append.mp hmem with h | h
              · exact hall12 w h
              · rw [List.mem_singleton] at h
                exact Or.inr (Or.inr ⟨_, h⟩)

/-- A write other than a `SetLocation` of an incomplete location keeps the stored
locations complete. -/
theorem LocationsComplete_apply (w : cache.Write) (mc : cache.MemoryCache)
    (h : LocationsComplete mc)
    (hw : ∀ now cep L d, w = cache.Write.setLocation now cep L d →
      L.Localidade ≠ "" ∧ L.UF ≠ "") :
    LocationsComplete (w.apply mc) := by
  intro k item v hmem hobj
  cases w with
  | setLocation now cep L d =>
    rcases cache.mem_Set _ _ _ _ _ _ _ hmem with h1 | h1
    · rw [h1] at hobj
      cases hobj
      exact hw now cep _ d rfl
    · exact h k item v h1 hobj
  | setWeather now location W d =>
    rcases cache.mem_Set _ _ _ _ _ _ _ hmem with h1 | h1
    · rw [h1] at hobj
      cases hobj
    · exact h k item v h1 hobj
  | setTemperature now cep t d =>
    rcases cache.mem_Set _ _ _ _ _ _ _ hmem with h1 | h1
    · rw [h1] at hobj
      cases hobj
    · exact h k item v h1 hobj
  | invalidateLocation cep => exact h k item v (cache.mem_Delete _ _ _ _ hmem) hobj
  | invalidateWeather location => exact h k item v (cache.mem_Delete _ _ _ _ hmem) hobj
  | invalidateTemperature cep => exact h k item v (cache.mem_Delete _ _ _ _ hmem) hobj
  | clear => cases hmem

theorem LocationsComplete_applyAll (ws : List cache.Write) (mc : cache.MemoryCache)
    (h : LocationsComplete mc)
    (hw : ∀ w ∈ ws, ∀ now cep L d, w = cache.Write.setLocation now cep L d →
      L.Localidade ≠ "" ∧ L.UF ≠ "") :
    LocationsComplete (cache.applyAll ws mc) := by
  induction ws generalizing mc with
  | nil => exact h
  | cons w ws ih =>
    simp only [cache.applyAll, List.foldl_cons]
    exact ih _ (LocationsComplete_apply w mc h (hw w (List.mem_cons_self w ws)))
      (fun w' hmem => hw w' (List.mem_cons_of_mem w hmem))

/-- Every request keeps the stored locations complete. -/
theorem LocationsComplete_HandleTemperature (env : Env) (mc : cache.MemoryCache)
    (decoded : Except String models.CEPRequest) (h : LocationsComplete mc) :
    LocationsComplete (HandleTemperature env mc decoded).state.cache := by
  obtain ⟨ws, hws, hall⟩ := HandleTemperature_writes env mc decoded
  rw [hws]
  apply LocationsComplete_applyAll ws mc h
  intro w hmem now cep L d hw
  rcases hall with h0 | ⟨req, n, _, _, _, hall⟩
  · rw [h0] at hmem
    cases hmem
  · rcases hall w hmem with ⟨L', h1, h2⟩ | ⟨_, _, h1⟩ | ⟨_, h1⟩
    · rw [hw] at h1
      cases h1
      exact h2
    · rw [hw] at h1
      cases h1
    · rw [hw] at h1
      cases h1

/-- The caches the service can hold store complete locations only. -/
theorem LocationsComplete_of_Reachable (mc : cache.MemoryCache) (h : Reachable mc) :
    LocationsComplete mc := by
  induction h with
  | init d c =>
    intro k item v hmem
    cases hmem
  | handle env mc decoded _ ih => exact LocationsComplete_HandleTemperature env mc decoded ih
  | clear mc _ _ =>
    intro k item v hmem
    cases hmem

/-- The full place string of a complete location. -/
theorem GetFullLocation_of_complete (L : model.ViaCEPResponse) (h : L.UF ≠ "") :
    L.GetFullLocation = L.Localidade ++ ", " ++ L.UF := by
  simp [model.ViaCEPResponse.GetFullLocation, h]

/-- The location stage returns complete locations on a cache of complete locations. -/
theorem getLocationWithCache_complete (env : Env) (st st1 : State) (cep : String)
    (L : model.ViaCEPResponse) (hc : LocationsComplete st.cache)
    (h : getLocationWithCache env st cep = (.ok L, st1)) :
    L.Localidade ≠ "" ∧ L.UF ≠ "" ∧ LocationsComplete st1.cache := by
  rcases getLocationWithCache_ok_inv env st st1 cep L h with ⟨hg, hst⟩ | ⟨hg, hcl, hst⟩
  · obtain ⟨item, hmem, hobj⟩ := cache.GetLocation_mem _ _ _ _ hg
    have := hc _ item L hmem hobj
    rw [hst]
    exact ⟨this.1, this.2, hc⟩
  · have hL := client.GetLocationByCEP_ok _ _ _ _ hcl
    refine ⟨hL.1, hL.2, ?_⟩
    rw [hst]
    exact LocationsComplete_apply (cache.Write.setLocation env.now cep L (24 * time.Hour))
      st.cache hc (fun now cep' L' d hw => by cases hw; exact hL)

end handler

namespace handler

theorem GetTemperature_of_lookup (mc : cache.MemoryCache) (now E : Int) (n : String)
    (t : models.TemperatureResponse)
    (h : mc.cache.lookup (cache.tempCacheKey n) = some { Object := .temperature t, Expiration := E }) :
    mc.GetTemperature now n = if E > 0 ∧ now > E then none else some t := by
  simp only [cache.MemoryCache.GetTemperature, cache.Cache.Get, h]
  split_ifs <;> rfl

theorem lookup_of_GetTemperature (mc : cache.MemoryCache) (now : Int) (n : String)
    (t : models.TemperatureResponse) (h : mc.GetTemperature now n = some t) :
    ∃ E : Int, mc.cache.lookup (cache.tempCacheKey n) =
        some { Object := .temperature t, Expiration := E } ∧ ¬(E > 0 ∧ now > E) := by
  simp only [cache.MemoryCache.GetTemperature, cache.Cache.Get] at h
  cases hl : mc.cache.lookup (cache.tempCacheKey n) with
  | none => rw [hl] at h; cases h
  | some item =>
    rw [hl] at h
    simp only at h
    obtain ⟨o, E⟩ := item
    simp only at h
    split_ifs at h with hc
    cases o with
    | location v => cases h
    | weather w => cases h
    | temperature t' =>
      simp only [Option.some.injEq] at h
      rw [h]
      exact ⟨E, rfl, hc⟩

theorem lookup_SetTemperature (mc : cache.MemoryCache) (now : Int) (n : String)
    (t : models.TemperatureResponse) :
    (mc.SetTemperature now n t (10 * time.Minute)).cache.lookup (cache.tempCacheKey n) =
      some { Object := .temperature t, Expiration := now + 10 * time.Minute } := by
  simp only [cache.MemoryCache.SetTemperature, cache.lookup_Set_same, ten_minutes]
  simp

/-- A request leaves an unexpired entry of the temperature namespace as it is. -/
theorem lookup_temp_HandleTemperature (env : Env) (mc : cache.MemoryCache)
    (decoded : Except String models.CEPRequest) (n : String)
    (t : models.TemperatureResponse) (E : Int)
    (hl : mc.cache.lookup (cache.tempCacheKey n) =
      some { Object := .temperature t, Expiration := E })
    (hE : ¬(E > 0 ∧ env.now > E)) :
    (HandleTemperature env mc decoded).state.cache.cache.lookup (cache.tempCacheKey n) =
      mc.cache.lookup (cache.tempCacheKey n) := by
  obtain ⟨ws, hws, hall⟩ := HandleTemperature_writes env mc decoded
  rw [hws]
  rcases hall with h0 | ⟨req, n', _, _, hmiss, hall⟩
  · rw [h0]
    rfl
  · have hne : n' ≠ n := by
      intro hc
      rw [hc, GetTemperature_of_lookup mc env.now E n t hl, if_neg hE] at hmiss
      cases hmiss
    apply cache.lookup_applyAll_of_avoids ws mc cache.Namespace.temp n
    intro w hmem
    rcases hall w hmem with ⟨L, h1, _⟩ | ⟨location, W, h1⟩ | ⟨v, h1⟩
    · rw [h1]
      exact ⟨_, rfl, by simp⟩
    · rw [h1]
      exact ⟨_, rfl, by simp⟩
    · rw [h1]
      exact ⟨_, rfl, by simpa using hne⟩

/-- After a request answered 200 the response is the encoding of a payload that the
temperature namespace holds under the normalized code; the entry expires 10 minutes
after the request that computed it. -/
theorem lookup_temp_after_success (env : Env) (mc : cache.MemoryCache)
    (req : models.CEPRequest) (n : String)
    (hv : utils.ValidateAndNormalize req.CEP = (n, none))
    (h : (HandleTemperature env mc (.ok req)).response.statusCode = 200) :
    ∃ (payload : models.TemperatureResponse) (E : Int),
      (HandleTemperature env mc (.ok req)).response = respondWithSuccess payload ∧
      (HandleTemperature env mc (.ok req)).state.cache.cache.lookup (cache.tempCacheKey n) =
        some { Object := .temperature payload, Expiration := E } ∧
      ¬(E > 0 ∧ env.now > E) ∧
      (mc.GetTemperature env.now n = none → E = env.now + 10 * time.Minute) := by
  cases ht : mc.GetTemperature env.now n with
  | some t =>
    rw [HandleTemperature_hit env mc req n t hv ht]
    obtain ⟨E, h1, h2⟩ := lookup_of_GetTemperature mc env.now n t ht
    exact ⟨t, E, rfl, h1, h2, fun hc => by cases hc⟩
  | none =>
    rcases hl : getLocationWithCache env
      { cache := mc, events := [Event.cacheGet (cache.tempCacheKey n)] } n with ⟨r1, st1⟩
    cases r1 with
    | error err =>
      rw [HandleTemperature_location_error env mc req n err st1 hv ht hl] at h
      cases err <;> cases h
    | ok L =>
      rcases hw : getWeatherWithCache env st1 L.GetFullLocation with ⟨r2, st2⟩
      cases r2 with
      | error err =>
        rw [HandleTemperature_weather_error env mc req n L err st1 st2 hv ht hl hw] at h
        cases err <;> cases h
      | ok W =>
        rw [HandleTemperature_fresh env mc req n L W st1 st2 hv ht hl hw]
        refine ⟨_, env.now + 10 * time.Minute, rfl, lookup_SetTemperature _ _ _ _, ?_,
          fun _ => rfl⟩
        rw [ten_minutes]
        omega

/-- A response with a temperature body is the encoding of that temperature only. -/
theorem respondWithSuccess_eq_temperature (v t : models.TemperatureResponse)
    (h : respondWithSuccess v = { statusCode := 200, body := .temperature t }) : v = t := by
  simp only [respondWithSuccess, Response.mk.injEq, true_and] at h
  split at h
  · exact Body.temperature.inj h
  · cases h

/-- A request answered 200 found its payload in the temperature namespace or
computed it from the results of the two stages. -/
theorem HandleTemperature_success_inv (env : Env) (mc : cache.MemoryCache)
    (decoded : Except String models.CEPRequest)
    (h : (HandleTemperature env mc decoded).response.statusCode = 200) :
    (∃ req n t, decoded = .ok req ∧ utils.ValidateAndNormalize req.CEP = (n, none) ∧
      mc.GetTemperature env.now n = some t ∧
      (HandleTemperature env mc decoded).response = respondWithSuccess t) ∨
    ∃ req n L W st1 st2, decoded = .ok req ∧
      utils.ValidateAndNormalize req.CEP = (n, none) ∧
      mc.GetTemperature env.now n = none ∧
      getLocationWithCache env
        { cache := mc, events := [Event.cacheGet (cache.tempCacheKey n)] } n =
          (.ok L, st1) ∧
      getWeatherWithCache env st1 L.GetFullLocation = (.ok W, st2) ∧
      (HandleTemperature env mc decoded).response =
        respondWithSuccess
          (service.ConvertToAllUnits env.fused W.Current.TempC L.Localidade) := by
  cases decoded with
  | error e => cases h
  | ok req =>
    rcases hv : utils.ValidateAndNormalize req.CEP with ⟨n, o⟩
    cases o with
    | some m =>
      rw [HandleTemperature_invalid env mc req n m hv] at h
      cases h
    | none =>
      cases ht : mc.GetTemperature env.now n with
      | some t' =>
        exact Or.inl ⟨req, n, t', rfl, hv, ht,
          by rw [HandleTemperature_hit env mc req n t' hv ht]⟩
      | none =>
        rcases hl : getLocationWithCache env
          { cache := mc, events := [Event.cacheGet (cache.tempCacheKey n)] } n with
          ⟨r1, st1⟩
        cases r1 with
        | error err =>
          rw [HandleTemperature_location_error env mc req n err st1 hv ht hl] at h
          cases err <;> cases h
        | ok L =>
          rcases hw : getWeatherWithCache env st1 L.GetFullLocation with ⟨r2, st2⟩
          cases r2 with
          | error err =>
            rw [HandleTemperature_weather_error env mc req n L err st1 st2 hv ht hl hw] at h
            cases err <;> cases h
          | ok W =>
            refine Or.inr ⟨req, n, L, W, st1, st2, rfl, hv, ht, hl, hw, ?_⟩
            rw [HandleTemperature_fresh env mc req n L W st1 st2 hv ht hl hw]
            rfl

/-- A request that has answered takes no further step. -/
theorem steps_done (k : Nat) (r : Run) (mc : cache.MemoryCache) (resp : Response)
    (h : r.position = .done resp) : steps k (r, mc) = (r, mc) := by
  induction k with
  | zero => rfl
  | succ k ih =>
    have hs : step r mc = (r, mc) := by
      obtain ⟨env, p, ev⟩ := r
      simp only at h
      subst h
      rfl
    simp only [steps, hs]
    exact ih

theorem steps_succ (k : Nat) (s : Run × cache.MemoryCache) :
    steps (k + 1) s = steps k (step s.1 s.2) := rfl

theorem steps_add (a b : Nat) (s : Run × cache.MemoryCache) :
    steps (a + b) s = steps b (steps a s) := by
  induction a generalizing s with
  | zero => simp [steps]
  | succ a ih =>
    rw [Nat.add_right_comm, steps_succ, ih]
    rfl

/-- The steps of the location stage give the result of `getLocationWithCache`. -/
theorem location_steps_ok (env : Env) (mc : cache.MemoryCache) (ev : List Event) (n : String)
    (L : model.ViaCEPResponse) (st1 : State)
    (h : getLocationWithCache env { cache := mc, events := ev } n = (.ok L, st1)) :
    ∃ k, k ≤ 3 ∧
      steps k ({ env := env, position := .temperatureMissed n, events := ev }, mc) =
        ({ env := env, position := .located n L, events := st1.events }, st1.cache) := by
  cases hg : mc.GetLocation env.now n with
  | some L' =>
    refine ⟨1, by omega, ?_⟩
    simp only [getLocationWithCache, hg, Prod.mk.injEq, Except.ok.injEq] at h
    obtain ⟨h1, h2⟩ := h
    subst h1
    subst h2
    simp [steps, step, hg]
  | none =>
    cases hc : client.GetLocationByCEP (env.openCEP n) env.decodeLocation n with
    | error err =>
      simp [getLocationWithCache, hg, hc] at h
    | ok L' =>
      refine ⟨3, by omega, ?_⟩
      simp only [getLocationWithCache, hg, hc, Prod.mk.injEq, Except.ok.injEq] at h
      obtain ⟨h1, h2⟩ := h
      subst h1
      subst h2
      simp [steps, step, hg, hc]

theorem location_steps_error (env : Env) (mc : cache.MemoryCache) (ev : List Event)
    (n : String) (err : GoError) (st1 : State)
    (h : getLocationWithCache env { cache := mc, events := ev } n = (.error err, st1)) :
    ∃ k, k ≤ 3 ∧
      steps k ({ env := env, position := .temperatureMissed n, events := ev }, mc) =
        ({ env := env, position := .done (locationFailure err), events := st1.events },
          st1.cache) := by
  cases hg : mc.GetLocation env.now n with
  | some L' =>
    simp [getLocationWithCache, hg] at h
  | none =>
    cases hc : client.GetLocationByCEP (env.openCEP n) env.decodeLocation n with
    | ok L' =>
      simp [getLocationWithCache, hg, hc] at h
    | error err' =>
      refine ⟨2, by omega, ?_⟩
      simp only [getLocationWithCache, hg, hc, Prod.mk.injEq, Except.error.injEq] at h
      obtain ⟨h1, h2⟩ := h
      subst h1
      subst h2
      simp [steps, step, hg, hc]

/-- The steps of the weather stage give the result of `getWeatherWithCache`. -/
theorem weather_steps_ok (env : Env) (mc : cache.MemoryCache) (ev : List Event) (n : String)
    (L : model.ViaCEPResponse) (W : model.WeatherAPIResponse) (st2 : State)
    (h : getWeatherWithCache env { cache := mc, events := ev } L.GetFullLocation =
      (.ok W, st2)) :
    ∃ k, k ≤ 3 ∧
      steps k ({ env := env, position := .located n L, events := ev }, mc) =
        ({ env := env, position := .weatherKnown n L W, events := st2.events },
          st2.cache) := by
  cases hg : mc.GetWeather env.now L.GetFullLocation with
  | some W' =>
    refine ⟨1, by omega, ?_⟩
    simp only [getWeatherWithCache, hg, Prod.mk.injEq, Except.ok.injEq] at h
    obtain ⟨h1, h2⟩ := h
    subst h1
    subst h2
    simp [steps, step, hg]
  | none =>
    cases hc : client.GetCurrentWeather (env.weather L.GetFullLocation) env.decodeWeather
        env.decodeWeatherError L.GetFullLocation with
    | error err =>
      simp [getWeatherWithCache, hg, hc] at h
    | ok W' =>
      refine ⟨3, by omega, ?_⟩
      simp only [getWeatherWithCache, hg, hc, Prod.mk.injEq, Except.ok.injEq] at h
      obtain ⟨h1, h2⟩ := h
      subst h1
      subst h2
      simp [steps, step, hg, hc]

theorem weather_steps_error (env : Env) (mc : cache.MemoryCache) (ev : List Event)
    (n : String) (L : model.ViaCEPResponse) (err : GoError) (st2 : State)
    (h : getWeatherWithCache env { cache := mc, events := ev } L.GetFullLocation =
      (.error err, st2)) :
    ∃ k, k ≤ 3 ∧
      steps k ({ env := env, position := .located n L, events := ev }, mc) =
        ({ env := env, position := .done (weatherFailure err), events := st2.events },
          st2.cache) := by
  cases hg : mc.GetWeather env.now L.GetFullLocation with
  | some W' =>
    simp [getWeatherWithCache, hg] at h
  | none =>
    cases hc : client.GetCurrentWeather (env.weather L.GetFullLocation) env.decodeWeather
        env.decodeWeatherError L.GetFullLocation with
    | ok W' =>
      simp [getWeatherWithCache, hg, hc] at h
    | error err' =>
      refine ⟨2, by omega, ?_⟩
      simp only [getWeatherWithCache, hg, hc, Prod.mk.injEq, Except.error.injEq] at h
      obtain ⟨h1, h2⟩ := h
      subst h1
      subst h2
      simp [steps, step, hg, hc]

/-- A request that runs while no other request does is a run of
`HandleTemperature`: its at most eight steps give the response, the cache and the
events of the handler. -/
theorem steps_eq_HandleTemperature (env : Env) (mc : cache.MemoryCache)
    (decoded : Except String models.CEPRequest) :
    steps 8 (Run.new env decoded, mc) =
      ({ env := env
         position := .done (HandleTemperature env mc decoded).response
         events := (HandleTemperature env mc decoded).state.events },
       (HandleTemperature env mc decoded).state.cache) := by
  cases decoded with
  | error e =>
    rw [HandleTemperature_error, steps_succ]
    exact steps_done 7 _ _ _ rfl
  | ok req =>
    rcases hv : utils.ValidateAndNormalize req.CEP with ⟨n, m⟩
    cases m with
    | some m =>
      rw [HandleTemperature_invalid env mc req n m hv, steps_succ]
      have : step (Run.new env (.ok req)) mc =
          ({ env := env, position := .done (respondWithError 422 models.ErrInvalidZipcode),
             events := [] }, mc) := by
        simp [step, Run.new, hv]
      rw [this]
      exact steps_done 7 _ _ _ rfl
    | none =>
      cases ht : mc.GetTemperature env.now n with
      | some t =>
        rw [HandleTemperature_hit env mc req n t hv ht, steps_succ]
        have : step (Run.new env (.ok req)) mc =
            ({ env := env, position := .done (respondWithSuccess t),
               events := [Event.cacheGet (cache.tempCacheKey n)] }, mc) := by
          simp [step, Run.new, hv, ht]
        rw [this]
        exact steps_done 7 _ _ _ rfl
      | none =>
        have h1 : step (Run.new env (.ok req)) mc =
            ({ env := env, position := .temperatureMissed n,
               events := [Event.cacheGet (cache.tempCacheKey n)] }, mc) := by
          simp [step, Run.new, hv, ht]
        rw [steps_succ, h1]
        rcases hl : getLocationWithCache env
          { cache := mc, events := [Event.cacheGet (cache.tempCacheKey n)] } n with ⟨r1, st1⟩
        cases r1 with
        | error err =>
          obtain ⟨k, hk, hs⟩ := location_steps_error env mc _ n err st1 hl
          rw [HandleTemperature_location_error env mc req n err st1 hv ht hl]
          have h7 : 7 = k + (7 - k) := by omega
          rw [h7, steps_add, hs, steps_done _ _ _ _ rfl]
          cases err <;> rfl
        | ok L =>
          obtain ⟨k, hk, hs⟩ := location_steps_ok env mc _ n L st1 hl
          have h7 : 7 = k + (7 - k) := by omega
          rw [h7, steps_add, hs]
          rcases hw : getWeatherWithCache env st1 L.GetFullLocation with ⟨r2, st2⟩
          cases r2 with
          | error err =>
            obtain ⟨j, hj, hs2⟩ := weather_steps_error env st1.cache st1.events n L err st2 hw
            rw [HandleTemperature_weather_error env mc req n L err st1 st2 hv ht hl hw]
            have h4 : 7 - k = j + (7 - k - j) := by omega
            rw [h4, steps_add, hs2, steps_done _ _ _ _ rfl]
            cases err <;> rfl
          | ok W =>
            obtain ⟨j, hj, hs2⟩ := weather_steps_ok env st1.cache st1.events n L W st2 hw
            rw [HandleTemperature_fresh env mc req n L W st1 st2 hv ht hl hw]
            have h4 : 7 - k = j + (1 + (7 - k - j - 1)) := by omega
            rw [h4, steps_add, hs2, steps_add]
            have h5 : steps 1 (Run.mk env (.weatherKnown n L W) st2.events, st2.cache) =
                ({ env := env
                   position := .done (respondWithSuccess (service.ConvertToAllUnits env.fused
                     W.GetTemperatureCelsius L.GetCityName))
                   events := st2.events ++
                     [Event.cacheSet (cache.tempCacheKey n) (10 * time.Minute)] },
                 st2.cache.SetTemperature env.now n (service.ConvertToAllUnits env.fused
                     W.GetTemperatureCelsius L.GetCityName) (10 * time.Minute)) := rfl
            rw [h5, steps_done _ _ _ _ rfl]

/-- A step of a request keeps its surroundings. -/
theorem step_env (r : Run) (mc : cache.MemoryCache) : (step r mc).1.env = r.env := by
  obtain ⟨env, p, ev⟩ := r
  cases p with
  | start decoded =>
    cases decoded with
    | error e => rfl
    | ok req =>
      simp only [step]
      split
      · rfl
      · split <;> rfl
  | temperatureMissed n => simp only [step]; split <;> rfl
  | locationMissed n => simp only [step]; split <;> rfl
  | locationFetched n L => rfl
  | located n L => simp only [step]; split <;> rfl
  | weatherMissed n L => simp only [step]; split <;> rfl
  | weatherFetched n L W => rfl
  | weatherKnown n L W => rfl
  | done resp => rfl

/-- A request that begins while the temperature namespace holds an unexpired entry
for its normalized code answers in one step with the encoding of the entry. -/
theorem step_hit (r : Run) (mc : cache.MemoryCache) (req : models.CEPRequest) (n : String)
    (v : models.TemperatureResponse) (E : Int)
    (hp : r.position = .start (.ok req))
    (hv : utils.ValidateAndNormalize req.CEP = (n, none))
    (hl : mc.cache.lookup (cache.tempCacheKey n) =
      some { Object := .temperature v, Expiration := E })
    (hE : r.env.now ≤ E) :
    step r mc =
      ({ env := r.env, position := .done (respondWithSuccess v),
         events := r.events ++ [Event.cacheGet (cache.tempCacheKey n)] }, mc) := by
  obtain ⟨env, p, ev⟩ := r
  simp only at hp hE
  subst hp
  have hg : mc.GetTemperature env.now n = some v := by
    rw [GetTemperature_of_lookup mc env.now E n v hl, if_neg (fun hc => absurd hE (not_le.mpr hc.2))]
  simp [step, hv, hg]

/-- The step that stores the result of a request answers with its encoding, and the
temperature namespace then holds it for 10 minutes. -/
theorem step_store (r : Run) (mc : cache.MemoryCache) (n : String)
    (L : model.ViaCEPResponse) (W : model.WeatherAPIResponse)
    (hp : r.position = .weatherKnown n L W) :
    step r mc =
      ({ env := r.env
         position := .done (respondWithSuccess
           (service.ConvertToAllUnits r.env.fused W.Current.TempC L.Localidade))
         events := r.events ++ [Event.cacheSet (cache.tempCacheKey n) (10 * time.Minute)] },
       mc.SetTemperature r.env.now n
         (service.ConvertToAllUnits r.env.fused W.Current.TempC L.Localidade)
         (10 * time.Minute)) ∧
    (step r mc).2.cache.lookup (cache.tempCacheKey n) =
      some { Object := .temperature
               (service.ConvertToAllUnits r.env.fused W.Current.TempC L.Localidade)
             Expiration := r.env.now + 10 * time.Minute } := by
  obtain ⟨env, p, ev⟩ := r
  simp only at hp
  subst hp
  exact ⟨rfl, lookup_SetTemperature _ _ _ _⟩

/-- A step of a request that is not between its miss of the temperature namespace for
the code `n` and its answer, taken no later than the expiration of the entry for `n`,
leaves that entry as it is, and the request is not between a miss for `n` and its
answer afterwards either. -/
theorem step_keeps_temperature (r : Run) (mc : cache.MemoryCache) (n : String)
    (v : models.TemperatureResponse) (E : Int)
    (hl : mc.cache.lookup (cache.tempCacheKey n) =
      some { Object := .temperature v, Expiration := E })
    (hE : r.env.now ≤ E) (hc : r.position.code ≠ some n) :
    (step r mc).2.cache.lookup (cache.tempCacheKey n) =
      some { Object := .temperature v, Expiration := E } ∧
    (step r mc).1.position.code ≠ some n := by
  obtain ⟨env, p, ev⟩ := r
  simp only at hE
  have hg : mc.GetTemperature env.now n = some v := by
    rw [GetTemperature_of_lookup mc env.now E n v hl, if_neg (fun hc => absurd hE (not_le.mpr hc.2))]
  cases p with
  | start decoded =>
    cases decoded with
    | error e => exact ⟨hl, by simp [step, Position.code]⟩
    | ok req =>
      rcases hv : utils.ValidateAndNormalize req.CEP with ⟨n', m⟩
      cases m with
      | some m => simp [step, hv, hl, Position.code]
      | none =>
        cases ht : mc.GetTemperature env.now n' with
        | some t => simp [step, hv, ht, hl, Position.code]
        | none =>
          have hne : n' ≠ n := by
            intro h
            rw [h, hg] at ht
            cases ht
          simp [step, hv, ht, hl, Position.code, hne]
  | temperatureMissed n' =>
    simp only [Position.code] at hc
    cases hgl : mc.GetLocation env.now n' <;> simp [step, hgl, hl, Position.code] <;>
      exact fun h => hc (by rw [h])
  | locationMissed n' =>
    simp only [Position.code] at hc
    cases hgl : client.GetLocationByCEP (env.openCEP n') env.decodeLocation n' with
    | error err => simp [step, hgl, hl, Position.code]
    | ok L =>
      simp [step, hgl, hl, Position.code]
      exact fun h => hc (by rw [h])
  | locationFetched n' L =>
    simp only [Position.code] at hc
    refine ⟨?_, by simpa [step, Position.code] using hc⟩
    exact (cache.lookup_Set_ne _ _ _ _ _ _
      (cache.key_ne cache.Namespace.temp cache.Namespace.location n n' (by simp))).trans hl
  | located n' L =>
    simp only [Position.code] at hc
    cases hgl : mc.GetWeather env.now L.GetFullLocation <;>
      simp [step, hgl, hl, Position.code] <;> exact fun h => hc (by rw [h])
  | weatherMissed n' L =>
    simp only [Position.code] at hc
    cases hgl : client.GetCurrentWeather (env.weather L.GetFullLocation) env.decodeWeather
        env.decodeWeatherError L.GetFullLocation with
    | error err => simp [step, hgl, hl, Position.code]
    | ok W =>
      simp [step, hgl, hl, Position.code]
      exact fun h => hc (by rw [h])
  | weatherFetched n' L W =>
    simp only [Position.code] at hc
    refine ⟨?_, by simpa [step, Position.code] using hc⟩
    exact (cache.lookup_Set_ne _ _ _ _ _ _
      (cache.key_ne cache.Namespace.temp cache.Namespace.weather n L.GetFullLocation
        (by simp))).trans hl
  | weatherKnown n' L W =>
    simp only [Position.code] at hc
    have hne : n' ≠ n := fun h => hc (by rw [h])
    refine ⟨?_, by simp [step, Position.code]⟩
    exact (cache.lookup_Set_ne _ _ _ _ _ _
      (cache.key_ne cache.Namespace.temp cache.Namespace.temp n n'
        (by simpa using hne))).trans hl
  | done resp => exact ⟨hl, by simp [step, Position.code]⟩

/-- Whatever the order in which requests take their steps: while no request is
between its miss of the temperature namespace for the code `n` and its answer, and
every request runs no later than the expiration of the entry for `n`, the entry stays
as it is. -/
theorem runSchedule_keeps_temperature (schedule : List Nat) (rs : List Run)
    (mc : cache.MemoryCache) (n : String) (v : models.TemperatureResponse) (E : Int)
    (hl : mc.cache.lookup (cache.tempCacheKey n) =
      some { Object := .temperature v, Expiration := E })
    (hrs : ∀ r ∈ rs, r.env.now ≤ E ∧ r.position.code ≠ some n) :
    (runSchedule schedule rs mc).2.cache.lookup (cache.tempCacheKey n) =
      some { Object := .temperature v, Expiration := E } ∧
    ∀ r ∈ (runSchedule schedule rs mc).1, r.env.now ≤ E ∧ r.position.code ≠ some n := by
  induction schedule generalizing rs mc with
  | nil => exact ⟨hl, hrs⟩
  | cons j schedule ih =>
    simp only [runSchedule]
    cases hj : rs[j]? with
    | none => exact ih rs mc hl hrs
    | some rj =>
      have hmem := List.getElem?_mem hj
      have hk := step_keeps_temperature rj mc n v E hl (hrs rj hmem).1 (hrs rj hmem).2
      apply ih _ _ hk.1
      intro r hr
      rcases List.mem_or_eq_of_mem_set hr with h | h
      · exact hrs r h
      · rw [h, step_env]
        exact ⟨(hrs rj hmem).1, hk.2⟩

/-- Under the conditions of `runSchedule_keeps_temperature`, a request for the code
`n` that had not begun has, after the schedule, either not begun or answered with
the encoding of the entry, its only step being the read of the entry. -/
theorem runSchedule_answers (schedule : List Nat) (rs : List Run)
    (mc : cache.MemoryCache) (n : String) (v : models.TemperatureResponse) (E : Int)
    (i : Nat) (env : Env) (req : models.CEPRequest) (ev : List Event) (r0 : Run)
    (hl : mc.cache.lookup (cache.tempCacheKey n) =
      some { Object := .temperature v, Expiration := E })
    (hrs : ∀ r ∈ rs, r.env.now ≤ E ∧ r.position.code ≠ some n)
    (hv : utils.ValidateAndNormalize req.CEP = (n, none))
    (hi : rs[i]? = some r0) (henv : r0.env = env)
    (h0 : (r0.position = .start (.ok req) ∧ r0.events = ev) ∨
      (r0.position = .done (respondWithSuccess v) ∧
        r0.events = ev ++ [Event.cacheGet (cache.tempCacheKey n)])) :
    ∃ r', (runSchedule schedule rs mc).1[i]? = some r' ∧ r'.env = env ∧
      ((r'.position = .start (.ok req) ∧ r'.events = ev) ∨
        (r'.position = .done (respondWithSuccess v) ∧
          r'.events = ev ++ [Event.cacheGet (cache.tempCacheKey n)])) := by
  induction schedule generalizing rs mc r0 with
  | nil => exact ⟨r0, hi, henv, h0⟩
  | cons j schedule ih =>
    simp only [runSchedule]
    cases hj : rs[j]? with
    | none => exact ih rs mc r0 hl hrs hi henv h0
    | some rj =>
      have hmem := List.getElem?_mem hj
      have hk := step_keeps_temperature rj mc n v E hl (hrs rj hmem).1 (hrs rj hmem).2
      have hrs' : ∀ r ∈ rs.set j (step rj mc).1, r.env.now ≤ E ∧ r.position.code ≠ some n := by
        intro r hr
        rcases List.mem_or_eq_of_mem_set hr with h | h
        · exact hrs r h
        · rw [h, step_env]
          exact ⟨(hrs rj hmem).1, hk.2⟩
      by_cases hji : j = i
      · subst hji
        have hr : rj = r0 := by
          rw [hj] at hi
          exact Option.some.inj hi
        subst hr
        have hlen : j < rs.length := (List.getElem?_eq_some.mp hj).1
        have hi' : (rs.set j (step rj mc).1)[j]? = some (step rj mc).1 :=
          List.getElem?_set_self hlen
        apply ih _ _ (step rj mc).1 hk.1 hrs' hi' ((step_env rj mc).trans henv)
        rcases h0 with ⟨hp, he⟩ | ⟨hp, he⟩
        · right
          rw [step_hit rj mc req n v E hp hv hl (hrs rj hmem).1]
          exact ⟨rfl, by rw [he]⟩
        · right
          have hs : step rj mc = (rj, mc) := by
            obtain ⟨env', p, ev'⟩ := rj
            simp only at hp
            subst hp
            rfl
          rw [hs]
          exact ⟨hp, he⟩
      · have hi' : (rs.set j (step rj mc).1)[i]? = some r0 := by
          rw [List.getElem?_set_ne hji]
          exact hi
        exact ih _ _ r0 hk.1 hrs' hi' henv h0

end handler

/-! ## The claims on the request flow -/

set_option maxRecDepth 100000 in
set_option exponentiation.threshold 4000 in
/-- C11, as stated, fails when a second request for the same code overlaps with the
first. Two requests for `01310-100` begin on an empty cache, the first at clock
reading 1000 with a reading of 28.5 °C, the second at 1001 with a reading of 30 °C;
both miss the temperature namespace before either stores its result. After eleven
steps the first has answered 200 with 28.5 °C and stored it, and the second has not
answered; three steps later the second has answered with 30 °C and overwritten the
entry of the first. A third request for the code at clock reading 5000, within 10
minutes of the first response, reads the entry only and is answered with 30 °C: not
the payload of the first response. -/
theorem C11_counterexample_overlapping_request_overwrites :
    ((handler.runSchedule [0, 1, 0, 0, 0, 0, 1, 1, 0, 0, 0]
        [handler.Run.new (handler.envSaoPaulo 1000) (.ok { CEP := "01310-100" }),
          handler.Run.new (handler.envReading 1001 (Float64.ofNat 30))
            (.ok { CEP := "01310100" })]
        (cache.NewMemoryCache 300000000000 600000000000)).1.map
          (fun r => r.position.response)) =
      [some { statusCode := 200
              body := .temperature
                { TempC := Float64.lit 285 10, TempF := Float64.lit 833 10,
                  TempK := Float64.lit 3015 10, City := "São Paulo" } },
        none] ∧
    (handler.runSchedule [0, 1, 0, 0, 0, 0, 1, 1, 0, 0, 0]
        [handler.Run.new (handler.envSaoPaulo 1000) (.ok { CEP := "01310-100" }),
          handler.Run.new (handler.envReading 1001 (Float64.ofNat 30))
            (.ok { CEP := "01310100" })]
        (cache.NewMemoryCache 300000000000 600000000000)).2.GetTemperature 1001 "01310100" =
      some { TempC := Float64.lit 285 10, TempF := Float64.lit 833 10,
             TempK := Float64.lit 3015 10, City := "São Paulo" } ∧
    ((handler.runSchedule [0, 1, 0, 0, 0, 0, 1, 1, 0, 0, 0, 1, 1, 1]
        [handler.Run.new (handler.envSaoPaulo 1000) (.ok { CEP := "01310-100" }),
          handler.Run.new (handler.envReading 1001 (Float64.ofNat 30))
            (.ok { CEP := "01310100" })]
        (cache.NewMemoryCache 300000000000 600000000000)).1.map
          (fun r => r.position.response)) =
      [some { statusCode := 200
              body := .temperature
                { TempC := Float64.lit 285 10, TempF := Float64.lit 833 10,
                  TempK := Float64.lit 3015 10, City := "São Paulo" } },
        some { statusCode := 200
               body := .temperature
                 { TempC := Float64.ofNat 30, TempF := Float64.ofNat 86,
                   TempK := Float64.ofNat 303, City := "São Paulo" } }] ∧
    handler.HandleTemperature (handler.envUnreachable 5000)
        (handler.runSchedule [0, 1, 0, 0, 0, 0, 1, 1, 0, 0, 0, 1, 1, 1]
          [handler.Run.new (handler.envSaoPaulo 1000) (.ok { CEP := "01310-100" }),
            handler.Run.new (handler.envReading 1001 (Float64.ofNat 30))
              (.ok { CEP := "01310100" })]
          (cache.NewMemoryCache 300000000000 600000000000)).2
        (.ok { CEP := "01310-100" }) =
      { response :=
          { statusCode := 200
            body := .temperature
              { TempC := Float64.ofNat 30, TempF := Float64.ofNat 86,
                TempK := Float64.ofNat 303, City := "São Paulo" } }
        state :=
          { cache := (handler.runSchedule [0, 1, 0, 0, 0, 0, 1, 1, 0, 0, 0, 1, 1, 1]
              [handler.Run.new (handler.envSaoPaulo 1000) (.ok { CEP := "01310-100" }),
                handler.Run.new (handler.envReading 1001 (Float64.ofNat 30))
                  (.ok { CEP := "01310100" })]
              (cache.NewMemoryCache 300000000000 600000000000)).2
            events := [.cacheGet "temp:01310100"] } } ∧
    (5000 : Int) ≤ 1000 + 10 * time.Minute ∧
    (Float64.ofNat 30 ≠ Float64.lit 285 10) := by
  refine ⟨by decide, by decide, by decide, by decide, by decide, by decide⟩

set_option maxRecDepth 100000 in
set_option exponentiation.threshold 4000 in
/-- C11, amended: a valid request whose normalized code has an unexpired entry in the
temperature namespace is answered 200 with the encoding of exactly the cached value
(the value itself when its temperatures are finite, an empty body otherwise), and
its only step is the read of that entry: no call of the location or the weather
service. A request answered 200 leaves the value it answered with under its
normalized code, expiring 10 minutes after the request that computed and stored it.
While the namespace holds an entry for a code, in every interleaving of the steps of
requests that run no later than its expiration and of which none had missed the
entry for this code and not yet answered, the entry stays as it is; every request
for the code among them has afterwards either not begun or been answered with the
encoding of the entry, reading the entry only; and so is every request for the code
handled afterwards no later than the expiration. A request of which another request
takes no step in between is a run of `HandleTemperature`. -/
theorem C11_result_cache_hit_repeats_first_response :
    (∀ (env : handler.Env) (mc : cache.MemoryCache) (req : models.CEPRequest) (n : String)
      (t : models.TemperatureResponse),
      utils.ValidateAndNormalize req.CEP = (n, none) →
      mc.GetTemperature env.now n = some t →
      handler.HandleTemperature env mc (.ok req) =
        { response :=
            { statusCode := 200
              body := if handler.jsonEncodable t then .temperature t else .empty }
          state := { cache := mc
                     events := [handler.Event.cacheGet (cache.tempCacheKey n)] } }) ∧
    (∀ (env1 : handler.Env) (mc : cache.MemoryCache) (req1 : models.CEPRequest) (n : String),
      utils.ValidateAndNormalize req1.CEP = (n, none) →
      (handler.HandleTemperature env1 mc (.ok req1)).response.statusCode = 200 →
      ∃ (payload : models.TemperatureResponse) (E : Int),
        (handler.HandleTemperature env1 mc (.ok req1)).response =
          handler.respondWithSuccess payload ∧
        (handler.HandleTemperature env1 mc (.ok req1)).state.cache.cache.lookup
            (cache.tempCacheKey n) =
          some { Object := .temperature payload, Expiration := E } ∧
        (mc.GetTemperature env1.now n = none → E = env1.now + 10 * time.Minute)) ∧
    (∀ (r : handler.Run) (mc : cache.MemoryCache) (n : String) (L : model.ViaCEPResponse)
      (W : model.WeatherAPIResponse),
      r.position = .weatherKnown n L W →
      handler.step r mc =
        ({ env := r.env
           position := .done (handler.respondWithSuccess
             (service.ConvertToAllUnits r.env.fused W.Current.TempC L.Localidade))
           events := r.events ++
             [handler.Event.cacheSet (cache.tempCacheKey n) (10 * time.Minute)] },
         mc.SetTemperature r.env.now n
           (service.ConvertToAllUnits r.env.fused W.Current.TempC L.Localidade)
           (10 * time.Minute)) ∧
      (handler.step r mc).2.cache.lookup (cache.tempCacheKey n) =
        some { Object := .temperature
                 (service.ConvertToAllUnits r.env.fused W.Current.TempC L.Localidade)
               Expiration := r.env.now + 10 * time.Minute }) ∧
    (∀ (mc : cache.MemoryCache) (n : String) (payload : models.TemperatureResponse) (E : Int)
      (schedule : List Nat) (rs : List handler.Run),
      mc.cache.lookup (cache.tempCacheKey n) =
        some { Object := .temperature payload, Expiration := E } →
      (∀ r ∈ rs, r.env.now ≤ E ∧ r.position.code ≠ some n) →
      (handler.runSchedule schedule rs mc).2.cache.lookup (cache.tempCacheKey n) =
        some { Object := .temperature payload, Expiration := E } ∧
      (∀ (i : Nat) (r : handler.Run) (req : models.CEPRequest),
        rs[i]? = some r → r.position = .start (.ok req) →
        utils.ValidateAndNormalize req.CEP = (n, none) →
        ∃ r', (handler.runSchedule schedule rs mc).1[i]? = some r' ∧ r'.env = r.env ∧
          ((r'.position = .start (.ok req) ∧ r'.events = r.events) ∨
            (r'.position = .done (handler.respondWithSuccess payload) ∧
              r'.events = r.events ++ [handler.Event.cacheGet (cache.tempCacheKey n)]))) ∧
      ∀ (env2 : handler.Env) (req2 : models.CEPRequest),
        utils.ValidateAndNormalize req2.CEP = (n, none) →
        env2.now ≤ E →
        handler.HandleTemperature env2 (handler.runSchedule schedule rs mc).2 (.ok req2) =
          { response := handler.respondWithSuccess payload
            state :=
              { cache := (handler.runSchedule schedule rs mc).2
                events := [handler.Event.cacheGet (cache.tempCacheKey n)] } }) ∧
    (∀ (env : handler.Env) (mc : cache.MemoryCache)
      (decoded : Except String models.CEPRequest),
      handler.steps 8 (handler.Run.new env decoded, mc) =
        ({ env := env
           position := .done (handler.HandleTemperature env mc decoded).response
           events := (handler.HandleTemperature env mc decoded).state.events },
         (handler.HandleTemperature env mc decoded).state.cache)) ∧
    10 * time.Minute = 600000000000 ∧
    handler.HandleTemperature (handler.envUnreachable 600000001000)
        (handler.runSchedule [0, 1, 0, 0]
          [handler.Run.new (handler.envSaoPaulo 2000) (.ok { CEP := "00000-000" }),
            handler.Run.new (handler.envSaoPaulo 3000) (.ok { CEP := "01310100" })]
          (handler.HandleTemperature (handler.envSaoPaulo 1000)
            (cache.NewMemoryCache 300000000000 600000000000)
            (.ok { CEP := "01310-100" })).state.cache).2
        (.ok { CEP := " 01310100 " }) =
      { response := (handler.HandleTemperature (handler.envSaoPaulo 1000)
          (cache.NewMemoryCache 300000000000 600000000000) (.ok { CEP := "01310-100" })).response
        state :=
          { cache := (handler.runSchedule [0, 1, 0, 0]
              [handler.Run.new (handler.envSaoPaulo 2000) (.ok { CEP := "00000-000" }),
                handler.Run.new (handler.envSaoPaulo 3000) (.ok { CEP := "01310100" })]
              (handler.HandleTemperature (handler.envSaoPaulo 1000)
                (cache.NewMemoryCache 300000000000 600000000000)
                (.ok { CEP := "01310-100" })).state.cache).2
            events := [handler.Event.cacheGet "temp:01310100"] } } ∧
    (handler.HandleTemperature (handler.envSaoPaulo 1000)
        (cache.NewMemoryCache 300000000000 600000000000) (.ok { CEP := "01310-100" })).response =
      { statusCode := 200
        body := .temperature
          { TempC := Float64.lit 285 10, TempF := Float64.lit 833 10,
            TempK := Float64.lit 3015 10, City := "São Paulo" } } := by
  refine ⟨?_, ?_, ?_, ?_, ?_, handler.ten_minutes, by decide, by decide⟩
  · intro env mc req n t hv ht
    exact handler.HandleTemperature_hit env mc req n t hv ht
  · intro env1 mc req1 n hv1 hresp
    obtain ⟨payload, E, h1, h2, _, h4⟩ :=
      handler.lookup_temp_after_success env1 mc req1 n hv1 hresp
    exact ⟨payload, E, h1, h2, h4⟩
  · intro r mc n L W hp
    exact handler.step_store r mc n L W hp
  · intro mc n payload E schedule rs hl hrs
    have hk := handler.runSchedule_keeps_temperature schedule rs mc n payload E hl hrs
    refine ⟨hk.1, ?_, ?_⟩
    · intro i r req hi hp hv
      exact handler.runSchedule_answers schedule rs mc n payload E i r.env req r.events r
        hl hrs hv hi rfl (Or.inl ⟨hp, rfl⟩)
    · intro env2 req2 hv2 h2
      have hg : (handler.runSchedule schedule rs mc).2.GetTemperature env2.now n =
          some payload := by
        rw [handler.GetTemperature_of_lookup _ env2.now E n payload hk.1,
          if_neg (fun hc => absurd h2 (not_le.mpr hc.2))]
      exact handler.HandleTemperature_hit env2 _ req2 n payload hv2 hg
  · intro env mc decoded
    exact handler.steps_eq_HandleTemperature env mc decoded

set_option maxRecDepth 100000 in
set_option exponentiation.threshold 4000 in
/-- C12: for a valid request that misses the temperature namespace, a failure of the
location stage with a `CEPNotFoundError`, or of the weather stage with a
`LocationNotFoundError`, is answered 404 with the message "can not find zipcode";
a failure of either stage with any other error is answered 500 with the message
"Erro interno do servidor". When the location stage fails, the request ends after
the read of the location namespace and the one call of the location service: the
weather stage does not run, neither its cache read nor its call. -/
theorem C12_resolver_failure_gives_404_or_500 :
    (∀ (env : handler.Env) (mc : cache.MemoryCache) (req : models.CEPRequest) (n : String)
      (err : GoError) (st1 : handler.State),
      utils.ValidateAndNormalize req.CEP = (n, none) →
      mc.GetTemperature env.now n = none →
      handler.getLocationWithCache env
        { cache := mc, events := [handler.Event.cacheGet (cache.tempCacheKey n)] } n =
          (.error err, st1) →
      ((∃ c, err = GoError.cepNotFound c) →
        (handler.HandleTemperature env mc (.ok req)).response =
          { statusCode := 404, body := .error { Message := "can not find zipcode" } }) ∧
      ((∀ c, err ≠ GoError.cepNotFound c) →
        (handler.HandleTemperature env mc (.ok req)).response =
          { statusCode := 500, body := .error { Message := "Erro interno do servidor" } }) ∧
      (handler.HandleTemperature env mc (.ok req)).state =
        { cache := mc
          events := [handler.Event.cacheGet (cache.tempCacheKey n),
            handler.Event.cacheGet (cache.locationCacheKey n),
            handler.Event.openCEPCall n] } ∧
      ∀ location : String,
        handler.Event.weatherCall location ∉
          (handler.HandleTemperature env mc (.ok req)).state.events ∧
        handler.Event.cacheGet (cache.weatherCacheKey location) ∉
          (handler.HandleTemperature env mc (.ok req)).state.events) ∧
    (∀ (env : handler.Env) (mc : cache.MemoryCache) (req : models.CEPRequest) (n : String)
      (L : model.ViaCEPResponse) (err : GoError) (st1 st2 : handler.State),
      utils.ValidateAndNormalize req.CEP = (n, none) →
      mc.GetTemperature env.now n = none →
      handler.getLocationWithCache env
        { cache := mc, events := [handler.Event.cacheGet (cache.tempCacheKey n)] } n =
          (.ok L, st1) →
      handler.getWeatherWithCache env st1 L.GetFullLocation = (.error err, st2) →
      ((∃ l m, err = GoError.locationNotFound l m) →
        (handler.HandleTemperature env mc (.ok req)).response =
          { statusCode := 404, body := .error { Message := "can not find zipcode" } }) ∧
      ((∀ l m, err ≠ GoError.locationNotFound l m) →
        (handler.HandleTemperature env mc (.ok req)).response =
          { statusCode := 500, body := .error { Message := "Erro interno do servidor" } }) ∧
      (handler.HandleTemperature env mc (.ok req)).state =
        { cache := st1.cache
          events := st1.events ++
            [handler.Event.cacheGet (cache.weatherCacheKey L.GetFullLocation),
              handler.Event.weatherCall L.GetFullLocation] }) ∧
    handler.HandleTemperature (handler.envSaoPaulo 1000)
        (cache.NewMemoryCache 300000000000 600000000000) (.ok { CEP := "00000000" }) =
      { response := { statusCode := 404, body := .error { Message := "can not find zipcode" } }
        state :=
          { cache := cache.NewMemoryCache 300000000000 600000000000
            events := [.cacheGet "temp:00000000", .cacheGet "location:00000000",
              .openCEPCall "00000000"] } } ∧
    handler.HandleTemperature (handler.envUnreachable 1000)
        (cache.NewMemoryCache 300000000000 600000000000) (.ok { CEP := "01310-100" }) =
      { response :=
          { statusCode := 500, body := .error { Message := "Erro interno do servidor" } }
        state :=
          { cache := cache.NewMemoryCache 300000000000 600000000000
            events := [.cacheGet "temp:01310100", .cacheGet "location:01310100",
              .openCEPCall "01310100"] } } ∧
    (handler.HandleTemperature
        { handler.envSaoPaulo 1000 with weather := fun _ => .response 400 "E" }
        (cache.NewMemoryCache 300000000000 600000000000) (.ok { CEP := "01310-100" })).response =
      { statusCode := 404, body := .error { Message := "can not find zipcode" } } ∧
    (handler.HandleTemperature
        { handler.envSaoPaulo 1000 with weather := fun _ => .response 403 "" }
        (cache.NewMemoryCache 300000000000 600000000000) (.ok { CEP := "01310-100" })).response =
      { statusCode := 500, body := .error { Message := "Erro interno do servidor" } } := by
  refine ⟨?_, ?_, by decide, by decide, by decide, by decide⟩
  · intro env mc req n err st1 hv ht hl
    obtain ⟨_, _, hst⟩ := handler.getLocationWithCache_error_inv env _ st1 n err hl
    rw [handler.HandleTemperature_location_error env mc req n err st1 hv ht hl, hst]
    refine ⟨?_, ?_, rfl, ?_⟩
    · rintro ⟨c, rfl⟩
      rfl
    · intro hne
      cases err with
      | cepNotFound c => exact absurd rfl (hne c)
      | errorf m => rfl
      | locationNotFound l m => rfl
    · intro location
      have hk1 := cache.key_ne cache.Namespace.temp cache.Namespace.weather n location
        (by simp)
      have hk2 := cache.key_ne cache.Namespace.location cache.Namespace.weather n location
        (by simp)
      simp only [cache.Namespace.key] at hk1 hk2
      simp [hk1, hk2]
  · intro env mc req n L err st1 st2 hv ht hl hw
    obtain ⟨_, _, hst⟩ := handler.getWeatherWithCache_error_inv env st1 st2 _ err hw
    rw [handler.HandleTemperature_weather_error env mc req n L err st1 st2 hv ht hl hw, hst]
    refine ⟨?_, ?_, rfl⟩
    · rintro ⟨l, m, rfl⟩
      rfl
    · intro hne
      cases err with
      | locationNotFound l m => exact absurd rfl (hne l m)
      | errorf m => rfl
      | cepNotFound c => rfl

set_option maxRecDepth 100000 in
set_option exponentiation.threshold 4000 in
/-- C13, as stated, fails for a reading too large to convert: `1e308` is a finite
`float64` and a valid reading, `ConvertToAllUnits` of it has `+Inf` in its three
temperatures, which `encoding/json` does not encode. The request for `01310-100`
that misses the cache and gets this reading is answered 200 with an empty body, not
with the converted value, which is stored in the temperature namespace all the
same. -/
theorem C13_counterexample_reading_too_large_to_encode :
    (Float64.lit (10 ^ 308) 1).isFinite = true ∧
    service.ConvertToAllUnits false (Float64.lit (10 ^ 308) 1) "São Paulo" =
      { TempC := .inf false, TempF := .inf false, TempK := .inf false,
        City := "São Paulo" } ∧
    (handler.HandleTemperature (handler.envReading 1000 (Float64.lit (10 ^ 308) 1))
        (cache.NewMemoryCache 300000000000 600000000000)
        (.ok { CEP := "01310-100" })).response =
      { statusCode := 200, body := .empty } ∧
    (handler.HandleTemperature (handler.envReading 1000 (Float64.lit (10 ^ 308) 1))
        (cache.NewMemoryCache 300000000000 600000000000)
        (.ok { CEP := "01310-100" })).response ≠
      { statusCode := 200
        body := .temperature
          (service.ConvertToAllUnits false (Float64.lit (10 ^ 308) 1) "São Paulo") } ∧
    (handler.HandleTemperature (handler.envReading 1000 (Float64.lit (10 ^ 308) 1))
        (cache.NewMemoryCache 300000000000 600000000000)
        (.ok { CEP := "01310-100" })).state.events =
      [.cacheGet "temp:01310100", .cacheGet "location:01310100",
        .openCEPCall "01310100", .cacheSet "location:01310100" 86400000000000,
        .cacheGet "weather:São Paulo, SP", .weatherCall "São Paulo, SP",
        .cacheSet "weather:São Paulo, SP" 600000000000,
        .cacheSet "temp:01310100" 600000000000] ∧
    (handler.HandleTemperature (handler.envReading 1000 (Float64.lit (10 ^ 308) 1))
        (cache.NewMemoryCache 300000000000 600000000000)
        (.ok { CEP := "01310-100" })).state.cache.GetTemperature 2000 "01310100" =
      some { TempC := .inf false, TempF := .inf false, TempK := .inf false,
             City := "São Paulo" } := by
  refine ⟨by decide, by decide, by decide, by decide, by decide, by decide⟩

set_option maxRecDepth 100000 in
set_option exponentiation.threshold 4000 in
/-- C13, amended: for a valid request with normalized code `n` that misses the
temperature namespace, for which the location stage yields `L` and the weather stage
yields `W`, the answer is 200; its body is the encoding of
`ConvertToAllUnits(W.Current.TempC, L.Localidade)` (the city is the place name of
the location, not the name in the weather payload) when the three temperatures of
that value are finite, and empty when one of them is not. In both cases exactly that
value is stored with `SetTemperature` under `n` with a duration of 10 minutes: it is
the entry of `n` afterwards, expiring 10 minutes after the clock reading of the
request, and `GetTemperature` finds it until then. -/
theorem C13_fresh_result_is_converted_and_cached :
    (∀ (env : handler.Env) (mc : cache.MemoryCache) (req : models.CEPRequest) (n : String)
      (L : model.ViaCEPResponse) (W : model.WeatherAPIResponse) (st1 st2 : handler.State),
      utils.ValidateAndNormalize req.CEP = (n, none) →
      mc.GetTemperature env.now n = none →
      handler.getLocationWithCache env
        { cache := mc, events := [handler.Event.cacheGet (cache.tempCacheKey n)] } n =
          (.ok L, st1) →
      handler.getWeatherWithCache env st1 L.GetFullLocation = (.ok W, st2) →
      (handler.HandleTemperature env mc (.ok req)).response.statusCode = 200 ∧
      (((service.ConvertToAllUnits env.fused W.Current.TempC L.Localidade).TempC.isFinite =
            true ∧
          (service.ConvertToAllUnits env.fused W.Current.TempC L.Localidade).TempF.isFinite =
            true ∧
          (service.ConvertToAllUnits env.fused W.Current.TempC L.Localidade).TempK.isFinite =
            true) →
        (handler.HandleTemperature env mc (.ok req)).response.body =
          .temperature (service.ConvertToAllUnits env.fused W.Current.TempC L.Localidade)) ∧
      (¬((service.ConvertToAllUnits env.fused W.Current.TempC L.Localidade).TempC.isFinite =
            true ∧
          (service.ConvertToAllUnits env.fused W.Current.TempC L.Localidade).TempF.isFinite =
            true ∧
          (service.ConvertToAllUnits env.fused W.Current.TempC L.Localidade).TempK.isFinite =
            true) →
        (handler.HandleTemperature env mc (.ok req)).response.body = .empty) ∧
      (service.ConvertToAllUnits env.fused W.Current.TempC L.Localidade).City =
        L.Localidade ∧
      (handler.HandleTemperature env mc (.ok req)).state =
        { cache := st2.cache.SetTemperature env.now n
            (service.ConvertToAllUnits env.fused W.Current.TempC L.Localidade) 600000000000
          events := st2.events ++
            [handler.Event.cacheSet (cache.tempCacheKey n) 600000000000] } ∧
      (handler.HandleTemperature env mc (.ok req)).state.cache.cache.lookup
          (cache.tempCacheKey n) =
        some { Object := .temperature
                 (service.ConvertToAllUnits env.fused W.Current.TempC L.Localidade)
               Expiration := env.now + 600000000000 } ∧
      (∀ now' : Int, now' ≤ env.now + 600000000000 →
        (handler.HandleTemperature env mc (.ok req)).state.cache.GetTemperature now' n =
          some (service.ConvertToAllUnits env.fused W.Current.TempC L.Localidade)) ∧
      (∀ now' : Int, 0 ≤ env.now → env.now + 600000000000 < now' →
        (handler.HandleTemperature env mc (.ok req)).state.cache.GetTemperature now' n =
          none)) ∧
    10 * time.Minute = 600000000000 ∧
    (10 * 60 * 1000000000 : Int) = 600000000000 ∧
    handler.HandleTemperature (handler.envSaoPaulo 1000)
        (cache.NewMemoryCache 300000000000 600000000000) (.ok { CEP := "01310-100" }) =
      { response :=
          { statusCode := 200
            body := .temperature
              { TempC := Float64.lit 285 10, TempF := Float64.lit 833 10,
                TempK := Float64.lit 3015 10, City := "São Paulo" } }
        state :=
          { cache :=
              (((cache.NewMemoryCache 300000000000 600000000000).SetLocation 1000 "01310100"
                handler.locationSaoPaulo 86400000000000).SetWeather 1000 "São Paulo, SP"
                handler.weatherSaoPaulo 600000000000).SetTemperature 1000 "01310100"
                { TempC := Float64.lit 285 10, TempF := Float64.lit 833 10,
                  TempK := Float64.lit 3015 10, City := "São Paulo" } 600000000000
            events := [.cacheGet "temp:01310100", .cacheGet "location:01310100",
              .openCEPCall "01310100", .cacheSet "location:01310100" 86400000000000,
              .cacheGet "weather:São Paulo, SP", .weatherCall "São Paulo, SP",
              .cacheSet "weather:São Paulo, SP" 600000000000,
              .cacheSet "temp:01310100" 600000000000] } } ∧
    handler.weatherSaoPaulo.Location.Name = "Sao Paulo" := by
  refine ⟨?_, handler.ten_minutes, by norm_num, by decide, rfl⟩
  intro env mc req n L W st1 st2 hv ht hl hw
  rw [handler.HandleTemperature_fresh env mc req n L W st1 st2 hv ht hl hw]
  have hlk := handler.lookup_SetTemperature st2.cache env.now n
    (service.ConvertToAllUnits env.fused W.Current.TempC L.Localidade)
  rw [handler.ten_minutes] at hlk
  refine ⟨rfl, ?_, ?_, rfl, ?_, ?_, ?_, ?_⟩
  · intro hfin
    have he : handler.jsonEncodable
        (service.ConvertToAllUnits env.fused W.Current.TempC L.Localidade) = true := by
      simp [handler.jsonEncodable, hfin.1, hfin.2.1, hfin.2.2]
    show (handler.respondWithSuccess
      (service.ConvertToAllUnits env.fused W.Current.TempC L.Localidade)).body = _
    simp only [handler.respondWithSuccess, he, if_true]
  · intro hfin
    have he : handler.jsonEncodable
        (service.ConvertToAllUnits env.fused W.Current.TempC L.Localidade) = false := by
      cases h : handler.jsonEncodable
        (service.ConvertToAllUnits env.fused W.Current.TempC L.Localidade) with
      | false => rfl
      | true =>
        simp only [handler.jsonEncodable, Bool.and_eq_true] at h
        exact absurd ⟨h.1.1, h.1.2, h.2⟩ hfin
    show (handler.respondWithSuccess
      (service.ConvertToAllUnits env.fused W.Current.TempC L.Localidade)).body = _
    simp [handler.respondWithSuccess, he]
  · rw [handler.ten_minutes]
    rfl
  · rw [handler.ten_minutes]
    exact hlk
  · intro now' h'
    rw [handler.ten_minutes]
    exact handler.GetTemperature_SetTemperature _ _ _ _ _ _ (by norm_num) h'
  · intro now' h0 h'
    rw [handler.ten_minutes]
    have hg := handler.GetTemperature_of_lookup _ now' _ n _ hlk
    rw [if_pos (by constructor <;> omega)] at hg
    exact hg

namespace handler

/-- The steps of a request that reaches the weather stage with the location `L`:
the weather namespace is read, the weather service is called and the weather
namespace is written for the full place string of `L` only. -/
theorem weather_events_of_location (env : Env) (mc : cache.MemoryCache)
    (req : models.CEPRequest) (n : String) (L : model.ViaCEPResponse) (st1 : State)
    (hv : utils.ValidateAndNormalize req.CEP = (n, none))
    (ht : mc.GetTemperature env.now n = none)
    (hl : getLocationWithCache env
      { cache := mc, events := [Event.cacheGet (cache.tempCacheKey n)] } n = (.ok L, st1)) :
    Event.cacheGet (cache.weatherCacheKey L.GetFullLocation) ∈
      (HandleTemperature env mc (.ok req)).state.events ∧
    ∀ location : String,
      (Event.cacheGet (cache.weatherCacheKey location) ∈
        (HandleTemperature env mc (.ok req)).state.events → location = L.GetFullLocation) ∧
      (Event.weatherCall location ∈
        (HandleTemperature env mc (.ok req)).state.events → location = L.GetFullLocation) ∧
      ∀ d : Int, Event.cacheSet (cache.weatherCacheKey location) d ∈
        (HandleTemperature env mc (.ok req)).state.events →
          location = L.GetFullLocation ∧ d = 10 * time.Minute := by
  have hk1 : ∀ a b : String, cache.weatherCacheKey a ≠ cache.tempCacheKey b := fun a b =>
    cache.key_ne cache.Namespace.temp cache.Namespace.weather b a (by simp)
  have hk2 : ∀ a b : String, cache.weatherCacheKey a ≠ cache.locationCacheKey b := fun a b =>
    cache.key_ne cache.Namespace.location cache.Namespace.weather b a (by simp)
  have hk3 : ∀ a b : String, cache.weatherCacheKey a = cache.weatherCacheKey b ↔ a = b :=
    fun a b => ⟨fun h => (cache.key_injective cache.Namespace.weather cache.Namespace.weather
      a b h).2, fun h => by rw [h]⟩
  have hst1 : st1.events = [Event.cacheGet (cache.tempCacheKey n),
        Event.cacheGet (cache.locationCacheKey n)] ∨
      st1.events = [Event.cacheGet (cache.tempCacheKey n),
        Event.cacheGet (cache.locationCacheKey n), Event.openCEPCall n,
        Event.cacheSet (cache.locationCacheKey n) (24 * time.Hour)] := by
    rcases getLocationWithCache_ok_inv env _ st1 n L hl with ⟨_, h⟩ | ⟨_, _, h⟩
    · left
      rw [h]
      rfl
    · right
      rw [h]
      rfl
  rcases hw : getWeatherWithCache env st1 L.GetFullLocation with ⟨r2, st2⟩
  cases r2 with
  | error err =>
    obtain ⟨_, _, hst2⟩ := getWeatherWithCache_error_inv env st1 st2 _ err hw
    rw [HandleTemperature_weather_error env mc req n L err st1 st2 hv ht hl hw, hst2]
    rcases hst1 with h | h <;> rw [h] <;> simp [hk1, hk2, hk3]
  | ok W =>
    rw [HandleTemperature_fresh env mc req n L W st1 st2 hv ht hl hw]
    rcases getWeatherWithCache_ok_inv env st1 st2 _ W hw with ⟨_, hst2⟩ | ⟨_, _, hst2⟩ <;>
      rw [hst2] <;> rcases hst1 with h | h <;> rw [h] <;>
      simp [hk1, hk2, hk3, fun a b => (hk1 a b).symm, fun a b => (hk2 a b).symm]

end handler

set_option maxRecDepth 100000 in
set_option exponentiation.threshold 4000 in
/-- C15: `getWeatherWithCache` is cache-aside over the weather namespace, keyed by
the place string it is given: a hit returns the cached reading without calling the
weather service; a miss calls it once, returns its error with the cache unchanged,
and on success stores the reading under the place with a duration of 10 minutes.
On every cache the service can hold (empty at startup, then written by requests
only), every location `L` the location stage returns, fresh or from the cache, has
`Localidade` and `UF` non-empty, and the handler reads the weather namespace, calls
the weather service and writes the weather namespace for exactly
`L.Localidade + ", " + L.UF`. -/
theorem C15_weather_stage_cache_aside_by_full_place :
    (∀ (env : handler.Env) (st : handler.State) (location : String)
      (W : model.WeatherAPIResponse),
      st.cache.GetWeather env.now location = some W →
      handler.getWeatherWithCache env st location =
        (.ok W, { cache := st.cache
                  events := st.events ++
                    [handler.Event.cacheGet (cache.weatherCacheKey location)] })) ∧
    (∀ (env : handler.Env) (st : handler.State) (location : String) (err : GoError),
      st.cache.GetWeather env.now location = none →
      client.GetCurrentWeather (env.weather location) env.decodeWeather
        env.decodeWeatherError location = .error err →
      handler.getWeatherWithCache env st location =
        (.error err,
          { cache := st.cache
            events := st.events ++ [handler.Event.cacheGet (cache.weatherCacheKey location),
              handler.Event.weatherCall location] })) ∧
    (∀ (env : handler.Env) (st : handler.State) (location : String)
      (W : model.WeatherAPIResponse),
      st.cache.GetWeather env.now location = none →
      client.GetCurrentWeather (env.weather location) env.decodeWeather
        env.decodeWeatherError location = .ok W →
      handler.getWeatherWithCache env st location =
        (.ok W,
          { cache := st.cache.SetWeather env.now location W 600000000000
            events := st.events ++ [handler.Event.cacheGet (cache.weatherCacheKey location),
              handler.Event.weatherCall location,
              handler.Event.cacheSet (cache.weatherCacheKey location) 600000000000] }) ∧
      (st.cache.SetWeather env.now location W 600000000000).cache.lookup
          (cache.weatherCacheKey location) =
        some { Object := .weather W, Expiration := env.now + 600000000000 } ∧
      ∀ now' : Int, now' ≤ env.now + 600000000000 →
        (st.cache.SetWeather env.now location W 600000000000).GetWeather now' location =
          some W) ∧
    (∀ (env : handler.Env) (st st1 : handler.State) (cep : String) (L : model.ViaCEPResponse),
      handler.Reachable st.cache →
      handler.getLocationWithCache env st cep = (.ok L, st1) →
      L.Localidade ≠ "" ∧ L.UF ≠ "" ∧
      L.GetFullLocation = L.Localidade ++ ", " ++ L.UF) ∧
    (∀ (env : handler.Env) (mc : cache.MemoryCache) (req : models.CEPRequest) (n : String)
      (L : model.ViaCEPResponse) (st1 : handler.State),
      handler.Reachable mc →
      utils.ValidateAndNormalize req.CEP = (n, none) →
      mc.GetTemperature env.now n = none →
      handler.getLocationWithCache env
        { cache := mc, events := [handler.Event.cacheGet (cache.tempCacheKey n)] } n =
          (.ok L, st1) →
      L.Localidade ≠ "" ∧ L.UF ≠ "" ∧
      handler.Event.cacheGet (cache.weatherCacheKey (L.Localidade ++ ", " ++ L.UF)) ∈
        (handler.HandleTemperature env mc (.ok req)).state.events ∧
      ∀ location : String,
        (handler.Event.cacheGet (cache.weatherCacheKey location) ∈
          (handler.HandleTemperature env mc (.ok req)).state.events →
            location = L.Localidade ++ ", " ++ L.UF) ∧
        (handler.Event.weatherCall location ∈
          (handler.HandleTemperature env mc (.ok req)).state.events →
            location = L.Localidade ++ ", " ++ L.UF) ∧
        ∀ d : Int, handler.Event.cacheSet (cache.weatherCacheKey location) d ∈
          (handler.HandleTemperature env mc (.ok req)).state.events →
            location = L.Localidade ++ ", " ++ L.UF ∧ d = 600000000000) ∧
    handler.Reachable (cache.NewMemoryCache 300000000000 600000000000) ∧
    (handler.HandleTemperature (handler.envSaoPaulo 1000)
        (cache.NewMemoryCache 300000000000 600000000000)
        (.ok { CEP := "01310-100" })).state.events =
      [.cacheGet "temp:01310100", .cacheGet "location:01310100",
        .openCEPCall "01310100", .cacheSet "location:01310100" 86400000000000,
        .cacheGet "weather:São Paulo, SP", .weatherCall "São Paulo, SP",
        .cacheSet "weather:São Paulo, SP" 600000000000,
        .cacheSet "temp:01310100" 600000000000] ∧
    (handler.HandleTemperature (handler.envSaoPaulo 700000000000)
        (handler.HandleTemperature (handler.envSaoPaulo 1000)
          (cache.NewMemoryCache 300000000000 600000000000)
          (.ok { CEP := "01310-100" })).state.cache
        (.ok { CEP := "01310-100" })).state.events =
      [.cacheGet "temp:01310100", .cacheGet "location:01310100",
        .cacheGet "weather:São Paulo, SP", .weatherCall "São Paulo, SP",
        .cacheSet "weather:São Paulo, SP" 600000000000,
        .cacheSet "temp:01310100" 600000000000] ∧
    (handler.HandleTemperature (handler.envSaoPaulo 2000)
        ((handler.HandleTemperature (handler.envSaoPaulo 1000)
          (cache.NewMemoryCache 300000000000 600000000000)
          (.ok { CEP := "01310-100" })).state.cache.InvalidateTemperature "01310100")
        (.ok { CEP := "01310-100" })).state.events =
      [.cacheGet "temp:01310100", .cacheGet "location:01310100",
        .cacheGet "weather:São Paulo, SP", .cacheSet "temp:01310100" 600000000000] := by
  refine ⟨handler.getWeatherWithCache_hit, handler.getWeatherWithCache_miss_error, ?_, ?_, ?_,
    handler.Reachable.init _ _, by decide, by decide, by decide⟩
  · intro env st location W h hc
    refine ⟨?_, ?_, ?_⟩
    · rw [handler.getWeatherWithCache_miss_ok env st location W h hc, handler.ten_minutes]
    · simp [cache.MemoryCache.SetWeather, cache.lookup_Set_same]
    · intro now' h'
      exact handler.GetWeather_SetWeather _ _ _ _ _ _ (by norm_num) h'
  · intro env st st1 cep L hr hl
    obtain ⟨h1, h2, _⟩ := handler.getLocationWithCache_complete env st st1 cep L
      (handler.LocationsComplete_of_Reachable _ hr) hl
    exact ⟨h1, h2, handler.GetFullLocation_of_complete L h2⟩
  · intro env mc req n L st1 hr hv ht hl
    obtain ⟨h1, h2, _⟩ := handler.getLocationWithCache_complete env _ st1 n L
      (handler.LocationsComplete_of_Reachable _ hr) hl
    have hw := handler.weather_events_of_location env mc req n L st1 hv ht hl
    rw [handler.GetFullLocation_of_complete L h2, handler.ten_minutes] at hw
    exact ⟨h1, h2, hw⟩

namespace handler

/-- Two location lookups that differ at most in upstream error text have the same
result, or fail both with an untyped error. -/
theorem GetLocationByCEP_sameButErrorText (x1 x2 : client.Exchange)
    (d1 d2 : String → Except String model.ViaCEPResponse) (cep : String)
    (hx : sameButErrorText x1 x2) (hd : ∀ body, sameButDecodeError (d1 body) (d2 body)) :
    client.GetLocationByCEP x1 d1 cep = client.GetLocationByCEP x2 d2 cep ∨
    ∃ m1 m2, client.GetLocationByCEP x1 d1 cep = .error (.errorf m1) ∧
      client.GetLocationByCEP x2 d2 cep = .error (.errorf m2) := by
  cases x1 with
  | requestError a =>
    cases x2 with
    | requestError b => exact Or.inr ⟨_, _, rfl, rfl⟩
    | doError b => cases hx
    | response s b => cases hx
  | doError a =>
    cases x2 with
    | requestError b => cases hx
    | doError b => exact Or.inr ⟨_, _, rfl, rfl⟩
    | response s b => cases hx
  | response s1 b1 =>
    cases x2 with
    | requestError b => cases hx
    | doError b => cases hx
    | response s2 b2 =>
      obtain ⟨rfl, hb⟩ := hx
      simp only [client.GetLocationByCEP]
      by_cases hs : s1 = 200
      · rw [if_neg (not_not.mpr hs), if_neg (not_not.mpr hs), ← hb hs]
        have h := hd b1
        cases h1 : d1 b1 with
        | error a =>
          cases h2 : d2 b1 with
          | error b => exact Or.inr ⟨_, _, rfl, rfl⟩
          | ok w => rw [h1, h2] at h; cases h
        | ok v =>
          cases h2 : d2 b1 with
          | error b => rw [h1, h2] at h; cases h
          | ok w =>
            rw [h1, h2] at h
            have hvw : v = w := h
            rw [hvw]
            exact Or.inl rfl
      · rw [if_pos hs, if_pos hs]
        exact Or.inl rfl

/-- Two weather lookups that differ at most in upstream error text have the same
result, or fail both with an untyped error, or fail both with a
`LocationNotFoundError`. -/
theorem GetCurrentWeather_sameButErrorText (x1 x2 : client.Exchange)
    (d1 d2 : String → Except String model.WeatherAPIResponse)
    (f1 f2 : String → Except String model.WeatherAPIError) (location : String)
    (hx : sameButErrorText x1 x2) (hd : ∀ body, sameButDecodeError (d1 body) (d2 body)) :
    client.GetCurrentWeather x1 d1 f1 location = client.GetCurrentWeather x2 d2 f2 location ∨
    (∃ m1 m2, client.GetCurrentWeather x1 d1 f1 location = .error (.errorf m1) ∧
      client.GetCurrentWeather x2 d2 f2 location = .error (.errorf m2)) ∨
    ∃ m1 m2, client.GetCurrentWeather x1 d1 f1 location =
        .error (.locationNotFound location m1) ∧
      client.GetCurrentWeather x2 d2 f2 location = .error (.locationNotFound location m2) := by
  cases x1 with
  | requestError a =>
    cases x2 with
    | requestError b => exact Or.inr (Or.inl ⟨_, _, rfl, rfl⟩)
    | doError b => cases hx
    | response s b => cases hx
  | doError a =>
    cases x2 with
    | requestError b => cases hx
    | doError b => exact Or.inr (Or.inl ⟨_, _, rfl, rfl⟩)
    | response s b => cases hx
  | response s1 b1 =>
    cases x2 with
    | requestError b => cases hx
    | doError b => cases hx
    | response s2 b2 =>
      obtain ⟨rfl, hb⟩ := hx
      simp only [client.GetCurrentWeather]
      by_cases hs : s1 = 200
      · rw [if_pos hs, if_pos hs, ← hb hs]
        have h := hd b1
        cases h1 : d1 b1 with
        | error a =>
          cases h2 : d2 b1 with
          | error b => exact Or.inr (Or.inl ⟨_, _, rfl, rfl⟩)
          | ok w => rw [h1, h2] at h; cases h
        | ok v =>
          cases h2 : d2 b1 with
          | error b => rw [h1, h2] at h; cases h
          | ok w =>
            rw [h1, h2] at h
            have hvw : v = w := h
            rw [hvw]
            exact Or.inl rfl
      · rw [if_neg hs, if_neg hs]
        by_cases hs4 : s1 = 400
        · rw [if_pos hs4, if_pos hs4]
          right
          right
          cases f1 b1 <;> cases f2 b2 <;> exact ⟨_, _, rfl, rfl⟩
        · rw [if_neg hs4, if_neg hs4]
          exact Or.inl rfl

theorem getLocationWithCache_sameButErrorText (e1 e2 : Env) (st : State) (cep : String)
    (h : e1.sameButErrorText e2) :
    getLocationWithCache e1 st cep = getLocationWithCache e2 st cep ∨
    ∃ m1 m2 st1, getLocationWithCache e1 st cep = (.error (.errorf m1), st1) ∧
      getLocationWithCache e2 st cep = (.error (.errorf m2), st1) := by
  obtain ⟨_, hn, ho, _, hdl, _⟩ := h
  cases hg : st.cache.GetLocation e1.now cep with
  | some L =>
    have hg2 := hg
    rw [hn] at hg2
    rw [getLocationWithCache_hit e1 st cep L hg, getLocationWithCache_hit e2 st cep L hg2]
    exact Or.inl rfl
  | none =>
    have hg2 := hg
    rw [hn] at hg2
    rcases GetLocationByCEP_sameButErrorText (e1.openCEP cep) (e2.openCEP cep)
      e1.decodeLocation e2.decodeLocation cep (ho cep) hdl with hsame | ⟨m1, m2, h1, h2⟩
    · cases hc : client.GetLocationByCEP (e1.openCEP cep) e1.decodeLocation cep with
      | error err =>
        rw [getLocationWithCache_miss_error e1 st cep err hg hc,
          getLocationWithCache_miss_error e2 st cep err hg2 (hsame ▸ hc)]
        exact Or.inl rfl
      | ok L =>
        rw [getLocationWithCache_miss_ok e1 st cep L hg hc,
          getLocationWithCache_miss_ok e2 st cep L hg2 (hsame ▸ hc), hn]
        exact Or.inl rfl
    · rw [getLocationWithCache_miss_error e1 st cep _ hg h1,
        getLocationWithCache_miss_error e2 st cep _ hg2 h2]
      exact Or.inr ⟨m1, m2, _, rfl, rfl⟩

theorem getWeatherWithCache_sameButErrorText (e1 e2 : Env) (st : State) (location : String)
    (h : e1.sameButErrorText e2) :
    getWeatherWithCache e1 st location = getWeatherWithCache e2 st location ∨
    (∃ m1 m2 st2, getWeatherWithCache e1 st location = (.error (.errorf m1), st2) ∧
      getWeatherWithCache e2 st location = (.error (.errorf m2), st2)) ∨
    ∃ m1 m2 st2,
      getWeatherWithCache e1 st location = (.error (.locationNotFound location m1), st2) ∧
      getWeatherWithCache e2 st location = (.error (.locationNotFound location m2), st2) := by
  obtain ⟨_, hn, _, hw, _, hdw⟩ := h
  cases hg : st.cache.GetWeather e1.now location with
  | some W =>
    have hg2 := hg
    rw [hn] at hg2
    rw [getWeatherWithCache_hit e1 st location W hg,
      getWeatherWithCache_hit e2 st location W hg2]
    exact Or.inl rfl
  | none =>
    have hg2 := hg
    rw [hn] at hg2
    rcases GetCurrentWeather_sameButErrorText (e1.weather location) (e2.weather location)
      e1.decodeWeather e2.decodeWeather e1.decodeWeatherError e2.decodeWeatherError location
      (hw location) hdw with hsame | ⟨m1, m2, h1, h2⟩ | ⟨m1, m2, h1, h2⟩
    · cases hc : client.GetCurrentWeather (e1.weather location) e1.decodeWeather
          e1.decodeWeatherError location with
      | error err =>
        rw [getWeatherWithCache_miss_error e1 st location err hg hc,
          getWeatherWithCache_miss_error e2 st location err hg2 (hsame ▸ hc)]
        exact Or.inl rfl
      | ok W =>
        rw [getWeatherWithCache_miss_ok e1 st location W hg hc,
          getWeatherWithCache_miss_ok e2 st location W hg2 (hsame ▸ hc), hn]
        exact Or.inl rfl
    · rw [getWeatherWithCache_miss_error e1 st location _ hg h1,
        getWeatherWithCache_miss_error e2 st location _ hg2 h2]
      exact Or.inr (Or.inl ⟨m1, m2, _, rfl, rfl⟩)
    · rw [getWeatherWithCache_miss_error e1 st location _ hg h1,
        getWeatherWithCache_miss_error e2 st location _ hg2 h2]
      exact Or.inr (Or.inr ⟨m1, m2, _, rfl, rfl⟩)

/-- Two runs that differ at most in upstream error text end the same. -/
theorem HandleTemperature_sameButErrorText (e1 e2 : Env) (mc : cache.MemoryCache)
    (d1 d2 : Except String models.CEPRequest)
    (h : e1.sameButErrorText e2) (hd : sameButDecodeError d1 d2) :
    HandleTemperature e1 mc d1 = HandleTemperature e2 mc d2 := by
  cases d1 with
  | error a =>
    cases d2 with
    | error b => rfl
    | ok w => cases hd
  | ok req =>
    cases d2 with
    | error b => cases hd
    | ok req2 =>
      have hreq : req = req2 := hd
      rw [← hreq]
      have hn := h.2.1
      have hf := h.1
      rcases hv : utils.ValidateAndNormalize req.CEP with ⟨n, o⟩
      cases o with
      | some m =>
        rw [HandleTemperature_invalid e1 mc req n m hv, HandleTemperature_invalid e2 mc req n m hv]
      | none =>
        cases ht : mc.GetTemperature e1.now n with
        | some t =>
          rw [HandleTemperature_hit e1 mc req n t hv ht,
            HandleTemperature_hit e2 mc req n t hv (hn ▸ ht)]
        | none =>
          have ht2 : mc.GetTemperature e2.now n = none := hn ▸ ht
          rcases getLocationWithCache_sameButErrorText e1 e2
            { cache := mc, events := [Event.cacheGet (cache.tempCacheKey n)] } n h with
            hsame | ⟨m1, m2, st1, h1, h2⟩
          · rcases hl : getLocationWithCache e1
              { cache := mc, events := [Event.cacheGet (cache.tempCacheKey n)] } n with ⟨r1, st1⟩
            have hl2 := hl
            rw [hsame] at hl2
            cases r1 with
            | error err =>
              rw [HandleTemperature_location_error e1 mc req n err st1 hv ht hl,
                HandleTemperature_location_error e2 mc req n err st1 hv ht2 hl2]
            | ok L =>
              rcases getWeatherWithCache_sameButErrorText e1 e2 st1 L.GetFullLocation h with
                hsame2 | ⟨m1, m2, st2, h1, h2⟩ | ⟨m1, m2, st2, h1, h2⟩
              · rcases hw : getWeatherWithCache e1 st1 L.GetFullLocation with ⟨r2, st2⟩
                have hw2 := hw
                rw [hsame2] at hw2
                cases r2 with
                | error err =>
                  rw [HandleTemperature_weather_error e1 mc req n L err st1 st2 hv ht hl hw,
                    HandleTemperature_weather_error e2 mc req n L err st1 st2 hv ht2 hl2 hw2]
                | ok W =>
                  rw [HandleTemperature_fresh e1 mc req n L W st1 st2 hv ht hl hw,
                    HandleTemperature_fresh e2 mc req n L W st1 st2 hv ht2 hl2 hw2, hn, hf]
              · rw [HandleTemperature_weather_error e1 mc req n L _ st1 st2 hv ht hl h1,
                  HandleTemperature_weather_error e2 mc req n L _ st1 st2 hv ht2 hl2 h2]
              · rw [HandleTemperature_weather_error e1 mc req n L _ st1 st2 hv ht hl h1,
                  HandleTemperature_weather_error e2 mc req n L _ st1 st2 hv ht2 hl2 h2]
          · rw [HandleTemperature_location_error e1 mc req n _ st1 hv ht h1,
              HandleTemperature_location_error e2 mc req n _ st1 hv ht2 h2]

/-- The five kinds of response. -/
theorem HandleTemperature_response (env : Env) (mc : cache.MemoryCache)
    (decoded : Except String models.CEPRequest) :
    (∃ t, (HandleTemperature env mc decoded).response = respondWithSuccess t) ∨
    ((∃ e, decoded = .error e) ∧
      (HandleTemperature env mc decoded).response = respondWithError 400 "invalid zipcode") ∨
    ((∃ req, decoded = .ok req ∧ (utils.ValidateAndNormalize req.CEP).2 ≠ none) ∧
      (HandleTemperature env mc decoded).response = respondWithError 422 "invalid zipcode") ∨
    ((∃ req, decoded = .ok req ∧ (utils.ValidateAndNormalize req.CEP).2 = none) ∧
      (HandleTemperature env mc decoded).response =
        respondWithError 404 "can not find zipcode") ∨
    ((∃ req, decoded = .ok req ∧ (utils.ValidateAndNormalize req.CEP).2 = none) ∧
      (HandleTemperature env mc decoded).response =
        respondWithError 500 "Erro interno do servidor") := by
  cases decoded with
  | error e => exact Or.inr (Or.inl ⟨⟨e, rfl⟩, rfl⟩)
  | ok req =>
    rcases hv : utils.ValidateAndNormalize req.CEP with ⟨n, o⟩
    cases o with
    | some m =>
      rw [HandleTemperature_invalid env mc req n m hv]
      exact Or.inr (Or.inr (Or.inl ⟨⟨req, rfl, by rw [hv]; simp⟩, rfl⟩))
    | none =>
      have hreq : ∃ req', Except.ok req = (Except.ok req' : Except String models.CEPRequest) ∧
          (utils.ValidateAndNormalize req'.CEP).2 = none := ⟨req, rfl, by rw [hv]⟩
      cases ht : mc.GetTemperature env.now n with
      | some t =>
        rw [HandleTemperature_hit env mc req n t hv ht]
        exact Or.inl ⟨t, rfl⟩
      | none =>
        rcases hl : getLocationWithCache env
          { cache := mc, events := [Event.cacheGet (cache.tempCacheKey n)] } n with ⟨r1, st1⟩
        cases r1 with
        | error err =>
          rw [HandleTemperature_location_error env mc req n err st1 hv ht hl]
          cases err with
          | cepNotFound c => exact Or.inr (Or.inr (Or.inr (Or.inl ⟨hreq, rfl⟩)))
          | errorf m => exact Or.inr (Or.inr (Or.inr (Or.inr ⟨hreq, rfl⟩)))
          | locationNotFound l m => exact Or.inr (Or.inr (Or.inr (Or.inr ⟨hreq, rfl⟩)))
        | ok L =>
          rcases hw : getWeatherWithCache env st1 L.GetFullLocation with ⟨r2, st2⟩
          cases r2 with
          | error err =>
            rw [HandleTemperature_weather_error env mc req n L err st1 st2 hv ht hl hw]
            cases err with
            | locationNotFound l m => exact Or.inr (Or.inr (Or.inr (Or.inl ⟨hreq, rfl⟩)))
            | errorf m => exact Or.inr (Or.inr (Or.inr (Or.inr ⟨hreq, rfl⟩)))
            | cepNotFound c => exact Or.inr (Or.inr (Or.inr (Or.inr ⟨hreq, rfl⟩)))
          | ok W =>
            rw [HandleTemperature_fresh env mc req n L W st1 st2 hv ht hl hw]
            exact Or.inl ⟨_, rfl⟩

end handler

set_option maxRecDepth 100000 in
set_option exponentiation.threshold 4000 in
/-- C18, as stated, fails for a reading too large to convert: the request for
`01310-100` that misses the cache and gets the valid reading `1e308` is answered 200
with an empty body, the converted value having `+Inf` in its temperatures. The
response is neither 200 with a `TemperatureResponse` nor an error with one of the
four pairs. -/
theorem C18_counterexample_success_with_empty_body :
    (handler.HandleTemperature (handler.envReading 1000 (Float64.lit (10 ^ 308) 1))
        (cache.NewMemoryCache 300000000000 600000000000)
        (.ok { CEP := "01310-100" })).response =
      { statusCode := 200, body := .empty } ∧
    (∀ t : models.TemperatureResponse,
      (handler.HandleTemperature (handler.envReading 1000 (Float64.lit (10 ^ 308) 1))
          (cache.NewMemoryCache 300000000000 600000000000)
          (.ok { CEP := "01310-100" })).response ≠
        { statusCode := 200, body := .temperature t }) ∧
    (∀ (status : Nat) (message : String),
      (handler.HandleTemperature (handler.envReading 1000 (Float64.lit (10 ^ 308) 1))
          (cache.NewMemoryCache 300000000000 600000000000)
          (.ok { CEP := "01310-100" })).response ≠
        { statusCode := status, body := .error { Message := message } }) ∧
    (handler.envReading 1000 (Float64.lit (10 ^ 308) 1)).decodeWeather "W" =
      .ok { handler.weatherSaoPaulo with
        Current := { handler.weatherSaoPaulo.Current with
          TempC := Float64.lit (10 ^ 308) 1 } } ∧
    model.WeatherAPIResponse.IsValid
      { handler.weatherSaoPaulo with
        Current := { handler.weatherSaoPaulo.Current with
          TempC := Float64.lit (10 ^ 308) 1 } } = true := by
  have h : (handler.HandleTemperature (handler.envReading 1000 (Float64.lit (10 ^ 308) 1))
        (cache.NewMemoryCache 300000000000 600000000000)
        (.ok { CEP := "01310-100" })).response =
      { statusCode := 200, body := .empty } := by decide
  refine ⟨h, ?_, ?_, rfl, by decide⟩
  · intro t hc
    rw [h] at hc
    cases hc
  · intro status message hc
    rw [h] at hc
    cases hc

set_option maxRecDepth 100000 in
set_option exponentiation.threshold 4000 in
/-- C18, amended: every request is answered either 200 with a `TemperatureResponse`
whose temperatures are finite, or 200 with an empty body (when a temperature of the
value to encode is not finite), or with an error whose status and message are one
of (400, "invalid zipcode") for an undecodable body and only for it,
(422, "invalid zipcode") for a decoded request with an invalid code, or
(404, "can not find zipcode") and (500, "Erro interno do servidor") for a decoded
request with a valid code. The message is one of these fixed strings; two runs from
the same cache that differ only in upstream error text (transport error text,
bodies of responses with a status other than 200, JSON decoding error text, the
decoded error body of the weather service, the decoding error of the request body)
give the same response, cache and steps. -/
theorem C18_error_responses_are_fixed_pairs :
    (∀ (env : handler.Env) (mc : cache.MemoryCache)
      (decoded : Except String models.CEPRequest),
      (∃ t : models.TemperatureResponse,
        t.TempC.isFinite = true ∧ t.TempF.isFinite = true ∧ t.TempK.isFinite = true ∧
        (handler.HandleTemperature env mc decoded).response =
          { statusCode := 200, body := .temperature t }) ∨
      (∃ t : models.TemperatureResponse,
        ¬(t.TempC.isFinite = true ∧ t.TempF.isFinite = true ∧ t.TempK.isFinite = true) ∧
        (handler.HandleTemperature env mc decoded).response =
          { statusCode := 200, body := .empty }) ∨
      ((∃ e, decoded = .error e) ∧
        (handler.HandleTemperature env mc decoded).response =
          { statusCode := 400, body := .error { Message := "invalid zipcode" } }) ∨
      ((∃ req, decoded = .ok req ∧ (utils.ValidateAndNormalize req.CEP).2 ≠ none) ∧
        (handler.HandleTemperature env mc decoded).response =
          { statusCode := 422, body := .error { Message := "invalid zipcode" } }) ∨
      ((∃ req, decoded = .ok req ∧ (utils.ValidateAndNormalize req.CEP).2 = none) ∧
        (handler.HandleTemperature env mc decoded).response =
          { statusCode := 404, body := .error { Message := "can not find zipcode" } }) ∨
      ((∃ req, decoded = .ok req ∧ (utils.ValidateAndNormalize req.CEP).2 = none) ∧
        (handler.HandleTemperature env mc decoded).response =
          { statusCode := 500, body := .error { Message := "Erro interno do servidor" } })) ∧
    (∀ (env : handler.Env) (mc : cache.MemoryCache) (e : String),
      (handler.HandleTemperature env mc (.error e)).response =
        { statusCode := 400, body := .error { Message := "invalid zipcode" } }) ∧
    (∀ (e1 e2 : handler.Env) (mc : cache.MemoryCache)
      (d1 d2 : Except String models.CEPRequest),
      e1.sameButErrorText e2 → handler.sameButDecodeError d1 d2 →
      handler.HandleTemperature e1 mc d1 = handler.HandleTemperature e2 mc d2) ∧
    (handler.HandleTemperature (handler.envUnreachable 1000)
        (cache.NewMemoryCache 300000000000 600000000000) (.ok { CEP := "01310-100" })).response =
      { statusCode := 500, body := .error { Message := "Erro interno do servidor" } } ∧
    (handler.HandleTemperature
        { handler.envUnreachable 1000 with
          openCEP := fun _ => .doError "dial tcp 10.0.0.1:443: connect: connection refused" }
        (cache.NewMemoryCache 300000000000 600000000000) (.ok { CEP := "01310-100" })).response =
      { statusCode := 500, body := .error { Message := "Erro interno do servidor" } } ∧
    (handler.HandleTemperature
        { handler.envSaoPaulo 1000 with
          weather := fun _ => .response 400 "X"
          decodeWeatherError := fun _ => .ok { Code := 1006, Message := "upstream text" } }
        (cache.NewMemoryCache 300000000000 600000000000) (.ok { CEP := "01310-100" })).response =
      { statusCode := 404, body := .error { Message := "can not find zipcode" } } ∧
    (handler.HandleTemperature (handler.envSaoPaulo 1000)
        (cache.NewMemoryCache 300000000000 600000000000) (.ok { CEP := "0131-010" })).response =
      { statusCode := 422, body := .error { Message := "invalid zipcode" } } := by
  refine ⟨?_, fun _ _ _ => rfl, ?_, by decide, by decide, by decide, by decide⟩
  · intro env mc decoded
    rcases handler.HandleTemperature_response env mc decoded with ⟨t, ht⟩ | h
    · cases he : handler.jsonEncodable t with
      | true =>
        left
        have hfin := he
        simp only [handler.jsonEncodable, Bool.and_eq_true] at hfin
        refine ⟨t, hfin.1.1, hfin.1.2, hfin.2, ?_⟩
        rw [ht]
        simp [handler.respondWithSuccess, he]
      | false =>
        right
        left
        refine ⟨t, ?_, ?_⟩
        · intro hfin
          simp [handler.jsonEncodable, hfin.1, hfin.2.1, hfin.2.2] at he
        · rw [ht]
          simp [handler.respondWithSuccess, he]
    · exact Or.inr (Or.inr h)
  · intro e1 e2 mc d1 d2 h hd
    exact handler.HandleTemperature_sameButErrorText e1 e2 mc d1 d2 h hd

/-! ## Lemmas on the comparisons of `float64` -/

namespace Float64

theorem le_fin_iff (s t : Bool) (m k : Nat) (e f : Int) :
    le (.fin s m e) (.fin t k f) = true ↔ toRat (.fin s m e) ≤ toRat (.fin t k f) := by
  have hpos : (0 : ℚ) < (2 : ℚ) ^ (min e f) := by positivity
  rw [← signedAt_val s m e (min e f) (min_le_left e f),
    ← signedAt_val t k f (min e f) (min_le_right e f)]
  simp only [le, decide_eq_true_eq]
  rw [mul_le_mul_right hpos]
  exact Int.cast_le.symm

theorem eq_zero_iff (s : Bool) (m : Nat) (e : Int) :
    eq (.fin s m e) (ofNat 0) = true ↔ m = 0 := by
  have h0 : ofNat 0 = .fin false 0 (-1074) := rfl
  rw [h0]
  simp only [eq, signedAt, beq_iff_eq, CharP.cast_eq_zero, zero_mul, Nat.cast_zero, mul_zero,
    Int.mul_eq_zero, Nat.cast_eq_zero, Nat.mul_eq_zero]
  constructor
  · rintro (h | h | h)
    · cases s <;> simp at h
    · exact h
    · exact absurd h (by positivity)
  · intro h
    exact Or.inr (Or.inl h)

theorem toRat_eq_zero_iff (s : Bool) (m : Nat) (e : Int) :
    toRat (.fin s m e) = 0 ↔ m = 0 := by
  have hpos : (2 : ℚ) ^ e ≠ 0 := by positivity
  simp only [toRat, mul_eq_zero, hpos, or_false, Nat.cast_eq_zero]
  cases s <;> simp

end Float64

/-! ## The claims on the validity predicates -/

set_option maxRecDepth 100000 in
set_option exponentiation.threshold 4000 in
/-- C22: `WeatherAPIResponse.IsValid()` is `Location.Name != "" && Current.TempC != 0`:
a reading is valid exactly when its location name is non-empty and its Celsius
temperature is not a zero (`0.0` or `-0.0`); a reading of exactly 0 degrees is
invalid whatever its other fields are. -/
theorem C22_weather_valid_iff_named_and_nonzero :
    (∀ w : model.WeatherAPIResponse,
      w.IsValid = (w.Location.Name != "" && !(Float64.eq w.Current.TempC (Float64.ofNat 0)))) ∧
    (∀ w : model.WeatherAPIResponse,
      w.IsValid = true ↔
        w.Location.Name ≠ "" ∧
          ¬(w.Current.TempC.isFinite = true ∧ w.Current.TempC.toRat = 0)) ∧
    (∀ (w : model.WeatherAPIResponse) (s : Bool) (e : Int),
      w.Current.TempC = .fin s 0 e → w.IsValid = false) ∧
    Float64.ofNat 0 = .fin false 0 (-1074) ∧
    handler.weatherSaoPaulo.IsValid = true ∧
    ({ handler.weatherSaoPaulo with
        Current := { handler.weatherSaoPaulo.Current with TempC := Float64.ofNat 0 } } :
      model.WeatherAPIResponse).IsValid = false ∧
    ({ handler.weatherSaoPaulo with
        Current := { handler.weatherSaoPaulo.Current with
          TempC := Float64.neg (Float64.ofNat 0) } } :
      model.WeatherAPIResponse).IsValid = false ∧
    ({ handler.weatherSaoPaulo with
        Location := { handler.weatherSaoPaulo.Location with Name := "" } } :
      model.WeatherAPIResponse).IsValid = false := by
  refine ⟨fun _ => rfl, ?_, ?_, rfl, by decide, by decide, by decide, by decide⟩
  · intro w
    simp only [model.WeatherAPIResponse.IsValid, Bool.and_eq_true, bne_iff_ne, ne_eq,
      Bool.not_eq_true', Bool.not_eq_true]
    apply and_congr_right
    intro _
    cases hc : w.Current.TempC with
    | nan => simp [Float64.eq, Float64.isFinite]
    | inf s =>
      have h0 : Float64.ofNat 0 = .fin false 0 (-1074) := rfl
      simp [Float64.eq, Float64.isFinite, h0]
    | fin s m e =>
      have h1 := Float64.eq_zero_iff s m e
      have h2 := Float64.toRat_eq_zero_iff s m e
      simp only [Float64.isFinite, true_and]
      rw [h2, ← h1]
      simp
  · intro w s e hc
    simp only [model.WeatherAPIResponse.IsValid, hc, Bool.and_eq_false_iff]
    right
    simp [(Float64.eq_zero_iff s 0 e).mpr rfl]

/-- C23: `ViaCEPResponse.IsValid()` is `!v.Erro && v.Localidade != "" && v.UF != ""`:
a valid location has a non-empty place name and a non-empty region. -/
theorem C23_location_valid_iff_no_error_and_complete :
    (∀ v : model.ViaCEPResponse,
      v.IsValid = (!v.Erro && v.Localidade != "" && v.UF != "")) ∧
    (∀ v : model.ViaCEPResponse,
      v.IsValid = true ↔ v.Erro = false ∧ v.Localidade ≠ "" ∧ v.UF ≠ "") ∧
    (∀ v : model.ViaCEPResponse, v.IsValid = true → v.Localidade ≠ "" ∧ v.UF ≠ "") ∧
    handler.locationSaoPaulo.IsValid = true ∧
    ({ handler.locationSaoPaulo with UF := "" } : model.ViaCEPResponse).IsValid = false ∧
    ({ handler.locationSaoPaulo with Localidade := "" } : model.ViaCEPResponse).IsValid =
      false ∧
    ({ handler.locationSaoPaulo with Erro := true } : model.ViaCEPResponse).IsValid =
      false := by
  have h : ∀ v : model.ViaCEPResponse,
      v.IsValid = true ↔ v.Erro = false ∧ v.Localidade ≠ "" ∧ v.UF ≠ "" := by
    intro v
    simp only [model.ViaCEPResponse.IsValid, Bool.and_eq_true, Bool.not_eq_true',
      bne_iff_ne, ne_eq, and_assoc]
  exact ⟨fun _ => rfl, h, fun v hv => ((h v).mp hv).2, by decide, by decide, by decide,
    by decide⟩

set_option maxRecDepth 100000 in
set_option exponentiation.threshold 4000 in
/-- C27: `ValidateTemperature(c)` is `c >= -100 && c <= 60`: it is true exactly for
the finite values between -100 and 60, both bounds included; -100 and 60 are
accepted, -101, 61 and the next `float64` after 60 are rejected, as are NaN and the
infinities. -/
theorem C27_validateTemperature_inclusive_bounds :
    (∀ c : Float64,
      service.ValidateTemperature c = true ↔
        c.isFinite = true ∧ -100 ≤ c.toRat ∧ c.toRat ≤ 60) ∧
    service.ValidateTemperature (Float64.neg (Float64.ofNat 100)) = true ∧
    service.ValidateTemperature (Float64.ofNat 60) = true ∧
    service.ValidateTemperature (Float64.neg (Float64.ofNat 101)) = false ∧
    service.ValidateTemperature (Float64.ofNat 61) = false ∧
    service.ValidateTemperature (.fin false 8444249301319681 (-47)) = false ∧
    service.ValidateTemperature (Float64.ofNat 25) = true ∧
    service.ValidateTemperature (Float64.neg (Float64.ofNat 10)) = true ∧
    service.ValidateTemperature (Float64.ofNat 50) = true ∧
    service.ValidateTemperature .nan = false ∧
    service.ValidateTemperature (.inf false) = false ∧
    service.ValidateTemperature (.inf true) = false := by
  refine ⟨?_, by decide, by decide, by decide, by decide, by decide, by decide, by decide,
    by decide, by decide, by decide, by decide⟩
  intro c
  have h100 : Float64.neg (Float64.ofNat 100) = .fin true 7036874417766400 (-46) := by decide
  have h60 : Float64.ofNat 60 = .fin false 8444249301319680 (-47) := by decide
  have v100 : Float64.toRat (.fin true 7036874417766400 (-46)) = -100 := by
    simp only [Float64.toRat]
    norm_num [zpow_neg]
  have v60 : Float64.toRat (.fin false 8444249301319680 (-47)) = 60 := by
    simp only [Float64.toRat]
    norm_num [zpow_neg]
  simp only [service.ValidateTemperature, Float64.ge, h100, h60]
  cases c with
  | nan => simp [Float64.le, Float64.isFinite]
  | inf s => cases s <;> simp [Float64.le, Float64.isFinite]
  | fin s m e =>
    rw [Bool.and_eq_true, Float64.le_fin_iff, Float64.le_fin_iff, v100, v60]
    simp [Float64.isFinite]

/-! ## The claim on Service A -/

namespace serviceA

theorem HandleCEP_invalid (env : Env) (req : models.CEPRequest)
    (h : req.CEP.data.countP Char.isDigit ≠ 8) :
    HandleCEP env (.ok req) =
      { response := respondWithError 422 models.ErrInvalidZipcode, calls := [] } := by
  simp only [HandleCEP, utils.ValidateAndNormalize_eq, if_neg h]

theorem HandleCEP_calls (env : Env) (req : models.CEPRequest)
    (h : req.CEP.data.countP Char.isDigit = 8) :
    (HandleCEP env (.ok req)).calls = [utils.NormalizeCEP req.CEP] := by
  simp only [HandleCEP, utils.ValidateAndNormalize_eq, if_pos h]
  cases GetTemperature (env.serviceB (utils.NormalizeCEP req.CEP)) env.decodeTemperature
      env.decodeError with
  | error err => cases err <;> rfl
  | ok t => rfl

end serviceA

/-- C26: `HandleCEP` of Service A answers every decoded request whose CEP does not
contain exactly 8 ASCII digits with 422 and the message "invalid zipcode", without
calling Service B; a request with exactly 8 digits calls Service B once, with the
normalized code, and every code Service B is called with is made of exactly 8
digits. The inputs "123", "123456789", "1234567a", "" and "12345-67" are
rejected. -/
theorem C26_service_a_rejects_before_calling_service_b :
    (∀ (env : serviceA.Env) (req : models.CEPRequest),
      req.CEP.data.countP Char.isDigit ≠ 8 →
      serviceA.HandleCEP env (.ok req) =
        { response := { statusCode := 422, body := .error { Message := "invalid zipcode" } }
          calls := [] }) ∧
    (∀ (env : serviceA.Env) (req : models.CEPRequest),
      req.CEP.data.countP Char.isDigit = 8 →
      (serviceA.HandleCEP env (.ok req)).calls = [utils.NormalizeCEP req.CEP]) ∧
    (∀ (env : serviceA.Env) (decoded : Except String models.CEPRequest) (cep : String),
      cep ∈ (serviceA.HandleCEP env decoded).calls →
      cep.data.length = 8 ∧ (∀ c ∈ cep.data, c.isDigit = true) ∧
        ∃ req, decoded = .ok req ∧ cep = utils.NormalizeCEP req.CEP) ∧
    (∀ cep ∈ ["123", "123456789", "1234567a", "", "12345-67"],
      serviceA.HandleCEP serviceA.envDown (.ok { CEP := cep }) =
        { response := { statusCode := 422, body := .error { Message := "invalid zipcode" } }
          calls := [] }) ∧
    serviceA.HandleCEP serviceA.envDown (.ok { CEP := "01310-100" }) =
      { response :=
          { statusCode := 500, body := .error { Message := "Erro interno do servidor" } }
        calls := ["01310100"] } := by
  refine ⟨serviceA.HandleCEP_invalid, serviceA.HandleCEP_calls, ?_, by decide, by decide⟩
  intro env decoded cep hmem
  cases decoded with
  | error e => cases hmem
  | ok req =>
    by_cases h8 : req.CEP.data.countP Char.isDigit = 8
    · rw [serviceA.HandleCEP_calls env req h8, List.mem_singleton] at hmem
      subst hmem
      refine ⟨?_, ?_, req, rfl, rfl⟩
      · rw [utils.NormalizeCEP_data, ← List.countP_eq_length_filter]
        exact h8
      · intro c hc
        rw [utils.NormalizeCEP_data] at hc
        simpa using (List.mem_filter.mp hc).2
    · rw [serviceA.HandleCEP_invalid env req h8] at hmem
      cases hmem

/-! ## Lemmas on failing requests -/

namespace client

/-- A reading returned by `GetCurrentWeather` is valid. -/
theorem GetCurrentWeather_ok (exchange : Exchange)
    (decode : String → Except String model.WeatherAPIResponse)
    (decodeError : String → Except String model.WeatherAPIError) (location : String)
    (W : model.WeatherAPIResponse)
    (h : GetCurrentWeather exchange decode decodeError location = .ok W) :
    W.IsValid = true := by
  cases exchange with
  | requestError e => cases h
  | doError e => cases h
  | response status body =>
    simp only [GetCurrentWeather] at h
    split_ifs at h with h1 h2 h3 h4
    · cases hd : decode body with
      | error e => rw [hd] at h; cases h
      | ok v =>
        rw [hd] at h
        simp only at h
        split_ifs at h with h5
        cases h
        simpa using h5
    · cases hd : decodeError body with
      | error e => rw [hd] at h; cases h
      | ok v => rw [hd] at h; cases h

/-- A decoded 200 body that is not valid gives the `fmt.Errorf` error of
`GetCurrentWeather`. -/
theorem GetCurrentWeather_invalid
    (decode : String → Except String model.WeatherAPIResponse)
    (decodeError : String → Except String model.WeatherAPIError) (location body : String)
    (W : model.WeatherAPIResponse) (hd : decode body = .ok W) (hv : W.IsValid = false) :
    GetCurrentWeather (.response 200 body) decode decodeError location =
      .error (GoError.errorf ("resposta inválida da WeatherAPI para localização " ++
        location)) := by
  simp [GetCurrentWeather, hd, hv]

end client

namespace cache

theorem GetWeather_mem (mc : MemoryCache) (now : Int) (location : String)
    (W : model.WeatherAPIResponse) (h : mc.GetWeather now location = some W) :
    ∃ item, (weatherCacheKey location, item) ∈ mc.cache.items ∧
      item.Object = .weather W := by
  simp only [MemoryCache.GetWeather, Cache.Get] at h
  cases hl : mc.cache.lookup (weatherCacheKey location) with
  | none => rw [hl] at h; cases h
  | some item =>
    rw [hl] at h
    simp only at h
    refine ⟨item, mem_of_lookup _ _ _ hl, ?_⟩
    split_ifs at h
    cases ho : item.Object with
    | location v => rw [ho] at h; cases h
    | weather w => rw [ho] at h; simp only [Option.some.injEq] at h; rw [h]
    | temperature t => rw [ho] at h; cases h

/-- A typed `Get` depends on the store only through the item under its key. -/
theorem GetWeather_congr (mc mc' : MemoryCache) (now : Int) (location : String)
    (h : mc'.cache.lookup (weatherCacheKey location) =
      mc.cache.lookup (weatherCacheKey location)) :
    mc'.GetWeather now location = mc.GetWeather now location := by
  simp only [MemoryCache.GetWeather, Cache.Get, h]

theorem GetTemperature_congr (mc mc' : MemoryCache) (now : Int) (cep : String)
    (h : mc'.cache.lookup (tempCacheKey cep) = mc.cache.lookup (tempCacheKey cep)) :
    mc'.GetTemperature now cep = mc.GetTemperature now cep := by
  simp only [MemoryCache.GetTemperature, Cache.Get, h]

theorem GetLocation_congr (mc mc' : MemoryCache) (now : Int) (cep : String)
    (h : mc'.cache.lookup (locationCacheKey cep) = mc.cache.lookup (locationCacheKey cep)) :
    mc'.GetLocation now cep = mc.GetLocation now cep := by
  simp only [MemoryCache.GetLocation, Cache.Get, h]

/-- `SetLocation` leaves the items of the weather and temperature namespaces, and
of the other codes of the location namespace, as they are. -/
theorem lookup_SetLocation (mc : MemoryCache) (now d : Int) (n : String)
    (L : model.ViaCEPResponse) (k : String) :
    (mc.SetLocation now n L d).cache.lookup (weatherCacheKey k) =
      mc.cache.lookup (weatherCacheKey k) ∧
    (mc.SetLocation now n L d).cache.lookup (tempCacheKey k) =
      mc.cache.lookup (tempCacheKey k) ∧
    (k ≠ n → (mc.SetLocation now n L d).cache.lookup (locationCacheKey k) =
      mc.cache.lookup (locationCacheKey k)) := by
  refine ⟨?_, ?_, ?_⟩
  · exact lookup_Set_ne _ _ _ _ _ _
      (key_ne Namespace.weather Namespace.location k n (by simp))
  · exact lookup_Set_ne _ _ _ _ _ _
      (key_ne Namespace.temp Namespace.location k n (by simp))
  · intro hne
    exact lookup_Set_ne _ _ _ _ _ _
      (key_ne Namespace.location Namespace.location k n (by simpa using fun h => hne h.symm))

end cache

namespace handler

/-- The cache after a request that is not answered 200: the cache before, or the
cache before with the location of the normalized code stored, after a miss of the
location namespace, a successful location lookup and a failure of the weather
stage. -/
theorem HandleTemperature_failure_cache (env : Env) (mc : cache.MemoryCache)
    (decoded : Except String models.CEPRequest)
    (h : (HandleTemperature env mc decoded).response.statusCode ≠ 200) :
    (HandleTemperature env mc decoded).state.cache = mc ∨
    ∃ (req : models.CEPRequest) (n : String) (L : model.ViaCEPResponse) (err : GoError),
      decoded = .ok req ∧ utils.ValidateAndNormalize req.CEP = (n, none) ∧
      mc.GetTemperature env.now n = none ∧
      mc.GetLocation env.now n = none ∧
      client.GetLocationByCEP (env.openCEP n) env.decodeLocation n = .ok L ∧
      client.GetCurrentWeather (env.weather L.GetFullLocation) env.decodeWeather
        env.decodeWeatherError L.GetFullLocation = .error err ∧
      (HandleTemperature env mc decoded).state.cache =
        mc.SetLocation env.now n L (24 * time.Hour) := by
  cases decoded with
  | error e => exact Or.inl rfl
  | ok req =>
    rcases hv : utils.ValidateAndNormalize req.CEP with ⟨n, o⟩
    cases o with
    | some m =>
      rw [HandleTemperature_invalid env mc req n m hv]
      exact Or.inl rfl
    | none =>
      cases ht : mc.GetTemperature env.now n with
      | some t =>
        rw [HandleTemperature_hit env mc req n t hv ht]
        exact Or.inl rfl
      | none =>
        rcases hl : getLocationWithCache env
          { cache := mc, events := [Event.cacheGet (cache.tempCacheKey n)] } n with ⟨r1, st1⟩
        cases r1 with
        | error err =>
          obtain ⟨_, _, hst⟩ := getLocationWithCache_error_inv env _ st1 n err hl
          rw [HandleTemperature_location_error env mc req n err st1 hv ht hl, hst]
          exact Or.inl rfl
        | ok L =>
          rcases hw : getWeatherWithCache env st1 L.GetFullLocation with ⟨r2, st2⟩
          cases r2 with
          | error err =>
            obtain ⟨_, hcw, hst2⟩ := getWeatherWithCache_error_inv env st1 st2 _ err hw
            rw [HandleTemperature_weather_error env mc req n L err st1 st2 hv ht hl hw, hst2]
            rcases getLocationWithCache_ok_inv env _ st1 n L hl with ⟨_, hst1⟩ |
              ⟨hg, hcl, hst1⟩
            · left
              rw [hst1]
            · right
              refine ⟨req, n, L, err, rfl, hv, ht, hg, hcl, hcw, ?_⟩
              rw [hst1]
          | ok W =>
            rw [HandleTemperature_fresh env mc req n L W st1 st2 hv ht hl hw] at h
            exact absurd rfl h

/-- A request that stores a temperature is a valid request that misses the
temperature namespace and is answered 200. -/
theorem HandleTemperature_setTemperature (env : Env) (mc : cache.MemoryCache)
    (decoded : Except String models.CEPRequest) (key : String) (d : Int)
    (h : Event.cacheSet (cache.tempCacheKey key) d ∈
      (HandleTemperature env mc decoded).state.events) :
    (HandleTemperature env mc decoded).response.statusCode = 200 ∧
    ∃ req, decoded = .ok req ∧ utils.ValidateAndNormalize req.CEP = (key, none) ∧
      mc.GetTemperature env.now key = none := by
  have hk1 : ∀ a b : String, cache.tempCacheKey a ≠ cache.locationCacheKey b := fun a b =>
    cache.key_ne cache.Namespace.location cache.Namespace.temp b a (by simp)
  have hk2 : ∀ a b : String, cache.tempCacheKey a ≠ cache.weatherCacheKey b := fun a b =>
    cache.key_ne cache.Namespace.weather cache.Namespace.temp b a (by simp)
  have hk3 : ∀ a b : String, cache.tempCacheKey a = cache.tempCacheKey b → a = b :=
    fun a b h => (cache.key_injective cache.Namespace.temp cache.Namespace.temp a b h).2
  cases decoded with
  | error e => cases h
  | ok req =>
    rcases hv : utils.ValidateAndNormalize req.CEP with ⟨n, o⟩
    cases o with
    | some m =>
      rw [HandleTemperature_invalid env mc req n m hv] at h
      cases h
    | none =>
      cases ht : mc.GetTemperature env.now n with
      | some t =>
        rw [HandleTemperature_hit env mc req n t hv ht] at h
        simp at h
      | none =>
        rcases hl : getLocationWithCache env
          { cache := mc, events := [Event.cacheGet (cache.tempCacheKey n)] } n with ⟨r1, st1⟩
        cases r1 with
        | error err =>
          obtain ⟨_, _, hst⟩ := getLocationWithCache_error_inv env _ st1 n err hl
          rw [HandleTemperature_location_error env mc req n err st1 hv ht hl, hst] at h
          simp at h
        | ok L =>
          have hst1 : ∀ k d, Event.cacheSet (cache.tempCacheKey k) d ∉ st1.events := by
            intro k d
            rcases getLocationWithCache_ok_inv env _ st1 n L hl with ⟨_, hs⟩ | ⟨_, _, hs⟩ <;>
              rw [hs] <;> simp [hk1]
          rcases hw : getWeatherWithCache env st1 L.GetFullLocation with ⟨r2, st2⟩
          cases r2 with
          | error err =>
            obtain ⟨_, _, hst2⟩ := getWeatherWithCache_error_inv env st1 st2 _ err hw
            rw [HandleTemperature_weather_error env mc req n L err st1 st2 hv ht hl hw,
              hst2] at h
            simp only [List.mem_append, List.mem_cons, List.mem_singleton, reduceCtorEq,
              or_false, List.not_mem_nil] at h
            exact absurd h (hst1 key d)
          | ok W =>
            rw [HandleTemperature_fresh env mc req n L W st1 st2 hv ht hl hw] at h ⊢
            refine ⟨rfl, req, rfl, ?_⟩
            have hkey : key = n := by
              simp only [List.mem_append, List.mem_singleton, Event.cacheSet.injEq] at h
              rcases h with h | h
              · exfalso
                rcases getWeatherWithCache_ok_inv env st1 st2 _ W hw with ⟨_, hs⟩ |
                  ⟨_, _, hs⟩ <;> rw [hs] at h <;>
                  simp only [List.mem_append, List.mem_cons, List.mem_singleton,
                    reduceCtorEq, Event.cacheSet.injEq, hk2, false_and, or_false, false_or,
                    List.not_mem_nil] at h <;>
                  exact absurd h (hst1 key d)
              · exact hk3 _ _ h.1
            rw [hkey]
            exact ⟨hv, ht⟩

end handler

namespace handler

theorem WeathersValid_Set (mc : cache.MemoryCache) (now d : Int) (k : String)
    (x : cache.Object) (h : WeathersValid mc)
    (hx : ∀ w, x = cache.Object.weather w → w.IsValid = true) :
    WeathersValid { cache := mc.cache.Set now k x d } := by
  intro k' item w hmem hobj
  rcases cache.mem_Set _ _ _ _ _ _ _ hmem with h1 | h1
  · exact hx w (h1 ▸ hobj)
  · exact h k' item w h1 hobj

/-- The weather stage returns valid readings on a cache of valid readings, and
keeps the cache so. -/
theorem getWeatherWithCache_valid (env : Env) (st : State) (location : String)
    (hc : WeathersValid st.cache) :
    WeathersValid (getWeatherWithCache env st location).2.cache ∧
    ∀ W, (getWeatherWithCache env st location).1 = .ok W → W.IsValid = true := by
  cases hg : st.cache.GetWeather env.now location with
  | some W =>
    rw [getWeatherWithCache_hit env st location W hg]
    refine ⟨hc, ?_⟩
    intro W' hW
    cases hW
    obtain ⟨item, hmem, hobj⟩ := cache.GetWeather_mem _ _ _ _ hg
    exact hc _ item W hmem hobj
  | none =>
    cases hcl : client.GetCurrentWeather (env.weather location) env.decodeWeather
        env.decodeWeatherError location with
    | error e =>
      rw [getWeatherWithCache_miss_error env st location e hg hcl]
      exact ⟨hc, fun W hW => by cases hW⟩
    | ok W =>
      have hv := client.GetCurrentWeather_ok _ _ _ _ _ hcl
      rw [getWeatherWithCache_miss_ok env st location W hg hcl]
      refine ⟨WeathersValid_Set st.cache _ _ _ _ hc (fun w hw => by cases hw; exact hv), ?_⟩
      intro W' hW
      cases hW
      exact hv

theorem getLocationWithCache_weathersValid (env : Env) (st : State) (cep : String)
    (hc : WeathersValid st.cache) :
    WeathersValid (getLocationWithCache env st cep).2.cache := by
  cases hg : st.cache.GetLocation env.now cep with
  | some L =>
    rw [getLocationWithCache_hit env st cep L hg]
    exact hc
  | none =>
    cases hcl : client.GetLocationByCEP (env.openCEP cep) env.decodeLocation cep with
    | error e =>
      rw [getLocationWithCache_miss_error env st cep e hg hcl]
      exact hc
    | ok L =>
      rw [getLocationWithCache_miss_ok env st cep L hg hcl]
      exact WeathersValid_Set st.cache _ _ _ _ hc (fun w hw => by cases hw)

/-- Every request keeps the stored readings valid. -/
theorem WeathersValid_HandleTemperature (env : Env) (mc : cache.MemoryCache)
    (decoded : Except String models.CEPRequest) (h : WeathersValid mc) :
    WeathersValid (HandleTemperature env mc decoded).state.cache := by
  cases decoded with
  | error e => exact h
  | ok req =>
    rcases hv : utils.ValidateAndNormalize req.CEP with ⟨n, o⟩
    cases o with
    | some m =>
      rw [HandleTemperature_invalid env mc req n m hv]
      exact h
    | none =>
      cases ht : mc.GetTemperature env.now n with
      | some t =>
        rw [HandleTemperature_hit env mc req n t hv ht]
        exact h
      | none =>
        have h1 := getLocationWithCache_weathersValid env
          { cache := mc, events := [Event.cacheGet (cache.tempCacheKey n)] } n h
        rcases hl : getLocationWithCache env
          { cache := mc, events := [Event.cacheGet (cache.tempCacheKey n)] } n with ⟨r1, st1⟩
        rw [hl] at h1
        cases r1 with
        | error err =>
          rw [HandleTemperature_location_error env mc req n err st1 hv ht hl]
          exact h1
        | ok L =>
          have h2 := (getWeatherWithCache_valid env st1 L.GetFullLocation h1).1
          rcases hw : getWeatherWithCache env st1 L.GetFullLocation with ⟨r2, st2⟩
          rw [hw] at h2
          cases r2 with
          | error err =>
            rw [HandleTemperature_weather_error env mc req n L err st1 st2 hv ht hl hw]
            exact h2
          | ok W =>
            rw [HandleTemperature_fresh env mc req n L W st1 st2 hv ht hl hw]
            exact WeathersValid_Set st2.cache _ _ _ _ h2 (fun w hw => by cases hw)

/-- The caches the service can hold store valid readings only. -/
theorem WeathersValid_of_Reachable (mc : cache.MemoryCache) (h : Reachable mc) :
    WeathersValid mc := by
  induction h with
  | init d c =>
    intro k item v hmem
    cases hmem
  | handle env mc decoded _ ih => exact WeathersValid_HandleTemperature env mc decoded ih
  | clear mc _ _ =>
    intro k item v hmem
    cases hmem

end handler

/-! ## The claims on failing requests -/

set_option maxRecDepth 100000 in
set_option exponentiation.threshold 4000 in
/-- C29: a reading of exactly 0 degrees Celsius is never served. When the weather
service answers 200 with a decodable payload whose location name is non-empty and
whose `temp_c` is a zero, `GetCurrentWeather` returns the `fmt.Errorf` error
"resposta inválida da WeatherAPI para localização ...", which is no
`LocationNotFoundError`; a request that misses the temperature and weather
namespaces and gets this answer, after its location stage succeeded, is answered
500 with the cache left as the location stage left it: nothing is written to the
weather or temperature namespaces. Consequently, on every cache the service can
hold, a request answered on the miss path of the temperature namespace is computed
from a reading whose `temp_c` is not a zero: its response is 200 with the encoding
of the value converted from that reading. Every response with status 200 is the
encoding of a value found in the temperature namespace or of a value computed on
the miss path. -/
theorem C29_zero_reading_is_never_served :
    (∀ (decode : String → Except String model.WeatherAPIResponse)
      (decodeError : String → Except String model.WeatherAPIError) (location body : String)
      (W : model.WeatherAPIResponse),
      decode body = .ok W → W.Location.Name ≠ "" →
      Float64.eq W.Current.TempC (Float64.ofNat 0) = true →
      client.GetCurrentWeather (.response 200 body) decode decodeError location =
        .error (GoError.errorf ("resposta inválida da WeatherAPI para localização " ++
          location)) ∧
      ∀ l m, client.GetCurrentWeather (.response 200 body) decode decodeError location ≠
        .error (GoError.locationNotFound l m)) ∧
    (∀ (env : handler.Env) (mc : cache.MemoryCache) (req : models.CEPRequest) (n : String)
      (L : model.ViaCEPResponse) (st1 : handler.State) (body : String)
      (W : model.WeatherAPIResponse),
      utils.ValidateAndNormalize req.CEP = (n, none) →
      mc.GetTemperature env.now n = none →
      handler.getLocationWithCache env
        { cache := mc, events := [handler.Event.cacheGet (cache.tempCacheKey n)] } n =
          (.ok L, st1) →
      st1.cache.GetWeather env.now L.GetFullLocation = none →
      env.weather L.GetFullLocation = .response 200 body →
      env.decodeWeather body = .ok W → W.Location.Name ≠ "" →
      Float64.eq W.Current.TempC (Float64.ofNat 0) = true →
      handler.HandleTemperature env mc (.ok req) =
        { response :=
            { statusCode := 500, body := .error { Message := "Erro interno do servidor" } }
          state :=
            { cache := st1.cache
              events := st1.events ++
                [handler.Event.cacheGet (cache.weatherCacheKey L.GetFullLocation),
                  handler.Event.weatherCall L.GetFullLocation] } } ∧
      (st1.cache = mc ∨ st1.cache = mc.SetLocation env.now n L (24 * time.Hour)) ∧
      ∀ k : String,
        (handler.HandleTemperature env mc (.ok req)).state.cache.cache.lookup
            (cache.weatherCacheKey k) = mc.cache.lookup (cache.weatherCacheKey k) ∧
        (handler.HandleTemperature env mc (.ok req)).state.cache.cache.lookup
            (cache.tempCacheKey k) = mc.cache.lookup (cache.tempCacheKey k)) ∧
    (∀ (env : handler.Env) (mc : cache.MemoryCache) (req : models.CEPRequest) (n : String)
      (L : model.ViaCEPResponse) (W : model.WeatherAPIResponse) (st1 st2 : handler.State),
      handler.Reachable mc →
      utils.ValidateAndNormalize req.CEP = (n, none) →
      mc.GetTemperature env.now n = none →
      handler.getLocationWithCache env
        { cache := mc, events := [handler.Event.cacheGet (cache.tempCacheKey n)] } n =
          (.ok L, st1) →
      handler.getWeatherWithCache env st1 L.GetFullLocation = (.ok W, st2) →
      ((handler.HandleTemperature env mc (.ok req)).response =
          handler.respondWithSuccess
            (service.ConvertToAllUnits env.fused W.Current.TempC L.Localidade) ∧
        (handler.HandleTemperature env mc (.ok req)).response.statusCode = 200) ∧
      Float64.eq W.Current.TempC (Float64.ofNat 0) = false ∧
      ∀ s e, W.Current.TempC ≠ .fin s 0 e) ∧
    (∀ (env : handler.Env) (mc : cache.MemoryCache)
      (decoded : Except String models.CEPRequest),
      (handler.HandleTemperature env mc decoded).response.statusCode = 200 →
      (∃ req n t, decoded = .ok req ∧ utils.ValidateAndNormalize req.CEP = (n, none) ∧
        mc.GetTemperature env.now n = some t ∧
        (handler.HandleTemperature env mc decoded).response =
          handler.respondWithSuccess t) ∨
      ∃ req n L W st1 st2, decoded = .ok req ∧
        utils.ValidateAndNormalize req.CEP = (n, none) ∧
        mc.GetTemperature env.now n = none ∧
        handler.getLocationWithCache env
          { cache := mc, events := [handler.Event.cacheGet (cache.tempCacheKey n)] } n =
            (.ok L, st1) ∧
        handler.getWeatherWithCache env st1 L.GetFullLocation = (.ok W, st2) ∧
        (handler.HandleTemperature env mc decoded).response =
          handler.respondWithSuccess
            (service.ConvertToAllUnits env.fused W.Current.TempC L.Localidade)) ∧
    (∀ (env : handler.Env) (mc : cache.MemoryCache)
      (decoded : Except String models.CEPRequest) (t : models.TemperatureResponse),
      (handler.HandleTemperature env mc decoded).response =
        { statusCode := 200, body := .temperature t } →
      (∃ req n, decoded = .ok req ∧ utils.ValidateAndNormalize req.CEP = (n, none) ∧
        mc.GetTemperature env.now n = some t) ∨
      ∃ req n L W st1 st2, decoded = .ok req ∧
        utils.ValidateAndNormalize req.CEP = (n, none) ∧
        mc.GetTemperature env.now n = none ∧
        handler.getLocationWithCache env
          { cache := mc, events := [handler.Event.cacheGet (cache.tempCacheKey n)] } n =
            (.ok L, st1) ∧
        handler.getWeatherWithCache env st1 L.GetFullLocation = (.ok W, st2) ∧
        t = service.ConvertToAllUnits env.fused W.Current.TempC L.Localidade) ∧
    handler.HandleTemperature
        { handler.envSaoPaulo 1000 with
          decodeWeather := fun _ =>
            .ok { handler.weatherSaoPaulo with
              Current := { handler.weatherSaoPaulo.Current with
                TempC := Float64.ofNat 0 } } }
        (cache.NewMemoryCache 300000000000 600000000000) (.ok { CEP := "01310-100" }) =
      { response :=
          { statusCode := 500, body := .error { Message := "Erro interno do servidor" } }
        state :=
          { cache := (cache.NewMemoryCache 300000000000 600000000000).SetLocation 1000
              "01310100" handler.locationSaoPaulo 86400000000000
            events := [.cacheGet "temp:01310100", .cacheGet "location:01310100",
              .openCEPCall "01310100", .cacheSet "location:01310100" 86400000000000,
              .cacheGet "weather:São Paulo, SP", .weatherCall "São Paulo, SP"] } } := by
  have hinv : ∀ W : model.WeatherAPIResponse,
      Float64.eq W.Current.TempC (Float64.ofNat 0) = true → W.IsValid = false := by
    intro W h0
    simp [model.WeatherAPIResponse.IsValid, h0]
  refine ⟨?_, ?_, ?_, ?_, ?_, by decide⟩
  · intro decode decodeError location body W hd _ h0
    have h := client.GetCurrentWeather_invalid decode decodeError location body W hd (hinv W h0)
    refine ⟨h, ?_⟩
    intro l m hc
    rw [h] at hc
    cases hc
  · intro env mc req n L st1 body W hv ht hl hg hx hd _ h0
    have hcw : client.GetCurrentWeather (env.weather L.GetFullLocation) env.decodeWeather
        env.decodeWeatherError L.GetFullLocation =
        .error (GoError.errorf ("resposta inválida da WeatherAPI para localização " ++
          L.GetFullLocation)) := by
      rw [hx]
      exact client.GetCurrentWeather_invalid _ _ _ body W hd (hinv W h0)
    have hw := handler.getWeatherWithCache_miss_error env st1 L.GetFullLocation _ hg hcw
    have hout := handler.HandleTemperature_weather_error env mc req n L _ st1 _ hv ht hl hw
    have hst1 : st1.cache = mc ∨ st1.cache = mc.SetLocation env.now n L (24 * time.Hour) := by
      rcases handler.getLocationWithCache_ok_inv env _ st1 n L hl with ⟨_, hs⟩ | ⟨_, _, hs⟩
      · left
        rw [hs]
      · right
        rw [hs]
    refine ⟨hout, hst1, ?_⟩
    intro k
    rw [hout]
    rcases hst1 with hs | hs
    · rw [hs]
      exact ⟨rfl, rfl⟩
    · rw [hs]
      exact ⟨(cache.lookup_SetLocation mc _ _ n L k).1, (cache.lookup_SetLocation mc _ _ n L k).2.1⟩
  · intro env mc req n L W st1 st2 hr hv ht hl hw
    have h1 := handler.getLocationWithCache_weathersValid env
      { cache := mc, events := [handler.Event.cacheGet (cache.tempCacheKey n)] } n
      (handler.WeathersValid_of_Reachable mc hr)
    rw [hl] at h1
    have h2 := (handler.getWeatherWithCache_valid env st1 L.GetFullLocation h1).2 W
      (by rw [hw])
    have h0 : Float64.eq W.Current.TempC (Float64.ofNat 0) = false := by
      simp only [model.WeatherAPIResponse.IsValid, Bool.and_eq_true, Bool.not_eq_true'] at h2
      exact h2.2
    refine ⟨?_, h0, ?_⟩
    · rw [handler.HandleTemperature_fresh env mc req n L W st1 st2 hv ht hl hw]
      exact ⟨rfl, rfl⟩
    · intro s e hc
      rw [hc, (Float64.eq_zero_iff s 0 e).mpr rfl] at h0
      cases h0
  · intro env mc decoded h
    exact handler.HandleTemperature_success_inv env mc decoded h
  · intro env mc decoded t h
    have hs : (handler.HandleTemperature env mc decoded).response.statusCode = 200 := by
      rw [h]
    rcases handler.HandleTemperature_success_inv env mc decoded hs with
      ⟨req, n, t', hd, hv, ht, hr⟩ | ⟨req, n, L, W, st1, st2, hd, hv, ht, hl, hw, hr⟩
    · rw [h] at hr
      have := handler.respondWithSuccess_eq_temperature t' t hr.symm
      rw [this] at ht
      exact Or.inl ⟨req, n, hd, hv, ht⟩
    · rw [h] at hr
      have := handler.respondWithSuccess_eq_temperature _ t hr.symm
      exact Or.inr ⟨req, n, L, W, st1, st2, hd, hv, ht, hl, hw, this.symm⟩

set_option maxRecDepth 100000 in
set_option exponentiation.threshold 4000 in
/-- C30: a request that is not answered 200 leaves every entry of the temperature
namespace and of the weather namespace as it was, so every `GetTemperature` and
`GetWeather` returns what it returned before. The cache after such a request is
the cache before, or the cache before with the location of its own normalized code
stored for 24 hours, which happens after a miss of the location namespace and a
successful location lookup followed by a failure of the weather stage; the
location entries of other codes stay as they were. Conversely a request that
changes an entry of the temperature namespace, or runs `SetTemperature`, is a valid
request that misses the temperature namespace and is answered 200. -/
theorem C30_failing_request_leaves_result_and_weather_cache :
    (∀ (env : handler.Env) (mc : cache.MemoryCache)
      (decoded : Except String models.CEPRequest),
      (handler.HandleTemperature env mc decoded).response.statusCode ≠ 200 →
      (∀ k : String,
        (handler.HandleTemperature env mc decoded).state.cache.cache.lookup
            (cache.tempCacheKey k) = mc.cache.lookup (cache.tempCacheKey k) ∧
        (handler.HandleTemperature env mc decoded).state.cache.cache.lookup
            (cache.weatherCacheKey k) = mc.cache.lookup (cache.weatherCacheKey k)) ∧
      (∀ (now : Int) (k : String),
        (handler.HandleTemperature env mc decoded).state.cache.GetTemperature now k =
          mc.GetTemperature now k ∧
        (handler.HandleTemperature env mc decoded).state.cache.GetWeather now k =
          mc.GetWeather now k) ∧
      ((handler.HandleTemperature env mc decoded).state.cache = mc ∨
        ∃ (req : models.CEPRequest) (n : String) (L : model.ViaCEPResponse) (err : GoError),
          decoded = .ok req ∧ utils.ValidateAndNormalize req.CEP = (n, none) ∧
          mc.GetLocation env.now n = none ∧
          client.GetLocationByCEP (env.openCEP n) env.decodeLocation n = .ok L ∧
          client.GetCurrentWeather (env.weather L.GetFullLocation) env.decodeWeather
            env.decodeWeatherError L.GetFullLocation = .error err ∧
          (handler.HandleTemperature env mc decoded).state.cache =
            mc.SetLocation env.now n L 86400000000000 ∧
          ∀ k : String, k ≠ n →
            (handler.HandleTemperature env mc decoded).state.cache.cache.lookup
              (cache.locationCacheKey k) = mc.cache.lookup (cache.locationCacheKey k))) ∧
    (∀ (env : handler.Env) (mc : cache.MemoryCache)
      (decoded : Except String models.CEPRequest) (k : String),
      (handler.HandleTemperature env mc decoded).state.cache.cache.lookup
          (cache.tempCacheKey k) ≠ mc.cache.lookup (cache.tempCacheKey k) →
      (handler.HandleTemperature env mc decoded).response.statusCode = 200) ∧
    (∀ (env : handler.Env) (mc : cache.MemoryCache)
      (decoded : Except String models.CEPRequest) (k : String) (d : Int),
      handler.Event.cacheSet (cache.tempCacheKey k) d ∈
        (handler.HandleTemperature env mc decoded).state.events →
      (handler.HandleTemperature env mc decoded).response.statusCode = 200 ∧
      ∃ req, decoded = .ok req ∧ utils.ValidateAndNormalize req.CEP = (k, none) ∧
        mc.GetTemperature env.now k = none) ∧
    handler.HandleTemperature
        { handler.envSaoPaulo 1000 with weather := fun _ => .response 400 "E" }
        (cache.NewMemoryCache 300000000000 600000000000) (.ok { CEP := "01310-100" }) =
      { response := { statusCode := 404, body := .error { Message := "can not find zipcode" } }
        state :=
          { cache := (cache.NewMemoryCache 300000000000 600000000000).SetLocation 1000
              "01310100" handler.locationSaoPaulo 86400000000000
            events := [.cacheGet "temp:01310100", .cacheGet "location:01310100",
              .openCEPCall "01310100", .cacheSet "location:01310100" 86400000000000,
              .cacheGet "weather:São Paulo, SP", .weatherCall "São Paulo, SP"] } } ∧
    (handler.HandleTemperature (handler.envUnreachable 2000)
        (handler.HandleTemperature (handler.envSaoPaulo 1000)
          (cache.NewMemoryCache 300000000000 600000000000)
          (.ok { CEP := "01310-100" })).state.cache
        (.ok { CEP := "20040-020" })).state.cache =
      (handler.HandleTemperature (handler.envSaoPaulo 1000)
        (cache.NewMemoryCache 300000000000 600000000000)
        (.ok { CEP := "01310-100" })).state.cache := by
  have hframe : ∀ (env : handler.Env) (mc : cache.MemoryCache)
      (decoded : Except String models.CEPRequest),
      (handler.HandleTemperature env mc decoded).response.statusCode ≠ 200 →
      ∀ k : String,
        (handler.HandleTemperature env mc decoded).state.cache.cache.lookup
            (cache.tempCacheKey k) = mc.cache.lookup (cache.tempCacheKey k) ∧
        (handler.HandleTemperature env mc decoded).state.cache.cache.lookup
            (cache.weatherCacheKey k) = mc.cache.lookup (cache.weatherCacheKey k) := by
    intro env mc decoded h k
    rcases handler.HandleTemperature_failure_cache env mc decoded h with hc |
      ⟨req, n, L, err, _, _, _, _, _, _, hc⟩
    · rw [hc]
      exact ⟨rfl, rfl⟩
    · rw [hc]
      exact ⟨(cache.lookup_SetLocation mc _ _ n L k).2.1,
        (cache.lookup_SetLocation mc _ _ n L k).1⟩
  refine ⟨?_, ?_, ?_, by decide, by decide⟩
  · intro env mc decoded h
    refine ⟨hframe env mc decoded h, ?_, ?_⟩
    · intro now k
      exact ⟨cache.GetTemperature_congr _ _ now k (hframe env mc decoded h k).1,
        cache.GetWeather_congr _ _ now k (hframe env mc decoded h k).2⟩
    · rcases handler.HandleTemperature_failure_cache env mc decoded h with hc |
        ⟨req, n, L, err, hd, hv, _, hg, hcl, hcw, hc⟩
      · exact Or.inl hc
      · right
        rw [handler.one_day] at hc
        refine ⟨req, n, L, err, hd, hv, hg, hcl, hcw, hc, ?_⟩
        intro k hk
        rw [hc]
        exact (cache.lookup_SetLocation mc _ _ n L k).2.2 hk
  · intro env mc decoded k hne
    by_contra h
    exact hne (hframe env mc decoded h k).1
  · intro env mc decoded k d h
    exact handler.HandleTemperature_setTemperature env mc decoded k d h

/-! ## Lemmas on the statistics of the cache -/

namespace cache

theorem bytesOf_append (a b : String) : bytesOf (a ++ b) = bytesOf a ++ bytesOf b := by
  simp only [bytesOf, String.data_append, List.flatMap_append]

theorem utf8EncodeRune_ne_nil (r : Char) : utf8EncodeRune r ≠ [] := by
  simp only [utf8EncodeRune]
  split_ifs <;> simp

theorem bytesOf_eq_nil_iff (k : String) : bytesOf k = [] ↔ k = "" := by
  constructor
  · intro h
    apply String.ext
    cases hk : k.data with
    | nil => rfl
    | cons c cs =>
      simp only [bytesOf, hk, List.flatMap_cons, List.append_eq_nil] at h
      exact absurd h.1 (utf8EncodeRune_ne_nil c)
  · intro h
    rw [h]
    rfl

theorem bytesOf_location : bytesOf "location:" = [108, 111, 99, 97, 116, 105, 111, 110, 58] := by
  decide

theorem bytesOf_weather : bytesOf "weather:" = [119, 101, 97, 116, 104, 101, 114, 58] := by
  decide

theorem bytesOf_temp : bytesOf "temp:" = [116, 101, 109, 112, 58] := by
  decide

theorem length_pos_iff_ne_empty (k : String) : 0 < (bytesOf k).length ↔ k ≠ "" := by
  rw [List.length_pos, ne_eq, ne_eq, bytesOf_eq_nil_iff]

/-- The `switch` of `Stats` on the keys of the typed setters: a key is counted in
its namespace when its argument is not empty, and in no other namespace. -/
theorem keyHasPrefix_key (ns : Namespace) (k : String) :
    keyHasPrefix (ns.key k) 9 "location:" = (decide (ns = .location) && decide (k ≠ "")) ∧
    keyHasPrefix (ns.key k) 8 "weather:" = (decide (ns = .weather) && decide (k ≠ "")) ∧
    keyHasPrefix (ns.key k) 5 "temp:" = (decide (ns = .temp) && decide (k ≠ "")) := by
  have hk := length_pos_iff_ne_empty k
  cases ns <;>
    simp only [keyHasPrefix, Namespace.key, locationCacheKey, weatherCacheKey, tempCacheKey,
      bytesOf_append, bytesOf_location, bytesOf_weather, bytesOf_temp, List.length_append,
      List.length_cons, List.length_nil, List.cons_append, List.nil_append, List.take_succ_cons,
      List.take_zero, reduceCtorEq, decide_False, decide_True, Bool.false_and, Bool.true_and] <;>
    refine ⟨?_, ?_, ?_⟩ <;> simp [← hk]

theorem owns_key (ns ns' : Namespace) (k : String) :
    ns.owns (ns'.key k) = decide (ns = ns') := by
  cases ns <;> cases ns' <;>
    simp [Namespace.owns, Namespace.key, locationCacheKey, weatherCacheKey, tempCacheKey,
      String.data_append, List.isPrefixOf]

theorem statsStep_eq (a b c : Nat) (key : String) :
    statsStep (a, b, c) key =
      (a + (if keyHasPrefix key 9 "location:" = true then 1 else 0),
        b + (if (!keyHasPrefix key 9 "location:" && keyHasPrefix key 8 "weather:") = true
          then 1 else 0),
        c + (if (!keyHasPrefix key 9 "location:" && !keyHasPrefix key 8 "weather:" &&
          keyHasPrefix key 5 "temp:") = true then 1 else 0)) := by
  cases h1 : keyHasPrefix key 9 "location:" <;>
    cases h2 : keyHasPrefix key 8 "weather:" <;>
    cases h3 : keyHasPrefix key 5 "temp:" <;>
    simp [statsStep, h1, h2, h3]

theorem foldl_statsStep (l : List (String × Item)) (a b c : Nat) :
    l.foldl (fun counts kv => statsStep counts kv.1) (a, b, c) =
      (a + l.countP (fun kv => keyHasPrefix kv.1 9 "location:"),
        b + l.countP (fun kv => !keyHasPrefix kv.1 9 "location:" &&
          keyHasPrefix kv.1 8 "weather:"),
        c + l.countP (fun kv => !keyHasPrefix kv.1 9 "location:" &&
          !keyHasPrefix kv.1 8 "weather:" && keyHasPrefix kv.1 5 "temp:")) := by
  induction l generalizing a b c with
  | nil => rfl
  | cons kv l ih =>
    rw [List.foldl_cons, statsStep_eq, ih, List.countP_cons, List.countP_cons,
      List.countP_cons, Prod.mk.injEq, Prod.mk.injEq]
    refine ⟨?_, ?_, ?_⟩ <;> omega

/-- The keys of the store are keys of the typed setters with a non-empty argument. -/
theorem typedKeys_applyAll (ws : List Write) (mc : MemoryCache)
    (hmc : ∀ kv ∈ mc.cache.items, ∃ (ns : Namespace) (k : String), k ≠ "" ∧ kv.1 = ns.key k)
    (hws : ∀ w ∈ ws, ∃ ns k x t d, w.stores = some (ns, k, x, t, d) ∧ k ≠ "") :
    ∀ kv ∈ (applyAll ws mc).cache.items,
      ∃ (ns : Namespace) (k : String), k ≠ "" ∧ kv.1 = ns.key k := by
  induction ws generalizing mc with
  | nil => exact hmc
  | cons w ws ih =>
    simp only [applyAll, List.foldl_cons]
    apply ih
    · obtain ⟨ns, k, x, t, d, hs, hk⟩ := hws w (List.mem_cons_self w ws)
      intro kv hkv
      have hset : ∀ (c : Cache) (key : String) (o : Object),
          kv ∈ (c.Set t key o d).items → kv.1 = key ∨ kv ∈ c.items := by
        intro c key o hmem
        simp only [Cache.Set, List.mem_cons, List.mem_filter] at hmem
        rcases hmem with h | h
        · left
          rw [h]
        · exact Or.inr h.1
      cases w <;> cases hs
      · rcases hset _ _ _ hkv with h | h
        · exact ⟨.location, k, hk, h⟩
        · exact hmc kv h
      · rcases hset _ _ _ hkv with h | h
        · exact ⟨.weather, k, hk, h⟩
        · exact hmc kv h
      · rcases hset _ _ _ hkv with h | h
        · exact ⟨.temp, k, hk, h⟩
        · exact hmc kv h
    · intro w' hw'
      exact hws w' (List.mem_cons_of_mem w hw')

/-- A list of items under keys of the typed setters splits into the items of the
three namespaces. -/
theorem length_eq_owned (l : List (String × Item))
    (h : ∀ kv ∈ l, ∃ (ns : Namespace) (k : String), k ≠ "" ∧ kv.1 = ns.key k) :
    l.length = (l.filter (fun kv => Namespace.location.owns kv.1)).length +
      (l.filter (fun kv => Namespace.weather.owns kv.1)).length +
      (l.filter (fun kv => Namespace.temp.owns kv.1)).length := by
  induction l with
  | nil => rfl
  | cons kv l ih =>
    obtain ⟨ns, k, _, hk⟩ := h kv (List.mem_cons_self kv l)
    have ih' := ih (fun kv' hkv' => h kv' (List.mem_cons_of_mem kv hkv'))
    rw [List.filter_cons, List.filter_cons, List.filter_cons, hk, owns_key, owns_key,
      owns_key]
    cases ns <;> simp [ih'] <;> omega

theorem Stats_eq (mc : MemoryCache) (now : Int)
    (h : ∀ kv ∈ mc.cache.items, ∃ (ns : Namespace) (k : String), k ≠ "" ∧ kv.1 = ns.key k) :
    (mc.Stats now).total_items = (mc.cache.Items now).length ∧
    (mc.Stats now).location_items = mc.storedIn .location now ∧
    (mc.Stats now).weather_items = mc.storedIn .weather now ∧
    (mc.Stats now).temp_items = mc.storedIn .temp now ∧
    (mc.Stats now).location_items + (mc.Stats now).weather_items +
      (mc.Stats now).temp_items = (mc.Stats now).total_items := by
  have hl : ∀ kv ∈ mc.cache.Items now,
      ∃ (ns : Namespace) (k : String), k ≠ "" ∧ kv.1 = ns.key k := by
    intro kv hkv
    exact h kv (List.mem_filter.mp hkv).1
  have h1 : (mc.Stats now).location_items = mc.storedIn .location now := by
    simp only [MemoryCache.Stats, MemoryCache.storedIn, foldl_statsStep, zero_add,
      List.countP_eq_length_filter]
    congr 1
    apply List.filter_congr
    intro kv hkv
    obtain ⟨ns, k, hk, hkey⟩ := hl kv hkv
    rw [hkey, (keyHasPrefix_key ns k).1, owns_key]
    cases ns <;> simp [hk]
  have h2 : (mc.Stats now).weather_items = mc.storedIn .weather now := by
    simp only [MemoryCache.Stats, MemoryCache.storedIn, foldl_statsStep, zero_add,
      List.countP_eq_length_filter]
    congr 1
    apply List.filter_congr
    intro kv hkv
    obtain ⟨ns, k, hk, hkey⟩ := hl kv hkv
    rw [hkey, (keyHasPrefix_key ns k).1, (keyHasPrefix_key ns k).2.1, owns_key]
    cases ns <;> simp [hk]
  have h3 : (mc.Stats now).temp_items = mc.storedIn .temp now := by
    simp only [MemoryCache.Stats, MemoryCache.storedIn, foldl_statsStep, zero_add,
      List.countP_eq_length_filter]
    congr 1
    apply List.filter_congr
    intro kv hkv
    obtain ⟨ns, k, hk, hkey⟩ := hl kv hkv
    rw [hkey, (keyHasPrefix_key ns k).1, (keyHasPrefix_key ns k).2.1,
      (keyHasPrefix_key ns k).2.2, owns_key]
    cases ns <;> simp [hk]
  refine ⟨rfl, h1, h2, h3, ?_⟩
  rw [h1, h2, h3]
  exact (length_eq_owned _ hl).symm

end cache

/-! ## Lemmas on the keys the handler stores -/

namespace handler

/-- A valid code is not the empty string. -/
theorem normalized_ne_empty (s n : String)
    (hv : utils.ValidateAndNormalize s = (n, none)) : n ≠ "" := by
  rw [utils.ValidateAndNormalize_eq] at hv
  split at hv
  · rename_i h8
    have hn : utils.NormalizeCEP s = n := (Prod.mk.inj hv).1
    intro hc
    have hd := utils.NormalizeCEP_data s
    rw [hn, hc] at hd
    have hl : (s.data.filter Char.isDigit).length = 8 := by
      rw [← List.countP_eq_length_filter]
      exact h8
    rw [← hd] at hl
    cases hl
  · cases hv

/-- The full place string of a location is not the empty string when the location
has a region. -/
theorem GetFullLocation_ne_empty (L : model.ViaCEPResponse) (h : L.UF ≠ "") :
    L.GetFullLocation ≠ "" := by
  rw [GetFullLocation_of_complete L h]
  intro hc
  have := congrArg String.length hc
  simp only [String.length_append] at this
  have h2 : ", ".length = 2 := by decide
  rw [h2] at this
  have h0 : "".length = 0 := rfl
  omega

/-- A typed setter with a non-empty argument keeps the keys of the store keys of the
typed setters with a non-empty argument. -/
theorem typedKeys_apply (w : cache.Write) (mc : cache.MemoryCache)
    (hmc : ∀ kv ∈ mc.cache.items,
      ∃ (ns : cache.Namespace) (k : String), k ≠ "" ∧ kv.1 = ns.key k)
    (hw : ∃ ns k x t d, w.stores = some (ns, k, x, t, d) ∧ k ≠ "") :
    ∀ kv ∈ (w.apply mc).cache.items,
      ∃ (ns : cache.Namespace) (k : String), k ≠ "" ∧ kv.1 = ns.key k := by
  have h := cache.typedKeys_applyAll [w] mc hmc (fun w' hw' => by
    rw [List.mem_singleton] at hw'
    rw [hw']
    exact hw)
  exact h

/-- A request keeps the keys of the store keys of the typed setters with a non-empty
argument: it stores under its normalized code, which has eight digits, and under the
full place string of a complete location. -/
theorem typedKeys_HandleTemperature (env : Env) (mc : cache.MemoryCache)
    (decoded : Except String models.CEPRequest) (hc : LocationsComplete mc)
    (hmc : ∀ kv ∈ mc.cache.items,
      ∃ (ns : cache.Namespace) (k : String), k ≠ "" ∧ kv.1 = ns.key k) :
    ∀ kv ∈ (HandleTemperature env mc decoded).state.cache.cache.items,
      ∃ (ns : cache.Namespace) (k : String), k ≠ "" ∧ kv.1 = ns.key k := by
  cases decoded with
  | error e => exact hmc
  | ok req =>
    rcases hv : utils.ValidateAndNormalize req.CEP with ⟨n, o⟩
    cases o with
    | some m =>
      rw [HandleTemperature_invalid env mc req n m hv]
      exact hmc
    | none =>
      have hn := normalized_ne_empty req.CEP n hv
      cases ht : mc.GetTemperature env.now n with
      | some t =>
        rw [HandleTemperature_hit env mc req n t hv ht]
        exact hmc
      | none =>
        rcases hl : getLocationWithCache env
          { cache := mc, events := [Event.cacheGet (cache.tempCacheKey n)] } n with ⟨r1, st1⟩
        cases r1 with
        | error err =>
          rw [HandleTemperature_location_error env mc req n err st1 hv ht hl]
          obtain ⟨_, _, hst⟩ := getLocationWithCache_error_inv env _ st1 n err hl
          rw [hst]
          exact hmc
        | ok L =>
          have hL := getLocationWithCache_complete env _ st1 n L hc hl
          have h1 : ∀ kv ∈ st1.cache.cache.items,
              ∃ (ns : cache.Namespace) (k : String), k ≠ "" ∧ kv.1 = ns.key k := by
            rcases getLocationWithCache_ok_inv env _ st1 n L hl with ⟨_, hst⟩ | ⟨_, _, hst⟩
            · rw [hst]
              exact hmc
            · rw [hst]
              exact typedKeys_apply (cache.Write.setLocation env.now n L (24 * time.Hour)) mc
                hmc ⟨_, _, _, _, _, rfl, hn⟩
          have hF := GetFullLocation_ne_empty L hL.2.1
          rcases hw : getWeatherWithCache env st1 L.GetFullLocation with ⟨r2, st2⟩
          cases r2 with
          | error err =>
            rw [HandleTemperature_weather_error env mc req n L err st1 st2 hv ht hl hw]
            obtain ⟨_, _, hst⟩ := getWeatherWithCache_error_inv env st1 st2 _ err hw
            rw [hst]
            exact h1
          | ok W =>
            rw [HandleTemperature_fresh env mc req n L W st1 st2 hv ht hl hw]
            have h2 : ∀ kv ∈ st2.cache.cache.items,
                ∃ (ns : cache.Namespace) (k : String), k ≠ "" ∧ kv.1 = ns.key k := by
              rcases getWeatherWithCache_ok_inv env st1 st2 _ W hw with ⟨_, hst⟩ | ⟨_, _, hst⟩
              · rw [hst]
                exact h1
              · rw [hst]
                exact typedKeys_apply
                  (cache.Write.setWeather env.now L.GetFullLocation W (10 * time.Minute))
                  st1.cache h1 ⟨_, _, _, _, _, rfl, hF⟩
            exact typedKeys_apply (cache.Write.setTemperature env.now n _ (10 * time.Minute))
              st2.cache h2 ⟨_, _, _, _, _, rfl, hn⟩

/-- On every cache the service can hold the keys are keys of the typed setters with
a non-empty argument. -/
theorem typedKeys_of_Reachable (mc : cache.MemoryCache) (h : Reachable mc) :
    ∀ kv ∈ mc.cache.items,
      ∃ (ns : cache.Namespace) (k : String), k ≠ "" ∧ kv.1 = ns.key k := by
  induction h with
  | init d c =>
    intro kv hmem
    cases hmem
  | handle env mc decoded hr ih =>
    exact typedKeys_HandleTemperature env mc decoded (LocationsComplete_of_Reachable mc hr) ih
  | clear mc _ _ =>
    intro kv hmem
    cases hmem

end handler

namespace handler

/-- A step of a well-formed request keeps the stored locations complete and the keys
of the store keys of the typed setters with a non-empty argument, and leaves the
request well-formed. -/
theorem step_keeps_keys (r : Run) (mc : cache.MemoryCache)
    (hp : r.position.wellFormed) (hc : LocationsComplete mc)
    (hmc : ∀ kv ∈ mc.cache.items,
      ∃ (ns : cache.Namespace) (k : String), k ≠ "" ∧ kv.1 = ns.key k) :
    (step r mc).1.position.wellFormed ∧ LocationsComplete (step r mc).2 ∧
    ∀ kv ∈ (step r mc).2.cache.items,
      ∃ (ns : cache.Namespace) (k : String), k ≠ "" ∧ kv.1 = ns.key k := by
  obtain ⟨env, p, ev⟩ := r
  cases p with
  | start decoded =>
    cases decoded with
    | error e => exact ⟨trivial, hc, hmc⟩
    | ok req =>
      rcases hv : utils.ValidateAndNormalize req.CEP with ⟨n, m⟩
      cases m with
      | some m =>
        simp only [step, hv]
        exact ⟨trivial, hc, hmc⟩
      | none =>
        have hn := normalized_ne_empty req.CEP n hv
        cases ht : mc.GetTemperature env.now n with
        | some t =>
          simp only [step, hv, ht]
          exact ⟨trivial, hc, hmc⟩
        | none =>
          simp only [step, hv, ht]
          exact ⟨hn, hc, hmc⟩
  | temperatureMissed n =>
    cases hg : mc.GetLocation env.now n with
    | some L =>
      simp only [step, hg]
      obtain ⟨item, hmem, hobj⟩ := cache.GetLocation_mem _ _ _ _ hg
      have hL := hc _ item L hmem hobj
      exact ⟨⟨hp, hL.1, hL.2⟩, hc, hmc⟩
    | none =>
      simp only [step, hg]
      exact ⟨hp, hc, hmc⟩
  | locationMissed n =>
    cases hg : client.GetLocationByCEP (env.openCEP n) env.decodeLocation n with
    | error err =>
      simp only [step, hg]
      exact ⟨trivial, hc, hmc⟩
    | ok L =>
      simp only [step, hg]
      have hL := client.GetLocationByCEP_ok _ _ _ _ hg
      exact ⟨⟨hp, hL.1, hL.2⟩, hc, hmc⟩
  | locationFetched n L =>
    refine ⟨hp, ?_, ?_⟩
    · exact LocationsComplete_apply (cache.Write.setLocation env.now n L (24 * time.Hour))
        mc hc (fun now cep' L' d hw => by cases hw; exact hp.2)
    · exact typedKeys_apply (cache.Write.setLocation env.now n L (24 * time.Hour)) mc
        hmc ⟨_, _, _, _, _, rfl, hp.1⟩
  | located n L =>
    cases hg : mc.GetWeather env.now L.GetFullLocation with
    | some W =>
      simp only [step, hg]
      exact ⟨hp, hc, hmc⟩
    | none =>
      simp only [step, hg]
      exact ⟨hp, hc, hmc⟩
  | weatherMissed n L =>
    cases hg : client.GetCurrentWeather (env.weather L.GetFullLocation) env.decodeWeather
        env.decodeWeatherError L.GetFullLocation with
    | error err =>
      simp only [step, hg]
      exact ⟨trivial, hc, hmc⟩
    | ok W =>
      simp only [step, hg]
      exact ⟨hp, hc, hmc⟩
  | weatherFetched n L W =>
    refine ⟨hp, ?_, ?_⟩
    · exact LocationsComplete_apply
        (cache.Write.setWeather env.now L.GetFullLocation W (10 * time.Minute))
        mc hc (fun now cep' L' d hw => by cases hw)
    · exact typedKeys_apply
        (cache.Write.setWeather env.now L.GetFullLocation W (10 * time.Minute)) mc
        hmc ⟨_, _, _, _, _, rfl, GetFullLocation_ne_empty L hp.2.2⟩
  | weatherKnown n L W =>
    refine ⟨trivial, ?_, ?_⟩
    · exact LocationsComplete_apply
        (cache.Write.setTemperature env.now n _ (10 * time.Minute))
        mc hc (fun now cep' L' d hw => by cases hw)
    · exact typedKeys_apply (cache.Write.setTemperature env.now n _ (10 * time.Minute)) mc
        hmc ⟨_, _, _, _, _, rfl, hp.1⟩
  | done resp => exact ⟨trivial, hc, hmc⟩

/-- Whatever the order in which well-formed requests take their steps, the stored
locations stay complete and the keys of the store stay keys of the typed setters
with a non-empty argument. -/
theorem runSchedule_keeps_keys (schedule : List Nat) (rs : List Run)
    (mc : cache.MemoryCache) (hrs : ∀ r ∈ rs, r.position.wellFormed)
    (hc : LocationsComplete mc)
    (hmc : ∀ kv ∈ mc.cache.items,
      ∃ (ns : cache.Namespace) (k : String), k ≠ "" ∧ kv.1 = ns.key k) :
    LocationsComplete (runSchedule schedule rs mc).2 ∧
    ∀ kv ∈ (runSchedule schedule rs mc).2.cache.items,
      ∃ (ns : cache.Namespace) (k : String), k ≠ "" ∧ kv.1 = ns.key k := by
  induction schedule generalizing rs mc with
  | nil => exact ⟨hc, hmc⟩
  | cons j schedule ih =>
    simp only [runSchedule]
    cases hj : rs[j]? with
    | none => exact ih rs mc hrs hc hmc
    | some rj =>
      have hk := step_keeps_keys rj mc (hrs rj (List.getElem?_mem hj)) hc hmc
      apply ih _ _ _ hk.2.1 hk.2.2
      intro r hr
      rcases List.mem_or_eq_of_mem_set hr with h | h
      · exact hrs r h
      · rw [h]
        exact hk.1

end handler

/-! ## The claim on the statistics of the cache -/

set_option maxRecDepth 100000 in
/-- C21, as stated, fails for the empty string as key: `SetLocation("", ..)` stores
one item under the bare text `location:`, which `GetLocation("")` returns, so one
item of the location namespace is stored; `Stats()` reports one item in total and
none in the location namespace, and its three counts add up to 0, not to 1. The same
holds for `SetWeather("", ..)` and `SetTemperature("", ..)`. -/
theorem C21_counterexample_empty_key :
    ((cache.NewMemoryCache 300000000000 600000000000).SetLocation 1000 ""
        handler.locationSaoPaulo 86400000000000).Stats 2000 =
      { total_items := 1, location_items := 0, weather_items := 0, temp_items := 0 } ∧
    ((cache.NewMemoryCache 300000000000 600000000000).SetLocation 1000 ""
        handler.locationSaoPaulo 86400000000000).storedIn .location 2000 = 1 ∧
    ((cache.NewMemoryCache 300000000000 600000000000).SetLocation 1000 ""
        handler.locationSaoPaulo 86400000000000).GetLocation 2000 "" =
      some handler.locationSaoPaulo ∧
    ((cache.NewMemoryCache 300000000000 600000000000).SetWeather 1000 ""
        handler.weatherSaoPaulo 600000000000).Stats 2000 =
      { total_items := 1, location_items := 0, weather_items := 0, temp_items := 0 } ∧
    ((cache.NewMemoryCache 300000000000 600000000000).SetTemperature 1000 ""
        { City := "São Paulo", TempC := .fin false 0 0, TempF := .fin false 0 0,
          TempK := .fin false 0 0 } 600000000000).Stats 2000 =
      { total_items := 1, location_items := 0, weather_items := 0, temp_items := 0 } := by
  refine ⟨by decide, by decide, by decide, by decide, by decide⟩

set_option maxRecDepth 100000 in
set_option exponentiation.threshold 4000 in
/-- C21, amended: `Stats()` after the typed setters with non-empty keys. When every
key given to `SetLocation`, `SetWeather` and `SetTemperature` is a non-empty string,
`total_items` is the number of stored (unexpired) items, `location_items`,
`weather_items` and `temp_items` are the numbers of stored items of the three
namespaces, and they add up to `total_items`. So it is on every cache the service
can hold, also while requests run in any interleaving of their steps: the handler
stores under codes of eight digits and under the full place string of a complete
location only. After the request for `01310-100` on an empty cache `Stats()` reports
three items, one in each namespace. -/
theorem C21_stats_counts_stored_items_per_namespace :
    (∀ (defaultExpiration cleanupInterval : Int) (ws : List cache.Write) (now : Int),
      (∀ w ∈ ws, ∃ ns k x t d, w.stores = some (ns, k, x, t, d) ∧ k ≠ "") →
      ((cache.applyAll ws (cache.NewMemoryCache defaultExpiration cleanupInterval)).Stats
          now).total_items =
        ((cache.applyAll ws
          (cache.NewMemoryCache defaultExpiration cleanupInterval)).cache.Items now).length ∧
      ((cache.applyAll ws (cache.NewMemoryCache defaultExpiration cleanupInterval)).Stats
          now).location_items =
        (cache.applyAll ws
          (cache.NewMemoryCache defaultExpiration cleanupInterval)).storedIn .location now ∧
      ((cache.applyAll ws (cache.NewMemoryCache defaultExpiration cleanupInterval)).Stats
          now).weather_items =
        (cache.applyAll ws
          (cache.NewMemoryCache defaultExpiration cleanupInterval)).storedIn .weather now ∧
      ((cache.applyAll ws (cache.NewMemoryCache defaultExpiration cleanupInterval)).Stats
          now).temp_items =
        (cache.applyAll ws
          (cache.NewMemoryCache defaultExpiration cleanupInterval)).storedIn .temp now ∧
      ((cache.applyAll ws (cache.NewMemoryCache defaultExpiration cleanupInterval)).Stats
          now).location_items +
        ((cache.applyAll ws (cache.NewMemoryCache defaultExpiration cleanupInterval)).Stats
          now).weather_items +
        ((cache.applyAll ws (cache.NewMemoryCache defaultExpiration cleanupInterval)).Stats
          now).temp_items =
        ((cache.applyAll ws (cache.NewMemoryCache defaultExpiration cleanupInterval)).Stats
          now).total_items) ∧
    (∀ (mc : cache.MemoryCache) (now : Int),
      handler.Reachable mc →
      (mc.Stats now).total_items = (mc.cache.Items now).length ∧
      (mc.Stats now).location_items = mc.storedIn .location now ∧
      (mc.Stats now).weather_items = mc.storedIn .weather now ∧
      (mc.Stats now).temp_items = mc.storedIn .temp now ∧
      (mc.Stats now).location_items + (mc.Stats now).weather_items +
        (mc.Stats now).temp_items = (mc.Stats now).total_items) ∧
    (∀ (mc : cache.MemoryCache) (schedule : List Nat)
      (requests : List (handler.Env × Except String models.CEPRequest)) (now : Int),
      handler.Reachable mc →
      ((handler.runSchedule schedule (requests.map (fun q => handler.Run.new q.1 q.2))
          mc).2.Stats now).total_items =
        ((handler.runSchedule schedule (requests.map (fun q => handler.Run.new q.1 q.2))
          mc).2.cache.Items now).length ∧
      ((handler.runSchedule schedule (requests.map (fun q => handler.Run.new q.1 q.2))
          mc).2.Stats now).location_items =
        (handler.runSchedule schedule (requests.map (fun q => handler.Run.new q.1 q.2))
          mc).2.storedIn .location now ∧
      ((handler.runSchedule schedule (requests.map (fun q => handler.Run.new q.1 q.2))
          mc).2.Stats now).weather_items =
        (handler.runSchedule schedule (requests.map (fun q => handler.Run.new q.1 q.2))
          mc).2.storedIn .weather now ∧
      ((handler.runSchedule schedule (requests.map (fun q => handler.Run.new q.1 q.2))
          mc).2.Stats now).temp_items =
        (handler.runSchedule schedule (requests.map (fun q => handler.Run.new q.1 q.2))
          mc).2.storedIn .temp now ∧
      ((handler.runSchedule schedule (requests.map (fun q => handler.Run.new q.1 q.2))
          mc).2.Stats now).location_items +
        ((handler.runSchedule schedule (requests.map (fun q => handler.Run.new q.1 q.2))
          mc).2.Stats now).weather_items +
        ((handler.runSchedule schedule (requests.map (fun q => handler.Run.new q.1 q.2))
          mc).2.Stats now).temp_items =
        ((handler.runSchedule schedule (requests.map (fun q => handler.Run.new q.1 q.2))
          mc).2.Stats now).total_items) ∧
    (∀ (req : models.CEPRequest) (n : String),
      utils.ValidateAndNormalize req.CEP = (n, none) → n ≠ "") ∧
    (∀ L : model.ViaCEPResponse, L.UF ≠ "" → L.GetFullLocation ≠ "") ∧
    ((cache.NewMemoryCache 300000000000 600000000000).SetLocation 1000 "01310100"
        handler.locationSaoPaulo 86400000000000).Stats 2000 =
      { total_items := 1, location_items := 1, weather_items := 0, temp_items := 0 } ∧
    (handler.HandleTemperature (handler.envSaoPaulo 1000)
        (cache.NewMemoryCache 300000000000 600000000000)
        (.ok { CEP := "01310-100" })).state.cache.Stats 2000 =
      { total_items := 3, location_items := 1, weather_items := 1, temp_items := 1 } ∧
    (handler.HandleTemperature (handler.envSaoPaulo 1000)
        (cache.NewMemoryCache 300000000000 600000000000)
        (.ok { CEP := "01310-100" })).state.cache.Stats 600000002000 =
      { total_items := 1, location_items := 1, weather_items := 0, temp_items := 0 } := by
  refine ⟨?_, ?_, ?_, ?_, ?_, by decide, by decide, by decide⟩
  · intro defaultExpiration cleanupInterval ws now hws
    apply cache.Stats_eq
    apply cache.typedKeys_applyAll ws _ _ hws
    intro kv hkv
    cases hkv
  · intro mc now hr
    exact cache.Stats_eq mc now (handler.typedKeys_of_Reachable mc hr)
  · intro mc schedule requests now hr
    apply cache.Stats_eq
    refine (handler.runSchedule_keeps_keys schedule _ mc ?_
      (handler.LocationsComplete_of_Reachable mc hr)
      (handler.typedKeys_of_Reachable mc hr)).2
    intro r hmem
    obtain ⟨q, _, hq⟩ := List.mem_map.mp hmem
    rw [← hq]
    trivial
  · intro req n hv
    exact handler.normalized_ne_empty req.CEP n hv
  · intro L hL
    exact handler.GetFullLocation_ne_empty L hL

/-! ## Lemmas on the reverse conversions -/

namespace service

theorem toRat_neg (x : Float64) : Float64.toRat (Float64.neg x) = -Float64.toRat x := by
  cases x with
  | nan => simp [Float64.neg, Float64.toRat]
  | inf s => simp [Float64.neg, Float64.toRat]
  | fin s m e => cases s <;> simp [Float64.neg, Float64.toRat]

/-- The accuracy of `KelvinToCelsius`: a finite result is `k - 273` up to one
rounding, and `k` is finite. -/
theorem KelvinToCelsius_error (k : Float64) (t : Bool) (m : Nat) (e : Int)
    (h : KelvinToCelsius k = .fin t m e) :
    k.isFinite = true ∧
    |Float64.toRat (.fin t m e) - (Float64.toRat k - 273)| ≤
      |Float64.toRat k - 273| * (2 : ℚ) ^ (-53 : Int) + (2 : ℚ) ^ (-1075 : Int) := by
  have h273 : Float64.neg (Float64.ofNat 273) = .fin true 4802666790125568 (-44) := by decide
  have hv : Float64.toRat (.fin true 4802666790125568 (-44)) = -273 := by
    simp only [Float64.toRat]
    norm_num
  unfold KelvinToCelsius Float64.sub at h
  rw [h273] at h
  cases k with
  | nan => simp [Float64.add] at h
  | inf s => simp [Float64.add] at h
  | fin s0 m0 e0 =>
    have := Float64.add_error s0 true m0 4802666790125568 e0 (-44) t m e h
    rw [hv, ← sub_eq_add_neg] at this
    exact ⟨rfl, this⟩

theorem CelsiusToKelvin_finite (c : Float64) (t : Bool) (m : Nat) (e : Int)
    (h : CelsiusToKelvin c = .fin t m e) : c.isFinite = true := by
  have h273 : Float64.ofNat 273 = .fin false 4802666790125568 (-44) := by decide
  unfold CelsiusToKelvin at h
  rw [h273] at h
  cases c with
  | nan => simp [Float64.add] at h
  | inf s => simp [Float64.add] at h
  | fin s0 m0 e0 => rfl

theorem CelsiusToFahrenheit_finite (fused : Bool) (c : Float64) (t : Bool) (m : Nat) (e : Int)
    (h : CelsiusToFahrenheit fused c = .fin t m e) : c.isFinite = true := by
  have h18 : Float64.lit 18 10 = .fin false 8106479329266893 (-52) := by decide
  have h32 : Float64.ofNat 32 = .fin false 4503599627370496 (-47) := by decide
  unfold CelsiusToFahrenheit Float64.mulAdd at h
  rw [h18, h32] at h
  cases c with
  | nan => cases fused <;> simp [Float64.fma, Float64.add, Float64.mul] at h
  | inf s => cases fused <;> simp [Float64.fma, Float64.add, Float64.mul] at h
  | fin s0 m0 e0 => rfl

/-- The accuracy of `FahrenheitToCelsius`: a finite result is `(f - 32) * 5/9` up to
the rounding of the constant `1.8` and of the two operations, and `f` is finite. -/
theorem FahrenheitToCelsius_error (f : Float64) (t : Bool) (m : Nat) (e : Int)
    (h : FahrenheitToCelsius f = .fin t m e) :
    f.isFinite = true ∧
    |Float64.toRat (.fin t m e) - (Float64.toRat f - 32) * (5 / 9)| ≤
      (|Float64.toRat f| + 32) * (2 : ℚ) ^ (-52 : Int) := by
  have h18 : Float64.lit 18 10 = .fin false 8106479329266893 (-52) := by decide
  have h32 : Float64.neg (Float64.ofNat 32) = .fin true 4503599627370496 (-47) := by decide
  have hv18 : Float64.toRat (.fin false 8106479329266893 (-52)) =
      8106479329266893 / 4503599627370496 := by
    simp only [Float64.toRat]
    norm_num
  have hv32 : Float64.toRat (.fin true 4503599627370496 (-47)) = -32 := by
    simp only [Float64.toRat]
    norm_num
  have hw : (2 : ℚ) ^ (-1075 : Int) ≤ (2 : ℚ) ^ (-53 : Int) :=
    zpow_le_zpow_right₀ (by norm_num) (by norm_num)
  have hw0 : (0 : ℚ) ≤ (2 : ℚ) ^ (-1075 : Int) := by positivity
  have hu : (2 : ℚ) ^ (-53 : Int) = 1 / 9007199254740992 := by norm_num
  have hu52 : (2 : ℚ) ^ (-52 : Int) = 1 / 4503599627370496 := by norm_num
  unfold FahrenheitToCelsius Float64.sub at h
  rw [h18, h32] at h
  cases f with
  | nan => simp [Float64.add, Float64.div] at h
  | inf s => simp [Float64.add, Float64.div] at h
  | fin s0 m0 e0 =>
    refine ⟨rfl, ?_⟩
    cases hg : Float64.add (.fin s0 m0 e0) (.fin true 4503599627370496 (-47)) with
    | nan => rw [hg] at h; simp [Float64.div] at h
    | inf s => rw [hg] at h; simp [Float64.div] at h
    | fin sg mg eg =>
      rw [hg] at h
      have hgerr := Float64.add_error s0 true m0 4503599627370496 e0 (-47) sg mg eg hg
      have herr := Float64.div_error sg false mg 8106479329266893 eg (-52) (by norm_num)
        t m e h
      rw [hv32] at hgerr
      rw [hv18] at herr
      generalize Float64.toRat (.fin s0 m0 e0) = a at *
      generalize Float64.toRat (.fin sg mg eg) = g at *
      generalize Float64.toRat (.fin t m e) = R at *
      rw [hu] at herr hgerr hw
      rw [hu52]
      generalize (2 : ℚ) ^ (-1075 : Int) = w at *
      have hdiv : g / (8106479329266893 / 4503599627370496) =
          g * (4503599627370496 / 8106479329266893) := by
        field_simp
      rw [hdiv, abs_mul,
        abs_of_pos (by norm_num : (0 : ℚ) < 4503599627370496 / 8106479329266893)] at herr
      have hA : (0 : ℚ) ≤ |a| := abs_nonneg a
      have hG : (0 : ℚ) ≤ |g| := abs_nonneg g
      have ha32 : |a + -32| ≤ |a| + 32 := by
        refine le_trans (abs_add _ _) ?_
        rw [abs_neg, abs_of_pos (by norm_num : (0 : ℚ) < 32)]
      have hg1 : |g| ≤ |g - (a + -32)| + (|a| + 32) := by
        have := abs_add (g - (a + -32)) (a + -32)
        rw [sub_add_cancel] at this
        linarith
      have hconst : |g * (4503599627370496 / 8106479329266893) - g * (5 / 9)| =
          |g| * (1 / 72958313963402037) := by
        have : g * (4503599627370496 / 8106479329266893) - g * (5 / 9) =
            g * (-(1 / 72958313963402037)) := by ring
        rw [this, abs_mul, abs_neg,
          abs_of_pos (by norm_num : (0 : ℚ) < 1 / 72958313963402037)]
      have hlin : |(g - (a + -32)) * (5 / 9)| = |g - (a + -32)| * (5 / 9) := by
        rw [abs_mul, abs_of_pos (by norm_num : (0 : ℚ) < 5 / 9)]
      have h2 : |R - (a - 32) * (5 / 9)| ≤
          |R - g * (4503599627370496 / 8106479329266893)| +
            |g * (4503599627370496 / 8106479329266893) - g * (5 / 9)| +
            |(g - (a + -32)) * (5 / 9)| := by
        have e1 : R - (a - 32) * (5 / 9) =
            (R - g * (4503599627370496 / 8106479329266893)) +
              ((g * (4503599627370496 / 8106479329266893) - g * (5 / 9)) +
                (g - (a + -32)) * (5 / 9)) := by ring
        rw [e1]
        refine le_trans (abs_add _ _) ?_
        have := abs_add (g * (4503599627370496 / 8106479329266893) - g * (5 / 9))
          ((g - (a + -32)) * (5 / 9))
        linarith
      rw [hconst, hlin] at h2
      nlinarith [mul_nonneg hA hw0, mul_nonneg hG hw0]

end service

namespace service

/-- Celsius to Kelvin and back: a finite result is `c` up to two roundings. -/
theorem KelvinToCelsius_CelsiusToKelvin (c : Float64) (t : Bool) (m : Nat) (e : Int)
    (h : KelvinToCelsius (CelsiusToKelvin c) = .fin t m e) :
    |Float64.toRat (.fin t m e) - Float64.toRat c| ≤
      (|Float64.toRat c| + 273) * (2 : ℚ) ^ (-51 : Int) := by
  have hw : (2 : ℚ) ^ (-1075 : Int) ≤ (2 : ℚ) ^ (-53 : Int) :=
    zpow_le_zpow_right₀ (by norm_num) (by norm_num)
  have hw0 : (0 : ℚ) ≤ (2 : ℚ) ^ (-1075 : Int) := by positivity
  have hu : (2 : ℚ) ^ (-53 : Int) = 1 / 9007199254740992 := by norm_num
  have hu51 : (2 : ℚ) ^ (-51 : Int) = 1 / 2251799813685248 := by norm_num
  obtain ⟨hfin, herr2⟩ := KelvinToCelsius_error (CelsiusToKelvin c) t m e h
  cases hx : CelsiusToKelvin c with
  | nan => rw [hx] at hfin; cases hfin
  | inf s => rw [hx] at hfin; cases hfin
  | fin sp mp ep =>
    have herr1 := CelsiusToKelvin_error c sp mp ep hx
    rw [hx] at herr2
    generalize Float64.toRat c = a at *
    generalize Float64.toRat (.fin sp mp ep) = p at *
    generalize Float64.toRat (.fin t m e) = R at *
    rw [hu] at herr1 herr2 hw
    rw [hu51]
    generalize (2 : ℚ) ^ (-1075 : Int) = w at *
    have hA : (0 : ℚ) ≤ |a| := abs_nonneg a
    have h1 : |a + 273| ≤ |a| + 273 := by
      refine le_trans (abs_add _ _) ?_
      rw [abs_of_pos (by norm_num : (0 : ℚ) < 273)]
    have h2 : |p - 273| ≤ |p - (a + 273)| + |a| := by
      have := abs_add (p - (a + 273)) a
      have e1 : p - (a + 273) + a = p - 273 := by ring
      rw [e1] at this
      exact this
    have h3 : |R - a| ≤ |R - (p - 273)| + |p - (a + 273)| := by
      have := abs_add (R - (p - 273)) (p - (a + 273))
      have e1 : R - (p - 273) + (p - (a + 273)) = R - a := by ring
      rw [e1] at this
      exact this
    nlinarith [abs_nonneg (p - (a + 273)), abs_nonneg (p - 273)]

/-- Kelvin to Celsius and back: a finite result is `k` up to two roundings. -/
theorem CelsiusToKelvin_KelvinToCelsius (k : Float64) (t : Bool) (m : Nat) (e : Int)
    (h : CelsiusToKelvin (KelvinToCelsius k) = .fin t m e) :
    |Float64.toRat (.fin t m e) - Float64.toRat k| ≤
      (|Float64.toRat k| + 273) * (2 : ℚ) ^ (-51 : Int) := by
  have hw : (2 : ℚ) ^ (-1075 : Int) ≤ (2 : ℚ) ^ (-53 : Int) :=
    zpow_le_zpow_right₀ (by norm_num) (by norm_num)
  have hw0 : (0 : ℚ) ≤ (2 : ℚ) ^ (-1075 : Int) := by positivity
  have hu : (2 : ℚ) ^ (-53 : Int) = 1 / 9007199254740992 := by norm_num
  have hu51 : (2 : ℚ) ^ (-51 : Int) = 1 / 2251799813685248 := by norm_num
  have hfin := CelsiusToKelvin_finite (KelvinToCelsius k) t m e h
  have herr2 := CelsiusToKelvin_error (KelvinToCelsius k) t m e h
  cases hx : KelvinToCelsius k with
  | nan => rw [hx] at hfin; cases hfin
  | inf s => rw [hx] at hfin; cases hfin
  | fin sp mp ep =>
    have herr1 := (KelvinToCelsius_error k sp mp ep hx).2
    rw [hx] at herr2
    generalize Float64.toRat k = a at *
    generalize Float64.toRat (.fin sp mp ep) = p at *
    generalize Float64.toRat (.fin t m e) = R at *
    rw [hu] at herr1 herr2 hw
    rw [hu51]
    generalize (2 : ℚ) ^ (-1075 : Int) = w at *
    have hA : (0 : ℚ) ≤ |a| := abs_nonneg a
    have h1 : |a - 273| ≤ |a| + 273 := by
      refine le_trans (abs_sub _ _) ?_
      rw [abs_of_pos (by norm_num : (0 : ℚ) < 273)]
    have h2 : |p + 273| ≤ |p - (a - 273)| + |a| := by
      have := abs_add (p - (a - 273)) a
      have e1 : p - (a - 273) + a = p + 273 := by ring
      rw [e1] at this
      exact this
    have h3 : |R - a| ≤ |R - (p + 273)| + |p - (a - 273)| := by
      have := abs_add (R - (p + 273)) (p - (a - 273))
      have e1 : R - (p + 273) + (p - (a - 273)) = R - a := by ring
      rw [e1] at this
      exact this
    nlinarith [abs_nonneg (p - (a - 273)), abs_nonneg (p + 273)]

/-- Celsius to Fahrenheit and back: a finite result is `c` up to the roundings. -/
theorem FahrenheitToCelsius_CelsiusToFahrenheit (fused : Bool) (c : Float64) (t : Bool)
    (m : Nat) (e : Int)
    (h : FahrenheitToCelsius (CelsiusToFahrenheit fused c) = .fin t m e) :
    |Float64.toRat (.fin t m e) - Float64.toRat c| ≤
      (|Float64.toRat c| + 11) * (2 : ℚ) ^ (-49 : Int) := by
  have hu52 : (2 : ℚ) ^ (-52 : Int) = 1 / 4503599627370496 := by norm_num
  have hu50 : (2 : ℚ) ^ (-50 : Int) = 1 / 1125899906842624 := by norm_num
  have hu49 : (2 : ℚ) ^ (-49 : Int) = 1 / 562949953421312 := by norm_num
  obtain ⟨hfin, herr2⟩ := FahrenheitToCelsius_error (CelsiusToFahrenheit fused c) t m e h
  cases hx : CelsiusToFahrenheit fused c with
  | nan => rw [hx] at hfin; cases hfin
  | inf s => rw [hx] at hfin; cases hfin
  | fin sp mp ep =>
    have herr1 := CelsiusToFahrenheit_error fused c sp mp ep hx
    rw [hx] at herr2
    generalize Float64.toRat c = a at *
    generalize Float64.toRat (.fin sp mp ep) = p at *
    generalize Float64.toRat (.fin t m e) = R at *
    rw [hu52] at herr2
    rw [hu50] at herr1
    rw [hu49]
    have hA : (0 : ℚ) ≤ |a| := abs_nonneg a
    have h1 : |p| ≤ |p - (a * (9 / 5) + 32)| + (|a| * (9 / 5) + 32) := by
      have := abs_add (p - (a * (9 / 5) + 32)) (a * (9 / 5) + 32)
      rw [sub_add_cancel] at this
      have h' : |a * (9 / 5) + 32| ≤ |a| * (9 / 5) + 32 := by
        refine le_trans (abs_add _ _) ?_
        rw [abs_mul, abs_of_pos (by norm_num : (0 : ℚ) < 9 / 5),
          abs_of_pos (by norm_num : (0 : ℚ) < 32)]
      linarith
    have h2 : |(p - (a * (9 / 5) + 32)) * (5 / 9)| = |p - (a * (9 / 5) + 32)| * (5 / 9) := by
      rw [abs_mul, abs_of_pos (by norm_num : (0 : ℚ) < 5 / 9)]
    have h3 : |R - a| ≤ |R - (p - 32) * (5 / 9)| + |(p - (a * (9 / 5) + 32)) * (5 / 9)| := by
      have := abs_add (R - (p - 32) * (5 / 9)) ((p - (a * (9 / 5) + 32)) * (5 / 9))
      have e1 : R - (p - 32) * (5 / 9) + (p - (a * (9 / 5) + 32)) * (5 / 9) = R - a := by
        ring
      rw [e1] at this
      exact this
    rw [h2] at h3
    nlinarith [abs_nonneg (p - (a * (9 / 5) + 32)), abs_nonneg p]

/-- Fahrenheit to Celsius and back: a finite result is `f` up to the roundings. -/
theorem CelsiusToFahrenheit_FahrenheitToCelsius (fused : Bool) (f : Float64) (t : Bool)
    (m : Nat) (e : Int)
    (h : CelsiusToFahrenheit fused (FahrenheitToCelsius f) = .fin t m e) :
    |Float64.toRat (.fin t m e) - Float64.toRat f| ≤
      (|Float64.toRat f| + 21) * (2 : ℚ) ^ (-49 : Int) := by
  have hu52 : (2 : ℚ) ^ (-52 : Int) = 1 / 4503599627370496 := by norm_num
  have hu50 : (2 : ℚ) ^ (-50 : Int) = 1 / 1125899906842624 := by norm_num
  have hu49 : (2 : ℚ) ^ (-49 : Int) = 1 / 562949953421312 := by norm_num
  have hfin := CelsiusToFahrenheit_finite fused (FahrenheitToCelsius f) t m e h
  have herr2 := CelsiusToFahrenheit_error fused (FahrenheitToCelsius f) t m e h
  cases hx : FahrenheitToCelsius f with
  | nan => rw [hx] at hfin; cases hfin
  | inf s => rw [hx] at hfin; cases hfin
  | fin sp mp ep =>
    have herr1 := (FahrenheitToCelsius_error f sp mp ep hx).2
    rw [hx] at herr2
    generalize Float64.toRat f = a at *
    generalize Float64.toRat (.fin sp mp ep) = p at *
    generalize Float64.toRat (.fin t m e) = R at *
    rw [hu52] at herr1
    rw [hu50] at herr2
    rw [hu49]
    have hA : (0 : ℚ) ≤ |a| := abs_nonneg a
    have h1 : |p| ≤ |p - (a - 32) * (5 / 9)| + (|a| + 32) * (5 / 9) := by
      have := abs_add (p - (a - 32) * (5 / 9)) ((a - 32) * (5 / 9))
      rw [sub_add_cancel] at this
      have h' : |(a - 32) * (5 / 9)| ≤ (|a| + 32) * (5 / 9) := by
        rw [abs_mul, abs_of_pos (by norm_num : (0 : ℚ) < 5 / 9)]
        have : |a - 32| ≤ |a| + 32 := by
          refine le_trans (abs_sub _ _) ?_
          rw [abs_of_pos (by norm_num : (0 : ℚ) < 32)]
        nlinarith
      linarith
    have h2 : |(p - (a - 32) * (5 / 9)) * (9 / 5)| = |p - (a - 32) * (5 / 9)| * (9 / 5) := by
      rw [abs_mul, abs_of_pos (by norm_num : (0 : ℚ) < 9 / 5)]
    have h3 : |R - a| ≤ |R - (p * (9 / 5) + 32)| + |(p - (a - 32) * (5 / 9)) * (9 / 5)| := by
      have := abs_add (R - (p * (9 / 5) + 32)) ((p - (a - 32) * (5 / 9)) * (9 / 5))
      have e1 : R - (p * (9 / 5) + 32) + (p - (a - 32) * (5 / 9)) * (9 / 5) = R - a := by
        ring
      rw [e1] at this
      exact this
    rw [h2] at h3
    nlinarith [abs_nonneg (p - (a - 32) * (5 / 9)), abs_nonneg p]

end service

/-! ## The claim on the reverse conversions -/

set_option maxRecDepth 100000 in
set_option exponentiation.threshold 4000 in
/-- C28, as stated, fails in `float64`: converting `0.1` to Fahrenheit and back
gives `0.09999999999999984` (with and without a fused multiply-add), converting it
to Kelvin and back gives `0.10000000000002274`, and the same happens in the other
direction; none of the four results is `==` to `0.1`. -/
theorem C28_counterexample_round_trip_is_inexact :
    service.FahrenheitToCelsius (service.CelsiusToFahrenheit false (Float64.lit 1 10)) =
      .fin false 7205759403792782 (-56) ∧
    service.FahrenheitToCelsius (service.CelsiusToFahrenheit true (Float64.lit 1 10)) =
      .fin false 7205759403792782 (-56) ∧
    service.KelvinToCelsius (service.CelsiusToKelvin (Float64.lit 1 10)) =
      .fin false 7205759403794432 (-56) ∧
    Float64.lit 1 10 = .fin false 7205759403792794 (-56) ∧
    Float64.eq
      (service.FahrenheitToCelsius (service.CelsiusToFahrenheit false (Float64.lit 1 10)))
      (Float64.lit 1 10) = false ∧
    Float64.eq
      (service.FahrenheitToCelsius (service.CelsiusToFahrenheit true (Float64.lit 1 10)))
      (Float64.lit 1 10) = false ∧
    Float64.eq (service.KelvinToCelsius (service.CelsiusToKelvin (Float64.lit 1 10)))
      (Float64.lit 1 10) = false ∧
    Float64.eq
      (service.CelsiusToFahrenheit false (service.FahrenheitToCelsius (Float64.lit 1 10)))
      (Float64.lit 1 10) = false ∧
    Float64.eq
      (service.CelsiusToFahrenheit true (service.FahrenheitToCelsius (Float64.lit 1 10)))
      (Float64.lit 1 10) = false ∧
    Float64.eq (service.CelsiusToKelvin (service.KelvinToCelsius (Float64.lit 1 10)))
      (Float64.lit 1 10) = false := by
  refine ⟨by decide, by decide, by decide, by decide, by decide, by decide, by decide,
    by decide, by decide, by decide⟩

set_option maxRecDepth 100000 in
set_option exponentiation.threshold 4000 in
/-- C28, amended: `FahrenheitToCelsius(f)` is `(f - 32) / 1.8` and
`KelvinToCelsius(k)` is `k - 273`, evaluated in `float64`. The reverse conversions
undo the forward ones up to `float64` rounding: whenever the result is finite,
`FahrenheitToCelsius(CelsiusToFahrenheit(c))` differs from `c` by at most
`(|c| + 11) * 2^-49`, `CelsiusToFahrenheit(FahrenheitToCelsius(f))` from `f` by at
most `(|f| + 21) * 2^-49`, and `KelvinToCelsius(CelsiusToKelvin(c))` and
`CelsiusToKelvin(KelvinToCelsius(c))` from `c` by at most `(|c| + 273) * 2^-51`.
`FahrenheitToCelsius` maps 32 to 0, 212 to 100 and 77 to 25 exactly, and the round
trips of 25 and 100 are exact. -/
theorem C28_reverse_conversions_undo_up_to_rounding :
    (∀ f : Float64, service.FahrenheitToCelsius f =
      Float64.div (Float64.sub f (Float64.ofNat 32)) (Float64.lit 18 10)) ∧
    (∀ k : Float64, service.KelvinToCelsius k = Float64.sub k (Float64.ofNat 273)) ∧
    (∀ (fused : Bool) (c : Float64) (t : Bool) (m : Nat) (e : Int),
      service.FahrenheitToCelsius (service.CelsiusToFahrenheit fused c) = .fin t m e →
      |Float64.toRat (.fin t m e) - Float64.toRat c| ≤
        (|Float64.toRat c| + 11) * (2 : ℚ) ^ (-49 : Int)) ∧
    (∀ (fused : Bool) (f : Float64) (t : Bool) (m : Nat) (e : Int),
      service.CelsiusToFahrenheit fused (service.FahrenheitToCelsius f) = .fin t m e →
      |Float64.toRat (.fin t m e) - Float64.toRat f| ≤
        (|Float64.toRat f| + 21) * (2 : ℚ) ^ (-49 : Int)) ∧
    (∀ (c : Float64) (t : Bool) (m : Nat) (e : Int),
      service.KelvinToCelsius (service.CelsiusToKelvin c) = .fin t m e →
      |Float64.toRat (.fin t m e) - Float64.toRat c| ≤
        (|Float64.toRat c| + 273) * (2 : ℚ) ^ (-51 : Int)) ∧
    (∀ (k : Float64) (t : Bool) (m : Nat) (e : Int),
      service.CelsiusToKelvin (service.KelvinToCelsius k) = .fin t m e →
      |Float64.toRat (.fin t m e) - Float64.toRat k| ≤
        (|Float64.toRat k| + 273) * (2 : ℚ) ^ (-51 : Int)) ∧
    (∀ (f : Float64) (t : Bool) (m : Nat) (e : Int),
      service.FahrenheitToCelsius f = .fin t m e →
      |Float64.toRat (.fin t m e) - (Float64.toRat f - 32) * (5 / 9)| ≤
        (|Float64.toRat f| + 32) * (2 : ℚ) ^ (-52 : Int)) ∧
    (∀ (k : Float64) (t : Bool) (m : Nat) (e : Int),
      service.KelvinToCelsius k = .fin t m e →
      |Float64.toRat (.fin t m e) - (Float64.toRat k - 273)| ≤
        |Float64.toRat k - 273| * (2 : ℚ) ^ (-53 : Int) + (2 : ℚ) ^ (-1075 : Int)) ∧
    service.FahrenheitToCelsius (Float64.ofNat 32) = Float64.ofNat 0 ∧
    service.FahrenheitToCelsius (Float64.ofNat 212) = Float64.ofNat 100 ∧
    service.FahrenheitToCelsius (Float64.ofNat 77) = Float64.ofNat 25 ∧
    service.KelvinToCelsius (Float64.ofNat 273) = Float64.ofNat 0 ∧
    service.KelvinToCelsius (Float64.ofNat 298) = Float64.ofNat 25 ∧
    (∀ fused : Bool,
      service.FahrenheitToCelsius (service.CelsiusToFahrenheit fused (Float64.ofNat 25)) =
        Float64.ofNat 25 ∧
      service.FahrenheitToCelsius (service.CelsiusToFahrenheit fused (Float64.ofNat 100)) =
        Float64.ofNat 100) ∧
    service.KelvinToCelsius (service.CelsiusToKelvin (Float64.ofNat 25)) = Float64.ofNat 25 ∧
    service.CelsiusToKelvin (service.KelvinToCelsius (Float64.ofNat 298)) =
      Float64.ofNat 298 := by
  refine ⟨fun _ => rfl, fun _ => rfl, service.FahrenheitToCelsius_CelsiusToFahrenheit,
    service.CelsiusToFahrenheit_FahrenheitToCelsius, service.KelvinToCelsius_CelsiusToKelvin,
    service.CelsiusToKelvin_KelvinToCelsius,
    fun f t m e h => (service.FahrenheitToCelsius_error f t m e h).2,
    fun k t m e h => (service.KelvinToCelsius_error k t m e h).2,
    by decide, by decide, by decide, by decide, by decide, by decide, by decide, by decide⟩

/-! ## Lemmas on the agreement of the scales -/

namespace service

theorem roundToOneDecimal_finite (x : Float64) (t : Bool) (m : Nat) (e : Int)
    (h : roundToOneDecimal x = .fin t m e) : x.isFinite = true := by
  obtain ⟨k, hfin, _⟩ := roundToOneDecimal_spec x t m e h
  have h10 : Float64.ofNat 10 = .fin false 5629499534213120 (-49) := by decide
  rw [h10] at hfin
  cases x with
  | nan => simp [Float64.mul, Float64.isFinite] at hfin
  | inf s => simp [Float64.mul, Float64.isFinite] at hfin
  | fin s0 m0 e0 => rfl

/-- The agreement of the rounded Fahrenheit value with the rounded Celsius value:
the two roundings to one decimal account for `0.05 + 1.8 * 0.05`. -/
theorem TempF_agrees (fused : Bool) (c : Float64) (tc tf : Bool) (mc mf : Nat) (ec ef : Int)
    (hC : roundToOneDecimal c = .fin tc mc ec)
    (hF : roundToOneDecimal (CelsiusToFahrenheit fused c) = .fin tf mf ef) :
    |Float64.toRat (.fin tf mf ef) - (Float64.toRat (.fin tc mc ec) * (9 / 5) + 32)| ≤
      7 / 50 + (|Float64.toRat c| + 9) * (2 : ℚ) ^ (-48 : Int) ∧
    |Float64.toRat (.fin tf mf ef) - (Float64.toRat c * (9 / 5) + 32)| ≤
      1 / 20 + (|Float64.toRat c| + 9) * (2 : ℚ) ^ (-48 : Int) := by
  have hu51 : (2 : ℚ) ^ (-51 : Int) = 1 / 2251799813685248 := by norm_num
  have hu50 : (2 : ℚ) ^ (-50 : Int) = 1 / 1125899906842624 := by norm_num
  have hu48 : (2 : ℚ) ^ (-48 : Int) = 1 / 281474976710656 := by norm_num
  obtain ⟨_, _, _, _, _, _, hCerr⟩ := roundToOneDecimal_spec c tc mc ec hC
  obtain ⟨_, _, _, _, _, _, hFerr⟩ :=
    roundToOneDecimal_spec (CelsiusToFahrenheit fused c) tf mf ef hF
  have hfin := roundToOneDecimal_finite (CelsiusToFahrenheit fused c) tf mf ef hF
  cases hx : CelsiusToFahrenheit fused c with
  | nan => rw [hx] at hfin; cases hfin
  | inf s => rw [hx] at hfin; cases hfin
  | fin sp mp ep =>
    have herr := CelsiusToFahrenheit_error fused c sp mp ep hx
    rw [hx] at hFerr
    generalize Float64.toRat c = a at *
    generalize Float64.toRat (.fin sp mp ep) = p at *
    generalize Float64.toRat (.fin tc mc ec) = C at *
    generalize Float64.toRat (.fin tf mf ef) = F at *
    rw [hu51] at hCerr hFerr
    rw [hu50] at herr
    rw [hu48]
    have hA : (0 : ℚ) ≤ |a| := abs_nonneg a
    have h1 : |p| ≤ |p - (a * (9 / 5) + 32)| + (|a| * (9 / 5) + 32) := by
      have := abs_add (p - (a * (9 / 5) + 32)) (a * (9 / 5) + 32)
      rw [sub_add_cancel] at this
      have h' : |a * (9 / 5) + 32| ≤ |a| * (9 / 5) + 32 := by
        refine le_trans (abs_add _ _) ?_
        rw [abs_mul, abs_of_pos (by norm_num : (0 : ℚ) < 9 / 5),
          abs_of_pos (by norm_num : (0 : ℚ) < 32)]
      linarith
    have h2 : |(a - C) * (9 / 5)| = |C - a| * (9 / 5) := by
      rw [abs_mul, abs_of_pos (by norm_num : (0 : ℚ) < 9 / 5), abs_sub_comm]
    have h3 : |F - (a * (9 / 5) + 32)| ≤ |F - p| + |p - (a * (9 / 5) + 32)| := by
      have := abs_add (F - p) (p - (a * (9 / 5) + 32))
      have e1 : F - p + (p - (a * (9 / 5) + 32)) = F - (a * (9 / 5) + 32) := by ring
      rw [e1] at this
      exact this
    have h4 : |F - (C * (9 / 5) + 32)| ≤ |F - (a * (9 / 5) + 32)| + |(a - C) * (9 / 5)| := by
      have := abs_add (F - (a * (9 / 5) + 32)) ((a - C) * (9 / 5))
      have e1 : F - (a * (9 / 5) + 32) + (a - C) * (9 / 5) = F - (C * (9 / 5) + 32) := by
        ring
      rw [e1] at this
      exact this
    rw [h2] at h4
    constructor
    · nlinarith [abs_nonneg (p - (a * (9 / 5) + 32)), abs_nonneg p]
    · nlinarith [abs_nonneg (p - (a * (9 / 5) + 32)), abs_nonneg p]

/-- The agreement of the rounded Kelvin value with the rounded Celsius value. -/
theorem TempK_agrees (c : Float64) (tc tk : Bool) (mc mk : Nat) (ec ek : Int)
    (hC : roundToOneDecimal c = .fin tc mc ec)
    (hK : roundToOneDecimal (CelsiusToKelvin c) = .fin tk mk ek) :
    |Float64.toRat (.fin tk mk ek) - (Float64.toRat (.fin tc mc ec) + 273)| ≤
      1 / 10 + (|Float64.toRat c| + 87) * (2 : ℚ) ^ (-49 : Int) ∧
    |Float64.toRat (.fin tk mk ek) - (Float64.toRat c + 273)| ≤
      1 / 20 + (|Float64.toRat c| + 87) * (2 : ℚ) ^ (-49 : Int) := by
  have hw : (2 : ℚ) ^ (-1075 : Int) ≤ (2 : ℚ) ^ (-53 : Int) :=
    zpow_le_zpow_right₀ (by norm_num) (by norm_num)
  have hu : (2 : ℚ) ^ (-53 : Int) = 1 / 9007199254740992 := by norm_num
  have hu51 : (2 : ℚ) ^ (-51 : Int) = 1 / 2251799813685248 := by norm_num
  have hu49 : (2 : ℚ) ^ (-49 : Int) = 1 / 562949953421312 := by norm_num
  obtain ⟨_, _, _, _, _, _, hCerr⟩ := roundToOneDecimal_spec c tc mc ec hC
  obtain ⟨_, _, _, _, _, _, hKerr⟩ := roundToOneDecimal_spec (CelsiusToKelvin c) tk mk ek hK
  have hfin := roundToOneDecimal_finite (CelsiusToKelvin c) tk mk ek hK
  cases hx : CelsiusToKelvin c with
  | nan => rw [hx] at hfin; cases hfin
  | inf s => rw [hx] at hfin; cases hfin
  | fin sp mp ep =>
    have herr := CelsiusToKelvin_error c sp mp ep hx
    rw [hx] at hKerr
    generalize Float64.toRat c = a at *
    generalize Float64.toRat (.fin sp mp ep) = p at *
    generalize Float64.toRat (.fin tc mc ec) = C at *
    generalize Float64.toRat (.fin tk mk ek) = K at *
    rw [hu51] at hCerr hKerr
    rw [hu] at herr hw
    rw [hu49]
    generalize (2 : ℚ) ^ (-1075 : Int) = w at *
    have hA : (0 : ℚ) ≤ |a| := abs_nonneg a
    have h0 : |a + 273| ≤ |a| + 273 := by
      refine le_trans (abs_add _ _) ?_
      rw [abs_of_pos (by norm_num : (0 : ℚ) < 273)]
    have h1 : |p| ≤ |p - (a + 273)| + (|a| + 273) := by
      have := abs_add (p - (a + 273)) (a + 273)
      rw [sub_add_cancel] at this
      linarith
    have h3 : |K - (a + 273)| ≤ |K - p| + |p - (a + 273)| := by
      have := abs_add (K - p) (p - (a + 273))
      have e1 : K - p + (p - (a + 273)) = K - (a + 273) := by ring
      rw [e1] at this
      exact this
    have h4 : |K - (C + 273)| ≤ |K - (a + 273)| + |C - a| := by
      have := abs_add (K - (a + 273)) (a - C)
      have e1 : K - (a + 273) + (a - C) = K - (C + 273) := by ring
      rw [e1, abs_sub_comm a C] at this
      exact this
    constructor
    · nlinarith [abs_nonneg (p - (a + 273)), abs_nonneg p]
    · nlinarith [abs_nonneg (p - (a + 273)), abs_nonneg p]

theorem small_slack (a : ℚ) (h : |a| ≤ 1000000000) :
    (|a| + 9) * (2 : ℚ) ^ (-48 : Int) ≤ 1 / 100 ∧
    (|a| + 87) * (2 : ℚ) ^ (-49 : Int) ≤ 1 / 100000 := by
  have hu48 : (2 : ℚ) ^ (-48 : Int) = 1 / 281474976710656 := by norm_num
  have hu49 : (2 : ℚ) ^ (-49 : Int) = 1 / 562949953421312 := by norm_num
  rw [hu48, hu49]
  constructor <;> linarith

end service

/-! ## The claims on the agreement of the scales -/

set_option maxRecDepth 100000 in
set_option exponentiation.threshold 4000 in
/-- C24: the code breaks the tolerance at the reading `0.14`. `ConvertToAllUnits`
rounds `TempC` and `TempF` each on its own from the unrounded reading: `TempC` is
`0.1` and `TempF` is `32.3` (with and without a fused multiply-add), while
`0.1 * 1.8 + 32` is `32.18`, so the difference is `0.12`, more than `0.1`. The
request for `01310100` that gets this reading is answered 200 with these values, and
the check of `testValidCEP` on them reports "Fahrenheit conversion incorrect"; the
reading is within the range of -100 to 100 that the test accepts. -/
theorem C24_reading_with_two_decimals_breaks_tolerance :
    service.ConvertToAllUnits false (Float64.lit 14 100) "São Paulo" =
      { TempC := Float64.lit 1 10, TempF := Float64.lit 323 10,
        TempK := Float64.lit 2731 10, City := "São Paulo" } ∧
    service.ConvertToAllUnits true (Float64.lit 14 100) "São Paulo" =
      { TempC := Float64.lit 1 10, TempF := Float64.lit 323 10,
        TempK := Float64.lit 2731 10, City := "São Paulo" } ∧
    (handler.HandleTemperature (handler.envReading 1000 (Float64.lit 14 100))
        (cache.NewMemoryCache 300000000000 600000000000)
        (.ok { CEP := "01310100" })).response =
      { statusCode := 200
        body := .temperature
          { TempC := Float64.lit 1 10, TempF := Float64.lit 323 10,
            TempK := Float64.lit 2731 10, City := "São Paulo" } } ∧
    e2e.testValidCEP false
        { TempC := Float64.lit 1 10, TempF := Float64.lit 323 10,
          TempK := Float64.lit 2731 10, City := "São Paulo" } =
      ["Fahrenheit conversion incorrect"] ∧
    e2e.testValidCEP true
        { TempC := Float64.lit 1 10, TempF := Float64.lit 323 10,
          TempK := Float64.lit 2731 10, City := "São Paulo" } =
      ["Fahrenheit conversion incorrect"] ∧
    ¬ (|Float64.toRat (Float64.lit 323 10) -
        (Float64.toRat (Float64.lit 1 10) * (9 / 5) + 32)| ≤ 1 / 10) ∧
    e2e.testValidCEP false
        (service.ConvertToAllUnits false (Float64.lit 285 10) "São Paulo") = [] := by
  have h1 : Float64.lit 1 10 = .fin false 7205759403792794 (-56) := by decide
  have h323 : Float64.lit 323 10 = .fin false 4545820873877094 (-47) := by decide
  refine ⟨by decide, by decide, by decide, by decide, by decide, ?_, by decide⟩
  rw [h1, h323]
  simp only [Float64.toRat]
  norm_num [abs_le]

set_option maxRecDepth 100000 in
set_option exponentiation.threshold 4000 in
/-- C25: the code breaks the tolerance at the reading `-0.25`. `ConvertToAllUnits`
rounds `TempC` and `TempK` each on its own, halves away from zero: `TempC` is `-0.3`
and `TempK` is `272.8`, and the `float64` value of `272.8` exceeds the `float64`
value of `-0.3` plus 273 by more than `0.1` (by about `2.3e-14`). The request for
`01310100` that gets this reading is answered 200 with these values, and the check
of `testValidCEP` on them reports "Kelvin conversion incorrect"; the reading is
within the range of -100 to 100 that the test accepts. It is the only report at the
reading `-0.05`, for which `TempC` is `-0.1` and `TempK` is `273`. -/
theorem C25_negative_tie_breaks_tolerance :
    service.ConvertToAllUnits false (Float64.neg (Float64.lit 25 100)) "São Paulo" =
      { TempC := Float64.neg (Float64.lit 3 10), TempF := Float64.lit 316 10,
        TempK := Float64.lit 2728 10, City := "São Paulo" } ∧
    service.ConvertToAllUnits true (Float64.neg (Float64.lit 25 100)) "São Paulo" =
      { TempC := Float64.neg (Float64.lit 3 10), TempF := Float64.lit 316 10,
        TempK := Float64.lit 2728 10, City := "São Paulo" } ∧
    (handler.HandleTemperature
        (handler.envReading 1000 (Float64.neg (Float64.lit 25 100)))
        (cache.NewMemoryCache 300000000000 600000000000)
        (.ok { CEP := "01310100" })).response =
      { statusCode := 200
        body := .temperature
          { TempC := Float64.neg (Float64.lit 3 10), TempF := Float64.lit 316 10,
            TempK := Float64.lit 2728 10, City := "São Paulo" } } ∧
    e2e.testValidCEP false
        { TempC := Float64.neg (Float64.lit 3 10), TempF := Float64.lit 316 10,
          TempK := Float64.lit 2728 10, City := "São Paulo" } =
      ["Fahrenheit conversion incorrect", "Kelvin conversion incorrect"] ∧
    e2e.testValidCEP true
        { TempC := Float64.neg (Float64.lit 3 10), TempF := Float64.lit 316 10,
          TempK := Float64.lit 2728 10, City := "São Paulo" } =
      ["Fahrenheit conversion incorrect", "Kelvin conversion incorrect"] ∧
    Float64.lt (Float64.lit 1 10)
      (e2e.abs (Float64.sub (Float64.lit 2728 10)
        (Float64.add (Float64.neg (Float64.lit 3 10)) (Float64.ofNat 273)))) = true ∧
    ¬ (|Float64.toRat (Float64.lit 2728 10) -
        (Float64.toRat (Float64.neg (Float64.lit 3 10)) + 273)| ≤
          Float64.toRat (Float64.lit 1 10)) ∧
    service.ConvertToAllUnits false (Float64.neg (Float64.lit 5 100)) "São Paulo" =
      { TempC := Float64.neg (Float64.lit 1 10), TempF := Float64.lit 319 10,
        TempK := Float64.ofNat 273, City := "São Paulo" } ∧
    e2e.testValidCEP false
        { TempC := Float64.neg (Float64.lit 1 10), TempF := Float64.lit 319 10,
          TempK := Float64.ofNat 273, City := "São Paulo" } =
      ["Kelvin conversion incorrect"] := by
  have h1 : Float64.lit 1 10 = .fin false 7205759403792794 (-56) := by decide
  have h3 : Float64.neg (Float64.lit 3 10) = .fin true 5404319552844595 (-54) := by decide
  have h2728 : Float64.lit 2728 10 = .fin false 4799148352916685 (-44) := by decide
  refine ⟨by decide, by decide, by decide, by decide, by decide, by decide, ?_, by decide,
    by decide⟩
  rw [h1, h3, h2728]
  simp only [Float64.toRat]
  norm_num [abs_le]
